import Mathlib

/-!
# tSage sound engine: voice scheduling, track decoding and fades

A shallow embedding of `engines/tsage/sound.cpp` (classes `SoundManager` and
`Sound`).  C++ `int` fields are `Int`; `byte` values are `Nat` reduced modulo
256 where the source truncates; `Sound *` is a handle into an arena of sounds
(`none` is `NULL`); `SoundDriver *` is a driver id and every driver method call
is appended to a log.  Code that can abort (`error`, `assert`) or read outside
a buffer returns a `Fault`.
-/

namespace TSage

/-- Ways in which the embedded code can stop without returning. -/
inductive Fault where
  | fatal        -- a call of error()
  | assertFailed -- a failed assert()
  | nullDeref    -- a member access through a NULL pointer
  | outOfBounds  -- an array or buffer index outside its extent
  | outOfFuel    -- a loop that did not finish within the supplied fuel
  deriving DecidableEq

/-- Size of the per-channel arrays and of the voice-group table
(`SOUND_ARR_SIZE`; the literal 16 is used interchangeably in sound.cpp). -/
abbrev SOUND_ARR_SIZE : Nat := 16

/-- Value of the enumerator `VOICETYPE_0`. -/
abbrev VOICETYPE_0 : Int := 0

/-- Value of the enumerator `VOICETYPE_1`. -/
abbrev VOICETYPE_1 : Int := 1

/-- Handle of a `Sound` object (the embedding of `Sound *`). -/
abbrev SoundRef := Option Nat

/-- One call of a `SoundDriver` method, with the driver it was sent to. -/
inductive DriverCall where
  | proc18 (driver : Nat) (a b : Int)
  | proc20 (driver : Nat) (a b : Int)
  | proc22 (driver : Nat) (a b c : Int)
  | proc24 (driver : Nat) (a b : Int) (sound : Option Nat) (cmd value : Int)
  | proc32 (driver : Nat) (voiceNum program v0 v1 : Int)
  | proc38 (driver : Nat) (voiceNum cmd value : Int)
  | proc42 (driver : Nat) (voiceNum voiceType v0 : Int)
  | setProgram (driver : Nat) (channel program : Int)
  | setPitchBlend (driver : Nat) (channel pitchBlend : Int)
  | setPitch (driver : Nat) (voiceNum pitchBlend : Int)
  | setVolume1 (driver : Nat) (a b c d : Int)
  | updateVoice (driver : Nat) (voiceNum : Int)
  | poll (driver : Nat)
  | setMasterVolume (driver : Nat) (volume : Int)
  | installPatch (driver : Nat)
  deriving DecidableEq

/-- The fields of `class Sound` used by the scheduler, the decoder and fades. -/
structure Sound where
  _stoppedAsynchronously : Bool := false
  _soundResID : Int := 0
  _group : Int := 0
  _sndResPriority : Int := 0
  _fixedPriority : Int := -1
  _sndResLoop : Int := 1
  _fixedLoop : Int := 1
  _priority : Int := 0
  _volume : Int := 127
  _loop : Int := 0
  _pausedCount : Int := 0
  _mutedCount : Int := 0
  _hold : Int := 255
  _cueValue : Int := -1
  _fadeDest : Int := -1
  _fadeSteps : Int := 0
  _fadeTicks : Int := 0
  _fadeCounter : Int := 0
  _stopAfterFadeFlag : Bool := false
  _timer : Int := 0
  _loopTimer : Int := 0
  _numTracks : Int := 0
  _voiceTypes : List Int := List.replicate 16 0
  _primed : Bool := false
  _isEmpty : Bool := false
  _chProgram : List Int := List.replicate 16 0
  _chModulation : List Int := List.replicate 16 0
  _chVolume : List Int := List.replicate 16 0
  _chPan : List Int := List.replicate 16 0
  _chDamper : List Int := List.replicate 16 0
  _chPitchBlend : List Int := List.replicate 16 0
  _chVoiceType : List Int := List.replicate 16 0
  _chNumVoices : List Int := List.replicate 16 0
  _chSubPriority : List Int := List.replicate 16 0
  _chFlags : List Int := List.replicate 16 0
  _chWork : List Bool := List.replicate 16 false
  _channelData : List (List Nat) := []
  _trkChannel : List Int := List.replicate 16 0
  _trkState : List Int := List.replicate 16 0
  _trkLoopState : List Int := List.replicate 16 0
  _trkIndex : List Int := List.replicate 16 0
  _trkLoopIndex : List Int := List.replicate 16 0
  _trkRest : List Int := List.replicate 16 0
  _trkLoopRest : List Int := List.replicate 16 0
  deriving DecidableEq

instance : Inhabited Sound := ⟨{}⟩

/-- Fields of `VoiceStructEntryType0`. -/
structure VoiceStructEntryType0 where
  _sound : SoundRef := none
  _channelNum : Int := 0
  _priority : Int := 0
  _fieldA : Int := 0
  _sound2 : SoundRef := none
  _channelNum2 : Int := 0
  _priority2 : Int := 0
  _field12 : Int := 0
  _sound3 : SoundRef := none
  _channelNum3 : Int := 0
  _priority3 : Int := 0
  _field1A : Int := 0
  deriving DecidableEq

/-- Fields of `VoiceStructEntryType1`. -/
structure VoiceStructEntryType1 where
  _field4 : Int := 0
  _field5 : Int := 0
  _field6 : Int := 0
  _sound : SoundRef := none
  _channelNum : Int := 0
  _priority : Int := 0
  _sound2 : SoundRef := none
  _channelNum2 : Int := 0
  _priority2 : Int := 0
  _sound3 : SoundRef := none
  _channelNum3 : Int := 0
  _priority3 : Int := 0
  deriving DecidableEq

/-- One physical voice slot (`VoiceStructEntry`). -/
structure VoiceStructEntry where
  _voiceNum : Int := 0
  _field1 : Int := 0
  _driver : Nat := 0
  _type0 : VoiceStructEntryType0 := {}
  _type1 : VoiceStructEntryType1 := {}
  deriving DecidableEq

instance : Inhabited VoiceStructEntry := ⟨{}⟩

/-- One voice group (`VoiceTypeStruct`). -/
structure VoiceTypeStruct where
  _voiceType : Int := 0
  _total : Int := 0
  _numVoices : Int := 0
  _field3 : Int := 0
  _entries : List VoiceStructEntry := []
  deriving DecidableEq

/-- The table `_voiceTypeStructPtrs` (a `none` slot is a NULL pointer). -/
abbrev VoiceTable := List (Option VoiceTypeStruct)

/-- The state of `class SoundManager` together with the arena of sounds and
the log of driver calls. -/
structure Manager where
  sounds : List Sound := []
  log : List DriverCall := []
  _voiceTypeStructPtrs : VoiceTable := List.replicate 16 none
  _playList : List Nat := []
  _soundList : List Nat := []
  _installedDrivers : List Nat := []
  _masterVol : Int := 127
  _serverSuspendedCount : Int := 0
  _serverDisabledCount : Int := 0
  _needToRethink : Bool := false
  _soTimeIndexFlag : Bool := false
  _groupsAvail : Nat := 0
  _ourSndResVersion : Int := 0x102
  _ourDrvResVersion : Int := 0x10A
  deriving DecidableEq

/-- The sound a handle points to. -/
def Manager.sound (m : Manager) (h : Nat) : Sound := m.sounds.getD h default

/-- Store a sound back through its handle. -/
def Manager.setSound (m : Manager) (h : Nat) (s : Sound) : Manager :=
  { m with sounds := m.sounds.set h s }

/-- Read `arr[i]` for a C `int` index. -/
def rd {α : Type} (arr : List α) (i : Int) : Except Fault α :=
  if i < 0 then .error .outOfBounds
  else match arr.get? i.toNat with
    | some a => .ok a
    | none => .error .outOfBounds

/-- Write `arr[i] = a` for a C `int` index. -/
def wr {α : Type} (arr : List α) (i : Int) (a : α) : Except Fault (List α) :=
  if i < 0 then .error .outOfBounds
  else if i.toNat < arr.length then .ok (arr.set i.toNat a)
  else .error .outOfBounds

/-! ## The play list -/

/-- The position at which `_sfDoAddToPlayList` inserts: the loop skips every
element whose priority is smaller than that of the new sound. -/
def insertByPriority (prio : Nat → Int) (h : Nat) : List Nat → List Nat
  | [] => [h]
  | x :: xs => if prio h > prio x then x :: insertByPriority prio h xs else h :: x :: xs

/-- `SoundManager::_sfDoAddToPlayList`. -/
def _sfDoAddToPlayList (m : Manager) (h : Nat) : Manager :=
  let m1 := { m with _serverSuspendedCount := m._serverSuspendedCount + 1 }
  let m2 := { m1 with
    _playList := insertByPriority (fun x => (m1.sound x)._priority) h m1._playList }
  { m2 with _serverSuspendedCount := m2._serverSuspendedCount - 1 }

/-- The loop of `_sfDoRemoveFromPlayList`: erase the first node holding the
sound and report whether one was found. -/
def eraseFirst (h : Nat) : List Nat → List Nat × Bool
  | [] => ([], false)
  | x :: xs => if x = h then (xs, true) else ((eraseFirst h xs).1.cons x, (eraseFirst h xs).2)

/-- `SoundManager::_sfDoRemoveFromPlayList`. -/
def _sfDoRemoveFromPlayList (m : Manager) (h : Nat) : Manager × Bool :=
  let m1 := { m with _serverSuspendedCount := m._serverSuspendedCount + 1 }
  let r := eraseFirst h m1._playList
  let m2 := { m1 with _playList := r.1 }
  ({ m2 with _serverSuspendedCount := m2._serverSuspendedCount - 1 }, r.2)

/-! ## Voice-structure snapshots -/

/-- Apply `f` to the element at position `n` of a list, if there is one. -/
def updAt {α : Type} (f : α → α) : Nat → List α → List α
  | _, [] => []
  | 0, x :: xs => f x :: xs
  | n + 1, x :: xs => x :: updAt f n xs

/-- Apply `f` to the voice group stored at table slot `g`. -/
def updGroup (f : VoiceTypeStruct → VoiceTypeStruct) (g : Nat) (vts : VoiceTable) : VoiceTable :=
  updAt (Option.map f) g vts

/-- The body of the loop of `_sfUpdateVoiceStructs` for one voice group. -/
def updateVoiceStruct (vs : VoiceTypeStruct) : VoiceTypeStruct :=
  if vs._voiceType = VOICETYPE_0 then
    { vs with _entries := vs._entries.map fun vse =>
        { vse with _type0 := { vse._type0 with
            _sound := vse._type0._sound2
            _channelNum := vse._type0._channelNum2
            _priority := vse._type0._priority2
            _fieldA := vse._type0._field12 } } }
  else
    { vs with
      _field3 := vs._numVoices
      _entries := vs._entries.map fun vse =>
        { vse with _type1 := { vse._type1 with
            _sound := vse._type1._sound2
            _channelNum := vse._type1._channelNum2
            _priority := vse._type1._priority2 } } }

/-- `SoundManager::_sfUpdateVoiceStructs`: copy the proposed assignment of
every entry over its current one. -/
def _sfUpdateVoiceStructs (vts : VoiceTable) : VoiceTable :=
  vts.map (Option.map updateVoiceStruct)

/-- `SoundManager::_sfUpdateVoiceStructs2`: copy the current assignment of
every entry back over its proposed one. -/
def _sfUpdateVoiceStructs2 (vts : VoiceTable) : VoiceTable :=
  vts.map (Option.map fun vs =>
    { vs with _entries := vs._entries.map fun vse =>
        if vs._voiceType = VOICETYPE_0 then
          { vse with _type0 := { vse._type0 with
              _sound2 := vse._type0._sound
              _channelNum2 := vse._type0._channelNum
              _priority2 := vse._type0._priority
              _field12 := vse._type0._fieldA } }
        else
          { vse with _type1 := { vse._type1 with
              _sound2 := vse._type1._sound
              _channelNum2 := vse._type1._channelNum
              _priority2 := vse._type1._priority } } })

/-! ## `_sfRethinkVoiceTypes`: pre-processing -/

/-- The body of the pre-processing loop of `_sfRethinkVoiceTypes` for one
voice group: remember the current assignment as the previous one and clear the
current and proposed ones. -/
def rethinkPreGroup (vs : VoiceTypeStruct) : VoiceTypeStruct :=
  if vs._voiceType = VOICETYPE_0 then
    { vs with _entries := vs._entries.map fun vse =>
        { vse with _type0 := { vse._type0 with
            _sound3 := vse._type0._sound
            _channelNum3 := vse._type0._channelNum
            _priority3 := vse._type0._priority
            _field1A := vse._type0._fieldA
            _sound := none, _channelNum := 0, _priority := 0, _fieldA := 0
            _sound2 := none, _channelNum2 := 0, _priority2 := 0, _field12 := 0 } } }
  else
    { vs with
      _entries := vs._entries.map fun vse =>
        { vse with _type1 := { vse._type1 with
            _sound3 := vse._type1._sound
            _channelNum3 := vse._type1._channelNum
            _priority3 := vse._type1._priority
            _sound := none, _channelNum := 0, _priority := 0
            _sound2 := none, _channelNum2 := 0, _priority2 := 0 } }
      _numVoices := vs._total }

/-- The pre-processing loop of `_sfRethinkVoiceTypes`. -/
def rethinkPre (vts : VoiceTable) : VoiceTable :=
  vts.map (Option.map rethinkPreGroup)

/-! ## `_sfRethinkVoiceTypes`: main loop -/

/-- How one pass through the body of the `for (;;)` loop ends. -/
inductive Flow where
  | again  -- `continue`
  | leave  -- `break`
  deriving DecidableEq

/-- One step of the sub-priority scan over the channels of a sound; `acc` is
`(foundIndex, foundPriority)`. -/
def scanStep (sound : Sound) (chWork : List Bool) (priorityOffset : Int)
    (acc : Int × Int) (idx : Nat) : Int × Int :=
  if Int.land (sound._chFlags.getD idx 0) 0x8000 = 0 ∧ chWork.getD idx false = false then
    let subPriority := sound._chSubPriority.getD idx 0
    let subPriority := if subPriority ≠ 0 then 16 - subPriority + priorityOffset else subPriority
    if acc.1 ≠ -1 then
      if subPriority < acc.2 then ((idx : Int), subPriority) else acc
    else ((idx : Int), subPriority)
  else acc

/-- The scan for the unserviced channel with the lowest encoded sub-priority. -/
def scanSubPriority (sound : Sound) (chWork : List Bool) (priorityOffset : Int) : Int × Int :=
  (List.range SOUND_ARR_SIZE).foldl (scanStep sound chWork priorityOffset) (-1, 0)

/-- Write a proposed TYPE_1 assignment into an entry. -/
def propose1 (h : Nat) (foundIndex foundPriority : Int) (e : VoiceStructEntry) :
    VoiceStructEntry :=
  { e with _type1 := { e._type1 with
      _sound2 := some h, _channelNum2 := foundIndex, _priority2 := foundPriority } }

/-- Clear the proposed TYPE_1 assignment of an entry. -/
def unpropose1 (e : VoiceStructEntry) : VoiceStructEntry :=
  { e with _type1 := { e._type1 with _sound2 := none, _channelNum2 := 0, _priority2 := 0 } }

/-- The loop `while (channelCount > 0)` of the TYPE_1 branch: it walks the
entries without a bound check. -/
def claimVoices (h : Nat) (foundIndex foundPriority : Int) :
    List VoiceStructEntry → Int → Except Fault (List VoiceStructEntry)
  | [], channelCount => if channelCount > 0 then .error .outOfBounds else .ok []
  | e :: es, channelCount =>
    if channelCount > 0 then
      if e._type1._sound2 = none then
        (claimVoices h foundIndex foundPriority es (channelCount - 1)).map
          (fun r => propose1 h foundIndex foundPriority e :: r)
      else
        (claimVoices h foundIndex foundPriority es channelCount).map (fun r => e :: r)
    else .ok (e :: es)

/-- The loop `for (idx = 0; idx < size && voicesCtr > 0; ++idx)` that follows
the eviction loop. -/
def claimVoicesBounded (h : Nat) (foundIndex foundPriority : Int) :
    List VoiceStructEntry → Int → List VoiceStructEntry
  | [], _ => []
  | e :: es, voicesCtr =>
    if voicesCtr > 0 then
      if e._type1._sound2 = none then
        propose1 h foundIndex foundPriority e ::
          claimVoicesBounded h foundIndex foundPriority es (voicesCtr - 1)
      else e :: claimVoicesBounded h foundIndex foundPriority es voicesCtr
    else e :: es

/-- The largest proposed priority of a group, starting from 0. -/
def maxPriority2 (es : List VoiceStructEntry) : Int :=
  es.foldl (fun acc e => max acc e._type1._priority2) 0

/-- The `do ... while (chNumVoices > numVoices)` eviction loop.  It returns the
table and the local `numVoices`. -/
def evictLoop : Nat → Nat → Int → Int → VoiceTable → Except Fault (VoiceTable × Int)
  | 0, _, _, _, _ => .error .outOfFuel
  | fuel + 1, g, chNumVoices, numVoices, vts =>
    match vts.getD g none with
    | none => .error .nullDeref
    | some vtStruct =>
      let maxPriority := maxPriority2 vtStruct._entries
      if maxPriority = 0 then
        .ok (_sfUpdateVoiceStructs2 vts, numVoices)
      else
        let evicted := vtStruct._entries.countP (fun e => e._type1._priority2 = maxPriority)
        let vts1 := updGroup (fun vs => { vs with _entries := vs._entries.map fun e =>
          if e._type1._priority2 = maxPriority then unpropose1 e else e }) g vts
        let numVoices1 := numVoices + evicted
        if chNumVoices > numVoices1 then evictLoop fuel g chNumVoices numVoices1 vts1
        else .ok (vts1, numVoices1)

/-- The TYPE_1 branch of the loop body, for the chosen channel `foundIndex` of
sound `h`; `g` is the slot of `vtStruct` in the table. -/
def rethinkType1 (h : Nat) (foundIndex foundPriority chNumVoices : Int) (g : Nat)
    (vtStruct : VoiceTypeStruct) (vts : VoiceTable) : Except Fault (Flow × VoiceTable) :=
  let numVoices := vtStruct._numVoices
  if numVoices ≥ chNumVoices then
    (claimVoices h foundIndex foundPriority vtStruct._entries chNumVoices).map fun es =>
      (Flow.again, updGroup (fun vs =>
        { vs with _entries := es, _numVoices := vs._numVoices - chNumVoices }) g vts)
  else if foundPriority = 0 then
    (evictLoop (vtStruct._entries.length + 1) g chNumVoices numVoices vts).map fun r =>
      (Flow.again, updGroup (fun vs =>
        { vs with
          _entries := claimVoicesBounded h foundIndex foundPriority vs._entries chNumVoices
          _numVoices := r.2 - chNumVoices }) g r.1)
  else if numVoices = 0 then .ok (Flow.leave, vts)
  else .ok (Flow.again, vts)

/-- Replace the entries of the voice group stored at table slot `g`. -/
def setEntries (g : Nat) (es : List VoiceStructEntry) (vts : VoiceTable) : VoiceTable :=
  updGroup (fun vs => { vs with _entries := es }) g vts

/-- Write a proposed TYPE_0 assignment into an entry. -/
def propose0 (h : Nat) (foundIndex foundPriority field12 : Int) (e : VoiceStructEntry) :
    VoiceStructEntry :=
  { e with _type0 := { e._type0 with
      _sound2 := some h, _channelNum2 := foundIndex, _priority2 := foundPriority
      _field12 := field12 } }

/-- First scan of the general TYPE_0 case: the free slot with `_field1` set and
the greatest voice number above 0; the result is `(entryIndex, maxVoiceNum)`. -/
def scanFreeSlot (es : List VoiceStructEntry) : Int × Int :=
  es.enum.foldl (fun acc p =>
    if p.2._type0._sound2 = none ∧ p.2._field1 ≠ 0 ∧ p.2._voiceNum > acc.2
    then ((p.1 : Int), p.2._voiceNum) else acc) (-1, 0)

/-- Second scan of the general TYPE_0 case: the last slot with `_field1` set
whose proposed priority exceeds `maxVoiceNum`. -/
def scanOccupiedSlot (maxVoiceNum : Int) (es : List VoiceStructEntry) : Int :=
  es.enum.foldl (fun acc p =>
    if p.2._field1 ≠ 0 ∧ p.2._type0._priority2 > maxVoiceNum then (p.1 : Int) else acc) (-1)

/-- First loop of channel mode 1: `(foundIndex, entryIndex)`; the source
assigns `true` to `foundIndex` at the first slot tagged with it and leaves the
loop at the first such slot that is free. -/
def scanMode1 (foundIndex : Int) (es : List VoiceStructEntry) : Int × Int :=
  es.enum.foldl (fun acc p =>
    if acc.2 ≠ -1 then acc
    else if p.2._voiceNum = acc.1 then
      if p.2._type0._sound2 = none then (1, (p.1 : Int)) else (1, -1)
    else acc) (foundIndex, -1)

/-- Loop "Find the entry with the highest priority" of channel mode 1; the
result is `foundMatch` (the source never sets `entryIndex` there). -/
def scanMode1Match (foundIndex : Int) : List VoiceStructEntry → Bool
  | [] => false
  | e :: es =>
    if e._voiceNum ≠ foundIndex then scanMode1Match foundIndex es
    else if e._type0._field12 = 0 then true
    else scanMode1Match foundIndex es

/-- Loop at `loc_24061` of channel mode 1: `(voiceIndex, priorityIndex)`. -/
def scanMode1Slots (es : List VoiceStructEntry) : Int × Int :=
  let r := es.enum.foldl (fun (acc : (Int × Int) × (Int × Int)) p =>
    if p.2._field1 ≠ 0 then
      if p.2._type0._sound2 = none then
        if p.2._voiceNum > acc.1.2 then (((p.1 : Int), p.2._voiceNum), acc.2) else acc
      else
        if p.2._type0._priority2 > acc.2.2 then (acc.1, ((p.1 : Int), p.2._type0._priority2))
        else acc
    else acc) ((-1, 0), (-1, 0))
  (r.1.1, r.2.1)

/-- The part of channel mode 1 after the test `if (!foundMatch)` at the end of
the first search (from "Find the entry with the highest priority" on). -/
def rethinkMode1Tail (h : Nat) (foundIndex foundPriority : Int) (g : Nat)
    (vtStruct : VoiceTypeStruct) (vts : VoiceTable) : Except Fault (Flow × VoiceTable) :=
  let es := vtStruct._entries
  if scanMode1Match foundIndex es = false then
    if foundPriority ≠ 0 then .ok (Flow.again, vts)
    else .ok (Flow.leave, _sfUpdateVoiceStructs2 vts)
  else
    let voiceIndex := (scanMode1Slots es).1
    let priorityIndex := (scanMode1Slots es).2
    if voiceIndex ≠ -1 then
      (rd es foundIndex).map fun vteSrc =>
        let es1 := updAt (fun e => { e with _type0 := { e._type0 with
          _sound2 := vteSrc._type0._sound2, _channelNum2 := vteSrc._type0._channelNum2
          _priority2 := vteSrc._type0._priority2 } }) voiceIndex.toNat es
        let es2 := updAt (propose0 h foundIndex foundPriority 1) foundIndex.toNat es1
        (Flow.again, setEntries g es2 vts)
    else if foundPriority = 0 then .ok (Flow.again, vts)
    else if priorityIndex = -1 then .ok (Flow.leave, _sfUpdateVoiceStructs2 vts)
    else
      (rd es foundIndex).map fun vteSrc =>
        let es1 := if priorityIndex ≠ foundIndex then
            updAt (fun e => { e with _type0 := { e._type0 with
              _sound2 := vteSrc._type0._sound2, _channelNum2 := vteSrc._type0._channelNum2
              _priority2 := vteSrc._type0._priority2
              _field12 := vteSrc._type0._field12 } }) priorityIndex.toNat es
          else es
        let es2 := updAt (propose0 h foundIndex foundPriority 1) foundIndex.toNat es1
        (Flow.again, setEntries g es2 vts)

/-- The TYPE_0 branch of the loop body. -/
def rethinkType0 (h : Nat) (sound : Sound) (foundIndex foundPriority : Int) (g : Nat)
    (vtStruct : VoiceTypeStruct) (vts : VoiceTable) : Except Fault (Flow × VoiceTable) :=
  let es := vtStruct._entries
  if sound._isEmpty = true ∧ es.all (fun e => e._voiceNum = foundIndex) = true then
    .ok (Flow.again, vts)
  else
    (rd sound._chFlags foundIndex).bind fun chFlags =>
    let flagsVal := Int.land chFlags 3
    if flagsVal ≠ 1 then
      -- All modes except mode 1 (loc_23EDF)
      let entryIndex := (scanFreeSlot es).1
      let maxVoiceNum := (scanFreeSlot es).2
      if entryIndex ≠ -1 then
        .ok (Flow.again, setEntries g
          (updAt (propose0 h foundIndex foundPriority 0) entryIndex.toNat es) vts)
      else if foundPriority ≠ 0 then .ok (Flow.again, vts)
      else
        let entryIndex := scanOccupiedSlot maxVoiceNum es
        if entryIndex ≠ -1 then
          .ok (Flow.again, setEntries g
          (updAt (propose0 h foundIndex foundPriority 0) entryIndex.toNat es) vts)
        else .ok (Flow.leave, _sfUpdateVoiceStructs2 vts)
    else
      -- Channel mode 1 handling (loc_23FAC)
      let foundMatch := false
      let foundIndex1 := (scanMode1 foundIndex es).1
      let entryIndex := (scanMode1 foundIndex es).2
      if entryIndex ≠ -1 then
        .ok (Flow.again, setEntries g
          (updAt (propose0 h foundIndex1 foundPriority 0) entryIndex.toNat es) vts)
      else if foundMatch = false ∧ foundPriority ≠ 0 then .ok (Flow.again, vts)
      else if foundMatch = false ∧ entryIndex = -1 then
        .ok (Flow.leave, _sfUpdateVoiceStructs2 vts)
      else rethinkMode1Tail h foundIndex1 foundPriority g vtStruct vts

/-- The `for (;;)` loop of `_sfRethinkVoiceTypes` for one sound `h` of the play
list.  Every pass marks one more channel in `_chWork`, so `SOUND_ARR_SIZE + 1`
passes always suffice. -/
def rethinkChannels (h : Nat) (sound : Sound) (priorityOffset : Int) :
    Nat → List Bool → VoiceTable → Except Fault (List Bool × VoiceTable)
  | 0, _, _ => .error .outOfFuel
  | fuel + 1, chWork, vts =>
    let foundIndex := (scanSubPriority sound chWork priorityOffset).1
    let foundPriority := (scanSubPriority sound chWork priorityOffset).2
    if foundIndex = -1 then .ok (chWork, vts)
    else
      (rd sound._chNumVoices foundIndex).bind fun chNumVoices =>
      (wr chWork foundIndex true).bind fun chWork1 =>
      (rd sound._chVoiceType foundIndex).bind fun chVoiceType =>
      (rd vts chVoiceType).bind fun slot =>
      match slot with
      | none =>
        if foundPriority ≠ 0 then rethinkChannels h sound priorityOffset fuel chWork1 vts
        else .ok (chWork1, _sfUpdateVoiceStructs2 vts)
      | some vtStruct =>
        (if vtStruct._voiceType ≠ VOICETYPE_0 then
          rethinkType1 h foundIndex foundPriority chNumVoices chVoiceType.toNat vtStruct vts
        else
          rethinkType0 h sound foundIndex foundPriority chVoiceType.toNat vtStruct vts).bind
        fun r =>
          match r.1 with
          | Flow.again => rethinkChannels h sound priorityOffset fuel chWork1 r.2
          | Flow.leave => .ok (chWork1, r.2)

/-- Store the `_chWork` array of sound `h`. -/
def setChWork (sounds : List Sound) (h : Nat) (chWork : List Bool) : List Sound :=
  updAt (fun s => { s with _chWork := chWork }) h sounds

/-- The main processing loop of `_sfRethinkVoiceTypes` over the play list;
`priorityOffset` grows by 16 per play-list position. -/
def rethinkMain : List Nat → Int → List Sound → VoiceTable →
    Except Fault (List Sound × VoiceTable)
  | [], _, sounds, vts => .ok (sounds, vts)
  | h :: rest, priorityOffset, sounds, vts =>
    let sound := sounds.getD h default
    if sound._mutedCount ≠ 0 ∨ sound._pausedCount ≠ 0 then
      rethinkMain rest (priorityOffset + 16) sounds vts
    else
      (rethinkChannels h sound priorityOffset (SOUND_ARR_SIZE + 1)
        (List.replicate SOUND_ARR_SIZE false) (_sfUpdateVoiceStructs vts)).bind fun r =>
      rethinkMain rest (priorityOffset + 16) (setChWork sounds h r.1) r.2

/-! ## `_sfRethinkVoiceTypes`: post-processing -/

/-- Entries of a group together with the driver calls issued so far. -/
abbrev Commit := List VoiceStructEntry × List DriverCall

/-- Run `step idx` for `idx = 0 .. n-1`, stopping at the first fault. -/
def forIdx {σ : Type} (step : Nat → σ → Except Fault σ) (n : Nat) (init : σ) :
    Except Fault σ :=
  (List.range n).foldlM (fun st idx => step idx st) init

/-- The scaled volume `chVolume * volume / 127` (C integer division). -/
def scaledVolume (chVolume volume : Int) : Int := Int.tdiv (chVolume * volume) 127

/-- TYPE_0 commit, first loop: entries whose proposal has `_field12` set. -/
def post0Tagged (sounds : List Sound) (idx : Nat) (st : Commit) : Except Fault Commit :=
  let e := st.1.getD idx default
  let vse := e._type0
  if vse._field12 ≠ 0 then
    let total : Nat := (if vse._sound3 ≠ vse._sound2 then 1 else 0) +
      (if vse._channelNum3 ≠ vse._channelNum2 then 1 else 0)
    let vse1 := { vse with _sound := vse._sound2, _channelNum := vse._channelNum2
                           _priority := vse._priority2, _fieldA := 1, _sound2 := none }
    if total ≠ 0 then
      match vse1._sound with
      | none => .error .nullDeref
      | some h =>
        let snd := sounds.getD h default
        (rd snd._chModulation vse1._channelNum).bind fun modulation =>
        (rd snd._chVolume vse1._channelNum).bind fun chVolume =>
        (rd snd._chPan vse1._channelNum).bind fun pan =>
        (rd snd._chDamper vse1._channelNum).bind fun damper =>
        (rd snd._chProgram vse1._channelNum).bind fun program =>
        (rd snd._chPitchBlend vse1._channelNum).bind fun pitchBlend =>
        .ok (updAt (fun x => { x with _type0 := { vse1 with _sound3 := none } }) idx st.1,
          st.2 ++ [DriverCall.proc24 e._driver vse1._channelNum idx vse1._sound 123 0,
            DriverCall.proc24 e._driver vse1._channelNum idx vse1._sound 1 modulation,
            DriverCall.proc24 e._driver vse1._channelNum idx vse1._sound 7
              (scaledVolume chVolume snd._volume),
            DriverCall.proc24 e._driver vse1._channelNum idx vse1._sound 10 pan,
            DriverCall.proc24 e._driver vse1._channelNum idx vse1._sound 64 damper,
            DriverCall.setProgram e._driver vse1._channelNum program,
            DriverCall.setPitchBlend e._driver vse1._channelNum pitchBlend])
    else .ok (updAt (fun x => { x with _type0 := vse1 }) idx st.1, st.2)
  else
    .ok (updAt (fun x => { x with _type0 := { x._type0 with
      _sound := none, _channelNum := 0, _priority := 0, _fieldA := 0 } }) idx st.1, st.2)

/-- TYPE_0 commit, second loop: the source takes the first entry whose previous
assignment DIFFERS from the proposal as the "match". -/
def post0Match (idx : Nat) (st : Commit) : Except Fault Commit :=
  let vse := (st.1.getD idx default)._type0
  match vse._sound2 with
  | none => .ok st
  | some sound =>
    match st.1.findIdx? (fun x => decide (x._type0._sound3 ≠ some sound ∨
        x._type0._channelNum3 ≠ vse._channelNum2)) with
    | none => .ok st
    | some entryIndex =>
      let es1 := updAt (fun x => { x with _type0 := { x._type0 with
        _sound := some sound, _channelNum := vse._channelNum2
        _priority := vse._priority2, _fieldA := 0 } }) entryIndex st.1
      .ok (updAt (fun x => { x with _type0 := { x._type0 with _sound2 := none } }) idx es1, st.2)

/-- Inner scan of the third TYPE_0 commit loop: the last free slot with
`_field1` set whose voice number is not below the running maximum. -/
def scanFreeCurrent (es : List VoiceStructEntry) : Int :=
  (es.enum.foldl (fun (acc : Int × Int) p =>
    if p.2._field1 ≠ 0 ∧ p.2._type0._sound = none ∧ acc.1 ≤ p.2._voiceNum
    then (p.2._voiceNum, (p.1 : Int)) else acc) (0, -1)).2

/-- TYPE_0 commit, third loop: place the proposals that are still pending and
push the channel parameters to the driver. -/
def post0Place (sounds : List Sound) (voiceIndex : Nat) (idx : Nat) (st : Commit) :
    Except Fault Commit :=
  let vse := (st.1.getD idx default)._type0
  match vse._sound2 with
  | none => .ok st
  | some h =>
    let foundIndex := scanFreeCurrent st.1
    if foundIndex = -1 then .error .assertFailed
    else
      let es1 := updAt (fun x => { x with _type0 := { x._type0 with
        _sound := vse._sound2, _channelNum := vse._channelNum2
        _priority := vse._priority2, _fieldA := 0 } }) foundIndex.toNat st.1
      let driver := (es1.getD foundIndex.toNat default)._driver
      let ch := vse._channelNum2
      let snd := sounds.getD h default
      (rd snd._chModulation ch).bind fun modulation =>
      (rd snd._chVolume ch).bind fun chVolume =>
      (rd snd._chPan ch).bind fun pan =>
      (rd snd._chProgram ch).bind fun program =>
      (rd snd._chPitchBlend ch).bind fun pitchBlend =>
      .ok (es1, st.2 ++ [DriverCall.proc24 driver ch voiceIndex (some h) 123 0,
        DriverCall.proc24 driver ch voiceIndex (some h) 1 modulation,
        DriverCall.proc24 driver ch voiceIndex (some h) 7 (scaledVolume chVolume snd._volume),
        DriverCall.proc24 driver ch voiceIndex (some h) 10 pan,
        DriverCall.setProgram driver ch program,
        DriverCall.setPitchBlend driver ch pitchBlend])

/-- TYPE_0 commit, final loop: silence the entries that lost their sound. -/
def post0Release (voiceIndex : Nat) (idx : Nat) (st : Commit) : Except Fault Commit :=
  let e := st.1.getD idx default
  if e._type0._sound = none ∧ e._type0._sound3 ≠ none then
    .ok (st.1, st.2 ++ [DriverCall.proc24 e._driver e._voiceNum voiceIndex e._type0._sound3 123 0])
  else .ok st

/-- Post-processing of one TYPE_0 group. -/
def rethinkPost0 (sounds : List Sound) (voiceIndex : Nat) (st : Commit) : Except Fault Commit :=
  (forIdx (post0Tagged sounds) st.1.length st).bind fun st1 =>
  (forIdx post0Match st1.1.length st1).bind fun st2 =>
  (forIdx (post0Place sounds voiceIndex) st2.1.length st2).bind fun st3 =>
  forIdx (post0Release voiceIndex) st3.1.length st3

/-- TYPE_1 commit, first loop: clear every current assignment. -/
def post1Clear (es : List VoiceStructEntry) : List VoiceStructEntry :=
  es.map fun vse => { vse with _type1 := { vse._type1 with
    _sound := none, _channelNum := 0, _priority := 0 } }

/-- TYPE_1 commit, second loop: a proposal that equals the previous assignment
of a still unused entry keeps that entry. -/
def post1Match (idx : Nat) (es : List VoiceStructEntry) : List VoiceStructEntry :=
  let vse := (es.getD idx default)._type1
  match vse._sound2 with
  | none => es
  | some sound =>
    let channelNum := vse._channelNum2
    match es.findIdx? (fun x => decide (x._type1._sound = none ∧
        x._type1._sound3 = some sound ∧ x._type1._channelNum3 = channelNum)) with
    | none => es
    | some entryIndex =>
      let es1 := updAt (fun x => { x with _type1 := { x._type1 with
        _sound := some sound, _channelNum := channelNum } }) entryIndex es
      let vse2 := (es1.getD entryIndex default)._type1
      updAt (fun x => { x with _type1 := { x._type1 with
        _channelNum := vse2._channelNum2, _priority := vse2._priority2
        _sound2 := none } }) idx es1

/-- The loop `while (vs->_entries[idx2]._type1._sound) ++idx2;`, which has no
bound check. -/
def skipUsedFrom : List VoiceStructEntry → Nat → Except Fault Nat
  | [], _ => .error .outOfBounds
  | e :: es, idx2 => if e._type1._sound ≠ none then skipUsedFrom es (idx2 + 1) else .ok idx2

/-- The same loop, started at `idx2` in the entries `es`. -/
def skipUsed (es : List VoiceStructEntry) (idx2 : Nat) : Except Fault Nat :=
  skipUsedFrom (es.drop idx2) idx2

/-- TYPE_1 commit, third loop: give every proposal that is still pending the
next unused entry and push the channel parameters to the driver.  The state
carries `idx2`. -/
def post1Place (sounds : List Sound) (idx : Nat) (st : Commit × Nat) :
    Except Fault (Commit × Nat) :=
  let vse := (st.1.1.getD idx default)._type1
  match vse._sound2 with
  | none => .ok st
  | some h =>
    (skipUsed st.1.1 st.2).bind fun idx2 =>
    let es1 := updAt (fun x => { x with _type1 := { x._type1 with
      _sound := vse._sound2, _channelNum := vse._channelNum2
      _priority := vse._priority2 } }) idx2 st.1.1
    let es2 := updAt (fun x => { x with _type1 := { x._type1 with _field4 := -1 } }) idx es1
    let es3 := updAt (fun x => { x with _type1 := { x._type1 with
      _field5 := 0, _field6 := 0 } }) idx2 es2
    let e2 := es3.getD idx2 default
    let ch := e2._type1._channelNum
    let snd := sounds.getD h default
    (rd snd._chModulation ch).bind fun modulation =>
    (rd snd._chVolume ch).bind fun chVolume =>
    (rd snd._chPan ch).bind fun pan =>
    (rd snd._chPitchBlend ch).bind fun pitchBlend =>
    .ok ((es3, st.1.2 ++ [DriverCall.updateVoice e2._driver e2._voiceNum,
      DriverCall.proc38 e2._driver e2._voiceNum 1 modulation,
      DriverCall.proc38 e2._driver e2._voiceNum 7 (scaledVolume chVolume snd._volume),
      DriverCall.proc38 e2._driver e2._voiceNum 10 pan,
      DriverCall.setPitch e2._driver e2._voiceNum pitchBlend]), idx2)

/-- TYPE_1 commit, last loop: release the entries that lost their sound. -/
def post1Release (voiceIndex : Nat) (idx : Nat) (st : Commit) : Except Fault Commit :=
  let e := st.1.getD idx default
  if e._type1._sound = none ∧ e._type1._sound3 ≠ none then
    .ok (updAt (fun x => { x with _type1 := { x._type1 with
      _field4 := -1, _field5 := 0, _field6 := 0 } }) idx st.1,
      st.2 ++ [DriverCall.updateVoice e._driver voiceIndex])
  else .ok st

/-- Post-processing of one TYPE_1 group. -/
def rethinkPost1 (sounds : List Sound) (voiceIndex : Nat) (st : Commit) : Except Fault Commit :=
  let es1 := post1Clear st.1
  let es2 := (List.range es1.length).foldl (fun es idx => post1Match idx es) es1
  (forIdx (post1Place sounds) es2.length ((es2, st.2), 0)).bind fun st3 =>
  forIdx (post1Release voiceIndex) st3.1.1.length st3.1

/-- Post-processing of the voice group in table slot `voiceIndex`. -/
def rethinkPostGroup (sounds : List Sound) (voiceIndex : Nat) (slot : Option VoiceTypeStruct)
    (log : List DriverCall) : Except Fault (Option VoiceTypeStruct × List DriverCall) :=
  match slot with
  | none => .ok (none, log)
  | some vs =>
    (if vs._voiceType = VOICETYPE_0 then rethinkPost0 sounds voiceIndex (vs._entries, log)
     else rethinkPost1 sounds voiceIndex (vs._entries, log)).map fun st =>
      (some { vs with _entries := st.1 }, st.2)

/-- The post-processing loop over the whole table, from slot `voiceIndex` on. -/
def rethinkPost (sounds : List Sound) : Nat → VoiceTable → List DriverCall →
    Except Fault (VoiceTable × List DriverCall)
  | _, [], log => .ok ([], log)
  | voiceIndex, slot :: rest, log =>
    (rethinkPostGroup sounds voiceIndex slot log).bind fun r =>
    (rethinkPost sounds (voiceIndex + 1) rest r.2).map fun r2 => (r.1 :: r2.1, r2.2)

/-- `SoundManager::_sfRethinkVoiceTypes`. -/
def _sfRethinkVoiceTypes (m : Manager) : Except Fault Manager :=
  let m1 := { m with _serverSuspendedCount := m._serverSuspendedCount + 1 }
  (rethinkMain m1._playList 0 m1.sounds (rethinkPre m1._voiceTypeStructPtrs)).bind fun r =>
  (rethinkPost r.1 0 r.2 m1.log).map fun p =>
    { m1 with sounds := r.1, _voiceTypeStructPtrs := p.1, log := p.2
              _serverSuspendedCount := m1._serverSuspendedCount - 1 }

/-- `SoundManager::_sfAddToPlayList` (the body of `addToPlayList`). -/
def _sfAddToPlayList (m : Manager) (h : Nat) : Except Fault Manager :=
  let m1 := { m with _serverSuspendedCount := m._serverSuspendedCount + 1 }
  let m2 := _sfDoAddToPlayList m1 h
  let sounds3 := updAt (fun s => { s with _stoppedAsynchronously := false }) h m2.sounds
  let m3 := { m2 with sounds := sounds3 }
  (_sfRethinkVoiceTypes m3).map fun m4 =>
    { m4 with _serverSuspendedCount := m4._serverSuspendedCount - 1 }

/-- `SoundManager::_sfRemoveFromPlayList` (the body of `removeFromPlayList`). -/
def _sfRemoveFromPlayList (m : Manager) (h : Nat) : Except Fault Manager :=
  let m1 := { m with _serverSuspendedCount := m._serverSuspendedCount + 1 }
  let r := _sfDoRemoveFromPlayList m1 h
  (if r.2 = true then _sfRethinkVoiceTypes r.1 else .ok r.1).map fun m4 =>
    { m4 with _serverSuspendedCount := m4._serverSuspendedCount - 1 }

/-! ## Track decoding: helpers of `_soServiceTrackType0` -/

/-- Append driver calls to the log. -/
def Manager.emit (m : Manager) (calls : List DriverCall) : Manager :=
  { m with log := m.log ++ calls }

/-- Read the byte `data[pos]`. -/
def rdByte (data : List Nat) (pos : Nat) : Except Fault Nat :=
  match data.get? pos with
  | some b => .ok b
  | none => .error .outOfBounds

/-- The voice group a `VoiceTypeStruct *` taken from table slot `g` points to. -/
def getGroup (vts : VoiceTable) (g : Option Nat) : Except Fault VoiceTypeStruct :=
  match g with
  | none => .error .nullDeref
  | some i =>
    match vts.getD i none with
    | none => .error .nullDeref
    | some vs => .ok vs

/-- `Sound::_soDoTrackCommand`. -/
def _soDoTrackCommand (s : Sound) (channelNum command value : Int) : Except Fault Sound :=
  if command = 1 then (wr s._chModulation channelNum value).map fun a => { s with _chModulation := a }
  else if command = 7 then (wr s._chVolume channelNum value).map fun a => { s with _chVolume := a }
  else if command = 10 then (wr s._chPan channelNum value).map fun a => { s with _chPan := a }
  else if command = 64 then (wr s._chDamper channelNum value).map fun a => { s with _chDamper := a }
  else if command = 75 then
    (wr s._chNumVoices channelNum value).map fun a => { s with _chNumVoices := a }
  else .ok s

/-- Copy `src[i]` to `dst[i]` for `i < n` (fixed-size arrays). -/
def copyFirst (n : Nat) (src dst : List Int) : List Int :=
  (List.range dst.length).map fun i => if i < n then src.getD i 0 else dst.getD i 0

/-- `Sound::_soDoUpdateTracks`: returns the sound and the result flag. -/
def _soDoUpdateTracks (s : Sound) (command value : Int) : Sound × Bool :=
  if command = 76 ∨ s._hold ≠ value then (s, false)
  else
    ({ s with
        _trkState := copyFirst s._numTracks.toNat s._trkLoopState s._trkState
        _trkRest := copyFirst s._numTracks.toNat s._trkLoopRest s._trkRest
        _trkIndex := copyFirst s._numTracks.toNat s._trkLoopIndex s._trkIndex
        _timer := s._loopTimer }, true)

/-- `Sound::_soSetTrackPos`. -/
def _soSetTrackPos (timeIndexFlag : Bool) (s : Sound) (trackIndex trackPos cueValue : Int) :
    Except Fault Sound :=
  (wr s._trkIndex trackIndex trackPos).map fun trkIndex =>
    let s1 := { s with _trkIndex := trkIndex }
    if cueValue = 127 then
      if timeIndexFlag = false then { s1 with _cueValue := cueValue } else s1
    else
      { s1 with
        _trkLoopState := copyFirst s1._numTracks.toNat s1._trkState s1._trkLoopState
        _trkLoopRest := copyFirst s1._numTracks.toNat s1._trkRest s1._trkLoopRest
        _trkLoopIndex := copyFirst s1._numTracks.toNat s1._trkIndex s1._trkLoopIndex
        _loopTimer := s1._timer }

/-- The scan of `Sound::_soFindSound`: `((entryIndex, v6), (entry2Index, v8))`. -/
def findSoundScan (h : Nat) (channelNum : Int) (es : List VoiceStructEntry) :
    (Int × Int) × (Int × Int) :=
  es.enum.foldl (fun (acc : (Int × Int) × (Int × Int)) p =>
    if p.2._type1._channelNum = channelNum ∧ p.2._type1._sound = some h then
      if p.2._type1._field4 ≠ -1 then
        if acc.2.2 ≤ p.2._type1._field6 then (acc.1, ((p.1 : Int), p.2._type1._field6)) else acc
      else
        if acc.1.2 ≤ p.2._type1._field6 then (((p.1 : Int), p.2._type1._field6), acc.2) else acc
    else acc) ((-1, 0), (-1, 0))

/-- `Sound::_soFindSound`: the entry index (or -1) and the driver calls made. -/
def _soFindSound (h : Nat) (es : List VoiceStructEntry) (channelNum : Int) :
    Int × List DriverCall :=
  let entryIndex := (findSoundScan h channelNum es).1.1
  let entry2Index := (findSoundScan h channelNum es).2.1
  if entryIndex ≠ -1 then (entryIndex, [])
  else if entryIndex = -1 ∧ entry2Index = -1 then (-1, [])
  else
    let e := es.getD entry2Index.toNat default
    (entry2Index, [DriverCall.updateVoice e._driver e._voiceNum])

/-- The loop of `Sound::_soUpdateDamper` over the entries of the voice group. -/
def updateDamperLoop (hasDamper : Bool) (h : Nat) (channelNum v0 : Int) :
    List VoiceStructEntry → List VoiceStructEntry × List DriverCall
  | [] => ([], [])
  | e :: es =>
    if e._type1._field4 = v0 ∧ e._type1._channelNum = channelNum ∧ e._type1._sound = some h then
      if hasDamper = true then ({ e with _type1 := { e._type1 with _field5 := 1 } } :: es, [])
      else ({ e with _type1 := { e._type1 with _field4 := -1, _field5 := 0 } } :: es,
            [DriverCall.updateVoice e._driver e._voiceNum])
    else
      (e :: (updateDamperLoop hasDamper h channelNum v0 es).1,
        (updateDamperLoop hasDamper h channelNum v0 es).2)

/-- `Sound::_soUpdateDamper` on the entries of the voice group. -/
def _soUpdateDamper (s : Sound) (h : Nat) (es : List VoiceStructEntry) (channelNum v0 : Int) :
    Except Fault (List VoiceStructEntry × List DriverCall) :=
  (rd s._chDamper channelNum).map fun damper =>
    updateDamperLoop (decide (damper ≠ 0)) h channelNum v0 es

/-- `Sound::_soProc32` on the entries of the voice group. -/
def _soProc32 (s : Sound) (h : Nat) (es : List VoiceStructEntry) (channelNum v0 v1 : Int) :
    Except Fault (List VoiceStructEntry × List DriverCall) :=
  let r := _soFindSound h es channelNum
  if r.1 ≠ -1 then
    (rd s._chProgram channelNum).map fun program =>
      let e := es.getD r.1.toNat default
      (updAt (fun x => { x with _type1 := { x._type1 with
          _field6 := 0, _field4 := v0, _field5 := 0 } }) r.1.toNat es,
        r.2 ++ [DriverCall.proc32 e._driver e._voiceNum program v0 v1])
  else .ok (es, r.2)

/-- `Sound::_soProc42` on the entries of the voice group: the first track whose
byte 13 equals `v0` and whose mode byte is 1 decides. -/
def _soProc42 (h : Nat) (es : List VoiceStructEntry) (channelNum voiceType v0 : Int) :
    List (List Nat) → Except Fault (List VoiceStructEntry × List DriverCall)
  | [] => .ok (es, [])
  | instrument :: tracks =>
    (rdByte instrument 13).bind fun b13 =>
    (rdByte instrument 0).bind fun b0 =>
    if (b13 : Int) = v0 ∧ b0 = 1 then
      let r := _soFindSound h es channelNum
      if r.1 ≠ -1 then
        let e := es.getD r.1.toNat default
        .ok (updAt (fun x => { x with _type1 := { x._type1 with
            _field6 := 0, _field4 := v0, _field5 := 0 } }) r.1.toNat es,
          r.2 ++ [DriverCall.proc32 e._driver e._voiceNum (-1) v0 0x7F,
                  DriverCall.proc42 e._driver e._voiceNum voiceType 0])
      else .ok (es, r.2)
    else _soProc42 h es channelNum voiceType v0 tracks

/-- `Sound::_soProc38` on the entries of the voice group; the Boolean result
says whether `_needToRethink` is to be set. -/
def _soProc38 (h : Nat) (es : List VoiceStructEntry) (channelNum cmd value : Int) :
    (List VoiceStructEntry × List DriverCall) × Bool :=
  if cmd = 64 then
    if value = 0 then
      ((es.map (fun e =>
          if e._type1._sound = some h ∧ e._type1._channelNum = channelNum ∧ e._type1._field5 ≠ 0
          then { e with _type1 := { e._type1 with _field4 := -1, _field5 := 0 } } else e),
        (es.filter (fun e => decide (e._type1._sound = some h ∧
            e._type1._channelNum = channelNum ∧ e._type1._field5 ≠ 0))).map
          (fun e => DriverCall.updateVoice e._driver e._voiceNum)), false)
    else ((es, []), false)
  else if cmd = 75 then ((es, []), true)
  else
    ((es, (es.filter (fun e => decide (e._type1._sound = some h ∧
        e._type1._channelNum = channelNum))).map
      (fun e => DriverCall.proc38 e._driver e._voiceNum cmd value)), false)

/-- `Sound::_soProc40`: the driver calls made. -/
def _soProc40 (h : Nat) (es : List VoiceStructEntry) (channelNum pitchBlend : Int) :
    List DriverCall :=
  (es.filter (fun e => decide (e._type1._sound = some h ∧
      e._type1._channelNum = channelNum))).map
    (fun e => DriverCall.setPitch e._driver e._voiceNum pitchBlend)

/-! ## Track decoding: `_soServiceTrackType0` -/

/-- The locals that `_soServiceTrackType0` computes before its decode loop. -/
structure TrackCtx where
  channelNum : Int
  chFlags : Int
  voiceNum : Int := -1
  driver : Option Nat := none
  vtStruct : Option Nat := none
  voiceType : Int := VOICETYPE_0
  chVoiceType : Int := VOICETYPE_0
  deriving DecidableEq

/-- The TYPE_0 voice lookup at the head of `_soServiceTrackType0`: the first
entry without current sound whose current channel differs from `channelNum`. -/
def findType0Voice (channelNum : Int) : List VoiceStructEntry → Option VoiceStructEntry
  | [] => none
  | e :: es =>
    if e._type0._sound = none ∧ e._type0._channelNum ≠ channelNum then some e
    else findType0Voice channelNum es

/-- The head of `_soServiceTrackType0`, after the rest and state tests. -/
def trackCtx (m : Manager) (s : Sound) (trackIndex : Int) : Except Fault TrackCtx :=
  (rd s._trkChannel trackIndex).bind fun channelNum =>
  if ¬ (channelNum ≥ 0 ∧ channelNum < SOUND_ARR_SIZE) then .error .assertFailed
  else
    (if channelNum = -1 then .ok 0 else rd s._chFlags channelNum).bind fun chFlags =>
    if channelNum = -1 ∨ m._soTimeIndexFlag = true then
      .ok { channelNum := channelNum, chFlags := chFlags }
    else
      (rd s._chVoiceType channelNum).bind fun chVoiceType =>
      (rd m._voiceTypeStructPtrs chVoiceType).bind fun slot =>
      match slot with
      | none => .ok { channelNum := channelNum, chFlags := chFlags, chVoiceType := chVoiceType }
      | some vtStruct =>
        let found := if vtStruct._voiceType = VOICETYPE_0
          then findType0Voice channelNum vtStruct._entries else none
        .ok { channelNum := channelNum, chFlags := chFlags, chVoiceType := chVoiceType
              vtStruct := some chVoiceType.toNat, voiceType := vtStruct._voiceType
              voiceNum := match found with | some e => e._voiceNum | none => -1
              driver := found.map fun e => e._driver }

/-- How one pass through the decode loop ends: go on at a new read position,
or return from `_soServiceTrackType0`. -/
inductive Decoded where
  | more (m : Manager) (pos : Nat)
  | done (m : Manager)

/-- The manager state carried by a decode-loop result. -/
def Decoded.mgr : Decoded → Manager
  | Decoded.more m _ => m
  | Decoded.done m => m

/-- Run an operation on the entries of the group `vtStruct` points to and log
its driver calls. -/
def onGroup (m : Manager) (vtStruct : Option Nat)
    (f : List VoiceStructEntry → Except Fault (List VoiceStructEntry × List DriverCall)) :
    Except Fault Manager :=
  (getGroup m._voiceTypeStructPtrs vtStruct).bind fun vs =>
  (f vs._entries).map fun r =>
    { m with _voiceTypeStructPtrs := setEntries (vtStruct.getD 0) r.1 m._voiceTypeStructPtrs
             log := m.log ++ r.2 }

/-- A driver call guarded by `assert(driver)`. -/
def callDriver (m : Manager) (driver : Option Nat) (call : Nat → DriverCall) :
    Except Fault Manager :=
  match driver with
  | none => .error .assertFailed
  | some d => .ok (m.emit [call d])

/-- Area #1: a byte with the top bit clear. -/
def area1 (ctx : TrackCtx) (h : Nat) (m : Manager) (v pos : Nat) : Except Fault Decoded :=
  if m._soTimeIndexFlag = false ∧ ctx.channelNum ≠ -1 then
    if ctx.voiceType = VOICETYPE_1 then
      (onGroup m ctx.vtStruct fun es =>
        _soUpdateDamper (m.sound h) h es ctx.channelNum v).map fun m1 => Decoded.more m1 pos
    else if ctx.voiceNum ≠ -1 then
      (callDriver m ctx.driver fun d => DriverCall.proc18 d ctx.voiceNum ctx.chVoiceType).map
        fun m1 => Decoded.more m1 pos
    else .ok (Decoded.more m pos)
  else .ok (Decoded.more m pos)

/-- Area #2: `10xxxxxx`. -/
def area2 (ctx : TrackCtx) (h : Nat) (data : List Nat) (m : Manager) (v pos : Nat) :
    Except Fault Decoded :=
  if m._soTimeIndexFlag = false then
    (rdByte data pos).bind fun b =>
    let v1 : Nat := if b &&& 0x80 ≠ 0 then ((v <<< 1) % 256) ||| 1 else (v <<< 1) % 256
    let b1 : Nat := b &&& 0x7f
    if ctx.channelNum ≠ -1 then
      if ctx.voiceType = VOICETYPE_1 then
        (onGroup m ctx.vtStruct fun es =>
          if Int.land ctx.chFlags 0x10 ≠ 0 then
            _soProc42 h es ctx.channelNum ctx.chVoiceType v1
              ((m.sound h)._channelData.take (m.sound h)._numTracks.toNat)
          else _soProc32 (m.sound h) h es ctx.channelNum v1 b1).map
          fun m1 => Decoded.more m1 (pos + 1)
      else if ctx.voiceNum ≠ -1 then
        (callDriver m ctx.driver fun d => DriverCall.proc20 d ctx.voiceNum ctx.chVoiceType).map
          fun m1 => Decoded.more m1 (pos + 1)
      else .ok (Decoded.more m (pos + 1))
    else .ok (Decoded.more m (pos + 1))
  else .ok (Decoded.more m (pos + 1))

/-- An integer reduced to the range of a 32-bit `int` (two's complement). -/
def wrapInt32 (x : Int) : Int := (x + 2147483648) % 4294967296 - 2147483648

/-- The loop "Gather up an extended number" of Area #3 over the bytes from the
read position on: `(trkRest, read position)` after the last continuation
byte.  The loop tests the byte at the read position, so it needs one there.
`trkRest` is an `int`: `(trkRest << 5) | (b & 0x1f)` is `trkRest * 32` plus the
digit (the low five bits of the shifted value are 0), reduced to 32 bits. -/
def gatherRest : List Nat → Int → Nat → Except Fault (Int × Nat)
  | [], _, _ => .error .outOfBounds
  | b :: bs, trkRest, pos =>
    if b &&& 0xE0 = 0xC0 then
      gatherRest bs (wrapInt32 (trkRest * 32 + ((b &&& 0x1f : Nat) : Int))) (pos + 1)
    else .ok (trkRest, pos)

/-- Area #3: `110xxxxx`, a rest.  The store `trkRest - 1` is `int` arithmetic. -/
def area3 (h : Nat) (trackIndex : Int) (data : List Nat) (m : Manager) (v pos : Nat) :
    Except Fault Decoded :=
  (gatherRest (data.drop pos) ((v &&& 0x1f : Nat) : Int) pos).bind fun r =>
  (wr (m.sound h)._trkRest trackIndex (wrapInt32 (r.1 - 1))).bind fun trkRest =>
  (wr (m.sound h)._trkIndex trackIndex (r.2 : Int)).map fun trkIndex =>
    Decoded.done (m.setSound h { m.sound h with _trkRest := trkRest, _trkIndex := trkIndex })

/-- The table `cmdList` of Area #4 (32 entries, the first four initialised). -/
def cmdList : List Int := [1, 7, 10, 64] ++ List.replicate 28 0

/-- The common tail of Area #4 and Area #6 for an assigned channel: store the
value, then pass the command on to the voices of the channel. -/
def trackCommand (ctx : TrackCtx) (h : Nat) (trackIndex : Int) (m : Manager)
    (cmd value : Int) (scale : Bool) : Except Fault Manager :=
  (rd (m.sound h)._trkChannel trackIndex).bind fun trkChannel =>
  (_soDoTrackCommand (m.sound h) trkChannel cmd value).bind fun s1 =>
  let m1 := m.setSound h s1
  if m1._soTimeIndexFlag = false then
    let b : Int := if scale = true ∧ cmd = 7 then Int.emod (Int.tdiv (s1._volume * value) 127) 256
      else value
    if ctx.voiceType ≠ VOICETYPE_0 then
      (getGroup m1._voiceTypeStructPtrs ctx.vtStruct).map fun vs =>
        let r := _soProc38 h vs._entries ctx.channelNum cmd b
        { m1 with
          _voiceTypeStructPtrs := setEntries (ctx.vtStruct.getD 0) r.1.1 m1._voiceTypeStructPtrs
          log := m1.log ++ r.1.2
          _needToRethink := if r.2 = true then true else m1._needToRethink }
    else if ctx.voiceNum ≠ -1 then
      callDriver m1 ctx.driver fun d =>
        DriverCall.proc24 d ctx.voiceNum ctx.chVoiceType (some h) cmd b
    else .ok m1
  else .ok m1

/-- Area #4: `1110xxxx`, the short controller change. -/
def area4 (ctx : TrackCtx) (h : Nat) (trackIndex : Int) (data : List Nat) (m : Manager)
    (v pos : Nat) : Except Fault Decoded :=
  (rdByte data pos).bind fun b =>
  let v1 : Nat := if b &&& 0x80 ≠ 0 then ((v &&& 0xf) <<< 1) ||| 1 else (v &&& 0xf) <<< 1
  let b1 : Nat := b &&& 0x7f
  if ¬ (v1 < 4) then .error .assertFailed
  else
    let cmdVal := cmdList.getD v1 0
    if ctx.channelNum = -1 then
      let r := _soDoUpdateTracks (m.sound h) cmdVal b1
      if r.2 = true then .ok (Decoded.done (m.setSound h r.1))
      else .ok (Decoded.more (m.setSound h r.1) (pos + 1))
    else
      (trackCommand ctx h trackIndex m cmdVal b1 true).map fun m1 => Decoded.more m1 (pos + 1)

/-- Area #5: `11110xxx`, a 16-bit little-endian argument. -/
def area5 (ctx : TrackCtx) (data : List Nat) (m : Manager) (pos : Nat) : Except Fault Decoded :=
  if m._soTimeIndexFlag = false then
    (rdByte data pos).bind fun b0 =>
    (rdByte data (pos + 1)).bind fun b1 =>
    let cx : Int := ((b0 + 256 * b1 : Nat) : Int)
    if ctx.channelNum ≠ -1 then
      (callDriver m ctx.driver fun d => DriverCall.proc22 d ctx.voiceNum ctx.chVoiceType cx).map
        fun m1 => Decoded.more m1 (pos + 2)
    else .ok (Decoded.more m (pos + 2))
  else .ok (Decoded.more m (pos + 2))

/-- Area #6: `111110xx`, an explicit (command, value) pair. -/
def area6 (ctx : TrackCtx) (h : Nat) (trackIndex : Int) (data : List Nat) (m : Manager)
    (pos : Nat) : Except Fault Decoded :=
  (rdByte data pos).bind fun cmd =>
  (rdByte data (pos + 1)).bind fun value =>
  if ctx.channelNum ≠ -1 then
    (trackCommand ctx h trackIndex m cmd value false).map fun m1 => Decoded.more m1 (pos + 2)
  else
    let r := _soDoUpdateTracks (m.sound h) cmd value
    if r.2 = true then .ok (Decoded.done (m.setSound h r.1))
    else .ok (Decoded.more (m.setSound h r.1) (pos + 2))

/-- Area #7: `1111110x`, a 16-bit big-endian pitch bend. -/
def area7 (ctx : TrackCtx) (h : Nat) (trackIndex : Int) (data : List Nat) (m : Manager)
    (pos : Nat) : Except Fault Decoded :=
  if m._soTimeIndexFlag = false then
    (rdByte data pos).bind fun b0 =>
    (rdByte data (pos + 1)).bind fun b1 =>
    let pitchBlend : Int := ((256 * b0 + b1 : Nat) : Int)
    if ctx.channelNum ≠ -1 then
      (rd (m.sound h)._trkChannel trackIndex).bind fun channel =>
      (wr (m.sound h)._chPitchBlend channel pitchBlend).bind fun chPitchBlend =>
      let m1 := m.setSound h { m.sound h with _chPitchBlend := chPitchBlend }
      if ctx.voiceType ≠ VOICETYPE_0 then
        (getGroup m1._voiceTypeStructPtrs ctx.vtStruct).map fun vs =>
          Decoded.more (m1.emit (_soProc40 h vs._entries ctx.channelNum pitchBlend)) (pos + 2)
      else if ctx.voiceNum ≠ -1 then
        (callDriver m1 ctx.driver fun d => DriverCall.setPitchBlend d channel pitchBlend).map
          fun m2 => Decoded.more m2 (pos + 2)
      else .ok (Decoded.more m1 (pos + 2))
    else .ok (Decoded.more m (pos + 2))
  else .ok (Decoded.more m (pos + 2))

/-- Area #8: `11111110`, a program change (or a checkpoint on a control track). -/
def area8 (ctx : TrackCtx) (h : Nat) (trackIndex : Int) (data : List Nat) (m : Manager)
    (pos : Nat) : Except Fault Decoded :=
  (rdByte data pos).bind fun program =>
  if ctx.channelNum ≠ -1 then
    (rd (m.sound h)._trkChannel trackIndex).bind fun channel =>
    (wr (m.sound h)._chProgram channel (program : Int)).bind fun chProgram =>
    let m1 := m.setSound h { m.sound h with _chProgram := chProgram }
    if m1._soTimeIndexFlag = false ∧ ctx.voiceType = VOICETYPE_0 ∧ ctx.voiceNum ≠ -1 then
      (callDriver m1 ctx.driver fun d => DriverCall.setProgram d ctx.voiceNum program).map
        fun m2 => Decoded.more m2 (pos + 1)
    else .ok (Decoded.more m1 (pos + 1))
  else
    (_soSetTrackPos m._soTimeIndexFlag (m.sound h) trackIndex ((pos + 1 : Nat) : Int)
      program).map fun s1 => Decoded.more (m.setSound h s1) (pos + 1)

/-- Area #9: `11111111`, a value byte; its top bit ends the track. -/
def area9 (ctx : TrackCtx) (h : Nat) (trackIndex : Int) (data : List Nat) (m : Manager)
    (pos : Nat) : Except Fault Decoded :=
  (rdByte data pos).bind fun b =>
  if b &&& 0x80 ≠ 0 then
    (wr (m.sound h)._trkState trackIndex 0).bind fun trkState =>
    (wr (m.sound h)._trkIndex trackIndex ((pos + 1 : Nat) : Int)).map fun trkIndex =>
      Decoded.done (m.setSound h { m.sound h with _trkState := trkState, _trkIndex := trkIndex })
  else if m._soTimeIndexFlag = false ∧ ctx.channelNum ≠ -1 ∧ ctx.voiceType = VOICETYPE_0 ∧
      ctx.voiceNum ≠ -1 then
    (callDriver m ctx.driver fun d =>
      DriverCall.setVolume1 d ctx.voiceNum ctx.chVoiceType 0 b).map
      fun m1 => Decoded.more m1 (pos + 1)
  else .ok (Decoded.more m (pos + 1))

/-- One pass through the `for (;;)` decode loop: read the opcode at `pos` and
dispatch on its leading bits. -/
def decodeStep (ctx : TrackCtx) (h : Nat) (trackIndex : Int) (data : List Nat) (m : Manager)
    (pos : Nat) : Except Fault Decoded :=
  (rdByte data pos).bind fun v =>
  if v &&& 0x80 = 0 then area1 ctx h m v (pos + 1)
  else if v &&& 0x40 = 0 then area2 ctx h data m v (pos + 1)
  else if v &&& 0x20 = 0 then area3 h trackIndex data m v (pos + 1)
  else if v &&& 0x10 = 0 then area4 ctx h trackIndex data m v (pos + 1)
  else if v &&& 0x8 = 0 then area5 ctx data m (pos + 1)
  else if v &&& 0x4 = 0 then area6 ctx h trackIndex data m (pos + 1)
  else if v &&& 0x2 = 0 then area7 ctx h trackIndex data m (pos + 1)
  else if v &&& 0x1 = 0 then area8 ctx h trackIndex data m (pos + 1)
  else area9 ctx h trackIndex data m (pos + 1)

/-- The decode loop.  Every pass reads at least one byte, so it ends (with a
result or with a read outside the data) within `data.length + 1` passes. -/
def decodeLoop (ctx : TrackCtx) (h : Nat) (trackIndex : Int) (data : List Nat) :
    Nat → Manager → Nat → Except Fault Manager
  | 0, _, _ => .error .outOfFuel
  | fuel + 1, m, pos =>
    (decodeStep ctx h trackIndex data m pos).bind fun r =>
    match r with
    | Decoded.more m1 pos1 => decodeLoop ctx h trackIndex data fuel m1 pos1
    | Decoded.done m1 => .ok m1

/-- `Sound::_soServiceTrackType0`. -/
def _soServiceTrackType0 (m : Manager) (h : Nat) (trackIndex : Int) (channelData : List Nat) :
    Except Fault Manager :=
  (rd (m.sound h)._trkRest trackIndex).bind fun trkRest =>
  if trkRest ≠ 0 then
    (wr (m.sound h)._trkRest trackIndex (trkRest - 1)).map fun a =>
      m.setSound h { m.sound h with _trkRest := a }
  else
    (rd (m.sound h)._trkState trackIndex).bind fun trkState =>
    if trkState = 0 then .ok m
    else
      (trackCtx m (m.sound h) trackIndex).bind fun ctx =>
      (rd (m.sound h)._trkIndex trackIndex).bind fun trkIndex =>
      if trkIndex < 0 then .error .outOfBounds
      else decodeLoop ctx h trackIndex channelData (channelData.length + 1) m trkIndex.toNat

/-! ## Track decoding: `_soServiceTrackType1` and `_soServiceTracks` -/

/-- `Sound::_soServiceTrackType1`. -/
def _soServiceTrackType1 (m : Manager) (h : Nat) (trackIndex : Int) (channelData : List Nat) :
    Except Fault Manager :=
  (rd (m.sound h)._trkState trackIndex).bind fun trkState =>
  if m._soTimeIndexFlag = true ∨ trkState = 0 then .ok m
  else
    (rd (m.sound h)._trkChannel trackIndex).bind fun channel =>
    if channel = -1 then
      (wr (m.sound h)._trkState trackIndex 0).map fun a =>
        m.setSound h { m.sound h with _trkState := a }
    else
      (rd (m.sound h)._chVoiceType channel).bind fun voiceType =>
      (rd m._voiceTypeStructPtrs voiceType).bind fun slot =>
      match slot with
      | none =>
        (wr (m.sound h)._trkState trackIndex 0).map fun a =>
          m.setSound h { m.sound h with _trkState := a }
      | some vtStruct =>
        if vtStruct._voiceType ≠ VOICETYPE_0 ∧ trkState = 1 then
          (rdByte channelData 1).bind fun b1 =>
          let r := _soFindSound h vtStruct._entries b1
          if r.1 ≠ -1 then
            let e := vtStruct._entries.getD r.1.toNat default
            .ok { m with
              _voiceTypeStructPtrs := setEntries voiceType.toNat
                (updAt (fun x => { x with _type1 := { x._type1 with
                  _field6 := 0, _field4 := b1, _field5 := 0 } }) r.1.toNat vtStruct._entries)
                m._voiceTypeStructPtrs
              log := m.log ++ r.2 ++ [DriverCall.proc32 e._driver e._voiceNum (-1) b1 0x7f] }
          else .ok (m.emit r.2)
        else .ok m

/-- The loop of `_soServiceTracks` over the tracks from `trackCtr` on; the
Boolean is the local `flag`. -/
def serviceTrackLoop (h : Nat) : List (List Nat) → Int → Manager → Bool →
    Except Fault (Manager × Bool)
  | [], _, m, flag => .ok (m, flag)
  | channelData :: rest, trackCtr, m, flag =>
    (rdByte channelData 0).bind fun mode =>
    (if mode = 0 then _soServiceTrackType0 m h trackCtr channelData
     else if mode = 1 then _soServiceTrackType1 m h trackCtr channelData
     else .error .fatal).bind fun m1 =>
    (rd (m1.sound h)._trkState trackCtr).bind fun trkState =>
    serviceTrackLoop h rest (trackCtr + 1) m1 (if trkState ≠ 0 then false else flag)

/-- The end of `_soServiceTracks`, after the loop over the tracks: the timer,
the loop counter and the restart from the loop checkpoint. -/
def serviceTracksEnd (s : Sound) (flag : Bool) : Sound × Bool :=
  let s1 := { s with _timer := s._timer + 1 }
  if flag = false then (s1, false)
  else if s1._loop > 0 ∧ s1._loop - 1 = 0 then ({ s1 with _loop := s1._loop - 1 }, true)
  else
    let s2 := if s1._loop > 0 then { s1 with _loop := s1._loop - 1 } else s1
    ({ s2 with
        _trkState := copyFirst s2._numTracks.toNat s2._trkLoopState s2._trkState
        _trkRest := copyFirst s2._numTracks.toNat s2._trkLoopRest s2._trkRest
        _trkIndex := copyFirst s2._numTracks.toNat s2._trkLoopIndex s2._trkIndex
        _timer := s2._loopTimer }, false)

/-- `Sound::_soServiceTracks` for the sound with handle `h`, with the local
`flag` ("every track is stopped") kept next to the result: the new state, the
flag and the return value. -/
def serviceTracksFlagged (m : Manager) (h : Nat) : Except Fault (Manager × Bool × Bool) :=
  if (m.sound h)._isEmpty = true then .error .fatal
  else
    (serviceTrackLoop h ((m.sound h)._channelData.take (m.sound h)._numTracks.toNat) 0 m
      true).map fun r =>
      let e := serviceTracksEnd (r.1.sound h) r.2
      (r.1.setSound h e.1, r.2, e.2)

/-- `Sound::_soServiceTracks` for the sound with handle `h`: the new state and
the result ("the sound is complete"). -/
def _soServiceTracks (m : Manager) (h : Nat) : Except Fault (Manager × Bool) :=
  (serviceTracksFlagged m h).map fun r => (r.1, r.2.2)

/-! ## Fades and the sound server -/

/-- `SoundManager::suspendSoundServer`. -/
def suspendSoundServer (m : Manager) : Manager :=
  { m with _serverSuspendedCount := m._serverSuspendedCount + 1 }

/-- `SoundManager::restartSoundServer`. -/
def restartSoundServer (m : Manager) : Manager :=
  if m._serverSuspendedCount > 0 then
    { m with _serverSuspendedCount := m._serverSuspendedCount - 1 }
  else m

/-- `Sound::fade`. -/
def fade (m : Manager) (h : Nat) (fadeDest fadeTicks fadeSteps : Int)
    (stopAfterFadeFlag : Bool) : Manager :=
  let m1 := suspendSoundServer m
  let fadeDest := if fadeDest > 127 then 127 else fadeDest
  let fadeTicks := if fadeTicks > 127 then 127 else fadeTicks
  let fadeSteps := if fadeSteps > 255 then 255 else fadeSteps
  let m2 := m1.setSound h { m1.sound h with
    _fadeDest := fadeDest, _fadeTicks := fadeTicks, _fadeSteps := fadeSteps
    _fadeCounter := 0, _stopAfterFadeFlag := stopAfterFadeFlag }
  restartSoundServer m2

/-- The volume written by one fade step of `_sfProcessFading` (the `if` on
`s->_volume >= s->_fadeDest` and its two inner tests). -/
def fadeVolume (s : Sound) : Int :=
  if s._volume ≥ s._fadeDest then
    if s._fadeDest - s._volume > s._fadeSteps then s._volume + s._fadeSteps
    else s._fadeDest
  else
    if s._fadeDest > s._fadeSteps then s._volume - s._fadeSteps
    else s._fadeDest

/-- The inner loop of `_sfDoUpdateVolume` over the entries of one group. -/
def updateVolumeGroup (snd : Sound) (h : Nat) (voiceIndex : Nat) (voiceType : Int) :
    List VoiceStructEntry → Except Fault (List DriverCall)
  | [] => .ok []
  | vse :: rest =>
    (if voiceType = VOICETYPE_0 then
      if vse._type0._sound = none then
        (rd snd._chVolume vse._type0._channelNum).map fun chVolume =>
          [DriverCall.proc24 vse._driver voiceIndex vse._voiceNum (some h) 7
            (Int.tdiv (snd._volume * chVolume) 127)]
      else .ok []
    else
      if vse._type1._sound = none then
        (rd snd._chVolume vse._type1._channelNum).map fun chVolume =>
          [DriverCall.setVolume1 vse._driver voiceIndex vse._voiceNum 7
            (Int.tdiv (snd._volume * chVolume) 127)]
      else .ok []).bind fun calls =>
    (updateVolumeGroup snd h voiceIndex voiceType rest).map fun more => calls ++ more

/-- The outer loop of `_sfDoUpdateVolume` over the table, from slot
`voiceIndex` on. -/
def updateVolumeTable (snd : Sound) (h : Nat) : Nat → VoiceTable → Except Fault (List DriverCall)
  | _, [] => .ok []
  | voiceIndex, none :: rest => updateVolumeTable snd h (voiceIndex + 1) rest
  | voiceIndex, some vs :: rest =>
    (updateVolumeGroup snd h voiceIndex vs._voiceType vs._entries).bind fun calls =>
    (updateVolumeTable snd h (voiceIndex + 1) rest).map fun more => calls ++ more

/-- `SoundManager::_sfDoUpdateVolume`. -/
def _sfDoUpdateVolume (m : Manager) (h : Nat) : Except Fault Manager :=
  let m1 := { m with _serverSuspendedCount := m._serverSuspendedCount + 1 }
  (updateVolumeTable (m1.sound h) h 0 m1._voiceTypeStructPtrs).map fun calls =>
    { m1 with log := m1.log ++ calls, _serverSuspendedCount := m1._serverSuspendedCount - 1 }

/-- The removal of a sound from the play list inside `_sfProcessFading`. -/
def removeAsync (m : Manager) (h : Nat) : Manager :=
  let m1 := (_sfDoRemoveFromPlayList m h).1
  let m2 := m1.setSound h { m1.sound h with _stoppedAsynchronously := true }
  { m2 with _needToRethink := true }

/-- The fade part of the body of the first loop of `_sfProcessFading`, for the
sound `h`. -/
def fadeSound (m : Manager) (h : Nat) : Except Fault Manager :=
  let s := m.sound h
  if s._fadeDest ≠ -1 then
    if s._fadeCounter ≠ 0 then
      .ok (m.setSound h { s with _fadeCounter := s._fadeCounter - 1 })
    else
      let s1 := { s with _volume := fadeVolume s }
      (_sfDoUpdateVolume (m.setSound h s1) h).map fun m1 =>
        if s1._volume ≠ s1._fadeDest then
          m1.setSound h { m1.sound h with _fadeCounter := (m1.sound h)._fadeTicks }
        else
          let m2 := m1.setSound h { m1.sound h with _fadeDest := -1 }
          if (m2.sound h)._stopAfterFadeFlag = true then removeAsync m2 h else m2
  else .ok m

/-- The body of the first loop of `_sfProcessFading` for the sound `h`; the
Boolean is the local `removeFlag`, which lives across the passes. -/
def processFadingSound (st : Manager × Bool) (h : Nat) : Except Fault (Manager × Bool) :=
  (if (st.1.sound h)._pausedCount = 0 then _soServiceTracks st.1 h else .ok st).bind fun r =>
  let m1 := if r.2 = true then removeAsync r.1 h else r.1
  (fadeSound m1 h).map fun m2 => (m2, r.2)

/-- The second loop of `_sfProcessFading`: age the TYPE_1 entries. -/
def ageVoices (vts : VoiceTable) : VoiceTable :=
  vts.map (Option.map fun vtStruct =>
    if vtStruct._voiceType = VOICETYPE_1 then
      { vtStruct with _entries := vtStruct._entries.map fun e =>
          if e._type1._field6 ≥ -1 then
            { e with _type1 := { e._type1 with _field6 := e._type1._field6 + 1 } }
          else e }
    else vtStruct)

/-- `SoundManager::_sfProcessFading`.  The loop visits the nodes that were on
the play list at its start; a node is erased only at or before the visited
one. -/
def _sfProcessFading (m : Manager) : Except Fault Manager :=
  (m._playList.foldlM processFadingSound (m, false)).map fun r =>
    { r.1 with _voiceTypeStructPtrs := ageVoices r.1._voiceTypeStructPtrs }

/-- The loop `do { _sfProcessFading(); } while (_serverSuspendedCount > 0)`. -/
def fadingLoop : Nat → Manager → Except Fault Manager
  | 0, _ => .error .outOfFuel
  | fuel + 1, m =>
    (_sfProcessFading m).bind fun m1 =>
    if m1._serverSuspendedCount > 0 then fadingLoop fuel m1 else .ok m1

/-- `SoundManager::_sfSoundServer`; `fuel` bounds the passes of its fading
loop. -/
def _sfSoundServer (fuel : Nat) (m : Manager) : Except Fault Manager :=
  if m._serverDisabledCount = 0 ∧ m._serverSuspendedCount = 0 then .ok m
  else
    (if m._needToRethink = true then
      (_sfRethinkVoiceTypes m).map fun m1 => { m1 with _needToRethink := false }
     else .ok m).bind fun m1 =>
    (fadingLoop fuel m1).map fun m2 =>
      m2.emit (m2._installedDrivers.map fun d => DriverCall.poll d)

/-! ## The server counters and the public interface of `Sound` -/

/-- `SoundManager::disableSoundServer`. -/
def disableSoundServer (m : Manager) : Manager :=
  { m with _serverDisabledCount := m._serverDisabledCount + 1 }

/-- `SoundManager::enableSoundServer`. -/
def enableSoundServer (m : Manager) : Manager :=
  if m._serverDisabledCount > 0 then
    { m with _serverDisabledCount := m._serverDisabledCount - 1 }
  else m

/-- `SoundManager::rethinkVoiceTypes`. -/
def rethinkVoiceTypes (m : Manager) : Except Fault Manager := _sfRethinkVoiceTypes m

/-- `Sound::isPaused`. -/
def isPaused (m : Manager) (h : Nat) : Bool := decide ((m.sound h)._pausedCount ≠ 0)

/-- `Sound::isMuted`. -/
def isMuted (m : Manager) (h : Nat) : Bool := decide ((m.sound h)._mutedCount ≠ 0)

/-- `Sound::pause`. -/
def pause (m : Manager) (h : Nat) (flag : Bool) : Except Fault Manager :=
  let m1 := suspendSoundServer m
  let s := m1.sound h
  let s1 := if flag = true then { s with _pausedCount := s._pausedCount + 1 }
    else if s._pausedCount > 0 then { s with _pausedCount := s._pausedCount - 1 } else s
  (rethinkVoiceTypes (m1.setSound h s1)).map restartSoundServer

/-- `Sound::mute`. -/
def mute (m : Manager) (h : Nat) (flag : Bool) : Except Fault Manager :=
  let m1 := suspendSoundServer m
  let s := m1.sound h
  let s1 := if flag = true then { s with _mutedCount := s._mutedCount + 1 }
    else if s._mutedCount > 0 then { s with _mutedCount := s._mutedCount - 1 } else s
  (rethinkVoiceTypes (m1.setSound h s1)).map restartSoundServer

/-- `SoundManager::removeFromSoundList` (`_soundList.remove(sound)` drops every
node holding the sound). -/
def removeFromSoundList (m : Manager) (h : Nat) : Manager :=
  { m with _soundList := m._soundList.filter fun x => x ≠ h }

/-- `SoundManager::_sfIsOnPlayList` (the body of `isOnPlayList`); the
suspension count it raises is lowered again before it returns. -/
def _sfIsOnPlayList (m : Manager) (h : Nat) : Bool := m._playList.contains h

/-- `Sound::isPlaying`. -/
def isPlaying (m : Manager) (h : Nat) : Bool := _sfIsOnPlayList m h

/-- `Sound::isPrimed`. -/
def isPrimed (m : Manager) (h : Nat) : Bool := (m.sound h)._primed

/-- `Sound::_unPrime`.  `DEALLOCATE` releases the track buffers and leaves the
pointers in `_channelData` as they are. -/
def _unPrime (m : Manager) (h : Nat) : Manager :=
  if (m.sound h)._primed = true then
    let m1 := m.setSound h { m.sound h with _numTracks := 0 }
    let m2 := removeFromSoundList m1 h
    m2.setSound h { m2.sound h with _primed := false, _stoppedAsynchronously := false }
  else m

/-- `Sound::stop`. -/
def stop (m : Manager) (h : Nat) : Manager := _unPrime m h

/-- `Sound::unPrime`. -/
def unPrime (m : Manager) (h : Nat) : Manager := stop m h

/-- `Sound::go` (`addToPlayList` is `_sfAddToPlayList`). -/
def go (m : Manager) (h : Nat) : Except Fault Manager :=
  if (m.sound h)._primed = false then .error .fatal
  else _sfAddToPlayList m h

/-- `Sound::halt` (`removeFromPlayList` is `_sfRemoveFromPlayList`). -/
def halt (m : Manager) (h : Nat) : Except Fault Manager := _sfRemoveFromPlayList m h

/-- `SoundManager::_sfUpdateVolume` (the body of `updateSoundVol`). -/
def _sfUpdateVolume (m : Manager) (h : Nat) : Except Fault Manager := _sfDoUpdateVolume m h

/-- `Sound::setVol`. -/
def setVol (m : Manager) (h : Nat) (volume : Int) : Except Fault Manager :=
  let volume := if volume > 127 then 127 else volume
  if (m.sound h)._volume ≠ volume then
    let m1 := m.setSound h { m.sound h with _volume := volume }
    if isPlaying m1 h = true then _sfUpdateVolume m1 h else .ok m1
  else .ok m

/-- `Sound::getVol`. -/
def getVol (m : Manager) (h : Nat) : Int := (m.sound h)._volume

/-- `SoundManager::_sfUpdatePriority` (the body of `updateSoundPri`). -/
def _sfUpdatePriority (m : Manager) (h : Nat) : Except Fault Manager :=
  let m1 := { m with _serverSuspendedCount := m._serverSuspendedCount + 1 }
  let s := m1.sound h
  let tempPriority := if s._fixedPriority = 255 then s._sndResPriority else s._priority
  (if s._priority ≠ tempPriority then
    let m2 := m1.setSound h { s with _priority := tempPriority }
    let r := _sfDoRemoveFromPlayList m2 h
    if r.2 = true then _sfRethinkVoiceTypes (_sfDoAddToPlayList r.1 h) else .ok r.1
   else .ok m1).map fun m3 =>
    { m3 with _serverSuspendedCount := m3._serverSuspendedCount - 1 }

/-- `Sound::setPri`. -/
def setPri (m : Manager) (h : Nat) (priority : Int) : Except Fault Manager :=
  let priority := if priority > 127 then 127 else priority
  _sfUpdatePriority (m.setSound h { m.sound h with _fixedPriority := priority }) h

/-- `Sound::getPri`. -/
def getPri (m : Manager) (h : Nat) : Int := (m.sound h)._priority

/-! ## Sound resources: header fields and the group table -/

/-- `READ_LE_UINT16(data + pos)`. -/
def READ_LE_UINT16 (data : List Nat) (pos : Nat) : Except Fault Nat :=
  (rdByte data pos).bind fun b0 =>
  (rdByte data (pos + 1)).map fun b1 => b0 % 256 + 256 * (b1 % 256)

/-- `READ_LE_UINT32(data + pos)`. -/
def READ_LE_UINT32 (data : List Nat) (pos : Nat) : Except Fault Nat :=
  (rdByte data pos).bind fun b0 =>
  (rdByte data (pos + 1)).bind fun b1 =>
  (rdByte data (pos + 2)).bind fun b2 =>
  (rdByte data (pos + 3)).map fun b3 =>
    b0 % 256 + 256 * (b1 % 256) + 65536 * (b2 % 256) + 16777216 * (b3 % 256)

/-- The value of a `uint32` converted to `int`. -/
def uint32ToInt (v : Nat) : Int :=
  if v % 4294967296 < 2147483648 then ((v % 4294967296 : Nat) : Int)
  else ((v % 4294967296 : Nat) : Int) - 4294967296

/-- The value of a `byte` converted to `int8`. -/
def byteToInt8 (b : Nat) : Int :=
  if b % 256 < 128 then ((b % 256 : Nat) : Int) else ((b % 256 : Nat) : Int) - 256

/-- `SoundManager::checkResVersion`. -/
def checkResVersion (m : Manager) (soundData : List Nat) : Except Fault Unit :=
  (READ_LE_UINT16 soundData 4).bind fun maxVersion =>
  (READ_LE_UINT16 soundData 6).bind fun minVersion =>
  if m._ourSndResVersion < (minVersion : Int) then .error .fatal
  else if m._ourSndResVersion > (maxVersion : Int) then .error .fatal
  else .ok ()

/-- `SoundManager::extractPriority`. -/
def extractPriority (soundData : List Nat) : Except Fault Int :=
  (READ_LE_UINT16 soundData 12).map fun v => (v : Int)

/-- `SoundManager::extractLoop`. -/
def extractLoop (soundData : List Nat) : Except Fault Int :=
  (READ_LE_UINT16 soundData 14).map fun v => (v : Int)

/-- The `while` loop of `_sfDetermineGroup` with the pointer `p` as an offset
into the resource.  Every pass moves `p` forward by at least six bytes. -/
def determineGroupLoop (groupsAvail : Nat) (soundData : List Nat) :
    Nat → Nat → Except Fault Int
  | 0, _ => .error .outOfFuel
  | fuel + 1, p =>
    (READ_LE_UINT32 soundData p).bind fun v =>
    if v = 0 then .ok 0
    else if v &&& groupsAvail = v then .ok (uint32ToInt v)
    else
      (READ_LE_UINT16 soundData (p + 4)).bind fun count =>
      determineGroupLoop groupsAvail soundData fuel (p + (6 + count * 4))

/-- `SoundManager::_sfDetermineGroup` (the body of `determineGroup`). -/
def _sfDetermineGroup (m : Manager) (soundData : List Nat) : Except Fault Int :=
  (READ_LE_UINT16 soundData 8).bind fun offset =>
  determineGroupLoop m._groupsAvail soundData (soundData.length + 1) offset

/-- `SoundManager::_sfExtractGroupMask`; `groupMask d` is the field
`_groupMask` of driver `d`. -/
def _sfExtractGroupMask (groupMask : Nat → Nat) (m : Manager) : Manager :=
  { m with _groupsAvail :=
      m._installedDrivers.foldl (fun mask d => mask ||| groupMask d % 4294967296) 0 }

/-! ## `_sfRethinkSoundDrivers` -/

/-- The loop `while (*groupData != 0xff) ++groupData;` over the bytes from
offset `pos` on; the result is the offset of the `0xff`. -/
def skipToEnd : List Nat → Nat → Except Fault Nat
  | [], _ => .error .outOfBounds
  | b :: rest, pos => if b ≠ 0xff then skipToEnd rest (pos + 1) else .ok pos

/-- The loop `while (*groupData++ != 0xff) ++total;` over the bytes from offset
`pos` on; the result is the offset behind the `0xff` and the new total. -/
def countToEnd : List Nat → Nat → Int → Except Fault (Nat × Int)
  | [], _, _ => .error .outOfBounds
  | b :: rest, pos, total =>
    if b ≠ 0xff then countToEnd rest (pos + 1) (total + 1) else .ok (pos + 1, total)

/-- The first `while (*groupData != 0xff)` loop of `_sfRethinkSoundDrivers`
for one driver: the state is the offset into the group data, `flag` and
`total`.  Every pass moves the offset forward. -/
def countVoices (data : List Nat) (idx : Int) : Nat → Nat → Nat → Int → Except Fault (Nat × Int)
  | 0, _, _, _ => .error .outOfFuel
  | fuel + 1, pos, flag, total =>
    (rdByte data pos).bind fun byteVal =>
    if byteVal = 0xff then .ok (flag, total)
    else if (byteVal : Int) = idx then
      (rdByte data (pos + 1)).bind fun byteVal2 =>
      (if flag = 0xff then Except.ok byteVal2
       else if flag = byteVal2 then Except.ok flag
       else Except.error Fault.assertFailed).bind fun flag1 =>
      if flag1 = 0 then
        (countToEnd (data.drop (pos + 2)) (pos + 2) total).bind fun r =>
        countVoices data idx fuel r.1 flag1 r.2
      else
        (rdByte data (pos + 2)).bind fun n =>
        countVoices data idx fuel (pos + 4) flag1 (total + (n : Int))
    else
      (rdByte data (pos + 1)).bind fun b1 =>
      if b1 = 0 then
        (skipToEnd (data.drop (pos + 2)) (pos + 2)).bind fun p =>
        countVoices data idx fuel (p + 1) flag total
      else countVoices data idx fuel (pos + 4) flag total

/-- The loop `while ((byteVal = *groupData++) != 0xff)` that appends one TYPE_0
entry per byte; the result is the offset behind the `0xff` and the new
entries. -/
def type0Entries (driver : Nat) : List Nat → Nat → Except Fault (Nat × List VoiceStructEntry)
  | [], _ => .error .outOfBounds
  | b :: rest, pos =>
    if b ≠ 0xff then
      (type0Entries driver rest (pos + 1)).map fun r =>
        (r.1, { _field1 := if b &&& 0x80 ≠ 0 then 0 else 1, _driver := driver } :: r.2)
    else .ok (pos + 1, [])

/-- The entries appended by `for (idx = 0; idx < byteVal; ++idx)` of the TYPE_1
branch. -/
def type1Entries (driver : Nat) (byteVal : Nat) : List VoiceStructEntry :=
  (List.range byteVal).map fun i =>
    { _voiceNum := (i : Int), _driver := driver, _type1 := { _field4 := -1 } }

/-- The second `while (*groupData != 0xff)` loop of `_sfRethinkSoundDrivers`
for one driver.  The state is the offset into the group data, the variable
`idx` of the enclosing `for` loop (the TYPE_1 branch counts with it) and the
entries pushed so far. -/
def buildEntries (driver : Nat) (data : List Nat) (flag : Nat) :
    Nat → Nat → Int → List VoiceStructEntry → Except Fault (Int × List VoiceStructEntry)
  | 0, _, _, _ => .error .outOfFuel
  | fuel + 1, pos, idx, es =>
    (rdByte data pos).bind fun byteVal =>
    if byteVal = 0xff then .ok (idx, es)
    else if (byteVal : Int) = idx then
      if flag = 0 then
        (type0Entries driver (data.drop (pos + 2)) (pos + 2)).bind fun r =>
        buildEntries driver data flag fuel r.1 idx (es ++ r.2)
      else
        (rdByte data (pos + 2)).bind fun n =>
        buildEntries driver data flag fuel (pos + 4) (n : Int) (es ++ type1Entries driver n)
    else
      (rdByte data (pos + 1)).bind fun b1 =>
      if b1 ≠ 0 then
        (skipToEnd (data.drop (pos + 2)) (pos + 2)).bind fun p =>
        buildEntries driver data flag fuel p idx es
      else buildEntries driver data flag fuel (pos + 4) idx es

/-- The second `for (idx = 0; idx < SOUND_ARR_SIZE; ++idx)` loop of
`_sfRethinkSoundDrivers`; `groupData d` is the data `_groupOffset->pData` of
driver `d`.  The TYPE_1 branch of the body overwrites `idx`, so the number of
passes has no bound in general and is limited by `fuel`. -/
def rethinkDriversLoop (groupData : Nat → List Nat) (drivers : List Nat) :
    Nat → Int → VoiceTable → Except Fault VoiceTable
  | 0, _, _ => .error .outOfFuel
  | fuel + 1, idx, vts =>
    if idx < 16 then
      (drivers.foldlM (fun (st : Nat × Int) d =>
        countVoices (groupData d) idx ((groupData d).length + 1) 0 st.1 st.2) (0xff, 0)).bind
      fun ft =>
      if ft.2 ≠ 0 then
        (wr vts idx (some { _voiceType := if ft.1 = 0 then VOICETYPE_0 else VOICETYPE_1,
                            _total := ft.2, _numVoices := ft.2, _field3 := 0 })).bind fun vts1 =>
        (drivers.foldlM (fun (st : Int × List VoiceStructEntry) d =>
          buildEntries d (groupData d) ft.1 ((groupData d).length + 1) 0 st.1 st.2)
          (idx, [])).bind fun r =>
        rethinkDriversLoop groupData drivers fuel (r.1 + 1) (setEntries idx.toNat r.2 vts1)
      else rethinkDriversLoop groupData drivers fuel (idx + 1) vts
    else .ok vts

/-- `SoundManager::_sfRethinkSoundDrivers`; `fuel` bounds the passes of its
second loop. -/
def _sfRethinkSoundDrivers (groupData : Nat → List Nat) (fuel : Nat) (m : Manager) :
    Except Fault Manager :=
  (rethinkDriversLoop groupData m._installedDrivers fuel 0
    (List.replicate SOUND_ARR_SIZE none)).map fun vts => { m with _voiceTypeStructPtrs := vts }

/-- The group data of the Adlib driver (`adlib_group_data`). -/
def adlib_group_data : List Nat := [1, 1, 9, 1, 0xff]

/-! ## Priming a sound -/

/-- The assignments to the track state of track `idx` at the end of the loop
body of `_soPrimeChannelData` (`start` is 14 for mode 0 and 0 for mode 1). -/
def primeTrackState (s : Sound) (idx : Int) (start : Int) : Except Fault Sound :=
  (wr s._trkState idx 1).bind fun trkState =>
  (wr s._trkLoopState idx 1).bind fun trkLoopState =>
  (wr s._trkIndex idx start).bind fun trkIndex =>
  (wr s._trkLoopIndex idx start).bind fun trkLoopIndex =>
  (wr s._trkRest idx 0).bind fun trkRest =>
  (wr s._trkLoopRest idx 0).map fun trkLoopRest =>
    { s with _trkState := trkState, _trkLoopState := trkLoopState, _trkIndex := trkIndex
             _trkLoopIndex := trkLoopIndex, _trkRest := trkRest, _trkLoopRest := trkLoopRest }

/-- The block `if (channelNum >= 0)` of `_soPrimeChannelData`: the channel
set-up read from the track header `d`. -/
def primeChannel (s : Sound) (idx : Int) (d : List Nat) (channelNum : Int) :
    Except Fault Sound :=
  (rdByte d 10).bind fun program =>
  (wr s._chProgram channelNum (program : Int)).bind fun chProgram =>
  (wr s._chModulation channelNum 0).bind fun chModulation =>
  (rdByte d 11).bind fun volume =>
  (wr s._chVolume channelNum (volume : Int)).bind fun chVolume =>
  (rdByte d 12).bind fun pan =>
  (wr s._chPan channelNum (pan : Int)).bind fun chPan =>
  (wr s._chDamper channelNum 0).bind fun chDamper =>
  (rd s._voiceTypes idx).bind fun voiceType =>
  (wr s._chVoiceType channelNum voiceType).bind fun chVoiceType =>
  (rdByte d 6).bind fun numVoices =>
  (wr s._chNumVoices channelNum (numVoices : Int)).bind fun chNumVoices =>
  (rdByte d 7).bind fun subPriority =>
  (wr s._chSubPriority channelNum (subPriority : Int)).bind fun chSubPriority =>
  (wr s._chPitchBlend channelNum 0x2000).bind fun chPitchBlend =>
  (READ_LE_UINT16 d 8).bind fun flags =>
  (wr s._chFlags channelNum (flags : Int)).map fun chFlags =>
    { s with _chProgram := chProgram, _chModulation := chModulation, _chVolume := chVolume
             _chPan := chPan, _chDamper := chDamper, _chVoiceType := chVoiceType
             _chNumVoices := chNumVoices, _chSubPriority := chSubPriority
             _chPitchBlend := chPitchBlend, _chFlags := chFlags }

/-- The body of the loop over the tracks in `_soPrimeChannelData` up to the
test of the track mode: the new state and the mode byte. -/
def primeTrackHead (s : Sound) (idx : Nat) : Except Fault (Sound × Nat) :=
  (rd s._channelData (idx : Int)).bind fun d =>
  (rdByte d 0).bind fun mode =>
  (rdByte d 1).bind fun b1 =>
  let channelNum := byteToInt8 b1
  (wr s._trkChannel (idx : Int) channelNum).bind fun trkChannel =>
  let s1 := { s with _trkChannel := trkChannel }
  if ¬ (channelNum ≥ -1 ∧ channelNum < 16) then .error .assertFailed
  else
    (if channelNum ≥ 0 then primeChannel s1 (idx : Int) d channelNum else .ok s1).map fun s2 =>
      (s2, mode)

/-- The body of the loop over the tracks in `_soPrimeChannelData`. -/
def primeTrack (s : Sound) (idx : Nat) : Except Fault Sound :=
  (primeTrackHead s idx).bind fun r =>
  if r.2 = 0 then primeTrackState r.1 (idx : Int) 14
  else if r.2 = 1 then primeTrackState r.1 (idx : Int) 0
  else .error .fatal

/-- `Sound::_soPrimeChannelData`. -/
def _soPrimeChannelData (s : Sound) : Except Fault Sound :=
  if s._isEmpty = true then
    let s1 := { s with
      _chProgram := List.replicate 16 0, _chModulation := List.replicate 16 0
      _chVolume := List.replicate 16 127, _chPan := List.replicate 16 64
      _chDamper := List.replicate 16 0, _chVoiceType := List.replicate 16 VOICETYPE_0
      _chNumVoices := List.replicate 16 0, _chSubPriority := List.replicate 16 0
      _chPitchBlend := List.replicate 16 0x2000, _chFlags := List.replicate 16 1 }
    (wr s1._trkChannel 0 0).bind fun trkChannel =>
    (wr s1._trkState 0 1).bind fun trkState =>
    (wr s1._trkLoopState 0 1).bind fun trkLoopState =>
    (wr s1._trkIndex 0 0).bind fun trkIndex =>
    (wr s1._trkLoopIndex 0 0).map fun trkLoopIndex =>
      { s1 with _trkChannel := trkChannel, _trkState := trkState
                _trkLoopState := trkLoopState, _trkIndex := trkIndex
                _trkLoopIndex := trkLoopIndex }
  else
    (List.range s._numTracks.toNat).foldlM primeTrack
      { s with _chFlags := List.replicate SOUND_ARR_SIZE 0x8000 }

/-- `Sound::_soPrimeSound`. -/
def _soPrimeSound (s : Sound) (dontQueue : Bool) : Except Fault Sound :=
  let s1 := if dontQueue = false then
      { s with
        _priority := if s._fixedPriority ≠ -1 then s._fixedPriority else s._sndResPriority
        _loop := if s._fixedLoop = 0 then s._fixedLoop else s._sndResLoop
        _pausedCount := 0, _mutedCount := 0, _hold := -1, _cueValue := -1, _fadeDest := -1
        _fadeSteps := 0, _fadeTicks := 0, _fadeCounter := 0, _stopAfterFadeFlag := false }
    else s
  _soPrimeChannelData { s1 with _timer := 0, _loopTimer := 0 }

/-! ## Installing a driver -/

/-- What `installDriver` takes from outside the sound manager: the value of
`ADLIB_DRIVER_NUM`, the handle of the driver object that `instantiateDriver`
creates, the result of its `open()`, whether the patch-bank resource is found,
and the bound on the passes of `_sfRethinkSoundDrivers`. -/
structure DriverEnv where
  adlibDriverNum : Int
  newDriver : Nat
  opens : Bool
  hasBank : Bool
  fuel : Nat

/-- Field `_driverResID` of a driver: the `SoundDriver` constructor sets it to
0 and nothing assigns it afterwards. -/
def _driverResID (_d : Nat) : Int := 0

/-- Fields `_minVersion` and `_maxVersion` set by the `AdlibSoundDriver`
constructor, the only driver class that `instantiateDriver` creates. -/
def adlibVersions : Int × Int := (0x102, 0x10A)

/-- Field `_groupData.groupMask` set by the `AdlibSoundDriver` constructor. -/
def adlibGroupMask : Nat := 9

/-- `SoundManager::isInstalled`. -/
def isInstalled (m : Manager) (driverNum : Int) : Bool :=
  m._installedDrivers.any fun d => decide (_driverResID d = driverNum)

/-- The loops `for (i = _playList.begin(); ...) (*i)->mute(flag)` of
`installDriver`. -/
def muteAll (flag : Bool) (m : Manager) : Except Fault Manager :=
  m._playList.foldlM (fun st h => mute st h flag) m

/-- `SoundManager::_sfInstallDriver`: the new state and the result.  Every
installed driver is an `AdlibSoundDriver`, with its group data and mask. -/
def _sfInstallDriver (env : DriverEnv) (m : Manager) (driver : Nat) :
    Except Fault (Manager × Bool) :=
  if env.opens = false then .ok (m, false)
  else
    let m1 := { m with _installedDrivers := m._installedDrivers ++ [driver] }
    let m2 := _sfExtractGroupMask (fun _ => adlibGroupMask) m1
    (_sfRethinkSoundDrivers (fun _ => adlib_group_data) env.fuel m2).map fun m3 =>
      (m3.emit [DriverCall.setMasterVolume driver m3._masterVol], true)

/-- `SoundManager::_sfUnInstallDriver`. -/
def _sfUnInstallDriver (env : DriverEnv) (m : Manager) (driver : Nat) : Except Fault Manager :=
  let m1 := { m with _installedDrivers := m._installedDrivers.filter fun d => d ≠ driver }
  let m2 := _sfExtractGroupMask (fun _ => adlibGroupMask) m1
  _sfRethinkSoundDrivers (fun _ => adlib_group_data) env.fuel m2

/-- `SoundManager::_sfInstallPatchBank`. -/
def _sfInstallPatchBank (m : Manager) (driver : Nat) : Manager :=
  m.emit [DriverCall.installPatch driver]

/-- `SoundManager::installDriver`. -/
def installDriver (env : DriverEnv) (m : Manager) (driverNum : Int) : Except Fault Manager :=
  if isInstalled m driverNum = true then .ok m
  else if driverNum ≠ env.adlibDriverNum then .error .assertFailed
  else if ¬ (m._ourDrvResVersion ≥ adlibVersions.1 ∧ m._ourDrvResVersion ≤ adlibVersions.2) then
    .error .assertFailed
  else
    (muteAll true (disableSoundServer m)).bind fun m2 =>
    (_sfInstallDriver env m2 env.newDriver).bind fun r =>
    if r.2 = false then .error .fatal
    else if env.hasBank = true then .ok (_sfInstallPatchBank r.1 env.newDriver)
    else
      (_sfUnInstallDriver env r.1 env.newDriver).bind fun m4 =>
      (muteAll false m4).map enableSoundServer

/-! ## Seeking to a time index -/

/-- The loop `while (timeIndex > 0)` of `_soSetTimeIndex`.  Its body never
changes `timeIndex`, so it ends only when `_soServiceTracks` returns true;
`fuel` bounds the passes. -/
def timeIndexLoop (h : Nat) (timeIndex : Nat) : Nat → Manager → Except Fault Manager
  | 0, _ => .error .outOfFuel
  | fuel + 1, m =>
    if timeIndex > 0 then
      (_soServiceTracks m h).bind fun r =>
      if r.2 = true then .ok (removeAsync r.1 h) else timeIndexLoop h timeIndex fuel r.1
    else .ok m

/-- `Sound::_soSetTimeIndex` for the sound with handle `h`; `fuel` bounds the
passes of its loop.  The test `timeIndex != _timer` compares as `uint`. -/
def _soSetTimeIndex (fuel : Nat) (m : Manager) (h : Nat) (timeIndex : Nat) :
    Except Fault Manager :=
  let m1 := { m with _serverDisabledCount := m._serverDisabledCount + 1 }
  (if (timeIndex : Int) ≠ Int.emod (m1.sound h)._timer 4294967296 then
    let m2 := { m1 with _soTimeIndexFlag := true }
    (_soPrimeChannelData { m2.sound h with _timer := 0, _loopTimer := 0 }).bind fun s =>
    (timeIndexLoop h timeIndex fuel (m2.setSound h s)).map fun m3 =>
      { m3 with _soTimeIndexFlag := false }
   else .ok m1).map fun m4 => { m4 with _serverDisabledCount := m4._serverDisabledCount - 1 }

/-- `Sound::setTimeIndex`. -/
def setTimeIndex (fuel : Nat) (m : Manager) (h : Nat) (timeIndex : Nat) : Except Fault Manager :=
  if (m.sound h)._primed = true then
    (mute m h true).bind fun m1 =>
    (_soSetTimeIndex fuel m1 h timeIndex).bind fun m2 => mute m2 h false
  else .ok m

/-! ## The Adlib driver: frequency registers -/

/-- The frequency table `v440D4`. -/
def v440D4 : List Int :=
  [343, 348, 353, 358, 363, 369, 374, 379, 385, 391, 396,
   402, 408, 414, 420, 426, 432, 438, 445, 451, 458, 465,
   471, 478, 485, 492, 499, 507, 514, 521, 529, 537, 544,
   552, 560, 569, 577, 585, 594, 602, 611, 620, 629, 638,
   647, 657, 666, 676]

/-- The part of the state of `AdlibSoundDriver` that `setFrequency`, `setVoice`
and `clearVoice` use: the shadow registers `_portContents`, the voiced flags,
the base notes `_v44067` and the pitch-bend values, each as the list of the
array elements. -/
structure AdlibSoundDriver where
  _portContents : List Int
  _channelVoiced : List Bool
  _v44067 : List Int
  _pitchBlend : List Int
  deriving DecidableEq

/-- `AdlibSoundDriver::write(byte reg, byte value)`: both arguments are
converted to a byte. -/
def AdlibSoundDriver.write (d : AdlibSoundDriver) (reg value : Int) :
    Except Fault AdlibSoundDriver :=
  (wr d._portContents (Int.emod reg 256) (Int.emod value 256)).map fun a =>
    { d with _portContents := a }

/-- `AdlibSoundDriver::setVoice`. -/
def AdlibSoundDriver.setVoice (d : AdlibSoundDriver) (channel : Int) :
    Except Fault AdlibSoundDriver :=
  (rd d._portContents (0xB0 + channel)).bind fun old =>
  (d.write (0xB0 + channel) (Int.lor old 0x20)).bind fun d1 =>
  (wr d1._channelVoiced channel true).map fun a => { d1 with _channelVoiced := a }

/-- `AdlibSoundDriver::clearVoice`. -/
def AdlibSoundDriver.clearVoice (d : AdlibSoundDriver) (channel : Int) :
    Except Fault AdlibSoundDriver :=
  (rd d._portContents (0xB0 + channel)).bind fun old =>
  (d.write (0xB0 + channel) (Int.land old (Int.not 0x20))).bind fun d1 =>
  (wr d1._channelVoiced channel false).map fun a => { d1 with _channelVoiced := a }

/-- The first part of `AdlibSoundDriver::setFrequency`: the locals `offset` and
`ch` computed from the pitch-bend value `v` and the base note. -/
def frequencyNote (v note : Int) : Int × Int :=
  if v = 0x2000 then (0, note)
  else if v > 0x2000 then
    let v1 := v - 0x2000
    let v2 := if v1 = 0x1fff then 0x2000 else v1
    let ch := note + Int.shiftRight (Int.tdiv v2 170) 2
    (Int.land (Int.tdiv v2 170) 3, if ch ≥ 128 then 127 else ch)
  else
    let tempVal := Int.tdiv (0x2000 - v) 170
    let tempVal2 := 4 - Int.land tempVal 3
    let ch := if tempVal2 = 4 then note else note - 1
    let ch1 := ch - Int.shiftRight tempVal 2
    (if tempVal2 = 4 then 0 else tempVal2, if ch1 < 0 then 0 else ch1)

/-- The index into `v440D4` that `setFrequency` reads: `((ch % 12) << 2) +
offset`. -/
def frequencyIndex (v note : Int) : Int :=
  (Int.tmod (frequencyNote v note).2 12 <<< (2 : Int)) + (frequencyNote v note).1

/-- The local `var2` of `setFrequency`: `ch / 12`, less one if it is not 0. -/
def frequencyBlock (ch : Int) : Int :=
  if Int.tdiv ch 12 ≠ 0 then Int.tdiv ch 12 - 1 else Int.tdiv ch 12

/-- `AdlibSoundDriver::setFrequency`. -/
def AdlibSoundDriver.setFrequency (d : AdlibSoundDriver) (channel : Int) :
    Except Fault AdlibSoundDriver :=
  (rd d._pitchBlend channel).bind fun v =>
  (rd d._v44067 channel).bind fun note =>
  let var2 := frequencyBlock (frequencyNote v note).2
  (rd v440D4 (frequencyIndex v note)).bind fun dataWord =>
  (d.write (0xA0 + channel) (Int.land dataWord 0xff)).bind fun d1 =>
  (rd d1._portContents (0xB0 + channel)).bind fun old =>
  d1.write (0xB0 + channel)
    (Int.lor (Int.lor (Int.land old 0xE0) (Int.land (Int.shiftRight dataWord 8) 3))
      (var2 <<< (2 : Int)))

/-! ## Sequences of play-list calls -/

/-- A call of `SoundManager::addToPlayList` or `removeFromPlayList`. -/
inductive PlayListCall where
  | add (h : Nat)
  | remove (h : Nat)
  deriving DecidableEq

/-- Perform one play-list call. -/
def applyCall (m : Manager) : PlayListCall → Except Fault Manager
  | PlayListCall.add h => _sfAddToPlayList m h
  | PlayListCall.remove h => _sfRemoveFromPlayList m h

/-- Perform a sequence of play-list calls, first call first. -/
def runCalls (m : Manager) : List PlayListCall → Except Fault Manager
  | [] => .ok m
  | c :: cs => (applyCall m c).bind fun m1 => runCalls m1 cs

/-- The `_priority` of the sound behind a handle. -/
def prioOf (sounds : List Sound) (x : Nat) : Int := (sounds.getD x default)._priority

/-- The play list is in non-decreasing order of `_priority`. -/
def playListSorted (m : Manager) : Prop :=
  m._playList.Pairwise fun a b => prioOf m.sounds a ≤ prioOf m.sounds b

/-! ## Spec-side notions and fixtures used by the theorems -/

/-- The value of a list of base-32 digits, most significant digit first (the
"base-32 accumulation" of the specification). -/
def base32Value (digits : List Nat) : Int :=
  digits.foldl (fun (acc : Int) (d : Nat) => acc * 32 + (d : Int)) 0

/-- Call `_soServiceTracks` on sound `h` tick after tick, at most `n` times,
stopping after the call that reports the sound complete.  The list holds, per
tick, the local `flag` ("every track is stopped") and the return value. -/
def serviceTicks (h : Nat) : Nat → Manager → Except Fault (List (Bool × Bool))
  | 0, _ => .ok []
  | n + 1, m =>
    (serviceTracksFlagged m h).bind fun r =>
      if r.2.2 = true then .ok [(r.2.1, r.2.2)]
      else (serviceTicks h n r.1).map fun rest => (r.2.1, r.2.2) :: rest

/-- The voice table built for the Adlib driver, whose group data is
`{ 1, 1, 9, 1, 0xff }`: one TYPE_1 group of nine voices in slot 1. -/
def adlibVoiceTable : VoiceTable :=
  (List.replicate 16 none).set 1 (some
    { _voiceType := VOICETYPE_1, _total := 9, _numVoices := 9
      _entries := (List.range 9).map fun i =>
        { _voiceNum := (i : Int), _type1 := { _field4 := -1 } } })

/-- A primed sound with one mode-0 track on channel `ch`: `numVoices` voices
of voice group 1, sub-priority `sub`, and a track that rests and then ends
(`0xDF`, `0xFF 0x80` after the 14 header bytes). -/
def oneChannelSound (prio : Int) (ch : Nat) (sub numVoices : Int) : Sound :=
  { _priority := prio, _primed := true, _numTracks := 1
    _channelData := [[0, ch, 0, 0, 0, 0, numVoices.toNat, sub.toNat, 0, 0, 0, 127, 64, 0,
      0xDF, 0xFF, 0x80]]
    _trkChannel := (List.replicate 16 (0 : Int)).set 0 (ch : Int)
    _trkState := (List.replicate 16 (0 : Int)).set 0 1
    _trkLoopState := (List.replicate 16 (0 : Int)).set 0 1
    _trkIndex := (List.replicate 16 (0 : Int)).set 0 14
    _trkLoopIndex := (List.replicate 16 (0 : Int)).set 0 14
    _chFlags := (List.replicate 16 (0x8000 : Int)).set ch 0
    _chVoiceType := (List.replicate 16 (0 : Int)).set ch 1
    _chNumVoices := (List.replicate 16 (0 : Int)).set ch numVoices
    _chSubPriority := (List.replicate 16 (0 : Int)).set ch sub
    _chVolume := (List.replicate 16 (0 : Int)).set ch 127
    _chPan := (List.replicate 16 (0 : Int)).set ch 64
    _chPitchBlend := (List.replicate 16 (0 : Int)).set ch 0x2000 }

/-- Three sounds of priorities 1, 2 and 3 on channels 0, 1 and 2, one voice
each, with the Adlib voice table and an empty play list. -/
def threeSounds : Manager :=
  { sounds := [oneChannelSound 1 0 0 1, oneChannelSound 2 1 0 1, oneChannelSound 3 2 0 1]
    _voiceTypeStructPtrs := adlibVoiceTable
    _installedDrivers := [0] }

/-- The driver-call log of a result, if there is one. -/
def logOf (r : Except Fault Manager) : Option (List DriverCall) :=
  match r with
  | .ok m => some m.log
  | .error _ => none

/-- A primed sound whose channels 0 and 1 both have sub-priority 0 and ask
for six voices each of voice group 1. -/
def twoChannelSound : Sound :=
  { _priority := 1, _primed := true
    _chFlags := ((List.replicate 16 (0x8000 : Int)).set 0 0).set 1 0
    _chVoiceType := ((List.replicate 16 (0 : Int)).set 0 1).set 1 1
    _chNumVoices := ((List.replicate 16 (0 : Int)).set 0 6).set 1 6
    _chVolume := List.replicate 16 127 }

/-- The Adlib voice table with `twoChannelSound` alone on the play list. -/
def twoChannelManager : Manager :=
  { sounds := [twoChannelSound], _playList := [0], _voiceTypeStructPtrs := adlibVoiceTable
    _installedDrivers := [0] }

/-- Of the voice group in table slot `g` of a result: `_total`, `_numVoices`
and the number of entries that hold a current assignment. -/
def poolSummary (r : Except Fault Manager) (g : Nat) : Option (Int × Int × Nat) :=
  match r with
  | .error _ => none
  | .ok m =>
    (m._voiceTypeStructPtrs.getD g none).map fun vs =>
      (vs._total, vs._numVoices, vs._entries.countP fun e => e._type1._sound ≠ none)

/-- The rest counter of track 0 after one `_soServiceTrackType0` call on a
sound whose mode-0 track holds `events` behind its 14 header bytes. -/
def restAfter (events : List Nat) : Option Int :=
  let data := [0, 0, 0, 0, 0, 0, 1, 0, 0, 0, 0, 127, 64, 0] ++ events
  let m : Manager :=
    { sounds := [{ oneChannelSound 1 0 0 1 with _channelData := [data] }]
      _voiceTypeStructPtrs := adlibVoiceTable }
  match _soServiceTrackType0 m 0 0 data with
  | .ok m1 => some ((m1.sound 0)._trkRest.getD 0 0)
  | .error _ => none

/-- A voice table with one TYPE_0 group of two slots (driver 0) in table
slot 0, and a sound whose track plays on channel 1 of that group. -/
def type0Manager : Manager :=
  { sounds := [{ oneChannelSound 1 1 0 1 with _chVoiceType := List.replicate 16 0 }]
    _voiceTypeStructPtrs := (List.replicate 16 none).set 0 (some
      { _voiceType := VOICETYPE_0, _total := 2, _numVoices := 2
        _entries := [{ _voiceNum := 1, _field1 := 1 }, { _voiceNum := 2, _field1 := 1 }] }) }

/-- The context of track 0 of `type0Manager`: channel 1 on voice 1 of the
TYPE_0 group in slot 0, whose driver is driver 0. -/
def type0Ctx : TrackCtx :=
  { channelNum := 1, chFlags := 0, voiceNum := 1, driver := some 0, vtStruct := some 0,
    voiceType := 0, chVoiceType := 0 }

/-- What track decoding leaves alone: the arena size, the play list, and the
loop counter of the sound `h`. -/
def trackKey (h : Nat) (m : Manager) : Nat × List Nat × Int :=
  (m.sounds.length, m._playList, (m.sound h)._loop)

/-- The fields of a sound that `_sfProcessFading` tests after servicing its
tracks: the fade target, the flag `_stoppedAsynchronously` and the pause
count. -/
def fadeFields (s : Sound) : Int × Bool × Int :=
  (s._fadeDest, s._stoppedAsynchronously, s._pausedCount)

/-- What track decoding leaves alone besides the loop counter: the arena
size, the play list, and the `fadeFields` of the sound `h`. -/
def fadeKey (h : Nat) (m : Manager) : Nat × List Nat × (Int × Bool × Int) :=
  (m.sounds.length, m._playList, fadeFields (m.sound h))

/-- Run the body of the first loop of `_sfProcessFading` for sound `h` tick
after tick, at most `n` times, stopping after the tick at which
`_soServiceTracks` reports the sound complete.  The list holds, per tick, that
report, the play list after the tick and the flag `_stoppedAsynchronously` of
the sound after the tick. -/
def fadingTicks (h : Nat) : Nat → Manager → Except Fault (List (Bool × List Nat × Bool))
  | 0, _ => .ok []
  | n + 1, m =>
    (processFadingSound (m, false) h).bind fun st =>
      if st.2 = true then
        .ok [(st.2, st.1._playList, (st.1.sound h)._stoppedAsynchronously)]
      else
        (fadingTicks h n st.1).map fun rest =>
          (st.2, st.1._playList, (st.1.sound h)._stoppedAsynchronously) :: rest

/-- A manager whose play list holds one sound with loop counter `loop` and a
mode-0 track that ends at once (`0xFF 0x80` behind the header). -/
def endingManager (loop : Int) : Manager :=
  { sounds := [{ oneChannelSound 1 0 0 1 with
      _loop := loop
      _channelData := [[0, 0, 0, 0, 0, 0, 1, 0, 0, 0, 0, 127, 64, 0, 0xFF, 0x80]] }]
    _playList := [0]
    _voiceTypeStructPtrs := adlibVoiceTable }

/-- The result of `_soServiceTracks` on the sound of `endingManager 1`. -/
def endedService : Manager × Bool :=
  match _soServiceTracks (endingManager 1) 0 with
  | .ok r => r
  | .error _ => (endingManager 1, false)

/-- The result of the `_sfProcessFading` pass over the sound of
`endingManager 1`. -/
def endedFading : Manager × Bool :=
  match processFadingSound (endingManager 1, false) 0 with
  | .ok r => r
  | .error _ => (endingManager 1, false)

/-- The `_volume` of sound `h` in a result, if there is one. -/
def volumeOf (r : Except Fault Manager) (h : Nat) : Option Int :=
  match r with
  | .ok m => some (m.sound h)._volume
  | .error _ => none

/-- The three-sound fixture with sound 0 (volume 127) alone on the play list. -/
def playingOne : Manager := { threeSounds with _playList := [0] }

/-- The number of entries whose current TYPE_1 sound satisfies `q`. -/
def curCount (q : Option Nat → Bool) (es : List VoiceStructEntry) : Nat :=
  es.countP fun e => q e._type1._sound

/-- The number of entries, from position `idx` on, whose proposed TYPE_1 sound
satisfies `q`. -/
def pendFrom (q : Option Nat → Bool) (idx : Nat) (es : List VoiceStructEntry) : Nat :=
  (es.drop idx).countP fun e => q e._type1._sound2

/-- The per-channel arrays that the commit pass reads have `SOUND_ARR_SIZE`
elements. -/
def Sound.wellSized (s : Sound) : Prop :=
  s._chModulation.length = 16 ∧ s._chVolume.length = 16 ∧ s._chPan.length = 16 ∧
  s._chPitchBlend.length = 16 ∧ s._chNumVoices.length = 16 ∧ s._chVoiceType.length = 16

/-- Every pending TYPE_1 proposal names a channel inside the per-channel
arrays of a well-sized sound. -/
def proposalsInRange (sounds : List Sound) (es : List VoiceStructEntry) : Prop :=
  ∀ e ∈ es, ∀ s, e._type1._sound2 = some s →
    0 ≤ e._type1._channelNum2 ∧ e._type1._channelNum2 < 16 ∧ (sounds.getD s default).wellSized

/-- The invariant of the third TYPE_1 commit loop before its pass `idx`: the
entries below `idx2` are in use, and for every class `q` of sounds the entries
that hold such a sound plus the proposals still to be placed number `C q`. -/
def placeInv (sounds : List Sound) (n : Nat) (C : (Option Nat → Bool) → Nat) (idx : Nat)
    (st : Commit × Nat) : Prop :=
  st.1.1.length = n ∧ proposalsInRange sounds st.1.1 ∧
  (∀ q : Option Nat → Bool, q none = false →
    curCount q st.1.1 + pendFrom q idx st.1.1 = C q) ∧
  (∀ j, j < st.2 → ∃ e, st.1.1[j]? = some e ∧ e._type1._sound ≠ none)

/-- Channel `c` is the only channel of the sound that takes part in voice
allocation: every other channel carries the flag `0x8000`. -/
def onlyChannel (s : Sound) (c : Nat) : Prop :=
  c < 16 ∧ ∀ i, i < 16 → (Int.land (s._chFlags.getD i 0) 0x8000 = 0 ↔ i = c)

/-- The encoded sub-priority that the scan of `_sfRethinkVoiceTypes` computes
for a channel with sub-priority `sub` of the sound at offset `priorityOffset`. -/
def encodedPriority (sub priorityOffset : Int) : Int :=
  if sub ≠ 0 then 16 - sub + priorityOffset else sub

/-- A table slot is ready for the commit pass: a TYPE_0 group carries no
proposal, any other group only proposals inside the channel arrays. -/
def slotReady (sounds : List Sound) : Option VoiceTypeStruct → Prop
  | none => True
  | some vs =>
    if vs._voiceType = VOICETYPE_0 then
      ∀ e ∈ vs._entries, e._type0._sound2 = none ∧ e._type0._field12 = 0
    else proposalsInRange sounds vs._entries

/-- What the commit pass makes of a table slot: it keeps the group and its
type, and in a group that is not TYPE_0 as many entries hold a sound of a
class `q` as were proposed for one. -/
def slotCommitted : Option VoiceTypeStruct → Option VoiceTypeStruct → Prop
  | none, r => r = none
  | some vs, r =>
    ∃ es, r = some { vs with _entries := es } ∧
      (vs._voiceType ≠ VOICETYPE_0 →
        ∀ q : Option Nat → Bool, q none = false → curCount q es = pendFrom q 0 vs._entries)

instance (s : Sound) (c : Nat) : Decidable (onlyChannel s c) := by
  unfold onlyChannel
  infer_instance

instance (s : Sound) : Decidable s.wellSized := by
  unfold Sound.wellSized
  infer_instance

/-- The number of entries of the voice group in table slot `g` of a result
that hold sound `h`. -/
def holders (r : Except Fault Manager) (g h : Nat) : Option Nat :=
  match r with
  | .error _ => none
  | .ok m =>
    (m._voiceTypeStructPtrs.getD g none).map fun vs => curCount (fun o => o == some h) vs._entries

/-- The Adlib voice table with two sounds on the play list: sound 0
(priority 1, channel 0, sub-priority 5) asks for all nine voices, sound 1
(priority 2, channel 1, sub-priority `sub`) asks for one. -/
def contendManager (sub : Int) : Manager :=
  { sounds := [oneChannelSound 1 0 5 9, oneChannelSound 2 1 sub 1]
    _playList := [0, 1]
    _voiceTypeStructPtrs := adlibVoiceTable
    _installedDrivers := [0] }

/-- The number of entries of a TYPE_1 group that carry no proposal. -/
def freeCount (es : List VoiceStructEntry) : Nat :=
  es.countP fun e => decide (e._type1._sound2 = none)

/-- The voice type of every slot of a table (`none` for a null slot). -/
def groupTypes (vts : VoiceTable) : List (Option Int) :=
  vts.map (Option.map fun vs => vs._voiceType)

/-- No channel of the sound is a must-have channel when the sound stands at
offset `priorityOffset` on the play list: the channel arrays of the sound have
`SOUND_ARR_SIZE` elements, and every channel that takes part in voice
allocation (flag `0x8000` clear) has a nonzero encoded priority and asks for a
non-negative number of voices of a table slot `0..15` that is null or holds a
group other than TYPE_0; `tys` lists the voice types of the table. -/
def Sound.politeAt (tys : List (Option Int)) (s : Sound) (priorityOffset : Int) : Prop :=
  s.wellSized ∧ ∀ c, c < 16 → Int.land (s._chFlags.getD c 0) 0x8000 = 0 →
    encodedPriority (s._chSubPriority.getD c 0) priorityOffset ≠ 0 ∧
    0 ≤ s._chNumVoices.getD c 0 ∧
    0 ≤ s._chVoiceType.getD c 0 ∧ s._chVoiceType.getD c 0 < 16 ∧
    tys.getD (s._chVoiceType.getD c 0).toNat none ≠ some VOICETYPE_0

instance (tys : List (Option Int)) (s : Sound) (off : Int) : Decidable (s.politeAt tys off) := by
  unfold Sound.politeAt
  infer_instance

/-- A group other than TYPE_0 has at least `_total` entries. -/
def groupSized : Option VoiceTypeStruct → Prop
  | none => True
  | some vs => vs._voiceType ≠ VOICETYPE_0 → vs._total ≤ (vs._entries.length : Int)

instance (slot : Option VoiceTypeStruct) : Decidable (groupSized slot) := by
  cases slot with
  | none => exact isTrue trivial
  | some vs =>
    unfold groupSized
    infer_instance

/-- The state of a table slot between two channels of the main loop of
`_sfRethinkVoiceTypes`: it is ready for the commit pass, and in a group other
than TYPE_0 the counter `_numVoices` does not exceed the number of entries
without a proposal. -/
def slotTidy (sounds : List Sound) (slot : Option VoiceTypeStruct) : Prop :=
  slotReady sounds slot ∧
  ∀ vs, slot = some vs → vs._voiceType ≠ VOICETYPE_0 →
    vs._numVoices ≤ (freeCount vs._entries : Int)

/-- Every group of the first table is a group of the second, with at least as
many TYPE_1 proposals for every class `q` of sounds. -/
def tableGrows (vts vts1 : VoiceTable) : Prop :=
  ∀ (g : Nat) (vs : VoiceTypeStruct), vts[g]? = some (some vs) →
    ∃ vs1, vts1[g]? = some (some vs1) ∧
      ∀ q : Option Nat → Bool, q none = false →
        pendFrom q 0 vs._entries ≤ pendFrom q 0 vs1._entries

/-- The Adlib voice table with two sounds on the play list: sound 0
(priority 1, channel 0, sub-priority 5) asks for ten voices, one more than
the group has, sound 1 (priority 2, channel 1, sub-priority 5) asks for
one. -/
def greedyManager : Manager :=
  { sounds := [oneChannelSound 1 0 5 10, oneChannelSound 2 1 5 1]
    _playList := [0, 1]
    _voiceTypeStructPtrs := adlibVoiceTable
    _installedDrivers := [0] }

/-- The second list holds the sounds of the first, up to their `_chWork`
arrays. -/
def sameButWork (a b : List Sound) : Prop :=
  ∀ x, ∃ w, b.getD x default = { a.getD x default with _chWork := w }

/-- A run of `disableSoundServer` (`true`) and `enableSoundServer` (`false`)
calls. -/
def runDisable (m : Manager) : List Bool → Manager
  | [] => m
  | op :: ops => runDisable (if op = true then disableSoundServer m else enableSoundServer m) ops

/-- A run of `suspendSoundServer` (`true`) and `restartSoundServer` (`false`)
calls. -/
def runSuspend (m : Manager) : List Bool → Manager
  | [] => m
  | op :: ops => runSuspend (if op = true then suspendSoundServer m else restartSoundServer m) ops

/-- A run of `mute(flag)` calls on sound `h`. -/
def runMute (h : Nat) (m : Manager) : List Bool → Except Fault Manager
  | [] => .ok m
  | flag :: ops => (mute m h flag).bind fun m1 => runMute h m1 ops

/-- A run of `pause(flag)` calls on sound `h`. -/
def runPause (h : Nat) (m : Manager) : List Bool → Except Fault Manager
  | [] => .ok m
  | flag :: ops => (pause m h flag).bind fun m1 => runPause h m1 ops

/-- A sequence of increments (`true`) and decrements (`false`) in which no
prefix has more decrements than increments and the totals are equal. -/
def balanced (ops : List Bool) : Prop :=
  (∀ k, k ≤ ops.length → (ops.take k).count false ≤ (ops.take k).count true) ∧
  ops.count false = ops.count true

instance (ops : List Bool) : Decidable (balanced ops) := by
  unfold balanced
  infer_instance

/-- The two bytes of a little-endian 16-bit value. -/
def le16 (n : Nat) : List Nat := [n % 256, n / 256 % 256]

/-- The four bytes of a little-endian 32-bit value. -/
def le32 (n : Nat) : List Nat := [n % 256, n / 256 % 256, n / 65536 % 256, n / 16777216 % 256]

/-- The bytes of the track entries `(chunkId, voiceType)` of one group. -/
def encodeTracks : List (Nat × Nat) → List Nat
  | [] => []
  | t :: ts => le16 t.1 ++ le16 t.2 ++ encodeTracks ts

/-- The bytes of a group table: per group the mask, the track count and the
track entries, and a zero mask at the end. -/
def encodeGroups : List (Nat × List (Nat × Nat)) → List Nat
  | [] => le32 0
  | g :: gs => le32 g.1 ++ le16 g.2.length ++ encodeTracks g.2 ++ encodeGroups gs

/-- The first mask of a list that is a subset of `avail`, or 0 if there is
none. -/
def firstSubset (avail : Nat) (masks : List Nat) : Nat :=
  (masks.find? fun v => v &&& avail = v).getD 0

/-- The channel numbers recorded in the voice table lie inside the
per-channel arrays, and `_chVolume` of sound `h` has `SOUND_ARR_SIZE`
elements: what `_sfDoUpdateVolume` needs to read the channel volumes. -/
def volumeReady (m : Manager) (h : Nat) : Prop :=
  (m.sound h)._chVolume.length = 16 ∧
  ∀ slot ∈ m._voiceTypeStructPtrs, ∀ vs ∈ slot.toList, ∀ e ∈ vs._entries,
    (0 ≤ e._type0._channelNum ∧ e._type0._channelNum < 16) ∧
    (0 ≤ e._type1._channelNum ∧ e._type1._channelNum < 16)

instance (m : Manager) (h : Nat) : Decidable (volumeReady m h) := by
  unfold volumeReady
  infer_instance

/-- The channel arrays that the main loop of `_sfRethinkVoiceTypes` reads for a
sound have `SOUND_ARR_SIZE` elements and every channel names a slot of the
voice table. -/
def channelsReady (s : Sound) : Prop :=
  s._chNumVoices.length = 16 ∧ s._chVoiceType.length = 16 ∧
  ∀ v ∈ s._chVoiceType, 0 ≤ v ∧ v < 16

instance (s : Sound) : Decidable (channelsReady s) := by
  unfold channelsReady
  infer_instance

/-- No voice group exists (no driver has been installed), and the sounds on
the play list have well-formed channel arrays. -/
def noVoiceGroups (m : Manager) : Prop :=
  m._voiceTypeStructPtrs = List.replicate SOUND_ARR_SIZE none ∧
  ∀ h ∈ m._playList, channelsReady (m.sound h)

instance (m : Manager) : Decidable (noVoiceGroups m) := by
  unfold noVoiceGroups
  infer_instance

/-- A primed sound with two tracks: a mode-0 track on channel 0 that is
resting, and a track whose mode byte is 2. -/
def badModeSound : Sound :=
  { oneChannelSound 1 0 0 1 with
    _numTracks := 2
    _channelData := [[0, 0, 0, 0, 0, 0, 1, 0, 0, 0, 0, 127, 64, 0, 0xDF, 0xFF, 0x80],
      [2, 1, 0, 0, 0, 0, 1, 0, 0, 0, 0, 127, 64, 0, 0xDF, 0xFF, 0x80]]
    _trkRest := (List.replicate 16 (0 : Int)).set 0 1 }

/-- The Adlib voice table with `badModeSound` as sound 0. -/
def badModeManager : Manager :=
  { sounds := [badModeSound], _voiceTypeStructPtrs := adlibVoiceTable, _installedDrivers := [0] }

/-- The Adlib group with all nine voices proposed for channel 0 of sound 0 at
the encoded priority 27. -/
def fullGroup : VoiceTypeStruct :=
  { _voiceType := VOICETYPE_1, _total := 9, _numVoices := 0
    _entries := (List.range 9).map fun i => propose1 0 0 27 { _voiceNum := (i : Int) } }

/-- The voice table with `fullGroup` in slot 1. -/
def fullTable : VoiceTable := (List.replicate 16 none).set 1 (some fullGroup)

/-- The channel array in which `_soDoTrackCommand` stores the value of one of
the commands 1, 7, 10 and 64. -/
def commandArray (s : Sound) (command : Int) : List Int :=
  if command = 1 then s._chModulation
  else if command = 7 then s._chVolume
  else if command = 10 then s._chPan
  else s._chDamper

/-- A manager whose sound 0 plays one mode-0 track on channel 0 that holds the
two bytes `op` and `value` and then ends. -/
def shortCommandManager (op value : Nat) : Manager :=
  { playingOne with
    sounds := [{ oneChannelSound 1 0 0 1 with
      _channelData := [[0, 0, 0, 0, 0, 0, 1, 0, 0, 0, 0, 127, 64, 0, op, value, 0xFF, 0x80]] }] }

/-- A manager whose sound 0 plays one mode-0 control track (`_trkChannel[0]` is
-1) that holds the opcode `0xFE` with operand 5 and then ends. -/
def controlTrackManager : Manager :=
  { playingOne with
    sounds := [{ oneChannelSound 1 0 0 1 with
      _trkChannel := (List.replicate 16 (0 : Int)).set 0 (-1)
      _channelData := [[0, 0xFF, 0, 0, 0, 0, 1, 0, 0, 0, 0, 127, 64, 0, 0xFE, 5, 0xFF, 0x80]] }] }

/-- The (sound, channel) pair that each entry of the voice group in slot `g`
holds as its current TYPE_1 assignment. -/
def currentPairs (vts : VoiceTable) (g : Nat) : List (Option Nat × Int) :=
  match vts.getD g none with
  | none => []
  | some vs => vs._entries.map fun e => (e._type1._sound, e._type1._channelNum)

/-- The (sound, channel) pair that each entry of the voice group in slot `g`
holds as its proposed TYPE_1 assignment. -/
def proposedPairs (vts : VoiceTable) (g : Nat) : List (Option Nat × Int) :=
  match vts.getD g none with
  | none => []
  | some vs => vs._entries.map fun e => (e._type1._sound2, e._type1._channelNum2)

/-- The voice table at the end of the main loop of `_sfRethinkVoiceTypes`,
before the commit pass. -/
def proposalsOf (m : Manager) : VoiceTable :=
  match rethinkMain m._playList 0 m.sounds (rethinkPre m._voiceTypeStructPtrs) with
  | .ok r => r.2
  | .error _ => []

/-- The voice table of a result (empty if there is none). -/
def tableOf (r : Except Fault Manager) : VoiceTable :=
  match r with
  | .ok m => m._voiceTypeStructPtrs
  | .error _ => []

/-- An installation of the Adlib driver (driver number 3 in this environment)
as driver object 0, whose `open()` succeeds and whose patch bank is missing. -/
def noBankEnv : DriverEnv :=
  { adlibDriverNum := 3, newDriver := 0, opens := true, hasBank := false, fuel := 17 }

/-- A manager without drivers whose play list holds the sounds 0 and 1 of the
three-sound fixture; sound 1 is muted once and the server is disabled twice. -/
def noDriverManager : Manager :=
  { sounds := [oneChannelSound 1 0 0 1, { oneChannelSound 2 1 0 1 with _mutedCount := 1 },
      oneChannelSound 3 2 0 1]
    _playList := [0, 1]
    _serverDisabledCount := 2 }

/-- The number of entries whose proposed TYPE_1 assignment is channel `c` of
sound `h`. -/
def proposedFor (h : Nat) (c : Int) (es : List VoiceStructEntry) : Nat :=
  es.countP fun e => decide (e._type1._sound2 = some h ∧ e._type1._channelNum2 = c)

/-- Clear the proposed TYPE_1 assignment of every entry whose proposed priority
is at least `p`. -/
def evictFrom (p : Int) (es : List VoiceStructEntry) : List VoiceStructEntry :=
  es.map fun e => if p ≤ e._type1._priority2 then unpropose1 e else e

/-- The Adlib group after an earlier sound has taken all nine voices for its
channel 0 at the encoded priority -4 (sub-priority 20 at play-list position 0)
and `_sfUpdateVoiceStructs` has copied the proposals. -/
def negativeGroup : VoiceTypeStruct :=
  updateVoiceStruct
    { _voiceType := VOICETYPE_1, _total := 9, _numVoices := 0
      _entries := (List.range 9).map fun i => propose1 0 0 (-4) { _voiceNum := (i : Int) } }

/-- The voice table with `negativeGroup` in slot 1. -/
def negativeTable : VoiceTable := (List.replicate 16 none).set 1 (some negativeGroup)

/-- The Adlib voice table with two sounds on the play list: sound 0 (channel
0, sub-priority 20) asks for all nine voices, sound 1 (channel 1, sub-priority
0) asks for one. -/
def negativeContend : Manager :=
  { contendManager 0 with sounds := [oneChannelSound 1 0 20 9, oneChannelSound 2 1 0 1] }

/-- The proposed priority of each entry of the voice group in slot `g`. -/
def proposedPriorities (vts : VoiceTable) (g : Nat) : List Int :=
  match vts.getD g none with
  | none => []
  | some vs => vs._entries.map fun e => e._type1._priority2

/-- How a step of the main loop ended, the `_numVoices` of the group in slot `g`
after it and the number of its entries proposed for channel `c` of sound `h`. -/
def stepSummary (r : Except Fault (Flow × VoiceTable)) (g h : Nat) (c : Int) :
    Option (Flow × Int × Nat) :=
  match r with
  | .ok x => (x.2.getD g none).map fun vs => (x.1, vs._numVoices, proposedFor h c vs._entries)
  | .error _ => none

/-- The current and the proposed sound of an entry, in the half of the entry
that a group of type `ty` uses, both satisfy `P`. -/
def entryOk (P : Option Nat → Prop) (ty : Int) (e : VoiceStructEntry) : Prop :=
  (ty = VOICETYPE_0 → P e._type0._sound ∧ P e._type0._sound2) ∧
  (ty ≠ VOICETYPE_0 → P e._type1._sound ∧ P e._type1._sound2)

/-- Every entry of the group satisfies `entryOk` for the type of the group. -/
def groupOk (P : Option Nat → Prop) (vs : VoiceTypeStruct) : Prop :=
  ∀ e ∈ vs._entries, entryOk P vs._voiceType e

/-- Every group of the voice table satisfies `groupOk`. -/
def tableOk (P : Option Nat → Prop) (vts : VoiceTable) : Prop :=
  ∀ vs, some vs ∈ vts → groupOk P vs

/-- The sound an optional handle names, if any, is neither muted nor paused. -/
def audible (sounds : List Sound) (o : Option Nat) : Prop :=
  ∀ s, o = some s →
    (sounds.getD s default)._mutedCount = 0 ∧ (sounds.getD s default)._pausedCount = 0

/-- The state reached from `threeSounds` by starting sound 2, then sound 0,
then sound 1 (each `addToPlayList` runs `_sfRethinkVoiceTypes`). -/
def afterThreeAdds : Manager :=
  match runCalls threeSounds [PlayListCall.add 2, PlayListCall.add 0, PlayListCall.add 1] with
  | .ok m => m
  | .error _ => threeSounds

/-- The state of `afterThreeAdds` (sounds 0, 1 and 2 hold one voice each) with
sound 1 muted once and sound 2 paused once. -/
def mutedManager : Manager :=
  (afterThreeAdds.setSound 1 { afterThreeAdds.sound 1 with _mutedCount := 1 }).setSound 2
    { afterThreeAdds.sound 2 with _pausedCount := 1 }

/-! ## Fixtures for seeking, the driver tables and the Adlib registers -/

/-- A primed sound with loop count 0 whose only track (mode 0, channel 0) ends
at once, on the play list of a manager with the Adlib voice table. -/
def foreverManager : Manager :=
  { endingManager 0 with
    sounds := [{ (endingManager 0).sound 0 with _voiceTypes := [1] }] }

/-- The state of `foreverManager` after a call of `mute(true)` on sound 0. -/
def foreverMuted : Manager :=
  match mute foreverManager 0 true with
  | .ok m => m
  | .error _ => foreverManager

/-- Sound 0 of `foreverMuted` after `_soPrimeChannelData` with `_timer = 0`
and `_loopTimer = 0`. -/
def foreverPrimed : Sound :=
  match _soPrimeChannelData { foreverMuted.sound 0 with _timer := 0, _loopTimer := 0 } with
  | .ok s => s
  | .error _ => foreverMuted.sound 0

/-- The state in which the loop of `_soSetTimeIndex` starts for sound 0 of
`foreverMuted`: the server disabled once more, `_soTimeIndexFlag` set, and the
sound primed again. -/
def foreverSeeking : Manager :=
  { foreverMuted with
    sounds := foreverMuted.sounds.set 0 foreverPrimed
    _serverDisabledCount := foreverMuted._serverDisabledCount + 1
    _soTimeIndexFlag := true }

/-- Group data with the single TYPE_1 group 5 of two voices. -/
def lateGroupData : List Nat := [5, 1, 2, 0, 0xff]

/-- The play list holds sound 0, whose loop counter is `loop` and whose track
ends at once, and then sound 1, which is paused once and whose track rests;
the voice table is that of the Adlib driver. -/
def pausedBehindEnding (loop : Int) : Manager :=
  { sounds := [(endingManager loop).sound 0, { oneChannelSound 2 1 0 1 with _pausedCount := 1 }]
    _playList := [0, 1]
    _voiceTypeStructPtrs := adlibVoiceTable }

/-- The play list of a result and the `_stoppedAsynchronously` flag of each
sound. -/
def removalsOf (r : Except Fault Manager) : Option (List Nat × List Bool) :=
  match r with
  | .ok m => some (m._playList, m.sounds.map fun s => s._stoppedAsynchronously)
  | .error _ => none

/-- Call `_soServiceTrackType0` on track `trackIndex` of sound `h`, tick after
tick, `n` times. -/
def restTicks (h : Nat) (trackIndex : Int) (channelData : List Nat) :
    Nat → Manager → Except Fault Manager
  | 0, m => .ok m
  | n + 1, m =>
    (_soServiceTrackType0 m h trackIndex channelData).bind fun m1 =>
      restTicks h trackIndex channelData n m1

/-- The rest counter and the state of track 0 after `n` calls of
`_soServiceTrackType0` on a sound whose mode-0 track holds `events` behind its
14 header bytes. -/
def restAfterTicks (events : List Nat) (n : Nat) : Option (Int × Int) :=
  let data := [0, 0, 0, 0, 0, 0, 1, 0, 0, 0, 0, 127, 64, 0] ++ events
  let m : Manager :=
    { sounds := [{ oneChannelSound 1 0 0 1 with _channelData := [data] }]
      _voiceTypeStructPtrs := adlibVoiceTable }
  match restTicks 0 0 data n m with
  | .ok m1 => some ((m1.sound 0)._trkRest.getD 0 0, (m1.sound 0)._trkState.getD 0 0)
  | .error _ => none

/-- The play list of a result and whether sound `h` is playing in it. -/
def playingAfter (r : Except Fault Manager) (h : Nat) : Option (List Nat × Bool) :=
  match r with
  | .ok m => some (m._playList, isPlaying m h)
  | .error _ => none

/-- A manager with the Adlib voice table whose sound 0 has one mode-0 track on
channel 0 holding `events` behind its 14 header bytes; `flag` is
`_soTimeIndexFlag`. -/
def flaggedTrackManager (events : List Nat) (flag : Bool) : Manager :=
  { sounds := [{ oneChannelSound 1 0 0 1 with
      _channelData := [[0, 0, 0, 0, 0, 0, 1, 0, 0, 0, 0, 127, 64, 0] ++ events] }]
    _voiceTypeStructPtrs := adlibVoiceTable
    _soTimeIndexFlag := flag }

/-- The outcome of one `_soServiceTrackType0` call on track 0 of
`flaggedTrackManager events flag`: the track position, rest counter and state,
then program, modulation, volume, pan, damper and voice count of channel 0,
and last its pitch bend. -/
def trackSummary (events : List Nat) (flag : Bool) : Option (List Int × List Int × Int) :=
  match _soServiceTrackType0 (flaggedTrackManager events flag) 0 0
      ([0, 0, 0, 0, 0, 0, 1, 0, 0, 0, 0, 127, 64, 0] ++ events) with
  | .ok m =>
    let s := m.sound 0
    some ([s._trkIndex.getD 0 0, s._trkRest.getD 0 0, s._trkState.getD 0 0],
      [s._chProgram.getD 0 0, s._chModulation.getD 0 0, s._chVolume.getD 0 0,
        s._chPan.getD 0 0, s._chDamper.getD 0 0, s._chNumVoices.getD 0 0],
      s._chPitchBlend.getD 0 0)
  | .error _ => none

/-- An Adlib driver with 256 shadow registers, all 0, no channel voiced, and
base note `note` and pitch-bend value `pitchBlend` on each of its nine
channels. -/
def adlibDriverAt (note pitchBlend : Int) : AdlibSoundDriver :=
  { _portContents := List.replicate 256 0
    _channelVoiced := List.replicate 9 false
    _v44067 := List.replicate 9 note
    _pitchBlend := List.replicate 9 pitchBlend }

/-- The shadow register `0xB0 + channel` and the voiced flag of the channel
after `setFrequency`. -/
def keyRegisterAfter (d : AdlibSoundDriver) (channel : Nat) : Option (Int × Bool) :=
  match d.setFrequency (channel : Int) with
  | .ok d1 => some (d1._portContents.getD (0xB0 + channel) 0, d1._channelVoiced.getD channel false)
  | .error _ => none

/-- The two server counters, which a tick of the server never changes. -/
def serverKey (m : Manager) : Int × Int := (m._serverSuspendedCount, m._serverDisabledCount)

/-- The manager `m` with the rest counter `rest` and the position `idx` stored
for track `trackIndex` of sound `h`, and nothing else changed. -/
def withRest (m : Manager) (h : Nat) (trackIndex : Int) (rest idx : Int) : Manager :=
  m.setSound h { m.sound h with
    _trkRest := (m.sound h)._trkRest.set trackIndex.toNat rest
    _trkIndex := (m.sound h)._trkIndex.set trackIndex.toNat idx }

/-- The fault with which a computation stopped, if it did. -/
def faultOf {α : Type} (r : Except Fault α) : Option Fault :=
  match r with
  | .ok _ => none
  | .error e => some e

/-- The context that the head of `_soServiceTrackType0` computes for a track on
channel 0 of the Adlib group: voice type 1, no voice number and no driver. -/
def adlibCtx : TrackCtx :=
  { channelNum := 0, chFlags := 0, voiceNum := -1, driver := none, vtStruct := some 1,
    voiceType := 1, chVoiceType := 1 }

/-- The Adlib voice table with three sounds on the play list: sound 0 (channel
0, sub-priority `a`) and sound 1 (channel 1, sub-priority `b`) ask for four
voices each, sound 2 (channel 2, sub-priority 0) asks for five. -/
def rankManager (a b : Int) : Manager :=
  { sounds := [oneChannelSound 1 0 a 4, oneChannelSound 2 1 b 4, oneChannelSound 3 2 0 5]
    _playList := [0, 1, 2]
    _voiceTypeStructPtrs := adlibVoiceTable
    _installedDrivers := [0] }

/-! # Theorems -/

/-! ## Play list order -/

theorem mem_insertByPriority (prio : Nat → Int) (h y : Nat) (l : List Nat) :
    y ∈ insertByPriority prio h l ↔ y = h ∨ y ∈ l := by
  induction l with
  | nil => simp [insertByPriority]
  | cons x xs ih =>
    unfold insertByPriority
    split
    · simp only [List.mem_cons, ih]; tauto
    · simp only [List.mem_cons]

theorem insertByPriority_sorted (prio : Nat → Int) (h : Nat) (l : List Nat)
    (hl : l.Pairwise fun a b => prio a ≤ prio b) :
    (insertByPriority prio h l).Pairwise fun a b => prio a ≤ prio b := by
  induction l with
  | nil => simp [insertByPriority]
  | cons x xs ih =>
    rw [List.pairwise_cons] at hl
    unfold insertByPriority
    split
    · rename_i hgt
      rw [List.pairwise_cons]
      refine ⟨?_, ih hl.2⟩
      intro y hy
      rcases (mem_insertByPriority prio h y xs).1 hy with rfl | hy
      · exact le_of_lt hgt
      · exact hl.1 y hy
    · rename_i hle
      rw [List.pairwise_cons, List.pairwise_cons]
      refine ⟨?_, hl⟩
      intro y hy
      have hx : prio h ≤ prio x := not_lt.1 hle
      rcases List.mem_cons.1 hy with rfl | hy
      · exact hx
      · exact le_trans hx (hl.1 y hy)

theorem eraseFirst_sublist (h : Nat) (l : List Nat) : (eraseFirst h l).1.Sublist l := by
  induction l with
  | nil => simp [eraseFirst]
  | cons x xs ih =>
    unfold eraseFirst
    split
    · exact List.sublist_cons_self x xs
    · exact List.Sublist.cons₂ x ih

theorem getD_updAt_prio (f : Sound → Sound) (hf : ∀ s, (f s)._priority = s._priority)
    (h x : Nat) (sounds : List Sound) : prioOf (updAt f h sounds) x = prioOf sounds x := by
  induction sounds generalizing h x with
  | nil => cases h <;> rfl
  | cons a as ih =>
    cases h with
    | zero =>
      cases x with
      | zero => simp [updAt, prioOf, hf]
      | succ x => simp [updAt, prioOf]
    | succ h =>
      cases x with
      | zero => simp [updAt, prioOf]
      | succ x =>
        have := ih h x
        simpa [updAt, prioOf] using this

theorem rethinkMain_prio (pl : List Nat) (off : Int) (sounds : List Sound) (vts : VoiceTable)
    (r : List Sound × VoiceTable) (hr : rethinkMain pl off sounds vts = .ok r) (x : Nat) :
    prioOf r.1 x = prioOf sounds x := by
  induction pl generalizing off sounds vts with
  | nil =>
    simp only [rethinkMain, Except.ok.injEq] at hr
    subst hr; rfl
  | cons h rest ih =>
    unfold rethinkMain at hr
    simp only at hr
    split at hr
    · exact ih _ _ _ hr
    · cases hc : rethinkChannels h (sounds.getD h default) off (SOUND_ARR_SIZE + 1)
          (List.replicate SOUND_ARR_SIZE false) (_sfUpdateVoiceStructs vts) with
      | error e => rw [hc] at hr; simp [Except.bind] at hr
      | ok c =>
        rw [hc] at hr
        simp only [Except.bind] at hr
        rw [ih _ _ _ hr]
        exact getD_updAt_prio (fun s => { s with _chWork := c.1 }) (fun _ => rfl) h x sounds

theorem rethink_frame (m m' : Manager) (hr : _sfRethinkVoiceTypes m = .ok m') :
    m'._playList = m._playList ∧ ∀ x, prioOf m'.sounds x = prioOf m.sounds x := by
  unfold _sfRethinkVoiceTypes at hr
  simp only at hr
  cases hm : rethinkMain m._playList 0 m.sounds (rethinkPre m._voiceTypeStructPtrs) with
  | error e => rw [hm] at hr; simp [Except.bind] at hr
  | ok r =>
    rw [hm] at hr
    simp only [Except.bind] at hr
    cases hp : rethinkPost r.1 0 r.2 m.log with
    | error e => rw [hp] at hr; simp [Except.map] at hr
    | ok p =>
      rw [hp] at hr
      simp only [Except.map, Except.ok.injEq] at hr
      subst hr
      exact ⟨rfl, fun x => rethinkMain_prio _ _ _ _ _ hm x⟩
theorem sorted_transfer (m m' : Manager) (hpl : m'._playList = m._playList)
    (hp : ∀ x, prioOf m'.sounds x = prioOf m.sounds x) (hs : playListSorted m) :
    playListSorted m' := by
  unfold playListSorted at *
  rw [hpl]
  exact hs.imp (fun {a b} hab => by rw [hp a, hp b]; exact hab)

theorem addToPlayList_sorted (m m' : Manager) (h : Nat) (hs : playListSorted m)
    (hr : _sfAddToPlayList m h = .ok m') : playListSorted m' := by
  unfold _sfAddToPlayList at hr
  simp only at hr
  generalize hm3 : ({ _sfDoAddToPlayList
      { m with _serverSuspendedCount := m._serverSuspendedCount + 1 } h with
      sounds := updAt (fun s => { s with _stoppedAsynchronously := false }) h
        (_sfDoAddToPlayList
          { m with _serverSuspendedCount := m._serverSuspendedCount + 1 } h).sounds } : Manager)
    = m3 at hr
  have hs3 : playListSorted m3 := by
    subst hm3
    unfold playListSorted
    have hp : ∀ x, prioOf (updAt (fun s => { s with _stoppedAsynchronously := false }) h
        m.sounds) x = prioOf m.sounds x :=
      fun x => getD_updAt_prio (fun s => { s with _stoppedAsynchronously := false })
        (fun _ => rfl) h x m.sounds
    simp only [_sfDoAddToPlayList]
    have := insertByPriority_sorted (fun x => prioOf m.sounds x) h m._playList hs
    refine this.imp ?_
    intro a b hab
    rw [hp a, hp b]; exact hab
  cases hk : _sfRethinkVoiceTypes m3 with
  | error e => rw [hk] at hr; simp [Except.map] at hr
  | ok m4 =>
    rw [hk] at hr
    simp only [Except.map, Except.ok.injEq] at hr
    subst hr
    have hf := rethink_frame m3 m4 hk
    exact sorted_transfer m3 _ hf.1 hf.2 hs3

theorem removeFromPlayList_sorted (m m' : Manager) (h : Nat) (hs : playListSorted m)
    (hr : _sfRemoveFromPlayList m h = .ok m') : playListSorted m' := by
  unfold _sfRemoveFromPlayList at hr
  simp only at hr
  have hs1 : playListSorted (_sfDoRemoveFromPlayList
      { m with _serverSuspendedCount := m._serverSuspendedCount + 1 } h).1 := by
    unfold playListSorted
    simp only [_sfDoRemoveFromPlayList]
    exact List.Pairwise.sublist (eraseFirst_sublist h m._playList) hs
  split at hr
  · cases hk : _sfRethinkVoiceTypes (_sfDoRemoveFromPlayList
        { m with _serverSuspendedCount := m._serverSuspendedCount + 1 } h).1 with
    | error e => rw [hk] at hr; simp [Except.map] at hr
    | ok m4 =>
      rw [hk] at hr
      simp only [Except.map, Except.ok.injEq] at hr
      subst hr
      have hf := rethink_frame _ m4 hk
      exact sorted_transfer _ _ hf.1 hf.2 hs1
  · simp only [Except.map, Except.ok.injEq] at hr
    subst hr
    exact hs1

theorem runCalls_sorted (calls : List PlayListCall) (m m' : Manager) (hs : playListSorted m)
    (hr : runCalls m calls = .ok m') : playListSorted m' := by
  induction calls generalizing m with
  | nil =>
    simp only [runCalls, Except.ok.injEq] at hr
    subst hr; exact hs
  | cons c cs ih =>
    unfold runCalls at hr
    cases hc : applyCall m c with
    | error e => rw [hc] at hr; simp [Except.bind] at hr
    | ok m1 =>
      rw [hc] at hr
      simp only [Except.bind] at hr
      refine ih m1 ?_ hr
      cases c with
      | add h => exact addToPlayList_sorted m m1 h hs hc
      | remove h => exact removeFromPlayList_sorted m m1 h hs hc

/-- C1: starting from an empty play list, after every call of a sequence of
`addToPlayList` / `removeFromPlayList` calls (that is, after every prefix
`calls.take k` of the sequence) the play list is sorted by non-decreasing
`_priority`. -/
theorem playList_sorted_after_every_call (m : Manager) (calls : List PlayListCall) (k : Nat)
    (mk : Manager) (hempty : m._playList = []) (hrun : runCalls m (calls.take k) = .ok mk) :
    playListSorted mk := by
  refine runCalls_sorted (calls.take k) m mk ?_ hrun
  unfold playListSorted
  rw [hempty]
  exact List.Pairwise.nil

/-- Witness of C1 on the three-sound fixture. -/
theorem playList_sorted_after_every_call_witness :
    threeSounds._playList = [] ∧
    runCalls threeSounds
      ([PlayListCall.add 2, PlayListCall.add 0, PlayListCall.add 1].take 3) = .ok afterThreeAdds ∧
    playListSorted afterThreeAdds :=
  ⟨rfl, rfl, playList_sorted_after_every_call threeSounds
    [PlayListCall.add 2, PlayListCall.add 0, PlayListCall.add 1] 3 afterThreeAdds rfl rfl⟩

/-! ## Voice scheduling on concrete inputs -/

/-- C2, the code at a failing input: in the state reached by starting sounds
2, 0 and 1 a first `_sfRethinkVoiceTypes` run issues no driver call, and a
second run immediately after it issues ten (both voices of sounds 0 and 1 are
set up again). -/
theorem rethink_second_run_retriggers :
    logOf (_sfRethinkVoiceTypes afterThreeAdds) = some afterThreeAdds.log ∧
    logOf ((_sfRethinkVoiceTypes afterThreeAdds).bind _sfRethinkVoiceTypes) =
      some (afterThreeAdds.log ++
        [DriverCall.updateVoice 0 1, DriverCall.proc38 0 1 1 0, DriverCall.proc38 0 1 7 127,
         DriverCall.proc38 0 1 10 64, DriverCall.setPitch 0 1 0x2000,
         DriverCall.updateVoice 0 2, DriverCall.proc38 0 2 1 0, DriverCall.proc38 0 2 7 127,
         DriverCall.proc38 0 2 10 64, DriverCall.setPitch 0 2 0x2000]) := by
  constructor <;> decide

/-- C3, the code at a failing input: with one sound whose two top-priority
channels ask for six voices each, the pass over the nine-voice Adlib group
ends with `_numVoices = -3` and six assigned entries, so `_numVoices` plus the
assigned entries is 3 and not `_total = 9`. -/
theorem rethink_pool_goes_negative :
    poolSummary (_sfRethinkVoiceTypes twoChannelManager) 1 = some (9, -3, 6) := by
  decide

/-! ## Track decoding -/

theorem restByte_bits (x : Nat) (hx : x < 32) :
    (0xC0 + x) &&& 0x80 ≠ 0 ∧ (0xC0 + x) &&& 0x40 ≠ 0 ∧ (0xC0 + x) &&& 0x20 = 0 ∧
    (0xC0 + x) &&& 0xE0 = 0xC0 ∧ (0xC0 + x) &&& 0x1f = x := by
  interval_cases x <;> decide

theorem wrapInt32_step (a d : Int) :
    wrapInt32 (wrapInt32 a * 32 + d) = wrapInt32 (a * 32 + d) := by
  unfold wrapInt32
  omega

theorem wrapInt32_pred (a : Int) : wrapInt32 (wrapInt32 a - 1) = wrapInt32 (a - 1) := by
  unfold wrapInt32
  omega

theorem wrapInt32_of_range (a : Int) (h0 : -2147483648 ≤ a) (h1 : a < 2147483648) :
    wrapInt32 a = a := by
  unfold wrapInt32
  omega

theorem wrapInt32_range (a : Int) : -2147483648 ≤ wrapInt32 a ∧ wrapInt32 a < 2147483648 := by
  unfold wrapInt32
  omega

theorem foldl_wrapInt32 (cs : List Nat) (acc : Int) :
    cs.foldl (fun (a : Int) (d : Nat) => wrapInt32 (a * 32 + (d : Int))) (wrapInt32 acc) =
      wrapInt32 (cs.foldl (fun (a : Int) (d : Nat) => a * 32 + (d : Int)) acc) := by
  induction cs generalizing acc with
  | nil => rfl
  | cons c cs ih =>
    rw [List.foldl_cons, List.foldl_cons, wrapInt32_step]
    exact ih _

theorem gatherRest_digits (cs : List Nat) (hcs : ∀ c ∈ cs, c < 32) (nb : Nat)
    (hnb : nb &&& 0xE0 ≠ 0xC0) (post : List Nat) (acc : Int) (pos : Nat) :
    gatherRest (cs.map (fun c => 0xC0 + c) ++ nb :: post) acc pos =
      .ok (cs.foldl (fun (a : Int) (d : Nat) => wrapInt32 (a * 32 + (d : Int))) acc,
        pos + cs.length) := by
  induction cs generalizing acc pos with
  | nil => simp [gatherRest, hnb]
  | cons c cs ih =>
    have hc := restByte_bits c (hcs c (List.mem_cons_self c cs))
    have ih2 := ih (fun d hd => hcs d (List.mem_cons_of_mem c hd))
      (wrapInt32 (acc * 32 + (c : Int))) (pos + 1)
    simp only [List.map_cons, List.cons_append, gatherRest, hc.2.2.2.1, hc.2.2.2.2, if_true,
      List.foldl_cons, List.length_cons]
    refine ih2.trans ?_
    congr 2
    omega

theorem gatherRest_value (cs : List Nat) (hcs : ∀ c ∈ cs, c < 32) (nb : Nat)
    (hnb : nb &&& 0xE0 ≠ 0xC0) (post : List Nat) (x : Nat) (hx : x < 32) (pos : Nat) :
    gatherRest (cs.map (fun c => 0xC0 + c) ++ nb :: post) (x : Int) pos =
      .ok (wrapInt32 (base32Value (x :: cs)), pos + cs.length) := by
  rw [gatherRest_digits cs hcs nb hnb post]
  have hx0 : wrapInt32 (x : Int) = (x : Int) := wrapInt32_of_range _ (by omega) (by omega)
  have h := foldl_wrapInt32 cs (x : Int)
  rw [hx0] at h
  rw [h]
  simp [base32Value]

theorem rdByte_append (pre : List Nat) (b : Nat) (post : List Nat) :
    rdByte (pre ++ b :: post) pre.length = .ok b := by
  induction pre with
  | nil => rfl
  | cons a as ih => simpa [rdByte] using ih

theorem base32Value_nonneg (digits : List Nat) : 0 ≤ base32Value digits := by
  unfold base32Value
  have key : ∀ (l : List Nat) (acc : Int), 0 ≤ acc →
      0 ≤ l.foldl (fun (a : Int) (d : Nat) => a * 32 + (d : Int)) acc := by
    intro l
    induction l with
    | nil => intro acc h; exact h
    | cons d l ih =>
      intro acc h
      rw [List.foldl_cons]
      exact ih _ (by omega)
  exact key digits 0 (le_refl 0)

/-- C5 (amended): a rest opcode `110xxxxx` with digit `x`, followed by any
number of continuation bytes `110ccccc` with digits `cs` and then by a byte
that is not of that form, makes `_soServiceTrackType0` return with the track's
rest counter set to the base-32 value of `x :: cs` MINUS ONE, reduced to a
32-bit `int`, and the track position just behind the last continuation byte.
As long as the base-32 value is at most 2^31 the stored counter is exactly
that value minus one. -/
theorem rest_opcode_sets_rest_minus_one (ctx : TrackCtx) (h : Nat) (trackIndex : Int)
    (m : Manager) (pre cs post : List Nat) (x nb : Nat)
    (hx : x < 32) (hcs : ∀ c ∈ cs, c < 32) (hnb : nb &&& 0xE0 ≠ 0xC0)
    (ht : 0 ≤ trackIndex) (hrest : trackIndex.toNat < (m.sound h)._trkRest.length)
    (hidx : trackIndex.toNat < (m.sound h)._trkIndex.length) :
    decodeStep ctx h trackIndex (pre ++ (0xC0 + x) :: (cs.map (fun c => 0xC0 + c) ++ nb :: post))
        m pre.length =
      .ok (Decoded.done (m.setSound h { m.sound h with
        _trkRest := (m.sound h)._trkRest.set trackIndex.toNat
          (wrapInt32 (base32Value (x :: cs) - 1))
        _trkIndex := (m.sound h)._trkIndex.set trackIndex.toNat
          ((pre.length + 1 + cs.length : Nat) : Int) })) ∧
    (base32Value (x :: cs) ≤ 2147483648 →
      wrapInt32 (base32Value (x :: cs) - 1) = base32Value (x :: cs) - 1) := by
  constructor
  · have hb := restByte_bits x hx
    have hdrop : List.drop (pre.length + 1)
        (pre ++ (0xC0 + x) :: (cs.map (fun c => 0xC0 + c) ++ nb :: post)) =
        cs.map (fun c => 0xC0 + c) ++ nb :: post := by
      rw [List.drop_append_eq_append_drop]
      simp
    unfold decodeStep
    rw [rdByte_append]
    simp only [Except.bind, hb.1, hb.2.1, hb.2.2.1, if_false, if_true]
    unfold area3
    rw [hdrop, hb.2.2.2.2, gatherRest_value cs hcs nb hnb post x hx]
    have hneg : ¬ trackIndex < 0 := not_lt.2 ht
    simp only [Except.bind, wr, hneg, if_false, hrest, hidx, if_true, Except.map,
      wrapInt32_pred]
  · intro hle
    have h0 := base32Value_nonneg (x :: cs)
    exact wrapInt32_of_range _ (by omega) (by omega)

/-- C5 as stated fails: after the rest opcode `0xC5` the rest counter of the
track is 4, not 5, and after `0xC1 0xC3` it is 34, not 35.  With six
continuation bytes the accumulation leaves the range of an `int`: after
`0xC2 0xC0 0xC0 0xC0 0xC0 0xC0 0xC1` (base-32 value 2^31 + 1) the counter is
-2147483648. -/
theorem rest_counter_is_one_less :
    restAfter [0xC5, 0xFF, 0x80] = some 4 ∧ restAfter [0xC5, 0xFF, 0x80] ≠ some 5 ∧
    restAfter [0xC1, 0xC3, 0xFF, 0x80] = some 34 ∧
    restAfter [0xC1, 0xC3, 0xFF, 0x80] ≠ some 35 ∧
    restAfter [0xC2, 0xC0, 0xC0, 0xC0, 0xC0, 0xC0, 0xC1, 0xFF, 0x80] = some (-2147483648) := by
  decide

/-- Witness of the amended C5: the bytes `0xC1 0xC3` on track 0 of sound 0 of
the three-sound fixture. -/
theorem rest_opcode_sets_rest_minus_one_witness :
    (1 < 32 ∧ (∀ c ∈ [3], c < 32) ∧ 0xFF &&& 0xE0 ≠ 0xC0 ∧ (0 : Int) ≤ 0 ∧
      (0 : Int).toNat < (threeSounds.sound 0)._trkRest.length ∧
      (0 : Int).toNat < (threeSounds.sound 0)._trkIndex.length) ∧
    (decodeStep { channelNum := 0, chFlags := 0 } 0 0
        ([0, 0, 0, 0, 0, 0, 1, 0, 0, 0, 0, 127, 64, 0] ++ (0xC0 + 1) ::
          ([3].map (fun c => 0xC0 + c) ++ 0xFF :: [0x80]))
        threeSounds ([0, 0, 0, 0, 0, 0, 1, 0, 0, 0, 0, 127, 64, 0] : List Nat).length =
      .ok (Decoded.done (threeSounds.setSound 0 { threeSounds.sound 0 with
        _trkRest := (threeSounds.sound 0)._trkRest.set (0 : Int).toNat
          (wrapInt32 (base32Value [1, 3] - 1))
        _trkIndex := (threeSounds.sound 0)._trkIndex.set (0 : Int).toNat
          ((([0, 0, 0, 0, 0, 0, 1, 0, 0, 0, 0, 127, 64, 0] : List Nat).length + 1 +
            [3].length : Nat) : Int) })) ∧
      (base32Value [1, 3] ≤ 2147483648 →
        wrapInt32 (base32Value [1, 3] - 1) = base32Value [1, 3] - 1)) :=
  ⟨by decide, rest_opcode_sets_rest_minus_one { channelNum := 0, chFlags := 0 } 0 0 threeSounds
    [0, 0, 0, 0, 0, 0, 1, 0, 0, 0, 0, 127, 64, 0] [3] [0x80] 1 0xFF (by decide) (by decide)
    (by decide) (by decide) (by decide) (by decide)⟩

theorem rdByte_append1 (pre : List Nat) (a b : Nat) (post : List Nat) :
    rdByte (pre ++ a :: b :: post) (pre.length + 1) = .ok b := by
  have := rdByte_append (pre ++ [a]) b post
  simpa using this

theorem rdByte_append2 (pre : List Nat) (a b c : Nat) (post : List Nat) :
    rdByte (pre ++ a :: b :: c :: post) (pre.length + 1 + 1) = .ok c := by
  have := rdByte_append (pre ++ [a, b]) c post
  simpa using this

theorem sound_setSound (m : Manager) (h : Nat) (s : Sound) (hh : h < m.sounds.length) :
    (m.setSound h s).sound h = s := by
  simp [Manager.setSound, Manager.sound, List.getD, hh]

theorem trackCtx_spec (m : Manager) (s : Sound) (trackIndex : Int) (ctx : TrackCtx)
    (hctx : trackCtx m s trackIndex = .ok ctx) :
    rd s._trkChannel trackIndex = .ok ctx.channelNum ∧ 0 ≤ ctx.channelNum ∧
    ctx.channelNum < 16 ∧
    (ctx.voiceType ≠ VOICETYPE_0 →
      ∃ vs, getGroup m._voiceTypeStructPtrs ctx.vtStruct = .ok vs) ∧
    (ctx.voiceNum ≠ -1 → ∃ d, ctx.driver = some d) := by
  unfold trackCtx at hctx
  cases hch : rd s._trkChannel trackIndex with
  | error e => rw [hch] at hctx; simp [Except.bind] at hctx
  | ok channelNum =>
    rw [hch] at hctx
    simp only [Except.bind] at hctx
    split at hctx
    · simp at hctx
    · rename_i hrange
      have hrange : channelNum ≥ 0 ∧ channelNum < 16 := by
        by_contra hc; exact hrange hc
      have hne : channelNum ≠ -1 := by omega
      simp only [hne, if_false, false_or] at hctx
      cases hfl : rd s._chFlags channelNum with
      | error e => rw [hfl] at hctx; simp at hctx
      | ok chFlags =>
        rw [hfl] at hctx
        simp only at hctx
        split at hctx
        · simp only [Except.ok.injEq] at hctx
          subst hctx
          exact ⟨rfl, hrange.1, hrange.2, fun hv => absurd rfl hv, fun hv => absurd rfl hv⟩
        · cases hvt : rd s._chVoiceType channelNum with
          | error e => rw [hvt] at hctx; simp at hctx
          | ok chVoiceType =>
            rw [hvt] at hctx
            simp only at hctx
            cases hsl : rd m._voiceTypeStructPtrs chVoiceType with
            | error e => rw [hsl] at hctx; simp at hctx
            | ok slot =>
              rw [hsl] at hctx
              simp only at hctx
              cases slot with
              | none =>
                simp only [Except.ok.injEq] at hctx
                subst hctx
                exact ⟨rfl, hrange.1, hrange.2, fun hv => absurd rfl hv, fun hv => absurd rfl hv⟩
              | some vtStruct =>
                simp only [Except.ok.injEq] at hctx
                subst hctx
                refine ⟨rfl, hrange.1, hrange.2, fun _ => ⟨vtStruct, ?_⟩, ?_⟩
                · unfold rd at hsl
                  split at hsl
                  · simp at hsl
                  · split at hsl
                    · rename_i a hget
                      simp only [Except.ok.injEq] at hsl
                      subst hsl
                      rw [List.get?_eq_getElem?] at hget
                      simp [getGroup, List.getD, hget]
                    · simp at hsl
                · intro hv
                  simp only at hv
                  split at hv
                  · rename_i e he
                    exact ⟨e._driver, by simp [he]⟩
                  · exact absurd rfl hv
theorem pitchBend_bits (x : Nat) (hx : x < 2) :
    (0xFC + x) &&& 0x80 ≠ 0 ∧ (0xFC + x) &&& 0x40 ≠ 0 ∧ (0xFC + x) &&& 0x20 ≠ 0 ∧
    (0xFC + x) &&& 0x10 ≠ 0 ∧ (0xFC + x) &&& 0x8 ≠ 0 ∧ (0xFC + x) &&& 0x4 ≠ 0 ∧
    (0xFC + x) &&& 0x2 = 0 := by
  interval_cases x <;> decide

theorem wideArg_bits (y : Nat) (hy : y < 8) :
    (0xF0 + y) &&& 0x80 ≠ 0 ∧ (0xF0 + y) &&& 0x40 ≠ 0 ∧ (0xF0 + y) &&& 0x20 ≠ 0 ∧
    (0xF0 + y) &&& 0x10 ≠ 0 ∧ (0xF0 + y) &&& 0x8 = 0 := by
  interval_cases y <;> decide

theorem getD_set_self (l : List Int) (i : Nat) (v : Int) (hi : i < l.length) :
    (l.set i v).getD i 0 = v := by
  simp [List.getD, hi]

/-- C6 (amended): outside time-index mode, on a track with an assigned channel
`c`, the two bytes `b0 b1` behind a pitch-bend opcode `1111110x` set
`_chPitchBlend[c]` to `256*b0 + b1` (big-endian).  The two bytes behind an
opcode `11110xxx` are passed to the driver of the channel's TYPE_0 voice
(`proc22`) as `b0 + 256*b1` (little-endian) when the channel has such a
driver; when it has none the opcode stops at `assert(driver)`. -/
theorem pitch_bend_big_endian_wide_argument_little_endian
    (m : Manager) (h : Nat) (trackIndex : Int) (ctx : TrackCtx) (pre post : List Nat)
    (x y b0 b1 : Nat) (hx : x < 2) (hy : y < 8)
    (hflag : m._soTimeIndexFlag = false) (hh : h < m.sounds.length)
    (hctx : trackCtx m (m.sound h) trackIndex = .ok ctx)
    (hlen : (m.sound h)._chPitchBlend.length = 16) :
    (∃ m1, decodeStep ctx h trackIndex (pre ++ (0xFC + x) :: b0 :: b1 :: post) m pre.length
        = .ok (Decoded.more m1 (pre.length + 3)) ∧
      (m1.sound h)._chPitchBlend.getD ctx.channelNum.toNat 0 = ((256 * b0 + b1 : Nat) : Int)) ∧
    (∀ d, ctx.driver = some d →
      decodeStep ctx h trackIndex (pre ++ (0xF0 + y) :: b0 :: b1 :: post) m pre.length
        = .ok (Decoded.more (m.emit [DriverCall.proc22 d ctx.voiceNum ctx.chVoiceType
            ((b0 + 256 * b1 : Nat) : Int)]) (pre.length + 3))) ∧
    (ctx.driver = none →
      faultOf (decodeStep ctx h trackIndex (pre ++ (0xF0 + y) :: b0 :: b1 :: post) m pre.length)
        = some Fault.assertFailed) := by
  obtain ⟨hch, hge, hlt, hgrp, hdrv⟩ := trackCtx_spec m (m.sound h) trackIndex ctx hctx
  have hne : ctx.channelNum ≠ -1 := by omega
  refine ⟨?_, ?_, ?_⟩
  · have hb := pitchBend_bits x hx
    have hnneg : ¬ ctx.channelNum < 0 := not_lt.2 hge
    have hin : ctx.channelNum.toNat < (m.sound h)._chPitchBlend.length := by
      rw [hlen]; omega
    unfold decodeStep
    rw [rdByte_append]
    simp only [Except.bind, hb.1, hb.2.1, hb.2.2.1, hb.2.2.2.1, hb.2.2.2.2.1, hb.2.2.2.2.2.1,
      hb.2.2.2.2.2.2, if_false, if_true]
    unfold area7
    rw [rdByte_append1, rdByte_append2]
    simp only [hflag, if_true, Except.bind, hne, ne_eq, not_false_eq_true, hch, wr, hnneg,
      if_false, hin]
    by_cases hvt : ctx.voiceType = VOICETYPE_0
    · by_cases hvn : ctx.voiceNum = -1
      · simp only [hvt, not_true_eq_false, if_false, hvn]
        refine ⟨_, rfl, ?_⟩
        rw [sound_setSound _ _ _ hh]
        exact getD_set_self _ _ _ hin
      · obtain ⟨d, hd⟩ := hdrv hvn
        simp only [hvt, not_true_eq_false, if_false, hvn, if_true, not_false_eq_true, hd,
          callDriver, Except.map]
        refine ⟨_, rfl, ?_⟩
        show ((m.setSound h _).sound h)._chPitchBlend.getD _ 0 = _
        rw [sound_setSound _ _ _ hh]
        exact getD_set_self _ _ _ hin
    · obtain ⟨vs, hvs⟩ := hgrp hvt
      have hvs2 : getGroup (m.setSound h { m.sound h with
          _chPitchBlend := (m.sound h)._chPitchBlend.set ctx.channelNum.toNat
            ((256 * b0 + b1 : Nat) : Int) })._voiceTypeStructPtrs ctx.vtStruct = .ok vs := hvs
      simp only [hvt, not_false_eq_true, if_true, hvs2, Except.map]
      refine ⟨_, rfl, ?_⟩
      show ((m.setSound h _).sound h)._chPitchBlend.getD _ 0 = _
      rw [sound_setSound _ _ _ hh]
      exact getD_set_self _ _ _ hin
  · intro d hd
    have hb := wideArg_bits y hy
    unfold decodeStep
    rw [rdByte_append]
    simp only [Except.bind, hb.1, hb.2.1, hb.2.2.1, hb.2.2.2.1, hb.2.2.2.2, if_false, if_true]
    unfold area5
    rw [rdByte_append1, rdByte_append2]
    simp only [hflag, if_true, Except.bind, hne, ne_eq, not_false_eq_true, hd, callDriver,
      Except.map]
  · intro hd
    have hb := wideArg_bits y hy
    unfold decodeStep
    rw [rdByte_append]
    simp only [Except.bind, hb.1, hb.2.1, hb.2.2.1, hb.2.2.2.1, hb.2.2.2.2, if_false, if_true]
    unfold area5
    rw [rdByte_append1, rdByte_append2]
    simp only [hflag, if_true, Except.bind, hne, ne_eq, not_false_eq_true, hd, callDriver,
      Except.map, faultOf]

/-- C6 as stated fails on every channel of the Adlib table: for a track on
channel 0 of the TYPE_1 group holding the event `0xF0 0x12 0x34`, the call of
`_soServiceTrackType0` outside time-index mode stops at `assert(driver)` and
passes nothing on; in time-index mode the two bytes are skipped. -/
theorem wide_argument_asserts_without_driver :
    trackCtx (flaggedTrackManager [0xF0, 0x12, 0x34, 0xFF, 0x80] false)
        ((flaggedTrackManager [0xF0, 0x12, 0x34, 0xFF, 0x80] false).sound 0) 0 = .ok adlibCtx ∧
    faultOf (_soServiceTrackType0 (flaggedTrackManager [0xF0, 0x12, 0x34, 0xFF, 0x80] false) 0 0
        ([0, 0, 0, 0, 0, 0, 1, 0, 0, 0, 0, 127, 64, 0] ++ [0xF0, 0x12, 0x34, 0xFF, 0x80])) =
      some Fault.assertFailed ∧
    trackSummary [0xF0, 0x12, 0x34, 0xFF, 0x80] false = none ∧
    trackSummary [0xF0, 0x12, 0x34, 0xFF, 0x80] true =
      some ([19, 0, 0], [0, 0, 127, 64, 0, 1], 0x2000) := by
  refine ⟨rfl, ?_, ?_, ?_⟩ <;> decide

/-- Witness of the amended C6: track 0 (channel 0 of the TYPE_1 group) of the
three-sound fixture with the Adlib table, with the bytes `0x12 0x34` behind
the opcodes `0xFC` and `0xF0`: the pitch bend is stored and the opcode `0xF0`
stops at the assertion.  On the track of `type0Manager`, whose channel has
voice 1 of a TYPE_0 group with driver 0, the opcode `0xF0` passes `0x3412` to
that driver. -/
theorem pitch_bend_big_endian_wide_argument_little_endian_witness :
    (0 < 2 ∧ 0 < 8 ∧ playingOne._soTimeIndexFlag = false ∧ 0 < playingOne.sounds.length ∧
      trackCtx playingOne (playingOne.sound 0) 0 = .ok adlibCtx ∧
      (playingOne.sound 0)._chPitchBlend.length = 16) ∧
    ((∃ m1, decodeStep adlibCtx 0 0
          ([] ++ (0xFC + 0) :: 0x12 :: 0x34 :: [0xFF, 0x80]) playingOne ([] : List Nat).length
          = .ok (Decoded.more m1 (([] : List Nat).length + 3)) ∧
        (m1.sound 0)._chPitchBlend.getD adlibCtx.channelNum.toNat 0 =
          ((256 * 0x12 + 0x34 : Nat) : Int)) ∧
      (∀ d, adlibCtx.driver = some d →
        decodeStep adlibCtx 0 0
          ([] ++ (0xF0 + 0) :: 0x12 :: 0x34 :: [0xFF, 0x80]) playingOne ([] : List Nat).length
          = .ok (Decoded.more (playingOne.emit [DriverCall.proc22 d adlibCtx.voiceNum
              adlibCtx.chVoiceType ((0x12 + 256 * 0x34 : Nat) : Int)])
              (([] : List Nat).length + 3))) ∧
      (adlibCtx.driver = none →
        faultOf (decodeStep adlibCtx 0 0
          ([] ++ (0xF0 + 0) :: 0x12 :: 0x34 :: [0xFF, 0x80]) playingOne ([] : List Nat).length)
          = some Fault.assertFailed)) ∧
    (type0Manager._soTimeIndexFlag = false ∧ 0 < type0Manager.sounds.length ∧
      trackCtx type0Manager (type0Manager.sound 0) 0 = .ok type0Ctx ∧
      (type0Manager.sound 0)._chPitchBlend.length = 16 ∧ type0Ctx.driver = some 0) ∧
    decodeStep type0Ctx 0 0
        ([] ++ (0xF0 + 0) :: 0x12 :: 0x34 :: [0xFF, 0x80]) type0Manager ([] : List Nat).length
      = .ok (Decoded.more (type0Manager.emit [DriverCall.proc22 0 type0Ctx.voiceNum
          type0Ctx.chVoiceType ((0x12 + 256 * 0x34 : Nat) : Int)])
          (([] : List Nat).length + 3)) :=
  ⟨⟨by decide, by decide, rfl, by decide, rfl, rfl⟩,
    pitch_bend_big_endian_wide_argument_little_endian playingOne 0 0 adlibCtx [] [0xFF, 0x80]
      0 0 0x12 0x34 (by decide) (by decide) rfl (by decide) rfl rfl,
    ⟨rfl, by decide, rfl, rfl, rfl⟩,
    (pitch_bend_big_endian_wide_argument_little_endian type0Manager 0 0 type0Ctx []
      [0xFF, 0x80] 0 0 0x12 0x34 (by decide) (by decide) rfl (by decide) rfl rfl).2.1 0 rfl⟩

/-! ## Loop counting -/

theorem bind_eq_ok {ε α β : Type} (x : Except ε α) (f : α → Except ε β) (b : β) :
    x.bind f = .ok b ↔ ∃ a, x = .ok a ∧ f a = .ok b := by
  cases x with
  | error e => simp [Except.bind]
  | ok a => simp [Except.bind]

theorem map_eq_ok {ε α β : Type} (x : Except ε α) (f : α → β) (b : β) :
    x.map f = .ok b ↔ ∃ a, x = .ok a ∧ f a = b := by
  cases x with
  | error e => simp [Except.map]
  | ok a => simp [Except.map]

theorem trackKey_setSound (h : Nat) (m : Manager) (s : Sound)
    (hs : s._loop = (m.sound h)._loop) : trackKey h (m.setSound h s) = trackKey h m := by
  by_cases hh : h < m.sounds.length
  · have h1 := sound_setSound m h s hh
    unfold trackKey
    rw [h1, hs]
    simp [Manager.setSound]
  · have : m.setSound h s = m := by
      unfold Manager.setSound
      rw [List.set_eq_of_length_le (by omega)]
    rw [this]

theorem trackKey_of_eq (h : Nat) (m m1 : Manager) (hs : m1.sounds = m.sounds)
    (hp : m1._playList = m._playList) : trackKey h m1 = trackKey h m := by
  simp [trackKey, Manager.sound, hs, hp]

theorem onGroup_key (h : Nat) (m m1 : Manager) (g : Option Nat)
    (f : List VoiceStructEntry → Except Fault (List VoiceStructEntry × List DriverCall))
    (hr : onGroup m g f = .ok m1) : trackKey h m1 = trackKey h m := by
  unfold onGroup at hr
  simp only [bind_eq_ok, map_eq_ok] at hr
  obtain ⟨vs, _, r, _, rfl⟩ := hr
  exact trackKey_of_eq h m _ rfl rfl

theorem callDriver_key (h : Nat) (m m1 : Manager) (d : Option Nat) (call : Nat → DriverCall)
    (hr : callDriver m d call = .ok m1) : trackKey h m1 = trackKey h m := by
  unfold callDriver at hr
  cases d with
  | none => simp at hr
  | some d =>
    simp only [Except.ok.injEq] at hr
    subst hr
    exact trackKey_of_eq h m _ rfl rfl

theorem doTrackCommand_loop (s s1 : Sound) (c cmd v : Int)
    (hr : _soDoTrackCommand s c cmd v = .ok s1) : s1._loop = s._loop := by
  unfold _soDoTrackCommand at hr
  repeat' split at hr
  all_goals first
    | (simp only [map_eq_ok] at hr; obtain ⟨a, _, rfl⟩ := hr; rfl)
    | (simp only [Except.ok.injEq] at hr; subst hr; rfl)

theorem doUpdateTracks_loop (s : Sound) (cmd v : Int) :
    (_soDoUpdateTracks s cmd v).1._loop = s._loop := by
  unfold _soDoUpdateTracks
  split <;> rfl

theorem setTrackPos_loop (flag : Bool) (s s1 : Sound) (t p c : Int)
    (hr : _soSetTrackPos flag s t p c = .ok s1) : s1._loop = s._loop := by
  unfold _soSetTrackPos at hr
  simp only [map_eq_ok] at hr
  obtain ⟨a, _, rfl⟩ := hr
  repeat' split
  all_goals rfl

theorem trackCommand_key (ctx : TrackCtx) (h : Nat) (t : Int) (m m1 : Manager) (cmd v : Int)
    (sc : Bool) (hr : trackCommand ctx h t m cmd v sc = .ok m1) :
    trackKey h m1 = trackKey h m := by
  unfold trackCommand at hr
  simp only [bind_eq_ok] at hr
  obtain ⟨ch, _, s1, hs1, hr⟩ := hr
  have hk : trackKey h (m.setSound h s1) = trackKey h m :=
    trackKey_setSound h m s1 (doTrackCommand_loop _ _ _ _ _ hs1)
  split at hr
  · split at hr
    · simp only [map_eq_ok] at hr
      obtain ⟨vs, _, rfl⟩ := hr
      exact (trackKey_of_eq h (m.setSound h s1) _ rfl rfl).trans hk
    · split at hr
      · exact (callDriver_key h _ _ _ _ hr).trans hk
      · simp only [Except.ok.injEq] at hr
        subst hr; exact hk
  · simp only [Except.ok.injEq] at hr
    subst hr; exact hk
theorem area1_key (ctx : TrackCtx) (h : Nat) (m : Manager) (v pos : Nat) (r : Decoded)
    (hr : area1 ctx h m v pos = .ok r) : trackKey h r.mgr = trackKey h m := by
  unfold area1 at hr
  repeat' split at hr
  all_goals first
    | (simp only [map_eq_ok] at hr; obtain ⟨m1, hm1, rfl⟩ := hr
       first | exact onGroup_key h _ _ _ _ hm1 | exact callDriver_key h _ _ _ _ hm1)
    | (simp only [Except.ok.injEq] at hr; subst hr; rfl)

theorem area2_key (ctx : TrackCtx) (h : Nat) (data : List Nat) (m : Manager) (v pos : Nat)
    (r : Decoded) (hr : area2 ctx h data m v pos = .ok r) : trackKey h r.mgr = trackKey h m := by
  unfold area2 at hr
  split at hr
  · simp only [bind_eq_ok] at hr
    obtain ⟨b, _, hr⟩ := hr
    repeat' split at hr
    all_goals first
      | (simp only [map_eq_ok] at hr; obtain ⟨m1, hm1, rfl⟩ := hr
         first | exact onGroup_key h _ _ _ _ hm1 | exact callDriver_key h _ _ _ _ hm1)
      | (simp only [Except.ok.injEq] at hr; subst hr; rfl)
  · simp only [Except.ok.injEq] at hr; subst hr; rfl

theorem area3_key (h : Nat) (t : Int) (data : List Nat) (m : Manager) (v pos : Nat)
    (r : Decoded) (hr : area3 h t data m v pos = .ok r) : trackKey h r.mgr = trackKey h m := by
  unfold area3 at hr
  simp only [bind_eq_ok, map_eq_ok] at hr
  obtain ⟨g, _, a, _, b, _, rfl⟩ := hr
  exact trackKey_setSound h m _ rfl

theorem area4_key (ctx : TrackCtx) (h : Nat) (t : Int) (data : List Nat) (m : Manager)
    (v pos : Nat) (r : Decoded) (hr : area4 ctx h t data m v pos = .ok r) :
    trackKey h r.mgr = trackKey h m := by
  unfold area4 at hr
  simp only [bind_eq_ok] at hr
  obtain ⟨b, _, hr⟩ := hr
  repeat' split at hr
  all_goals first
    | (cases hr; done)
    | (simp only [map_eq_ok] at hr; obtain ⟨m1, hm1, rfl⟩ := hr
       exact trackCommand_key _ _ _ _ _ _ _ _ hm1)
    | (simp only [Except.ok.injEq] at hr; subst hr
       exact trackKey_setSound h m _ (doUpdateTracks_loop _ _ _))

theorem area5_key (ctx : TrackCtx) (h : Nat) (data : List Nat) (m : Manager) (pos : Nat)
    (r : Decoded) (hr : area5 ctx data m pos = .ok r) : trackKey h r.mgr = trackKey h m := by
  unfold area5 at hr
  split at hr
  · simp only [bind_eq_ok] at hr
    obtain ⟨b0, _, b1, _, hr⟩ := hr
    split at hr
    · simp only [map_eq_ok] at hr
      obtain ⟨m1, hm1, rfl⟩ := hr
      exact callDriver_key h _ _ _ _ hm1
    · simp only [Except.ok.injEq] at hr; subst hr; rfl
  · simp only [Except.ok.injEq] at hr; subst hr; rfl

theorem area6_key (ctx : TrackCtx) (h : Nat) (t : Int) (data : List Nat) (m : Manager)
    (pos : Nat) (r : Decoded) (hr : area6 ctx h t data m pos = .ok r) :
    trackKey h r.mgr = trackKey h m := by
  unfold area6 at hr
  simp only [bind_eq_ok] at hr
  obtain ⟨c, _, v, _, hr⟩ := hr
  split at hr
  · simp only [map_eq_ok] at hr
    obtain ⟨m1, hm1, rfl⟩ := hr
    exact trackCommand_key _ _ _ _ _ _ _ _ hm1
  · split at hr
    all_goals
      simp only [Except.ok.injEq] at hr; subst hr
      exact trackKey_setSound h m _ (doUpdateTracks_loop _ _ _)

theorem area7_key (ctx : TrackCtx) (h : Nat) (t : Int) (data : List Nat) (m : Manager)
    (pos : Nat) (r : Decoded) (hr : area7 ctx h t data m pos = .ok r) :
    trackKey h r.mgr = trackKey h m := by
  unfold area7 at hr
  split at hr
  · simp only [bind_eq_ok] at hr
    obtain ⟨b0, _, b1, _, hr⟩ := hr
    split at hr
    · simp only [bind_eq_ok] at hr
      obtain ⟨ch, _, pb, _, hr⟩ := hr
      have hk : trackKey h (m.setSound h { m.sound h with _chPitchBlend := pb }) = trackKey h m :=
        trackKey_setSound h m _ rfl
      split at hr
      · simp only [map_eq_ok] at hr
        obtain ⟨vs, _, rfl⟩ := hr
        exact (trackKey_of_eq h _ _ rfl rfl).trans hk
      · split at hr
        · simp only [map_eq_ok] at hr
          obtain ⟨m2, hm2, rfl⟩ := hr
          exact (callDriver_key h _ _ _ _ hm2).trans hk
        · simp only [Except.ok.injEq] at hr; subst hr; exact hk
    · simp only [Except.ok.injEq] at hr; subst hr; rfl
  · simp only [Except.ok.injEq] at hr; subst hr; rfl

theorem area8_key (ctx : TrackCtx) (h : Nat) (t : Int) (data : List Nat) (m : Manager)
    (pos : Nat) (r : Decoded) (hr : area8 ctx h t data m pos = .ok r) :
    trackKey h r.mgr = trackKey h m := by
  unfold area8 at hr
  simp only [bind_eq_ok] at hr
  obtain ⟨program, _, hr⟩ := hr
  split at hr
  · simp only [bind_eq_ok] at hr
    obtain ⟨ch, _, pg, _, hr⟩ := hr
    have hk : trackKey h (m.setSound h { m.sound h with _chProgram := pg }) = trackKey h m :=
      trackKey_setSound h m _ rfl
    split at hr
    · simp only [map_eq_ok] at hr
      obtain ⟨m2, hm2, rfl⟩ := hr
      exact (callDriver_key h _ _ _ _ hm2).trans hk
    · simp only [Except.ok.injEq] at hr; subst hr; exact hk
  · simp only [map_eq_ok] at hr
    obtain ⟨s1, hs1, rfl⟩ := hr
    exact trackKey_setSound h m _ (setTrackPos_loop _ _ _ _ _ _ hs1)

theorem area9_key (ctx : TrackCtx) (h : Nat) (t : Int) (data : List Nat) (m : Manager)
    (pos : Nat) (r : Decoded) (hr : area9 ctx h t data m pos = .ok r) :
    trackKey h r.mgr = trackKey h m := by
  unfold area9 at hr
  simp only [bind_eq_ok] at hr
  obtain ⟨b, _, hr⟩ := hr
  split at hr
  · simp only [bind_eq_ok, map_eq_ok] at hr
    obtain ⟨a, _, c, _, rfl⟩ := hr
    exact trackKey_setSound h m _ rfl
  · split at hr
    · simp only [map_eq_ok] at hr
      obtain ⟨m1, hm1, rfl⟩ := hr
      exact callDriver_key h _ _ _ _ hm1
    · simp only [Except.ok.injEq] at hr; subst hr; rfl

theorem decodeStep_key (ctx : TrackCtx) (h : Nat) (t : Int) (data : List Nat) (m : Manager)
    (pos : Nat) (r : Decoded) (hr : decodeStep ctx h t data m pos = .ok r) :
    trackKey h r.mgr = trackKey h m := by
  unfold decodeStep at hr
  simp only [bind_eq_ok] at hr
  obtain ⟨v, _, hr⟩ := hr
  repeat' split at hr
  · exact area1_key _ _ _ _ _ _ hr
  · exact area2_key _ _ _ _ _ _ _ hr
  · exact area3_key _ _ _ _ _ _ _ hr
  · exact area4_key _ _ _ _ _ _ _ _ hr
  · exact area5_key _ _ _ _ _ _ hr
  · exact area6_key _ _ _ _ _ _ _ hr
  · exact area7_key _ _ _ _ _ _ _ hr
  · exact area8_key _ _ _ _ _ _ _ hr
  · exact area9_key _ _ _ _ _ _ _ hr

theorem decodeLoop_key (ctx : TrackCtx) (h : Nat) (t : Int) (data : List Nat) (fuel : Nat)
    (m : Manager) (pos : Nat) (m1 : Manager)
    (hr : decodeLoop ctx h t data fuel m pos = .ok m1) : trackKey h m1 = trackKey h m := by
  induction fuel generalizing m pos with
  | zero => simp [decodeLoop] at hr
  | succ fuel ih =>
    unfold decodeLoop at hr
    simp only [bind_eq_ok] at hr
    obtain ⟨r, hstep, hr⟩ := hr
    have hk := decodeStep_key _ _ _ _ _ _ _ hstep
    cases r with
    | more m2 pos2 => exact (ih _ _ hr).trans hk
    | done m2 =>
      simp only [Except.ok.injEq] at hr
      subst hr; exact hk

theorem serviceTrackType0_key (m : Manager) (h : Nat) (t : Int) (data : List Nat)
    (m1 : Manager) (hr : _soServiceTrackType0 m h t data = .ok m1) :
    trackKey h m1 = trackKey h m := by
  unfold _soServiceTrackType0 at hr
  simp only [bind_eq_ok] at hr
  obtain ⟨rest, _, hr⟩ := hr
  split at hr
  · simp only [map_eq_ok] at hr
    obtain ⟨a, _, rfl⟩ := hr
    exact trackKey_setSound h m _ rfl
  · simp only [bind_eq_ok] at hr
    obtain ⟨st, _, hr⟩ := hr
    split at hr
    · simp only [Except.ok.injEq] at hr; subst hr; rfl
    · simp only [bind_eq_ok] at hr
      obtain ⟨ctx, _, idx, _, hr⟩ := hr
      split at hr
      · simp at hr
      · exact decodeLoop_key _ _ _ _ _ _ _ _ hr

theorem serviceTrackType1_key (m : Manager) (h : Nat) (t : Int) (data : List Nat)
    (m1 : Manager) (hr : _soServiceTrackType1 m h t data = .ok m1) :
    trackKey h m1 = trackKey h m := by
  unfold _soServiceTrackType1 at hr
  simp only [bind_eq_ok] at hr
  obtain ⟨st, _, hr⟩ := hr
  split at hr
  · simp only [Except.ok.injEq] at hr; subst hr; rfl
  · simp only [bind_eq_ok] at hr
    obtain ⟨ch, _, hr⟩ := hr
    split at hr
    · simp only [map_eq_ok] at hr
      obtain ⟨a, _, rfl⟩ := hr
      exact trackKey_setSound h m _ rfl
    · simp only [bind_eq_ok] at hr
      obtain ⟨vt, _, slot, _, hr⟩ := hr
      split at hr
      · simp only [map_eq_ok] at hr
        obtain ⟨a, _, rfl⟩ := hr
        exact trackKey_setSound h m _ rfl
      · split at hr
        · simp only [bind_eq_ok] at hr
          obtain ⟨b1, _, hr⟩ := hr
          split at hr
          all_goals
            simp only [Except.ok.injEq] at hr; subst hr
            exact trackKey_of_eq h m _ rfl rfl
        · simp only [Except.ok.injEq] at hr; subst hr; rfl

theorem serviceTrackLoop_key (h : Nat) (tracks : List (List Nat)) (t : Int) (m : Manager)
    (flag : Bool) (r : Manager × Bool) (hr : serviceTrackLoop h tracks t m flag = .ok r) :
    trackKey h r.1 = trackKey h m := by
  induction tracks generalizing t m flag with
  | nil =>
    simp only [serviceTrackLoop, Except.ok.injEq] at hr
    subst hr; rfl
  | cons data rest ih =>
    unfold serviceTrackLoop at hr
    simp only [bind_eq_ok] at hr
    obtain ⟨mode, _, m1, hm1, st, _, hr⟩ := hr
    have hk : trackKey h m1 = trackKey h m := by
      split at hm1
      · exact serviceTrackType0_key _ _ _ _ _ hm1
      · split at hm1
        · exact serviceTrackType1_key _ _ _ _ _ hm1
        · simp at hm1
    exact (ih _ _ _ hr).trans hk
/-! ## What track decoding leaves of a sound: fade target, stop flag, pause count -/

theorem fadeKey_setSound (h : Nat) (m : Manager) (s : Sound)
    (hs : fadeFields s = fadeFields (m.sound h)) : fadeKey h (m.setSound h s) = fadeKey h m := by
  by_cases hh : h < m.sounds.length
  · have h1 := sound_setSound m h s hh
    unfold fadeKey
    rw [h1, hs]
    simp [Manager.setSound]
  · have : m.setSound h s = m := by
      unfold Manager.setSound
      rw [List.set_eq_of_length_le (by omega)]
    rw [this]

theorem fadeKey_of_eq (h : Nat) (m m1 : Manager) (hs : m1.sounds = m.sounds)
    (hp : m1._playList = m._playList) : fadeKey h m1 = fadeKey h m := by
  simp [fadeKey, Manager.sound, hs, hp]

theorem onGroup_fade (h : Nat) (m m1 : Manager) (g : Option Nat)
    (f : List VoiceStructEntry → Except Fault (List VoiceStructEntry × List DriverCall))
    (hr : onGroup m g f = .ok m1) : fadeKey h m1 = fadeKey h m := by
  unfold onGroup at hr
  simp only [bind_eq_ok, map_eq_ok] at hr
  obtain ⟨vs, _, r, _, rfl⟩ := hr
  exact fadeKey_of_eq h m _ rfl rfl

theorem callDriver_fade (h : Nat) (m m1 : Manager) (d : Option Nat) (call : Nat → DriverCall)
    (hr : callDriver m d call = .ok m1) : fadeKey h m1 = fadeKey h m := by
  unfold callDriver at hr
  cases d with
  | none => simp at hr
  | some d =>
    simp only [Except.ok.injEq] at hr
    subst hr
    exact fadeKey_of_eq h m _ rfl rfl

theorem doTrackCommand_fadeFields (s s1 : Sound) (c cmd v : Int)
    (hr : _soDoTrackCommand s c cmd v = .ok s1) : fadeFields s1 = fadeFields s := by
  unfold _soDoTrackCommand at hr
  repeat' split at hr
  all_goals first
    | (simp only [map_eq_ok] at hr; obtain ⟨a, _, rfl⟩ := hr; rfl)
    | (simp only [Except.ok.injEq] at hr; subst hr; rfl)

theorem doUpdateTracks_fadeFields (s : Sound) (cmd v : Int) :
    fadeFields (_soDoUpdateTracks s cmd v).1 = fadeFields s := by
  unfold _soDoUpdateTracks
  split <;> rfl

theorem setTrackPos_fadeFields (flag : Bool) (s s1 : Sound) (t p c : Int)
    (hr : _soSetTrackPos flag s t p c = .ok s1) : fadeFields s1 = fadeFields s := by
  unfold _soSetTrackPos at hr
  simp only [map_eq_ok] at hr
  obtain ⟨a, _, rfl⟩ := hr
  repeat' split
  all_goals rfl

theorem trackCommand_fade (ctx : TrackCtx) (h : Nat) (t : Int) (m m1 : Manager) (cmd v : Int)
    (sc : Bool) (hr : trackCommand ctx h t m cmd v sc = .ok m1) :
    fadeKey h m1 = fadeKey h m := by
  unfold trackCommand at hr
  simp only [bind_eq_ok] at hr
  obtain ⟨ch, _, s1, hs1, hr⟩ := hr
  have hk : fadeKey h (m.setSound h s1) = fadeKey h m :=
    fadeKey_setSound h m s1 (doTrackCommand_fadeFields _ _ _ _ _ hs1)
  split at hr
  · split at hr
    · simp only [map_eq_ok] at hr
      obtain ⟨vs, _, rfl⟩ := hr
      exact (fadeKey_of_eq h (m.setSound h s1) _ rfl rfl).trans hk
    · split at hr
      · exact (callDriver_fade h _ _ _ _ hr).trans hk
      · simp only [Except.ok.injEq] at hr
        subst hr; exact hk
  · simp only [Except.ok.injEq] at hr
    subst hr; exact hk
theorem area1_fade (ctx : TrackCtx) (h : Nat) (m : Manager) (v pos : Nat) (r : Decoded)
    (hr : area1 ctx h m v pos = .ok r) : fadeKey h r.mgr = fadeKey h m := by
  unfold area1 at hr
  repeat' split at hr
  all_goals first
    | (simp only [map_eq_ok] at hr; obtain ⟨m1, hm1, rfl⟩ := hr
       first | exact onGroup_fade h _ _ _ _ hm1 | exact callDriver_fade h _ _ _ _ hm1)
    | (simp only [Except.ok.injEq] at hr; subst hr; rfl)

theorem area2_fade (ctx : TrackCtx) (h : Nat) (data : List Nat) (m : Manager) (v pos : Nat)
    (r : Decoded) (hr : area2 ctx h data m v pos = .ok r) : fadeKey h r.mgr = fadeKey h m := by
  unfold area2 at hr
  split at hr
  · simp only [bind_eq_ok] at hr
    obtain ⟨b, _, hr⟩ := hr
    repeat' split at hr
    all_goals first
      | (simp only [map_eq_ok] at hr; obtain ⟨m1, hm1, rfl⟩ := hr
         first | exact onGroup_fade h _ _ _ _ hm1 | exact callDriver_fade h _ _ _ _ hm1)
      | (simp only [Except.ok.injEq] at hr; subst hr; rfl)
  · simp only [Except.ok.injEq] at hr; subst hr; rfl

theorem area3_fade (h : Nat) (t : Int) (data : List Nat) (m : Manager) (v pos : Nat)
    (r : Decoded) (hr : area3 h t data m v pos = .ok r) : fadeKey h r.mgr = fadeKey h m := by
  unfold area3 at hr
  simp only [bind_eq_ok, map_eq_ok] at hr
  obtain ⟨g, _, a, _, b, _, rfl⟩ := hr
  exact fadeKey_setSound h m _ rfl

theorem area4_fade (ctx : TrackCtx) (h : Nat) (t : Int) (data : List Nat) (m : Manager)
    (v pos : Nat) (r : Decoded) (hr : area4 ctx h t data m v pos = .ok r) :
    fadeKey h r.mgr = fadeKey h m := by
  unfold area4 at hr
  simp only [bind_eq_ok] at hr
  obtain ⟨b, _, hr⟩ := hr
  repeat' split at hr
  all_goals first
    | (cases hr; done)
    | (simp only [map_eq_ok] at hr; obtain ⟨m1, hm1, rfl⟩ := hr
       exact trackCommand_fade _ _ _ _ _ _ _ _ hm1)
    | (simp only [Except.ok.injEq] at hr; subst hr
       exact fadeKey_setSound h m _ (doUpdateTracks_fadeFields _ _ _))

theorem area5_fade (ctx : TrackCtx) (h : Nat) (data : List Nat) (m : Manager) (pos : Nat)
    (r : Decoded) (hr : area5 ctx data m pos = .ok r) : fadeKey h r.mgr = fadeKey h m := by
  unfold area5 at hr
  split at hr
  · simp only [bind_eq_ok] at hr
    obtain ⟨b0, _, b1, _, hr⟩ := hr
    split at hr
    · simp only [map_eq_ok] at hr
      obtain ⟨m1, hm1, rfl⟩ := hr
      exact callDriver_fade h _ _ _ _ hm1
    · simp only [Except.ok.injEq] at hr; subst hr; rfl
  · simp only [Except.ok.injEq] at hr; subst hr; rfl

theorem area6_fade (ctx : TrackCtx) (h : Nat) (t : Int) (data : List Nat) (m : Manager)
    (pos : Nat) (r : Decoded) (hr : area6 ctx h t data m pos = .ok r) :
    fadeKey h r.mgr = fadeKey h m := by
  unfold area6 at hr
  simp only [bind_eq_ok] at hr
  obtain ⟨c, _, v, _, hr⟩ := hr
  split at hr
  · simp only [map_eq_ok] at hr
    obtain ⟨m1, hm1, rfl⟩ := hr
    exact trackCommand_fade _ _ _ _ _ _ _ _ hm1
  · split at hr
    all_goals
      simp only [Except.ok.injEq] at hr; subst hr
      exact fadeKey_setSound h m _ (doUpdateTracks_fadeFields _ _ _)

theorem area7_fade (ctx : TrackCtx) (h : Nat) (t : Int) (data : List Nat) (m : Manager)
    (pos : Nat) (r : Decoded) (hr : area7 ctx h t data m pos = .ok r) :
    fadeKey h r.mgr = fadeKey h m := by
  unfold area7 at hr
  split at hr
  · simp only [bind_eq_ok] at hr
    obtain ⟨b0, _, b1, _, hr⟩ := hr
    split at hr
    · simp only [bind_eq_ok] at hr
      obtain ⟨ch, _, pb, _, hr⟩ := hr
      have hk : fadeKey h (m.setSound h { m.sound h with _chPitchBlend := pb }) = fadeKey h m :=
        fadeKey_setSound h m _ rfl
      split at hr
      · simp only [map_eq_ok] at hr
        obtain ⟨vs, _, rfl⟩ := hr
        exact (fadeKey_of_eq h _ _ rfl rfl).trans hk
      · split at hr
        · simp only [map_eq_ok] at hr
          obtain ⟨m2, hm2, rfl⟩ := hr
          exact (callDriver_fade h _ _ _ _ hm2).trans hk
        · simp only [Except.ok.injEq] at hr; subst hr; exact hk
    · simp only [Except.ok.injEq] at hr; subst hr; rfl
  · simp only [Except.ok.injEq] at hr; subst hr; rfl

theorem area8_fade (ctx : TrackCtx) (h : Nat) (t : Int) (data : List Nat) (m : Manager)
    (pos : Nat) (r : Decoded) (hr : area8 ctx h t data m pos = .ok r) :
    fadeKey h r.mgr = fadeKey h m := by
  unfold area8 at hr
  simp only [bind_eq_ok] at hr
  obtain ⟨program, _, hr⟩ := hr
  split at hr
  · simp only [bind_eq_ok] at hr
    obtain ⟨ch, _, pg, _, hr⟩ := hr
    have hk : fadeKey h (m.setSound h { m.sound h with _chProgram := pg }) = fadeKey h m :=
      fadeKey_setSound h m _ rfl
    split at hr
    · simp only [map_eq_ok] at hr
      obtain ⟨m2, hm2, rfl⟩ := hr
      exact (callDriver_fade h _ _ _ _ hm2).trans hk
    · simp only [Except.ok.injEq] at hr; subst hr; exact hk
  · simp only [map_eq_ok] at hr
    obtain ⟨s1, hs1, rfl⟩ := hr
    exact fadeKey_setSound h m _ (setTrackPos_fadeFields _ _ _ _ _ _ hs1)

theorem area9_fade (ctx : TrackCtx) (h : Nat) (t : Int) (data : List Nat) (m : Manager)
    (pos : Nat) (r : Decoded) (hr : area9 ctx h t data m pos = .ok r) :
    fadeKey h r.mgr = fadeKey h m := by
  unfold area9 at hr
  simp only [bind_eq_ok] at hr
  obtain ⟨b, _, hr⟩ := hr
  split at hr
  · simp only [bind_eq_ok, map_eq_ok] at hr
    obtain ⟨a, _, c, _, rfl⟩ := hr
    exact fadeKey_setSound h m _ rfl
  · split at hr
    · simp only [map_eq_ok] at hr
      obtain ⟨m1, hm1, rfl⟩ := hr
      exact callDriver_fade h _ _ _ _ hm1
    · simp only [Except.ok.injEq] at hr; subst hr; rfl

theorem decodeStep_fade (ctx : TrackCtx) (h : Nat) (t : Int) (data : List Nat) (m : Manager)
    (pos : Nat) (r : Decoded) (hr : decodeStep ctx h t data m pos = .ok r) :
    fadeKey h r.mgr = fadeKey h m := by
  unfold decodeStep at hr
  simp only [bind_eq_ok] at hr
  obtain ⟨v, _, hr⟩ := hr
  repeat' split at hr
  · exact area1_fade _ _ _ _ _ _ hr
  · exact area2_fade _ _ _ _ _ _ _ hr
  · exact area3_fade _ _ _ _ _ _ _ hr
  · exact area4_fade _ _ _ _ _ _ _ _ hr
  · exact area5_fade _ _ _ _ _ _ hr
  · exact area6_fade _ _ _ _ _ _ _ hr
  · exact area7_fade _ _ _ _ _ _ _ hr
  · exact area8_fade _ _ _ _ _ _ _ hr
  · exact area9_fade _ _ _ _ _ _ _ hr

theorem decodeLoop_fade (ctx : TrackCtx) (h : Nat) (t : Int) (data : List Nat) (fuel : Nat)
    (m : Manager) (pos : Nat) (m1 : Manager)
    (hr : decodeLoop ctx h t data fuel m pos = .ok m1) : fadeKey h m1 = fadeKey h m := by
  induction fuel generalizing m pos with
  | zero => simp [decodeLoop] at hr
  | succ fuel ih =>
    unfold decodeLoop at hr
    simp only [bind_eq_ok] at hr
    obtain ⟨r, hstep, hr⟩ := hr
    have hk := decodeStep_fade _ _ _ _ _ _ _ hstep
    cases r with
    | more m2 pos2 => exact (ih _ _ hr).trans hk
    | done m2 =>
      simp only [Except.ok.injEq] at hr
      subst hr; exact hk

theorem serviceTrackType0_fade (m : Manager) (h : Nat) (t : Int) (data : List Nat)
    (m1 : Manager) (hr : _soServiceTrackType0 m h t data = .ok m1) :
    fadeKey h m1 = fadeKey h m := by
  unfold _soServiceTrackType0 at hr
  simp only [bind_eq_ok] at hr
  obtain ⟨rest, _, hr⟩ := hr
  split at hr
  · simp only [map_eq_ok] at hr
    obtain ⟨a, _, rfl⟩ := hr
    exact fadeKey_setSound h m _ rfl
  · simp only [bind_eq_ok] at hr
    obtain ⟨st, _, hr⟩ := hr
    split at hr
    · simp only [Except.ok.injEq] at hr; subst hr; rfl
    · simp only [bind_eq_ok] at hr
      obtain ⟨ctx, _, idx, _, hr⟩ := hr
      split at hr
      · simp at hr
      · exact decodeLoop_fade _ _ _ _ _ _ _ _ hr

theorem serviceTrackType1_fade (m : Manager) (h : Nat) (t : Int) (data : List Nat)
    (m1 : Manager) (hr : _soServiceTrackType1 m h t data = .ok m1) :
    fadeKey h m1 = fadeKey h m := by
  unfold _soServiceTrackType1 at hr
  simp only [bind_eq_ok] at hr
  obtain ⟨st, _, hr⟩ := hr
  split at hr
  · simp only [Except.ok.injEq] at hr; subst hr; rfl
  · simp only [bind_eq_ok] at hr
    obtain ⟨ch, _, hr⟩ := hr
    split at hr
    · simp only [map_eq_ok] at hr
      obtain ⟨a, _, rfl⟩ := hr
      exact fadeKey_setSound h m _ rfl
    · simp only [bind_eq_ok] at hr
      obtain ⟨vt, _, slot, _, hr⟩ := hr
      split at hr
      · simp only [map_eq_ok] at hr
        obtain ⟨a, _, rfl⟩ := hr
        exact fadeKey_setSound h m _ rfl
      · split at hr
        · simp only [bind_eq_ok] at hr
          obtain ⟨b1, _, hr⟩ := hr
          split at hr
          all_goals
            simp only [Except.ok.injEq] at hr; subst hr
            exact fadeKey_of_eq h m _ rfl rfl
        · simp only [Except.ok.injEq] at hr; subst hr; rfl

theorem serviceTrackLoop_fade (h : Nat) (tracks : List (List Nat)) (t : Int) (m : Manager)
    (flag : Bool) (r : Manager × Bool) (hr : serviceTrackLoop h tracks t m flag = .ok r) :
    fadeKey h r.1 = fadeKey h m := by
  induction tracks generalizing t m flag with
  | nil =>
    simp only [serviceTrackLoop, Except.ok.injEq] at hr
    subst hr; rfl
  | cons data rest ih =>
    unfold serviceTrackLoop at hr
    simp only [bind_eq_ok] at hr
    obtain ⟨mode, _, m1, hm1, st, _, hr⟩ := hr
    have hk : fadeKey h m1 = fadeKey h m := by
      split at hm1
      · exact serviceTrackType0_fade _ _ _ _ _ hm1
      · split at hm1
        · exact serviceTrackType1_fade _ _ _ _ _ hm1
        · simp at hm1
    exact (ih _ _ _ hr).trans hk

theorem serviceTracksEnd_spec (s : Sound) (flag : Bool) (hL : 1 ≤ s._loop) :
    ((serviceTracksEnd s flag).2 = true ↔ (flag = true ∧ s._loop = 1)) ∧
    (serviceTracksEnd s flag).1._loop = (if flag = true then s._loop - 1 else s._loop) := by
  unfold serviceTracksEnd
  cases flag with
  | false => simp
  | true =>
    dsimp only
    rw [if_neg (by decide)]
    split
    · rename_i hc
      refine ⟨⟨fun _ => ⟨rfl, by omega⟩, fun _ => rfl⟩, ?_⟩
      simp
    · rename_i hc
      have hpos : s._loop > 0 := by omega
      refine ⟨⟨fun hf => by simp at hf, fun hf => absurd ⟨hpos, by omega⟩ hc⟩, ?_⟩
      simp [hpos]

theorem serviceTracksFlagged_spec (m : Manager) (h : Nat) (r : Manager × Bool × Bool)
    (hh : h < m.sounds.length) (hL : 1 ≤ (m.sound h)._loop)
    (hr : serviceTracksFlagged m h = .ok r) :
    h < r.1.sounds.length ∧ (r.2.2 = true ↔ (r.2.1 = true ∧ (m.sound h)._loop = 1)) ∧
    (r.1.sound h)._loop = (if r.2.1 = true then (m.sound h)._loop - 1 else (m.sound h)._loop) ∧
    r.1._playList = m._playList := by
  unfold serviceTracksFlagged at hr
  split at hr
  · simp at hr
  · simp only [map_eq_ok] at hr
    obtain ⟨a, ha, rfl⟩ := hr
    have hk := serviceTrackLoop_key h _ _ _ _ _ ha
    simp only [trackKey, Prod.mk.injEq] at hk
    obtain ⟨hlen, hpl, hloop⟩ := hk
    have hh1 : h < a.1.sounds.length := by omega
    have hsp := serviceTracksEnd_spec (a.1.sound h) a.2 (by rw [hloop]; exact hL)
    rw [hloop] at hsp
    refine ⟨by simp [Manager.setSound]; omega, hsp.1, ?_, ?_⟩
    · simp only [sound_setSound _ _ _ hh1]
      exact hsp.2
    · simpa [Manager.setSound] using hpl

theorem serviceTicks_count (h : Nat) (n : Nat) (m : Manager) (trace : List (Bool × Bool))
    (hh : h < m.sounds.length) (hL : 1 ≤ (m.sound h)._loop)
    (hrun : serviceTicks h n m = .ok trace) (i : Nat) (flag res : Bool)
    (hi : trace.get? i = some (flag, res)) :
    res = true ↔ (flag = true ∧
      (((trace.take (i + 1)).countP fun p => p.1 : Nat) : Int) = (m.sound h)._loop) := by
  induction n generalizing m trace i with
  | zero =>
    simp only [serviceTicks, Except.ok.injEq] at hrun
    subst hrun
    simp at hi
  | succ n ih =>
    unfold serviceTicks at hrun
    simp only [bind_eq_ok] at hrun
    obtain ⟨r, hr, hrun⟩ := hrun
    obtain ⟨hh1, hres, hloop, _⟩ := serviceTracksFlagged_spec m h r hh hL hr
    split at hrun
    · rename_i hdone
      simp only [Except.ok.injEq] at hrun
      subst hrun
      have h1 := hres.1 hdone
      cases i with
      | zero =>
        simp only [List.get?_cons_zero, Option.some.injEq, Prod.mk.injEq] at hi
        obtain ⟨rfl, rfl⟩ := hi
        simp [h1.1, h1.2, hdone]
      | succ i => simp at hi
    · rename_i hnd
      simp only [map_eq_ok] at hrun
      obtain ⟨rest, hrest, rfl⟩ := hrun
      have hnd2 : ¬ (r.2.1 = true ∧ (m.sound h)._loop = 1) := fun hc => hnd (hres.2 hc)
      have hL1 : 1 ≤ (r.1.sound h)._loop := by
        rw [hloop]
        split
        · rename_i hf
          have : (m.sound h)._loop ≠ 1 := fun hc => hnd2 ⟨hf, hc⟩
          omega
        · exact hL
      cases i with
      | zero =>
        simp only [List.get?_cons_zero, Option.some.injEq, Prod.mk.injEq] at hi
        obtain ⟨rfl, rfl⟩ := hi
        have hres_false : r.2.2 = false := by simpa using hnd
        rw [hres_false]
        simp only [Bool.false_eq_true, false_iff, not_and]
        intro hf
        simp only [zero_add, List.take_succ_cons, List.take_zero, List.countP_cons,
          List.countP_nil, hf, if_true]
        intro hc
        exact hnd2 ⟨hf, by simpa using hc.symm⟩
      | succ i =>
        simp only [List.get?_cons_succ] at hi
        have := ih r.1 rest hh1 hL1 hrest i hi
        rw [this, hloop]
        simp only [List.take_succ_cons, List.countP_cons]
        by_cases hf : r.2.1 = true
        · simp only [hf, if_true]
          constructor
          · rintro ⟨h1, h2⟩; exact ⟨h1, by push_cast; omega⟩
          · rintro ⟨h1, h2⟩; exact ⟨h1, by push_cast at h2; omega⟩
        · simp only [hf, if_false, Bool.false_eq_true, add_zero]
theorem doUpdateVolume_frame (m m1 : Manager) (h : Nat) (hr : _sfDoUpdateVolume m h = .ok m1) :
    m1.sounds = m.sounds ∧ m1._playList = m._playList := by
  unfold _sfDoUpdateVolume at hr
  simp only [map_eq_ok] at hr
  obtain ⟨calls, _, rfl⟩ := hr
  exact ⟨rfl, rfl⟩

theorem removeAsync_spec (m : Manager) (h : Nat) (hh : h < m.sounds.length) :
    h < (removeAsync m h).sounds.length ∧
    ((removeAsync m h).sound h)._stoppedAsynchronously = true ∧
    (removeAsync m h)._playList = (eraseFirst h m._playList).1 := by
  unfold removeAsync
  have hh1 : h < (_sfDoRemoveFromPlayList m h).1.sounds.length := by
    simpa [_sfDoRemoveFromPlayList] using hh
  refine ⟨by simpa [Manager.setSound] using hh1, ?_, ?_⟩
  · show (((_sfDoRemoveFromPlayList m h).1.setSound h _).sound h)._stoppedAsynchronously = true
    rw [sound_setSound _ _ _ hh1]
  · simp [Manager.setSound, _sfDoRemoveFromPlayList]

theorem eraseFirst_not_mem (h : Nat) (l : List Nat) (hn : l.Nodup) :
    h ∉ (eraseFirst h l).1 := by
  induction l with
  | nil => simp [eraseFirst]
  | cons x xs ih =>
    rw [List.nodup_cons] at hn
    unfold eraseFirst
    split
    · rename_i hx
      subst hx
      exact hn.1
    · rename_i hx
      simp only [List.mem_cons, not_or]
      exact ⟨fun he => hx he.symm, ih hn.2⟩

theorem removeAsync_sound (m : Manager) (h : Nat) (hh : h < m.sounds.length) :
    (removeAsync m h).sound h = { m.sound h with _stoppedAsynchronously := true } ∧
    (removeAsync m h)._needToRethink = true ∧
    (removeAsync m h)._playList = (eraseFirst h m._playList).1 := by
  have hh1 : h < (_sfDoRemoveFromPlayList m h).1.sounds.length := by
    simpa [_sfDoRemoveFromPlayList] using hh
  refine ⟨?_, rfl, (removeAsync_spec m h hh).2.2⟩
  show ((_sfDoRemoveFromPlayList m h).1.setSound h _).sound h = _
  rw [sound_setSound _ _ _ hh1]
  rfl

theorem fadeSound_keeps_flag (m m1 : Manager) (h : Nat) (hh : h < m.sounds.length)
    (hflag : (m.sound h)._stoppedAsynchronously = true) (hr : fadeSound m h = .ok m1) :
    (m1.sound h)._stoppedAsynchronously = true ∧ m1._playList.Sublist m._playList := by
  unfold fadeSound at hr
  dsimp only at hr
  split at hr
  · split at hr
    · simp only [Except.ok.injEq] at hr
      subst hr
      refine ⟨?_, by simp [Manager.setSound]⟩
      rw [sound_setSound _ _ _ hh]
      exact hflag
    · simp only [map_eq_ok] at hr
      obtain ⟨m2, hm2, rfl⟩ := hr
      obtain ⟨hs2, hp2⟩ := doUpdateVolume_frame _ _ _ hm2
      have hh0 : h < (m.setSound h { m.sound h with _volume := fadeVolume (m.sound h) }).sounds.length := by
        simpa [Manager.setSound] using hh
      have hh2 : h < m2.sounds.length := by rw [hs2]; exact hh0
      have hsnd : m2.sound h = { m.sound h with _volume := fadeVolume (m.sound h) } := by
        unfold Manager.sound
        rw [hs2]
        exact sound_setSound m h _ hh
      have hpl : m2._playList = m._playList := by rw [hp2]; rfl
      split
      · refine ⟨?_, by simp [Manager.setSound, hpl]⟩
        rw [sound_setSound _ _ _ hh2, hsnd]
        exact hflag
      · have hh3 : h < (m2.setSound h { m2.sound h with _fadeDest := -1 }).sounds.length := by
          simpa [Manager.setSound] using hh2
        split
        · obtain ⟨_, hf, hp⟩ := removeAsync_spec _ h hh3
          refine ⟨hf, ?_⟩
          rw [hp]
          have : (m2.setSound h { m2.sound h with _fadeDest := -1 })._playList = m._playList := by
            simp [Manager.setSound, hpl]
          rw [this]
          exact eraseFirst_sublist h m._playList
        · refine ⟨?_, by simp [Manager.setSound, hpl]⟩
          rw [sound_setSound _ _ _ hh2, hsnd]
          exact hflag
  · simp only [Except.ok.injEq] at hr
    subst hr
    exact ⟨hflag, List.Sublist.refl _⟩

theorem serviceTracksEnd_fadeFields (s : Sound) (flag : Bool) :
    fadeFields (serviceTracksEnd s flag).1 = fadeFields s := by
  unfold serviceTracksEnd
  dsimp only
  split
  · rfl
  · split
    · rfl
    · split <;> rfl

theorem serviceTracksFlagged_fade (m : Manager) (h : Nat) (r : Manager × Bool × Bool)
    (hh : h < m.sounds.length) (hr : serviceTracksFlagged m h = .ok r) :
    h < r.1.sounds.length ∧ r.1._playList = m._playList ∧
    fadeFields (r.1.sound h) = fadeFields (m.sound h) := by
  unfold serviceTracksFlagged at hr
  split at hr
  · simp at hr
  · simp only [map_eq_ok] at hr
    obtain ⟨a, ha, rfl⟩ := hr
    have hk := serviceTrackLoop_fade h _ _ _ _ _ ha
    simp only [fadeKey, Prod.mk.injEq] at hk
    obtain ⟨hlen, hpl, hff⟩ := hk
    have hh1 : h < a.1.sounds.length := by omega
    refine ⟨by simp [Manager.setSound]; omega, by simpa [Manager.setSound] using hpl, ?_⟩
    simp only [sound_setSound _ _ _ hh1]
    rw [serviceTracksEnd_fadeFields]
    exact hff

theorem fadeSound_idle (m : Manager) (h : Nat) (hfd : (m.sound h)._fadeDest = -1) :
    fadeSound m h = .ok m := by
  unfold fadeSound
  simp [hfd]

/-- One pass of the first loop of `_sfProcessFading` over an unpaused sound
with no fade armed: the pass returns what `_soServiceTracks` returned, with the
sound removed by `removeAsync` when it was reported complete. -/
theorem processFadingSound_idle (m : Manager) (h : Nat) (removeFlag : Bool)
    (r : Manager × Bool × Bool) (hh : h < m.sounds.length)
    (hp : (m.sound h)._pausedCount = 0) (hfd : (m.sound h)._fadeDest = -1)
    (hr : serviceTracksFlagged m h = .ok r) :
    processFadingSound (m, removeFlag) h
      = .ok (if r.2.2 = true then removeAsync r.1 h else r.1, r.2.2) := by
  obtain ⟨hh1, _, hff⟩ := serviceTracksFlagged_fade m h r hh hr
  simp only [fadeFields, Prod.mk.injEq] at hff
  have hfd1 : (r.1.sound h)._fadeDest = -1 := by rw [hff.1]; exact hfd
  unfold processFadingSound
  simp only [hp, if_true, _soServiceTracks, hr, Except.map, Except.bind]
  by_cases hc : r.2.2 = true
  · simp only [hc, if_true]
    rw [fadeSound_idle]
    rw [(removeAsync_sound r.1 h hh1).1]
    exact hfd1
  · have hc2 : r.2.2 = false := by simpa using hc
    simp only [hc2, Bool.false_eq_true, if_false]
    rw [fadeSound_idle _ _ hfd1]

theorem fadingTicks_of_serviceTicks (h : Nat) (n : Nat) (m : Manager)
    (trace : List (Bool × Bool)) (hh : h < m.sounds.length)
    (hp : (m.sound h)._pausedCount = 0) (hfd : (m.sound h)._fadeDest = -1)
    (hrun : serviceTicks h n m = .ok trace) :
    fadingTicks h n m = .ok (trace.map fun p =>
      (p.2, if p.2 = true then (eraseFirst h m._playList).1 else m._playList,
        if p.2 = true then true else (m.sound h)._stoppedAsynchronously)) := by
  induction n generalizing m trace with
  | zero =>
    simp only [serviceTicks, Except.ok.injEq] at hrun
    subst hrun
    rfl
  | succ n ih =>
    unfold serviceTicks at hrun
    simp only [bind_eq_ok] at hrun
    obtain ⟨r, hr, hrun⟩ := hrun
    obtain ⟨hh1, hpl, hff⟩ := serviceTracksFlagged_fade m h r hh hr
    simp only [fadeFields, Prod.mk.injEq] at hff
    unfold fadingTicks
    rw [processFadingSound_idle m h false r hh hp hfd hr]
    simp only [Except.bind]
    split at hrun
    · rename_i hdone
      simp only [Except.ok.injEq] at hrun
      subst hrun
      obtain ⟨hs, _, hl⟩ := removeAsync_sound r.1 h hh1
      simp only [hdone, if_true, List.map_cons, List.map_nil, hl, hs, hpl]
    · rename_i hnd
      simp only [map_eq_ok] at hrun
      obtain ⟨rest, hrest, rfl⟩ := hrun
      have hres_false : r.2.2 = false := by simpa using hnd
      have := ih r.1 rest hh1 (by rw [hff.2.2]; exact hp) (by rw [hff.1]; exact hfd) hrest
      simp only [hres_false, Bool.false_eq_true, if_false, this, Except.map, List.map_cons,
        hpl, hff.2.1]

/-- C7: a sound whose loop counter is `N >= 1` is reported complete by
`_soServiceTracks` exactly on the `N`-th tick at which all its tracks are
stopped: in the trace of successive ticks, a tick returns true if and only if
its tracks are all stopped and it is the `N`-th such tick.  When the call
reports completion for an unpaused sound, the pass of `_sfProcessFading` over
that sound erases it from the play list (it is no longer on a list that held
it once) and sets `_stoppedAsynchronously`.  When the sound is unpaused and no
fade is armed, the passes of `_sfProcessFading` over it return tick after
tick with the same reports: a tick that does not report completion leaves the
play list and the flag as they were, the tick that reports it leaves the list
without the sound and the flag set. -/
theorem loop_completes_on_nth_stop (h n : Nat) (N : Int) (m : Manager)
    (trace : List (Bool × Bool)) (hh : h < m.sounds.length) (hN : 1 ≤ N)
    (hloop : (m.sound h)._loop = N) (hrun : serviceTicks h n m = .ok trace) :
    (∀ i flag res, trace.get? i = some (flag, res) →
      (res = true ↔ (flag = true ∧
        (((trace.take (i + 1)).countP fun p => p.1 : Nat) : Int) = N))) ∧
    (∀ (m0 m1 : Manager) (removeFlag : Bool) (st : Manager × Bool),
      h < m0.sounds.length → (m0.sound h)._pausedCount = 0 →
      _soServiceTracks m0 h = .ok (m1, true) →
      processFadingSound (m0, removeFlag) h = .ok st →
      (st.1.sound h)._stoppedAsynchronously = true ∧
      st.1._playList.Sublist (eraseFirst h m0._playList).1 ∧
      (m0._playList.Nodup → h ∉ st.1._playList)) ∧
    ((m.sound h)._pausedCount = 0 → (m.sound h)._fadeDest = -1 →
      fadingTicks h n m = .ok (trace.map fun p =>
        (p.2, if p.2 = true then (eraseFirst h m._playList).1 else m._playList,
          if p.2 = true then true else (m.sound h)._stoppedAsynchronously))) := by
  refine ⟨?_, ?_, ?_⟩
  · intro i flag res hi
    have := serviceTicks_count h n m trace hh (by rw [hloop]; exact hN) hrun i flag res hi
    rw [hloop] at this
    exact this
  · intro m0 m1 removeFlag st hh0 hp hsvc hproc
    unfold processFadingSound at hproc
    simp only [hp, if_true, hsvc, bind_eq_ok] at hproc
    obtain ⟨r, hr, hproc⟩ := hproc
    simp only [Except.ok.injEq] at hr
    subst hr
    simp only [if_true, map_eq_ok] at hproc
    obtain ⟨m2, hm2, rfl⟩ := hproc
    have hm1 : h < m1.sounds.length ∧ m1._playList = m0._playList := by
      unfold _soServiceTracks at hsvc
      simp only [map_eq_ok] at hsvc
      obtain ⟨a, ha, hpair⟩ := hsvc
      simp only [Prod.mk.injEq] at hpair
      unfold serviceTracksFlagged at ha
      split at ha
      · simp at ha
      · simp only [map_eq_ok] at ha
        obtain ⟨b, hb, rfl⟩ := ha
        have hk := serviceTrackLoop_key h _ _ _ _ _ hb
        simp only [trackKey, Prod.mk.injEq] at hk
        rw [← hpair.1]
        exact ⟨by simp [Manager.setSound]; omega, by simpa [Manager.setSound] using hk.2.1⟩
    obtain ⟨hh2, hf, hpl⟩ := removeAsync_spec m1 h hm1.1
    obtain ⟨hf2, hsub⟩ := fadeSound_keeps_flag _ _ h hh2 hf hm2
    rw [hpl, hm1.2] at hsub
    exact ⟨hf2, hsub, fun hnd hmem => eraseFirst_not_mem h m0._playList hnd (hsub.subset hmem)⟩
  · intro hp hfd
    exact fadingTicks_of_serviceTicks h n m trace hh hp hfd hrun

/-- Witness of C7: a sound with loop counter 2 whose track ends at every
tick is reported complete on the second tick; the first pass of
`_sfProcessFading` leaves it on the play list and unflagged, the second
removes it and flags it; and with loop counter 1 the first pass does. -/
theorem loop_completes_on_nth_stop_witness :
    (0 < (endingManager 2).sounds.length ∧ (1 : Int) ≤ 2 ∧
      ((endingManager 2).sound 0)._loop = 2 ∧
      serviceTicks 0 5 (endingManager 2) = .ok [(true, false), (true, true)]) ∧
    (∀ i flag res, [(true, false), (true, true)].get? i = some (flag, res) →
      (res = true ↔ (flag = true ∧
        ((([(true, false), (true, true)].take (i + 1)).countP fun p => p.1 : Nat) : Int)
          = 2))) ∧
    (0 < (endingManager 1).sounds.length ∧ ((endingManager 1).sound 0)._pausedCount = 0 ∧
      _soServiceTracks (endingManager 1) 0 = .ok (endedService.1, true) ∧
      processFadingSound (endingManager 1, false) 0 = .ok endedFading ∧
      (endingManager 1)._playList.Nodup) ∧
    ((endedFading.1.sound 0)._stoppedAsynchronously = true ∧
      endedFading.1._playList.Sublist (eraseFirst 0 (endingManager 1)._playList).1 ∧
      0 ∉ endedFading.1._playList) ∧
    (((endingManager 2).sound 0)._pausedCount = 0 ∧
      ((endingManager 2).sound 0)._fadeDest = -1) ∧
    fadingTicks 0 5 (endingManager 2) = .ok [(false, [0], false), (true, [], true)] :=
  ⟨⟨by decide, by decide, rfl, rfl⟩,
    (loop_completes_on_nth_stop 0 5 2 (endingManager 2) [(true, false), (true, true)]
      (by decide) (by decide) rfl rfl).1,
    ⟨by decide, rfl, rfl, rfl, by decide⟩,
    ⟨((loop_completes_on_nth_stop 0 5 2 (endingManager 2) [(true, false), (true, true)]
      (by decide) (by decide) rfl rfl).2.1 (endingManager 1) endedService.1 false endedFading
      (by decide) rfl rfl rfl).1,
    ((loop_completes_on_nth_stop 0 5 2 (endingManager 2) [(true, false), (true, true)]
      (by decide) (by decide) rfl rfl).2.1 (endingManager 1) endedService.1 false endedFading
      (by decide) rfl rfl rfl).2.1,
    ((loop_completes_on_nth_stop 0 5 2 (endingManager 2) [(true, false), (true, true)]
      (by decide) (by decide) rfl rfl).2.1 (endingManager 1) endedService.1 false endedFading
      (by decide) rfl rfl rfl).2.2 (by decide)⟩,
    ⟨rfl, rfl⟩,
    (loop_completes_on_nth_stop 0 5 2 (endingManager 2) [(true, false), (true, true)]
      (by decide) (by decide) rfl rfl).2.2 rfl rfl⟩

/-! ## Fades and the server tick on concrete inputs -/

/-- C8, the code at the failing input: after `fade(0, 2, 10, false)` on a
sound of volume 127 the first tick of `_sfProcessFading` sets `_volume` to 0
(not to 117), and it stays 0 on the next ticks. -/
theorem fade_jumps_to_target_on_first_tick :
    volumeOf (.ok (fade playingOne 0 0 2 10 false)) 0 = some 127 ∧
    volumeOf (_sfProcessFading (fade playingOne 0 0 2 10 false)) 0 = some 0 ∧
    volumeOf ((_sfProcessFading (fade playingOne 0 0 2 10 false)).bind _sfProcessFading) 0
      = some 0 := by
  decide

/-- C9, the code at a failing input: a fade step from volume 0 towards 127
with step size 10 writes the volume -10, which is not between 0 and 127. -/
theorem fade_step_moves_away_from_target :
    fadeVolume { _volume := 0, _fadeDest := 127, _fadeSteps := 10 } = -10 := by
  decide

/-- C10, the code at the failing inputs: with both counters zero
`_sfSoundServer` returns without doing anything (whatever the rest of the
state is), and with `_serverDisabledCount = 1` it runs the tick: the fade of the
playing sound advances and the installed driver is polled. -/
theorem sound_server_guard_is_inverted :
    (∀ (fuel : Nat) (m : Manager),
      _sfSoundServer fuel { m with _serverDisabledCount := 0, _serverSuspendedCount := 0 }
        = .ok { m with _serverDisabledCount := 0, _serverSuspendedCount := 0 }) ∧
    volumeOf (_sfSoundServer 1
      { fade playingOne 0 0 2 10 false with _serverDisabledCount := 1 }) 0 = some 0 ∧
    (logOf (_sfSoundServer 1
      { fade playingOne 0 0 2 10 false with _serverDisabledCount := 1 })).map
        (fun log => log.getLast?) = some (some (DriverCall.poll 0)) := by
  refine ⟨fun fuel m => ?_, by decide, by decide⟩
  simp [_sfSoundServer]

/-! ## The TYPE_1 commit pass -/

/-! ## Loops over an index range -/

theorem forIdx_succ {σ : Type} (step : Nat → σ → Except Fault σ) (n : Nat) (init : σ) :
    forIdx step (n + 1) init = (forIdx step n init).bind (step n) := by
  unfold forIdx
  rw [List.range_succ, List.foldlM_append]
  cases h : List.foldlM (fun st idx => step idx st) init (List.range n) with
  | error e => rfl
  | ok st =>
    show (List.foldlM (fun st idx => step idx st) st [n]) = step n st
    simp only [List.foldlM_cons, List.foldlM_nil]
    cases step n st <;> rfl

theorem forIdx_inv {σ : Type} (Inv : Nat → σ → Prop) (step : Nat → σ → Except Fault σ)
    (n : Nat) (init : σ) (h0 : Inv 0 init)
    (hstep : ∀ idx st, idx < n → Inv idx st → ∃ st1, step idx st = .ok st1 ∧ Inv (idx + 1) st1) :
    ∃ st1, forIdx step n init = .ok st1 ∧ Inv n st1 := by
  induction n with
  | zero => exact ⟨init, rfl, h0⟩
  | succ n ih =>
    obtain ⟨st1, hst1, hinv1⟩ := ih (fun idx st hidx hi => hstep idx st (by omega) hi)
    obtain ⟨st2, hst2, hinv2⟩ := hstep n st1 (by omega) hinv1
    refine ⟨st2, ?_, hinv2⟩
    rw [forIdx_succ, hst1]
    exact hst2

theorem foldRange_inv {σ : Type} (Inv : Nat → σ → Prop) (step : Nat → σ → σ)
    (n : Nat) (init : σ) (h0 : Inv 0 init)
    (hstep : ∀ idx st, idx < n → Inv idx st → Inv (idx + 1) (step idx st)) :
    Inv n ((List.range n).foldl (fun st idx => step idx st) init) := by
  induction n with
  | zero => exact h0
  | succ n ih =>
    rw [List.range_succ, List.foldl_append]
    exact hstep n _ (by omega) (ih (fun idx st hidx hi => hstep idx st (by omega) hi))

/-! ## Counting over updated lists -/

theorem length_updAt {α : Type} (f : α → α) (i : Nat) (l : List α) :
    (updAt f i l).length = l.length := by
  induction l generalizing i with
  | nil => cases i <;> rfl
  | cons x xs ih => cases i with
    | zero => rfl
    | succ i => simp [updAt, ih]

theorem map_updAt {α β : Type} (g : α → β) (f : α → α) (f' : β → β)
    (hf : ∀ a, g (f a) = f' (g a)) (i : Nat) (l : List α) :
    (updAt f i l).map g = updAt f' i (l.map g) := by
  induction l generalizing i with
  | nil => cases i <;> rfl
  | cons x xs ih => cases i with
    | zero => simp [updAt, hf]
    | succ i => simp [updAt, ih]

theorem updAt_id {α : Type} (i : Nat) (l : List α) : updAt (fun a => a) i l = l := by
  induction l generalizing i with
  | nil => cases i <;> rfl
  | cons x xs ih => cases i with
    | zero => rfl
    | succ i => simp [updAt, ih]

theorem getElem?_updAt {α : Type} (f : α → α) (i j : Nat) (l : List α) :
    (updAt f i l)[j]? = if j = i then (l[j]?).map f else l[j]? := by
  induction l generalizing i j with
  | nil => cases i <;> simp [updAt]
  | cons x xs ih =>
    cases i with
    | zero => cases j <;> simp [updAt]
    | succ i =>
      cases j with
      | zero => simp [updAt]
      | succ j => simp [updAt, ih]

theorem countP_updAt_add {α : Type} (p : α → Bool) (f : α → α) (i : Nat) (l : List α) (a : α)
    (hi : l[i]? = some a) :
    (updAt f i l).countP p + (if p a = true then 1 else 0) =
      l.countP p + (if p (f a) = true then 1 else 0) := by
  induction l generalizing i with
  | nil => simp at hi
  | cons x xs ih =>
    cases i with
    | zero =>
      simp only [List.getElem?_cons_zero, Option.some.injEq] at hi
      subst hi
      simp only [updAt, List.countP_cons]
      omega
    | succ i =>
      simp only [List.getElem?_cons_succ] at hi
      have := ih i hi
      simp only [updAt, List.countP_cons]
      omega

theorem drop_updAt_of_lt {α : Type} (f : α → α) (i k : Nat) (l : List α) (h : i < k) :
    (updAt f i l).drop k = l.drop k := by
  induction l generalizing i k with
  | nil => cases i <;> rfl
  | cons x xs ih =>
    cases k with
    | zero => omega
    | succ k =>
      cases i with
      | zero => rfl
      | succ i => simp [updAt, ih i k (by omega)]
theorem countP_updAt_same {α : Type} (p : α → Bool) (f : α → α) (hf : ∀ a, p (f a) = p a)
    (i : Nat) (l : List α) : (updAt f i l).countP p = l.countP p := by
  induction l generalizing i with
  | nil => cases i <;> rfl
  | cons x xs ih =>
    cases i with
    | zero => simp [updAt, List.countP_cons, hf]
    | succ i => simp [updAt, List.countP_cons, ih]

theorem drop_updAt_of_le {α : Type} (f : α → α) (i k : Nat) (l : List α) (h : k ≤ i) :
    (updAt f i l).drop k = updAt f (i - k) (l.drop k) := by
  induction l generalizing i k with
  | nil => cases i <;> cases k <;> simp [updAt]
  | cons x xs ih =>
    cases k with
    | zero => simp
    | succ k =>
      cases i with
      | zero => omega
      | succ i =>
        have := ih i k (by omega)
        simpa [updAt] using this

theorem mem_updAt {α : Type} (f : α → α) (i : Nat) (l : List α) (e : α)
    (he : e ∈ updAt f i l) : e ∈ l ∨ ∃ a ∈ l, e = f a := by
  induction l generalizing i with
  | nil => cases i <;> simp [updAt] at he
  | cons x xs ih =>
    cases i with
    | zero =>
      simp only [updAt, List.mem_cons] at he
      rcases he with rfl | he
      · exact Or.inr ⟨x, List.mem_cons_self _ _, rfl⟩
      · exact Or.inl (List.mem_cons_of_mem _ he)
    | succ i =>
      simp only [updAt, List.mem_cons] at he
      rcases he with rfl | he
      · exact Or.inl (List.mem_cons_self _ _)
      · rcases ih i he with h1 | ⟨a, ha, rfl⟩
        · exact Or.inl (List.mem_cons_of_mem _ h1)
        · exact Or.inr ⟨a, List.mem_cons_of_mem _ ha, rfl⟩

theorem pendFrom_updAt_same (q : Option Nat → Bool) (f : VoiceStructEntry → VoiceStructEntry)
    (hf : ∀ e, (f e)._type1._sound2 = e._type1._sound2) (i k : Nat)
    (es : List VoiceStructEntry) : pendFrom q k (updAt f i es) = pendFrom q k es := by
  unfold pendFrom
  by_cases h : i < k
  · rw [drop_updAt_of_lt f i k es h]
  · rw [drop_updAt_of_le f i k es (by omega)]
    exact countP_updAt_same _ f (fun a => by simp [hf]) _ _

theorem curCount_updAt_same (q : Option Nat → Bool) (f : VoiceStructEntry → VoiceStructEntry)
    (hf : ∀ e, (f e)._type1._sound = e._type1._sound) (i : Nat)
    (es : List VoiceStructEntry) : curCount q (updAt f i es) = curCount q es :=
  countP_updAt_same _ f (fun a => by simp [hf]) _ _

theorem getD_eq_of_getElem? (es : List VoiceStructEntry) (i : Nat) (e : VoiceStructEntry)
    (h : es[i]? = some e) : es.getD i default = e := by
  simp [List.getD, h]

theorem getElem?_of_sound2 (es : List VoiceStructEntry) (idx s : Nat)
    (h : (es.getD idx default)._type1._sound2 = some s) :
    ∃ e, es[idx]? = some e ∧ e._type1._sound2 = some s := by
  cases hg : es[idx]? with
  | none =>
    simp only [List.getD_eq_getElem?_getD, hg, Option.getD_none] at h
    cases h
  | some e =>
    simp only [List.getD_eq_getElem?_getD, hg, Option.getD_some] at h
    exact ⟨e, rfl, h⟩

theorem two_updates_count (q : Option Nat → Bool) (hq : q none = false)
    (es : List VoiceStructEntry) (j idx s : Nat) (f1 f2 : VoiceStructEntry → VoiceStructEntry)
    (ej e0 : VoiceStructEntry)
    (hf1s : ∀ e, (f1 e)._type1._sound = some s)
    (hf1p : ∀ e, (f1 e)._type1._sound2 = e._type1._sound2)
    (hf2s : ∀ e, (f2 e)._type1._sound = e._type1._sound)
    (hf2p : ∀ e, (f2 e)._type1._sound2 = none)
    (hj : es[j]? = some ej) (hjs : ej._type1._sound = none)
    (he0 : es[idx]? = some e0) (he0s : e0._type1._sound2 = some s) :
    curCount q (updAt f2 idx (updAt f1 j es)) + pendFrom q 0 (updAt f2 idx (updAt f1 j es)) =
      curCount q es + pendFrom q 0 es := by
  have he1 : ∃ e1, (updAt f1 j es)[idx]? = some e1 ∧ e1._type1._sound2 = some s := by
    rw [getElem?_updAt]
    split
    · rw [he0]; exact ⟨_, rfl, by rw [hf1p]; exact he0s⟩
    · exact ⟨e0, he0, he0s⟩
  obtain ⟨e1, he1, he1s⟩ := he1
  have hc1 := countP_updAt_add (fun e => q e._type1._sound) f1 j es ej hj
  simp only [hjs, hq, Bool.false_eq_true, if_false, add_zero, hf1s] at hc1
  have hp2 := countP_updAt_add (fun e => q e._type1._sound2) f2 idx (updAt f1 j es) e1 he1
  simp only [he1s, hq, Bool.false_eq_true, if_false, add_zero, hf2p] at hp2
  have hp1 : List.countP (fun e => q e._type1._sound2) (updAt f1 j es) =
      List.countP (fun e => q e._type1._sound2) es :=
    countP_updAt_same _ _ (fun a => by simp [hf1p]) _ _
  rw [curCount_updAt_same q f2 hf2s]
  unfold curCount pendFrom
  simp only [List.drop_zero]
  omega

theorem post1Match_inv (R : Nat → Int → Prop) (idx : Nat) (es : List VoiceStructEntry)
    (hR : ∀ e ∈ es, ∀ s, e._type1._sound2 = some s → R s e._type1._channelNum2) :
    (post1Match idx es).length = es.length ∧
    (∀ e ∈ post1Match idx es, ∀ s, e._type1._sound2 = some s → R s e._type1._channelNum2) ∧
    (∀ q : Option Nat → Bool, q none = false →
      curCount q (post1Match idx es) + pendFrom q 0 (post1Match idx es) =
        curCount q es + pendFrom q 0 es) := by
  unfold post1Match
  dsimp only
  cases hs2 : (es.getD idx default)._type1._sound2 with
  | none => exact ⟨rfl, hR, fun _ _ => rfl⟩
  | some s =>
    dsimp only
    obtain ⟨e0, he0, he0s⟩ := getElem?_of_sound2 es idx s hs2
    cases hfind : es.findIdx? (fun x => decide (x._type1._sound = none ∧
        x._type1._sound3 = some s ∧
        x._type1._channelNum3 = (es.getD idx default)._type1._channelNum2)) with
    | none => exact ⟨rfl, hR, fun _ _ => rfl⟩
    | some j =>
      dsimp only
      obtain ⟨hj, hpj, _⟩ := List.findIdx?_eq_some_iff_getElem.1 hfind
      have hjs : (es[j])._type1._sound = none := by
        simp only [decide_eq_true_eq] at hpj
        exact hpj.1
      have hej : es[j]? = some es[j] := List.getElem?_eq_getElem hj
      refine ⟨by simp [length_updAt], ?_, ?_⟩
      · intro e he s1 hs1
        rcases mem_updAt _ _ _ _ he with h1 | ⟨a, ha, rfl⟩
        · rcases mem_updAt _ _ _ _ h1 with h2 | ⟨b, hb, rfl⟩
          · exact hR e h2 s1 hs1
          · exact hR b hb s1 hs1
        · simp at hs1
      · intro q hq
        exact two_updates_count q hq es j idx s _ _ es[j] e0 (fun _ => rfl) (fun _ => rfl)
          (fun _ => rfl) (fun _ => rfl) hej hjs he0 he0s
theorem rd_ok {α : Type} (l : List α) (i : Int) (h0 : 0 ≤ i) (h1 : i.toNat < l.length) :
    ∃ a, rd l i = .ok a := by
  unfold rd
  have hneg : ¬ i < 0 := not_lt.2 h0
  simp only [hneg, if_false]
  rw [List.get?_eq_getElem?, List.getElem?_eq_getElem h1]
  exact ⟨_, rfl⟩

theorem skipUsed_spec (es : List VoiceStructEntry) (d idx2 k : Nat) (hd : k = idx2 + d)
    (hlt : k < es.length) (e : VoiceStructEntry) (hk : es[k]? = some e)
    (hfree : e._type1._sound = none) :
    ∃ k1, skipUsed es idx2 = .ok k1 ∧ idx2 ≤ k1 ∧ k1 < es.length ∧
      (∃ e1, es[k1]? = some e1 ∧ e1._type1._sound = none) ∧
      ∀ j, idx2 ≤ j → j < k1 → ∃ e1, es[j]? = some e1 ∧ e1._type1._sound ≠ none := by
  induction d generalizing idx2 with
  | zero =>
    have hk0 : k = idx2 := by omega
    subst hk0
    refine ⟨k, ?_, le_refl _, hlt, ⟨e, hk, hfree⟩, fun j h1 h2 => by omega⟩
    unfold skipUsed
    have hdrop : es.drop k = es[k] :: es.drop (k + 1) := List.drop_eq_getElem_cons hlt
    have hek : es[k] = e := by
      rw [List.getElem?_eq_getElem hlt] at hk
      exact Option.some.inj hk
    rw [hdrop, hek]
    simp [skipUsedFrom, hfree]
  | succ d ih =>
    have hlt2 : idx2 < es.length := by omega
    have hdrop : es.drop idx2 = es[idx2] :: es.drop (idx2 + 1) := List.drop_eq_getElem_cons hlt2
    by_cases hcur : (es[idx2])._type1._sound = none
    · refine ⟨idx2, ?_, le_refl _, hlt2, ⟨es[idx2], List.getElem?_eq_getElem hlt2, hcur⟩,
        fun j h1 h2 => by omega⟩
      unfold skipUsed
      rw [hdrop]
      simp [skipUsedFrom, hcur]
    · obtain ⟨k1, hk1, hle, hlt1, hfree1, hused⟩ := ih (idx2 + 1) (by omega)
      refine ⟨k1, ?_, by omega, hlt1, hfree1, ?_⟩
      · unfold skipUsed at hk1 ⊢
        rw [hdrop]
        simp only [skipUsedFrom, ne_eq, hcur, not_false_eq_true, if_true]
        exact hk1
      · intro j h1 h2
        by_cases hj : j = idx2
        · subst hj
          exact ⟨es[j], List.getElem?_eq_getElem hlt2, hcur⟩
        · exact hused j (by omega) h2

theorem exists_free (es : List VoiceStructEntry) (idx2 : Nat)
    (hused : ∀ j, j < idx2 → ∃ e, es[j]? = some e ∧ e._type1._sound ≠ none)
    (hcount : curCount (fun o => o.isSome) es < es.length) :
    ∃ k e, idx2 ≤ k ∧ k < es.length ∧ es[k]? = some e ∧ e._type1._sound = none := by
  have hne : ¬ (List.countP (fun e => (fun o : Option Nat => o.isSome) e._type1._sound) es
      = es.length) := by
    unfold curCount at hcount
    omega
  rw [List.countP_eq_length] at hne
  push_neg at hne
  obtain ⟨e, he, hfree⟩ := hne
  obtain ⟨k, hk, hek⟩ := List.getElem_of_mem he
  have hnone : e._type1._sound = none := by
    cases hs : e._type1._sound with
    | none => rfl
    | some v => simp [hs] at hfree
  refine ⟨k, e, ?_, hk, ?_, hnone⟩
  · by_contra hc
    obtain ⟨e1, he1, hne1⟩ := hused k (by omega)
    rw [List.getElem?_eq_getElem hk, hek] at he1
    have : e = e1 := Option.some.inj he1
    subst this
    exact hne1 hnone
  · rw [List.getElem?_eq_getElem hk, hek]

theorem pendFrom_succ (q : Option Nat → Bool) (idx : Nat) (es : List VoiceStructEntry)
    (e : VoiceStructEntry) (he : es[idx]? = some e) :
    pendFrom q idx es = (if q e._type1._sound2 = true then 1 else 0) + pendFrom q (idx + 1) es := by
  have hlt : idx < es.length := by
    by_contra hc
    rw [List.getElem?_eq_none (by omega)] at he
    cases he
  have hdrop : es.drop idx = es[idx] :: es.drop (idx + 1) := List.drop_eq_getElem_cons hlt
  have hek : es[idx] = e := by
    rw [List.getElem?_eq_getElem hlt] at he
    exact Option.some.inj he
  unfold pendFrom
  rw [hdrop, List.countP_cons, hek]
  omega
theorem three_updates_count (q : Option Nat → Bool) (hq : q none = false)
    (es : List VoiceStructEntry) (k idx s : Nat) (g1 g2 g3 : VoiceStructEntry → VoiceStructEntry)
    (ek : VoiceStructEntry)
    (hg1s : ∀ e, (g1 e)._type1._sound = some s)
    (hg2s : ∀ e, (g2 e)._type1._sound = e._type1._sound)
    (hg3s : ∀ e, (g3 e)._type1._sound = e._type1._sound)
    (hk : es[k]? = some ek) (hks : ek._type1._sound = none) :
    curCount q (updAt g3 k (updAt g2 idx (updAt g1 k es))) =
      curCount q es + (if q (some s) = true then 1 else 0) := by
  rw [curCount_updAt_same q g3 hg3s, curCount_updAt_same q g2 hg2s]
  have hc1 := countP_updAt_add (fun e => q e._type1._sound) g1 k es ek hk
  simp only [hks, hq, Bool.false_eq_true, if_false, add_zero, hg1s] at hc1
  exact hc1

theorem post1Place_inv (sounds : List Sound) (n : Nat) (C : (Option Nat → Bool) → Nat)
    (hC : C (fun o => o.isSome) ≤ n) (idx : Nat) (st : Commit × Nat) (hidx : idx < n)
    (hinv : placeInv sounds n C idx st) :
    ∃ st1, post1Place sounds idx st = .ok st1 ∧ placeInv sounds n C (idx + 1) st1 := by
  obtain ⟨hlen, hR, hcnt, hused⟩ := hinv
  have hidx2 : idx < st.1.1.length := by omega
  have he0 : st.1.1[idx]? = some st.1.1[idx] := List.getElem?_eq_getElem hidx2
  have hgetD : st.1.1.getD idx default = st.1.1[idx] := getD_eq_of_getElem? _ _ _ he0
  unfold post1Place
  dsimp only
  rw [hgetD]
  cases hs2 : (st.1.1[idx])._type1._sound2 with
  | none =>
    refine ⟨st, rfl, hlen, hR, ?_, hused⟩
    intro q hq
    have := pendFrom_succ q idx st.1.1 _ he0
    rw [hs2, hq] at this
    simp only [Bool.false_eq_true, if_false, zero_add] at this
    rw [← this]
    exact hcnt q hq
  | some s =>
    dsimp only
    -- a free entry exists at or behind `idx2`
    have hpend := pendFrom_succ (fun o => o.isSome) idx st.1.1 _ he0
    rw [hs2] at hpend
    simp only [Option.isSome_some, if_true] at hpend
    have hc := hcnt (fun o => o.isSome) rfl
    have hlt : curCount (fun o => o.isSome) st.1.1 < st.1.1.length := by omega
    obtain ⟨k, ek, hk1, hk2, hk3, hk4⟩ := exists_free st.1.1 st.2 hused hlt
    obtain ⟨k1, hskip, hle, hlt1, ⟨e1, he1, he1s⟩, husedk⟩ :=
      skipUsed_spec st.1.1 (k - st.2) st.2 k (by omega) hk2 ek hk3 hk4
    rw [hskip]
    simp only [Except.bind]
    -- the committed entry and its channel
    obtain ⟨hch0, hch1, hws⟩ := hR _ (List.getElem_mem hidx2) s hs2
    generalize hg1 : (fun x : VoiceStructEntry => { x with _type1 := { x._type1 with
      _sound := (some s : Option Nat), _channelNum := (st.1.1[idx])._type1._channelNum2
      _priority := (st.1.1[idx])._type1._priority2 } }) = g1
    generalize hg2 : (fun x : VoiceStructEntry =>
      { x with _type1 := { x._type1 with _field4 := -1 } }) = g2
    generalize hg3 : (fun x : VoiceStructEntry => { x with _type1 := { x._type1 with
      _field5 := 0, _field6 := 0 } }) = g3
    have hg1s : ∀ e, (g1 e)._type1._sound = some s := fun e => by subst hg1; rfl
    have hg1c : ∀ e, (g1 e)._type1._channelNum = (st.1.1[idx])._type1._channelNum2 :=
      fun e => by subst hg1; rfl
    have hg1p : ∀ e, (g1 e)._type1._sound2 = e._type1._sound2 ∧
        (g1 e)._type1._channelNum2 = e._type1._channelNum2 := fun e => by subst hg1; exact ⟨rfl, rfl⟩
    have hg2s : ∀ e, (g2 e)._type1._sound = e._type1._sound ∧
        (g2 e)._type1._channelNum = e._type1._channelNum := fun e => by subst hg2; exact ⟨rfl, rfl⟩
    have hg2p : ∀ e, (g2 e)._type1._sound2 = e._type1._sound2 ∧
        (g2 e)._type1._channelNum2 = e._type1._channelNum2 := fun e => by subst hg2; exact ⟨rfl, rfl⟩
    have hg3s : ∀ e, (g3 e)._type1._sound = e._type1._sound ∧
        (g3 e)._type1._channelNum = e._type1._channelNum := fun e => by subst hg3; exact ⟨rfl, rfl⟩
    have hg3p : ∀ e, (g3 e)._type1._sound2 = e._type1._sound2 ∧
        (g3 e)._type1._channelNum2 = e._type1._channelNum2 := fun e => by subst hg3; exact ⟨rfl, rfl⟩
    have hentry : ∃ e2, (updAt g3 k1 (updAt g2 idx (updAt g1 k1 st.1.1)))[k1]? = some e2 ∧
        e2._type1._channelNum = (st.1.1[idx])._type1._channelNum2 := by
      rw [getElem?_updAt, if_pos rfl, getElem?_updAt]
      split
      · rw [getElem?_updAt, if_pos rfl, he1]
        exact ⟨_, rfl, by rw [(hg3s _).2, (hg2s _).2, hg1c]⟩
      · rw [getElem?_updAt, if_pos rfl, he1]
        exact ⟨_, rfl, by rw [(hg3s _).2, hg1c]⟩
    obtain ⟨e2, he2, he2c⟩ := hentry
    rw [getD_eq_of_getElem? _ _ _ he2, he2c]
    obtain ⟨a1, ha1⟩ := rd_ok (sounds.getD s default)._chModulation _ hch0
      (by rw [hws.1]; omega)
    obtain ⟨a2, ha2⟩ := rd_ok (sounds.getD s default)._chVolume _ hch0
      (by rw [hws.2.1]; omega)
    obtain ⟨a3, ha3⟩ := rd_ok (sounds.getD s default)._chPan _ hch0
      (by rw [hws.2.2.1]; omega)
    obtain ⟨a4, ha4⟩ := rd_ok (sounds.getD s default)._chPitchBlend _ hch0
      (by rw [hws.2.2.2.1]; omega)
    rw [ha1, ha2, ha3, ha4]
    refine ⟨_, rfl, ?_, ?_, ?_, ?_⟩
    · simp only [length_updAt]; exact hlen
    · intro e he s1 hs1
      rcases mem_updAt _ _ _ _ he with h1 | ⟨a, h1, rfl⟩
      · rcases mem_updAt _ _ _ _ h1 with h2 | ⟨b, h2, rfl⟩
        · rcases mem_updAt _ _ _ _ h2 with h3 | ⟨c, h3, rfl⟩
          · exact hR e h3 s1 hs1
          · rw [(hg1p c).1] at hs1; rw [(hg1p c).2]; exact hR c h3 s1 hs1
        · rcases mem_updAt _ _ _ _ h2 with h3 | ⟨c, h3, rfl⟩
          · rw [(hg2p b).1] at hs1; rw [(hg2p b).2]; exact hR b h3 s1 hs1
          · rw [(hg2p _).1, (hg1p c).1] at hs1; rw [(hg2p _).2, (hg1p c).2]
            exact hR c h3 s1 hs1
      · rw [(hg3p a).1] at hs1; rw [(hg3p a).2]
        rcases mem_updAt _ _ _ _ h1 with h2 | ⟨b, h2, rfl⟩
        · rcases mem_updAt _ _ _ _ h2 with h3 | ⟨c, h3, rfl⟩
          · exact hR a h3 s1 hs1
          · rw [(hg1p c).1] at hs1; rw [(hg1p c).2]; exact hR c h3 s1 hs1
        · rcases mem_updAt _ _ _ _ h2 with h3 | ⟨c, h3, rfl⟩
          · rw [(hg2p b).1] at hs1; rw [(hg2p b).2]; exact hR b h3 s1 hs1
          · rw [(hg2p _).1, (hg1p c).1] at hs1; rw [(hg2p _).2, (hg1p c).2]
            exact hR c h3 s1 hs1
    · intro q hq
      show curCount q (updAt g3 k1 (updAt g2 idx (updAt g1 k1 st.1.1))) +
        pendFrom q (idx + 1) (updAt g3 k1 (updAt g2 idx (updAt g1 k1 st.1.1))) = C q
      rw [three_updates_count q hq st.1.1 k1 idx s g1 g2 g3 e1 hg1s (fun e => (hg2s e).1)
        (fun e => (hg3s e).1) he1 he1s]
      rw [pendFrom_updAt_same q g3 (fun e => (hg3p e).1),
        pendFrom_updAt_same q g2 (fun e => (hg2p e).1),
        pendFrom_updAt_same q g1 (fun e => (hg1p e).1)]
      have h1 := pendFrom_succ q idx st.1.1 _ he0
      rw [hs2] at h1
      have h2 := hcnt q hq
      omega
    · intro j hj
      show ∃ e, (updAt g3 k1 (updAt g2 idx (updAt g1 k1 st.1.1)))[j]? = some e ∧
        e._type1._sound ≠ none
      have hjk : j ≠ k1 := by
        simp only at hj
        omega
      obtain ⟨e, he, hes⟩ : ∃ e, st.1.1[j]? = some e ∧ e._type1._sound ≠ none := by
        by_cases hj2 : j < st.2
        · exact hused j hj2
        · exact husedk j (by omega) (by simp only at hj; omega)
      rw [getElem?_updAt, if_neg hjk, getElem?_updAt]
      split
      · rw [getElem?_updAt, if_neg hjk, he]
        exact ⟨_, rfl, by rw [(hg2s e).1]; exact hes⟩
      · rw [getElem?_updAt, if_neg hjk, he]
        exact ⟨e, rfl, hes⟩
theorem post1Clear_spec (sounds : List Sound) (E : List VoiceStructEntry)
    (hR : proposalsInRange sounds E) :
    (post1Clear E).length = E.length ∧ proposalsInRange sounds (post1Clear E) ∧
    ∀ q : Option Nat → Bool, q none = false →
      curCount q (post1Clear E) + pendFrom q 0 (post1Clear E) = pendFrom q 0 E := by
  refine ⟨by simp [post1Clear], ?_, ?_⟩
  · intro e he s hs
    simp only [post1Clear, List.mem_map] at he
    obtain ⟨a, ha, rfl⟩ := he
    exact hR a ha s hs
  · intro q hq
    unfold curCount pendFrom post1Clear
    simp only [List.drop_zero, List.countP_map]
    have h1 : List.countP ((fun e : VoiceStructEntry => q e._type1._sound) ∘
        fun vse : VoiceStructEntry => { vse with _type1 := { vse._type1 with
          _sound := none, _channelNum := 0, _priority := 0 } }) E = 0 := by
      rw [List.countP_eq_zero]
      intro a _
      simp [hq]
    rw [h1, zero_add]
    rfl

theorem post1Release_inv (voiceIndex idx : Nat) (st : Commit) :
    ∃ st1, post1Release voiceIndex idx st = .ok st1 ∧ st1.1.length = st.1.length ∧
      ∀ q : Option Nat → Bool, curCount q st1.1 = curCount q st.1 := by
  unfold post1Release
  dsimp only
  split
  · refine ⟨_, rfl, by simp [length_updAt], fun q => ?_⟩
    show curCount q (updAt _ idx st.1) = curCount q st.1
    apply curCount_updAt_same
    intro e
    rfl
  · exact ⟨_, rfl, rfl, fun _ => rfl⟩

/-- The TYPE_1 commit pass always returns when the pending proposals name
channels of well-sized sounds, and then, for every class `q` of sounds, as many
entries hold such a sound as were proposed for one. -/
theorem rethinkPost1_spec (sounds : List Sound) (voiceIndex : Nat) (E : List VoiceStructEntry)
    (log : List DriverCall) (hR : proposalsInRange sounds E) :
    ∃ st, rethinkPost1 sounds voiceIndex (E, log) = .ok st ∧ st.1.length = E.length ∧
      ∀ q : Option Nat → Bool, q none = false → curCount q st.1 = pendFrom q 0 E := by
  obtain ⟨hlen1, hR1, hcnt1⟩ := post1Clear_spec sounds E hR
  -- second loop
  have h2 := foldRange_inv
    (fun (_ : Nat) (es : List VoiceStructEntry) => es.length = E.length ∧
      proposalsInRange sounds es ∧
      ∀ q : Option Nat → Bool, q none = false →
        curCount q es + pendFrom q 0 es = pendFrom q 0 E)
    post1Match (post1Clear E).length (post1Clear E) ⟨hlen1, hR1, hcnt1⟩
    (fun idx es _ hinv => by
      obtain ⟨h1, h2, h3⟩ := post1Match_inv
        (fun s c => 0 ≤ c ∧ c < 16 ∧ (sounds.getD s default).wellSized) idx es hinv.2.1
      exact ⟨h1.trans hinv.1, h2, fun q hq => (h3 q hq).trans (hinv.2.2 q hq)⟩)
  obtain ⟨hlen2, hR2, hcnt2⟩ := h2
  -- third loop
  have hC : (fun q : Option Nat → Bool => pendFrom q 0 E) (fun o => o.isSome) ≤ E.length := by
    unfold pendFrom
    simp only [List.drop_zero]
    exact List.countP_le_length _
  obtain ⟨st3, hst3, hinv3⟩ := forIdx_inv
    (placeInv sounds E.length (fun q => pendFrom q 0 E)) (post1Place sounds) E.length
    (((List.range (post1Clear E).length).foldl (fun es idx => post1Match idx es) (post1Clear E),
      log), 0)
    ⟨hlen2, hR2, hcnt2, fun j hj => absurd hj (Nat.not_lt_zero j)⟩
    (fun idx st hidx hinv => post1Place_inv sounds E.length _ hC idx st hidx hinv)
  obtain ⟨hlen3, _, hcnt3, _⟩ := hinv3
  -- last loop
  obtain ⟨st4, hst4, hlen4, hcnt4⟩ := forIdx_inv
    (fun (_ : Nat) (st : Commit) => st.1.length = E.length ∧
      ∀ q : Option Nat → Bool, curCount q st.1 = curCount q st3.1.1)
    (post1Release voiceIndex) st3.1.1.length st3.1 ⟨hlen3, fun _ => rfl⟩
    (fun idx st _ hinv => by
      obtain ⟨st1, h1, h2, h3⟩ := post1Release_inv voiceIndex idx st
      exact ⟨st1, h1, h2.trans hinv.1, fun q => (h3 q).trans (hinv.2 q)⟩)
  refine ⟨st4, ?_, hlen4, ?_⟩
  · unfold rethinkPost1
    dsimp only
    rw [hlen2, hst3]
    exact hst4
  · intro q hq
    rw [hcnt4 q]
    have := hcnt3 q hq
    dsimp only at this
    have hz : pendFrom q E.length st3.1.1 = 0 := by
      unfold pendFrom
      rw [List.drop_of_length_le (by omega)]
      rfl
    omega

/-! ## The TYPE_0 commit pass without proposals, and the pass over the table -/

theorem getD_mem_or_default (es : List VoiceStructEntry) (idx : Nat) :
    es.getD idx default ∈ es ∨ es.getD idx default = default := by
  cases h : es[idx]? with
  | none => right; simp [List.getD, h]
  | some e =>
    left
    rw [getD_eq_of_getElem? es idx e h]
    exact List.mem_iff_getElem?.2 ⟨idx, h⟩

theorem rethinkPost0_idle (sounds : List Sound) (voiceIndex : Nat) (st : Commit)
    (hno : ∀ e ∈ st.1, e._type0._sound2 = none ∧ e._type0._field12 = 0) :
    ∃ st1, rethinkPost0 sounds voiceIndex st = .ok st1 := by
  have hget : ∀ (es : List VoiceStructEntry),
      (∀ e ∈ es, e._type0._sound2 = none ∧ e._type0._field12 = 0) → ∀ idx,
      (es.getD idx default)._type0._sound2 = none ∧
        (es.getD idx default)._type0._field12 = 0 := by
    intro es hes idx
    rcases getD_mem_or_default es idx with h | h
    · exact hes _ h
    · rw [h]; exact ⟨rfl, rfl⟩
  obtain ⟨st1, hst1, hinv1⟩ := forIdx_inv
    (fun (_ : Nat) (s : Commit) => ∀ e ∈ s.1, e._type0._sound2 = none ∧ e._type0._field12 = 0)
    (post0Tagged sounds) st.1.length st hno
    (fun idx s _ hinv => by
      unfold post0Tagged
      dsimp only
      rw [if_neg (by rw [(hget s.1 hinv idx).2]; decide)]
      refine ⟨_, rfl, ?_⟩
      intro e he
      rcases mem_updAt _ _ _ _ he with h1 | ⟨a, h1, rfl⟩
      · exact hinv e h1
      · exact hinv a h1)
  obtain ⟨st2, hst2, hinv2⟩ := forIdx_inv
    (fun (_ : Nat) (s : Commit) => ∀ e ∈ s.1, e._type0._sound2 = none ∧ e._type0._field12 = 0)
    post0Match st1.1.length st1 hinv1
    (fun idx s _ hinv => by
      unfold post0Match
      dsimp only
      rw [(hget s.1 hinv idx).1]
      exact ⟨s, rfl, hinv⟩)
  obtain ⟨st3, hst3, hinv3⟩ := forIdx_inv
    (fun (_ : Nat) (s : Commit) => ∀ e ∈ s.1, e._type0._sound2 = none ∧ e._type0._field12 = 0)
    (post0Place sounds voiceIndex) st2.1.length st2 hinv2
    (fun idx s _ hinv => by
      unfold post0Place
      dsimp only
      rw [(hget s.1 hinv idx).1]
      exact ⟨s, rfl, hinv⟩)
  obtain ⟨st4, hst4, _⟩ := forIdx_inv (fun (_ : Nat) (_ : Commit) => True)
    (post0Release voiceIndex) st3.1.length st3 trivial
    (fun idx s _ _ => by
      unfold post0Release
      dsimp only
      split
      · exact ⟨_, rfl, trivial⟩
      · exact ⟨_, rfl, trivial⟩)
  refine ⟨st4, ?_⟩
  unfold rethinkPost0
  rw [hst1]
  simp only [Except.bind]
  rw [hst2]
  simp only [Except.bind]
  rw [hst3]
  simp only [Except.bind]
  exact hst4

theorem rethinkPostGroup_spec (sounds : List Sound) (voiceIndex : Nat)
    (slot : Option VoiceTypeStruct) (log : List DriverCall) (hready : slotReady sounds slot) :
    ∃ r, rethinkPostGroup sounds voiceIndex slot log = .ok r ∧ slotCommitted slot r.1 := by
  cases slot with
  | none => exact ⟨_, rfl, rfl⟩
  | some vs =>
    unfold rethinkPostGroup
    dsimp only
    by_cases hty : vs._voiceType = VOICETYPE_0
    · have hready : ∀ e ∈ vs._entries, e._type0._sound2 = none ∧ e._type0._field12 = 0 := by
        simpa [slotReady, hty] using hready
      rw [if_pos hty]
      obtain ⟨st1, hst1⟩ := rethinkPost0_idle sounds voiceIndex (vs._entries, log) hready
      rw [hst1]
      exact ⟨_, rfl, st1.1, rfl, fun h => absurd hty h⟩
    · have hready : proposalsInRange sounds vs._entries := by
        simpa [slotReady, hty] using hready
      rw [if_neg hty]
      obtain ⟨st1, hst1, _, hcnt⟩ := rethinkPost1_spec sounds voiceIndex vs._entries log hready
      rw [hst1]
      exact ⟨_, rfl, st1.1, rfl, fun _ => hcnt⟩

theorem rethinkPost_spec (sounds : List Sound) (table : VoiceTable) (voiceIndex : Nat)
    (log : List DriverCall) (hready : ∀ slot ∈ table, slotReady sounds slot) :
    ∃ r : VoiceTable × List DriverCall, rethinkPost sounds voiceIndex table log = .ok r ∧
      ∀ (i : Nat) (slot : Option VoiceTypeStruct), table[i]? = some slot →
        ∃ slot1, r.1[i]? = some slot1 ∧
        slotCommitted slot slot1 := by
  induction table generalizing voiceIndex log with
  | nil => exact ⟨_, rfl, fun i slot h => by simp at h⟩
  | cons slot rest ih =>
    obtain ⟨r1, hr1, hc1⟩ := rethinkPostGroup_spec sounds voiceIndex slot log
      (hready slot (List.mem_cons_self _ _))
    obtain ⟨r2, hr2, hc2⟩ := ih (voiceIndex + 1) r1.2
      (fun s hs => hready s (List.mem_cons_of_mem _ hs))
    refine ⟨(r1.1 :: r2.1, r2.2), ?_, ?_⟩
    · unfold rethinkPost
      rw [hr1]
      simp only [Except.bind]
      rw [hr2]
      rfl
    · intro i s hi
      cases i with
      | zero =>
        simp only [List.getElem?_cons_zero, Option.some.injEq] at hi
        subst hi
        exact ⟨r1.1, by simp, hc1⟩
      | succ i =>
        simp only [List.getElem?_cons_succ] at hi
        obtain ⟨s1, hs1, hcs⟩ := hc2 i s hi
        exact ⟨s1, by simpa using hs1, hcs⟩

/-! ## The main loop for sounds with a single channel -/

theorem scan_skip (s : Sound) (w : List Bool) (off : Int) (l : List Nat) (acc : Int × Int)
    (h : ∀ i ∈ l, ¬ (Int.land (s._chFlags.getD i 0) 0x8000 = 0 ∧ w.getD i false = false)) :
    l.foldl (scanStep s w off) acc = acc := by
  induction l generalizing acc with
  | nil => rfl
  | cons i rest ih =>
    rw [List.foldl_cons]
    have hi := h i (List.mem_cons_self _ _)
    have : scanStep s w off acc i = acc := by
      unfold scanStep
      rw [if_neg hi]
    rw [this]
    exact ih acc (fun j hj => h j (List.mem_cons_of_mem _ hj))

theorem scan_fold_single (s : Sound) (w : List Bool) (off : Int) (c : Nat)
    (hc : onlyChannel s c) (hw : ∀ i, w.getD i false = false) (l : List Nat)
    (hl : ∀ i ∈ l, i < 16) (acc : Int × Int)
    (hacc : acc = (-1, 0) ∨
      acc = ((c : Int), encodedPriority (s._chSubPriority.getD c 0) off)) :
    l.foldl (scanStep s w off) acc =
      if c ∈ l then ((c : Int), encodedPriority (s._chSubPriority.getD c 0) off) else acc := by
  induction l generalizing acc with
  | nil => simp
  | cons i rest ih =>
    rw [List.foldl_cons]
    have hi16 := hl i (List.mem_cons_self _ _)
    have hrest : ∀ j ∈ rest, j < 16 := fun j hj => hl j (List.mem_cons_of_mem _ hj)
    by_cases hic : i = c
    · subst hic
      have hel : Int.land (s._chFlags.getD i 0) 0x8000 = 0 ∧ w.getD i false = false :=
        ⟨(hc.2 i hi16).2 rfl, hw i⟩
      have hstep : scanStep s w off acc i =
          ((i : Int), encodedPriority (s._chSubPriority.getD i 0) off) := by
        unfold scanStep
        rw [if_pos hel]
        rcases hacc with h | h
        · subst h
          simp [encodedPriority]
        · subst h
          have hne : ((i : Int)) ≠ -1 := by omega
          simp [encodedPriority, hne]
      rw [hstep, ih hrest _ (Or.inr rfl)]
      simp
    · have hel : ¬ (Int.land (s._chFlags.getD i 0) 0x8000 = 0 ∧ w.getD i false = false) :=
        fun h => hic ((hc.2 i hi16).1 h.1)
      have hstep : scanStep s w off acc i = acc := by
        unfold scanStep
        rw [if_neg hel]
      rw [hstep, ih hrest _ hacc]
      have : (c ∈ i :: rest) ↔ c ∈ rest := by
        simp only [List.mem_cons]
        constructor
        · rintro (h | h)
          · exact absurd h.symm hic
          · exact h
        · exact Or.inr
      simp only [this]

theorem scan_single (s : Sound) (off : Int) (c : Nat) (hc : onlyChannel s c) :
    scanSubPriority s (List.replicate SOUND_ARR_SIZE false) off =
      ((c : Int), encodedPriority (s._chSubPriority.getD c 0) off) := by
  unfold scanSubPriority
  rw [scan_fold_single s _ off c hc (fun i => by simp [List.getD]) (List.range SOUND_ARR_SIZE)
    (fun i hi => by simpa using hi) (-1, 0) (Or.inl rfl)]
  have : c ∈ List.range SOUND_ARR_SIZE := by simpa using hc.1
  rw [if_pos this]

theorem scan_done (s : Sound) (off : Int) (c : Nat) (hc : onlyChannel s c) :
    scanSubPriority s ((List.replicate SOUND_ARR_SIZE false).set c true) off = (-1, 0) := by
  unfold scanSubPriority
  apply scan_skip
  intro i hi
  have hi16 : i < 16 := by simpa using hi
  rintro ⟨h1, h2⟩
  have hic : i = c := (hc.2 i hi16).1 h1
  subst hic
  simp [List.getD, hi16] at h2

theorem rd_nat {α : Type} (l : List α) (i : Nat) (a : α) (h : l[i]? = some a) :
    rd l (i : Int) = .ok a := by
  unfold rd
  have hneg : ¬ ((i : Int) < 0) := by omega
  simp only [hneg, if_false, Int.toNat_ofNat, List.get?_eq_getElem?, h]

theorem wr_nat {α : Type} (l : List α) (i : Nat) (a : α) (h : i < l.length) :
    wr l (i : Int) a = .ok (l.set i a) := by
  unfold wr
  have hneg : ¬ ((i : Int) < 0) := by omega
  simp only [hneg, if_false, Int.toNat_ofNat, h, if_true]

theorem claimVoices_clean (h : Nat) (fi fp : Int) (es : List VoiceStructEntry) (k : Nat)
    (hfree : ∀ e ∈ es, e._type1._sound2 = none) (hk : k ≤ es.length) :
    ∃ es1, claimVoices h fi fp es (k : Int) = .ok es1 ∧ es1.length = es.length ∧
      (∀ e ∈ es1, ∀ s, e._type1._sound2 = some s → s = h ∧ e._type1._channelNum2 = fi) ∧
      (∀ q : Option Nat → Bool, q none = false →
        pendFrom q 0 es1 = if q (some h) = true then k else 0) := by
  induction es generalizing k with
  | nil =>
    have hk0 : k = 0 := by simpa using hk
    subst hk0
    refine ⟨[], by simp [claimVoices], rfl, fun e he => by simp at he, fun q _ => ?_⟩
    simp [pendFrom]
  | cons e rest ih =>
    have he := hfree e (List.mem_cons_self _ _)
    have hrest : ∀ x ∈ rest, x._type1._sound2 = none :=
      fun x hx => hfree x (List.mem_cons_of_mem _ hx)
    cases k with
    | zero =>
      refine ⟨e :: rest, by simp [claimVoices], rfl, ?_, ?_⟩
      · intro x hx s hs
        rw [hfree x hx] at hs
        cases hs
      · intro q hq
        have : pendFrom q 0 (e :: rest) = 0 := by
          unfold pendFrom
          simp only [List.drop_zero]
          rw [List.countP_eq_zero]
          intro x hx
          simp [hfree x hx, hq]
        rw [this]
        simp
    | succ k =>
      obtain ⟨es1, hes1, hlen, hprop, hcnt⟩ := ih k hrest (by simpa using hk)
      have hpos : ((k + 1 : Nat) : Int) > 0 := by omega
      have hsub : ((k + 1 : Nat) : Int) - 1 = (k : Int) := by omega
      refine ⟨propose1 h fi fp e :: es1, ?_, by simp [hlen], ?_, ?_⟩
      · unfold claimVoices
        rw [if_pos hpos, if_pos he, hsub, hes1]
        rfl
      · intro x hx s hs
        rcases List.mem_cons.1 hx with rfl | hx
        · simp only [propose1, Option.some.injEq] at hs
          exact ⟨hs.symm, rfl⟩
        · exact hprop x hx s hs
      · intro q hq
        have h1 := hcnt q hq
        unfold pendFrom at h1 ⊢
        simp only [List.drop_zero] at h1 ⊢
        rw [List.countP_cons, h1]
        simp only [propose1]
        split <;> simp
theorem rethinkChannels_fit (h : Nat) (s : Sound) (off : Int) (c g : Nat) (k : Int)
    (T : VoiceTable) (vs : VoiceTypeStruct) (es1 : List VoiceStructEntry) (fuel : Nat)
    (hc : onlyChannel s c) (hnv : rd s._chNumVoices (c : Int) = .ok k)
    (hvt : rd s._chVoiceType (c : Int) = .ok (g : Int))
    (hT : T[g]? = some (some vs)) (hty : vs._voiceType ≠ VOICETYPE_0)
    (hfit : vs._numVoices ≥ k)
    (hclaim : claimVoices h (c : Int) (encodedPriority (s._chSubPriority.getD c 0) off)
      vs._entries k = .ok es1) :
    rethinkChannels h s off (fuel + 2) (List.replicate SOUND_ARR_SIZE false) T =
      .ok ((List.replicate SOUND_ARR_SIZE false).set c true,
        updGroup (fun v => { v with _entries := es1, _numVoices := v._numVoices - k }) g T) := by
  have hne : ((c : Int)) ≠ -1 := by omega
  have hwr : wr (List.replicate SOUND_ARR_SIZE false) (c : Int) true =
      .ok ((List.replicate SOUND_ARR_SIZE false).set c true) :=
    wr_nat _ c true (by simpa using hc.1)
  unfold rethinkChannels
  simp only [scan_single s off c hc, hne, if_false, hnv, hwr, hvt, rd_nat T g _ hT, Except.bind,
    ne_eq, hty, not_false_eq_true, if_true, Int.toNat_ofNat]
  unfold rethinkType1
  simp only [hfit, if_true, hclaim, Except.map]
  unfold rethinkChannels
  simp only [scan_done s off c hc, if_true]

theorem rethinkChannels_starved (h : Nat) (s : Sound) (off : Int) (c g : Nat) (k : Int)
    (T : VoiceTable) (vs : VoiceTypeStruct) (fuel : Nat)
    (hc : onlyChannel s c) (hnv : rd s._chNumVoices (c : Int) = .ok k)
    (hvt : rd s._chVoiceType (c : Int) = .ok (g : Int))
    (hT : T[g]? = some (some vs)) (hty : vs._voiceType ≠ VOICETYPE_0)
    (hnofit : ¬ vs._numVoices ≥ k)
    (hp : encodedPriority (s._chSubPriority.getD c 0) off ≠ 0) :
    rethinkChannels h s off (fuel + 2) (List.replicate SOUND_ARR_SIZE false) T =
      .ok ((List.replicate SOUND_ARR_SIZE false).set c true, T) := by
  have hne : ((c : Int)) ≠ -1 := by omega
  have hwr : wr (List.replicate SOUND_ARR_SIZE false) (c : Int) true =
      .ok ((List.replicate SOUND_ARR_SIZE false).set c true) :=
    wr_nat _ c true (by simpa using hc.1)
  unfold rethinkChannels
  simp only [scan_single s off c hc, hne, if_false, hnv, hwr, hvt, rd_nat T g _ hT, Except.bind,
    ne_eq, hty, not_false_eq_true, if_true, Int.toNat_ofNat]
  unfold rethinkType1
  simp only [hnofit, if_false, hp]
  by_cases hz : vs._numVoices = 0
  · simp only [hz, if_true]
  · simp only [hz, if_false]
    unfold rethinkChannels
    simp only [scan_done s off c hc, if_true]

/-! ### The per-group bodies -/

theorem rethinkPreGroup_type1 (vs : VoiceTypeStruct) (hty : vs._voiceType ≠ VOICETYPE_0) :
    (rethinkPreGroup vs)._voiceType = vs._voiceType ∧
    (rethinkPreGroup vs)._numVoices = vs._total ∧
    (rethinkPreGroup vs)._total = vs._total ∧
    (rethinkPreGroup vs)._entries.length = vs._entries.length ∧
    ∀ e ∈ (rethinkPreGroup vs)._entries, e._type1._sound2 = none := by
  unfold rethinkPreGroup
  rw [if_neg hty]
  refine ⟨rfl, rfl, rfl, by simp, ?_⟩
  intro e he
  simp only [List.mem_map] at he
  obtain ⟨a, _, rfl⟩ := he
  rfl

theorem rethinkPreGroup_ready (sounds : List Sound) (vs : VoiceTypeStruct) :
    slotReady sounds (some (rethinkPreGroup vs)) := by
  unfold slotReady rethinkPreGroup
  by_cases hty : vs._voiceType = VOICETYPE_0
  · simp only [hty, if_true]
    intro e he
    simp only [List.mem_map] at he
    obtain ⟨a, _, rfl⟩ := he
    exact ⟨rfl, rfl⟩
  · simp only [hty, if_false]
    intro e he s hs
    simp only [List.mem_map] at he
    obtain ⟨a, _, rfl⟩ := he
    cases hs

theorem updateVoiceStruct_type1 (vs : VoiceTypeStruct) (hty : vs._voiceType ≠ VOICETYPE_0) :
    (updateVoiceStruct vs)._voiceType = vs._voiceType ∧
    (updateVoiceStruct vs)._numVoices = vs._numVoices ∧
    (updateVoiceStruct vs)._total = vs._total ∧
    (updateVoiceStruct vs)._entries.length = vs._entries.length ∧
    (∀ e ∈ (updateVoiceStruct vs)._entries, ∃ a ∈ vs._entries,
      e._type1._sound2 = a._type1._sound2 ∧ e._type1._channelNum2 = a._type1._channelNum2) ∧
    ∀ q : Option Nat → Bool,
      pendFrom q 0 (updateVoiceStruct vs)._entries = pendFrom q 0 vs._entries := by
  unfold updateVoiceStruct
  rw [if_neg hty]
  refine ⟨rfl, rfl, rfl, by simp, ?_, ?_⟩
  · intro e he
    simp only [List.mem_map] at he
    obtain ⟨a, ha, rfl⟩ := he
    exact ⟨a, ha, rfl, rfl⟩
  · intro q
    unfold pendFrom
    simp only [List.drop_zero, List.countP_map]
    rfl

theorem updateVoiceStruct_ready (sounds : List Sound) (vs : VoiceTypeStruct)
    (h : slotReady sounds (some vs)) : slotReady sounds (some (updateVoiceStruct vs)) := by
  unfold slotReady at h ⊢
  by_cases hty : vs._voiceType = VOICETYPE_0
  · have hty2 : (updateVoiceStruct vs)._voiceType = VOICETYPE_0 := by
      unfold updateVoiceStruct; rw [if_pos hty]; exact hty
    simp only [hty, if_true] at h
    simp only [hty2, if_true]
    intro e he
    unfold updateVoiceStruct at he
    rw [if_pos hty] at he
    simp only [List.mem_map] at he
    obtain ⟨a, ha, rfl⟩ := he
    exact h a ha
  · obtain ⟨h1, _, _, _, h5, _⟩ := updateVoiceStruct_type1 vs hty
    have hty2 : ¬ (updateVoiceStruct vs)._voiceType = VOICETYPE_0 := by rw [h1]; exact hty
    simp only [hty, if_false] at h
    simp only [hty2, if_false]
    intro e he s hs
    obtain ⟨a, ha, ha1, ha2⟩ := h5 e he
    rw [ha1] at hs
    rw [ha2]
    exact h a ha s hs
theorem getD_setChWork (sounds : List Sound) (h x : Nat) (w : List Bool) :
    (setChWork sounds h w).getD x default = sounds.getD x default ∨
    (setChWork sounds h w).getD x default = { sounds.getD x default with _chWork := w } := by
  unfold setChWork
  simp only [List.getD_eq_getElem?_getD, getElem?_updAt]
  split
  · cases hx : sounds[x]? with
    | none => left; simp
    | some s => right; simp
  · left; rfl

theorem getD_setChWork_ne (sounds : List Sound) (h x : Nat) (w : List Bool) (hx : x ≠ h) :
    (setChWork sounds h w).getD x default = sounds.getD x default := by
  unfold setChWork
  simp only [List.getD_eq_getElem?_getD, getElem?_updAt, if_neg hx]

theorem wellSized_setChWork (sounds : List Sound) (h x : Nat) (w : List Bool)
    (hw : (sounds.getD x default).wellSized) :
    ((setChWork sounds h w).getD x default).wellSized := by
  rcases getD_setChWork sounds h x w with h1 | h1
  · rw [h1]; exact hw
  · rw [h1]; exact hw

theorem rd_getD (l : List Int) (c : Nat) (hc : c < l.length) :
    rd l (c : Int) = .ok (l.getD c 0) := by
  apply rd_nat
  rw [List.getElem?_eq_getElem hc]
  simp [List.getD, hc]

theorem encodedPriority_ne_zero (sub : Int) (h0 : sub ≠ 0) (h32 : sub ≠ 32) :
    encodedPriority sub 16 ≠ 0 := by
  unfold encodedPriority
  rw [if_pos h0]
  omega

theorem slotReady_type1 (sounds : List Sound) (vs : VoiceTypeStruct)
    (hty : vs._voiceType ≠ VOICETYPE_0) :
    slotReady sounds (some vs) ↔ proposalsInRange sounds vs._entries := by
  simp [slotReady, hty]

/-- The main loop of `_sfRethinkVoiceTypes` for a play list of two unmuted
sounds with one channel each in the same group that is not TYPE_0, when the
demand of the first fits the pool, the combined demand does not, and the
channel of the second has a nonzero encoded priority: only the first sound's
`kA` proposals stand at the end. -/
theorem rethinkMain_two (sounds : List Sound) (T : VoiceTable) (a b cA cB g kA : Nat)
    (kB : Int) (vs : VoiceTypeStruct) (hab : a ≠ b)
    (hmA : (sounds.getD a default)._mutedCount = 0 ∧ (sounds.getD a default)._pausedCount = 0)
    (hmB : (sounds.getD b default)._mutedCount = 0 ∧ (sounds.getD b default)._pausedCount = 0)
    (hwA : (sounds.getD a default).wellSized) (hwB : (sounds.getD b default).wellSized)
    (hcA : onlyChannel (sounds.getD a default) cA)
    (hcB : onlyChannel (sounds.getD b default) cB)
    (hgA : (sounds.getD a default)._chVoiceType.getD cA 0 = g)
    (hgB : (sounds.getD b default)._chVoiceType.getD cB 0 = g)
    (hkA : (sounds.getD a default)._chNumVoices.getD cA 0 = kA)
    (hkB : (sounds.getD b default)._chNumVoices.getD cB 0 = kB)
    (hsub : (sounds.getD b default)._chSubPriority.getD cB 0 ≠ 0 ∧
      (sounds.getD b default)._chSubPriority.getD cB 0 ≠ 32)
    (hvs : T[g]? = some (some vs)) (hty : vs._voiceType ≠ VOICETYPE_0)
    (htot : vs._total = vs._entries.length)
    (hk2 : kA ≤ vs._entries.length) (hk3 : (kA : Int) + kB > vs._total) :
    ∃ (r : List Sound × VoiceTable) (vs1 : VoiceTypeStruct),
      rethinkMain [a, b] 0 sounds (rethinkPre T) = .ok r ∧
      (∀ slot ∈ r.2, slotReady r.1 slot) ∧
      r.2[g]? = some (some vs1) ∧ vs1._voiceType ≠ VOICETYPE_0 ∧
      ∀ q : Option Nat → Bool, q none = false →
        pendFrom q 0 vs1._entries = if q (some a) = true then kA else 0 := by
  -- the group after pre-processing and the first snapshot
  obtain ⟨hp1, hp2, hp3, hp4, hp5⟩ := rethinkPreGroup_type1 vs hty
  have hty0 : (rethinkPreGroup vs)._voiceType ≠ VOICETYPE_0 := by rw [hp1]; exact hty
  obtain ⟨hu1, hu2, hu3, hu4, hu5, hu6⟩ := updateVoiceStruct_type1 (rethinkPreGroup vs) hty0
  have htyU : (updateVoiceStruct (rethinkPreGroup vs))._voiceType ≠ VOICETYPE_0 := by
    rw [hu1]; exact hty0
  have hT1 : (_sfUpdateVoiceStructs (rethinkPre T))[g]? =
      some (some (updateVoiceStruct (rethinkPreGroup vs))) := by
    simp [_sfUpdateVoiceStructs, rethinkPre, List.getElem?_map, hvs]
  have hfreeU : ∀ e ∈ (updateVoiceStruct (rethinkPreGroup vs))._entries,
      e._type1._sound2 = none := by
    intro e he
    obtain ⟨x, hx, hx1, _⟩ := hu5 e he
    rw [hx1]; exact hp5 x hx
  obtain ⟨es1, hclaim, hlen1, hprop1, hcnt1⟩ := claimVoices_clean a (cA : Int)
    (encodedPriority ((sounds.getD a default)._chSubPriority.getD cA 0) 0)
    (updateVoiceStruct (rethinkPreGroup vs))._entries kA hfreeU (by rw [hu4, hp4]; exact hk2)
  -- the first sound
  have hrdA1 : rd (sounds.getD a default)._chNumVoices (cA : Int) = .ok (kA : Int) := by
    rw [rd_getD _ cA (by rw [hwA.2.2.2.2.1]; exact hcA.1), hkA]
  have hrdA2 : rd (sounds.getD a default)._chVoiceType (cA : Int) = .ok (g : Int) := by
    rw [rd_getD _ cA (by rw [hwA.2.2.2.2.2]; exact hcA.1), hgA]
  have hfitA : (updateVoiceStruct (rethinkPreGroup vs))._numVoices ≥ (kA : Int) := by
    rw [hu2, hp2, htot]
    exact_mod_cast hk2
  have hA := rethinkChannels_fit a (sounds.getD a default) 0 cA g kA
    (_sfUpdateVoiceStructs (rethinkPre T)) _ es1 15 hcA hrdA1 hrdA2 hT1 htyU hfitA hclaim
  -- the table after the first sound and the second snapshot
  generalize hfA : (fun v : VoiceTypeStruct =>
    { v with _entries := es1, _numVoices := v._numVoices - (kA : Int) }) = fA at hA
  have hfAv : ∀ v, (fA v)._voiceType = v._voiceType ∧ (fA v)._entries = es1 ∧
      (fA v)._numVoices = v._numVoices - (kA : Int) := fun v => by subst hfA; exact ⟨rfl, rfl, rfl⟩
  have htyA : (fA (updateVoiceStruct (rethinkPreGroup vs)))._voiceType ≠ VOICETYPE_0 := by
    rw [(hfAv _).1]; exact htyU
  obtain ⟨hv1, hv2, _, _, hv5, hv6⟩ :=
    updateVoiceStruct_type1 (fA (updateVoiceStruct (rethinkPreGroup vs))) htyA
  have htyB : (updateVoiceStruct (fA (updateVoiceStruct (rethinkPreGroup vs))))._voiceType ≠
      VOICETYPE_0 := by rw [hv1]; exact htyA
  have hT2 : (_sfUpdateVoiceStructs (updGroup fA g (_sfUpdateVoiceStructs (rethinkPre T))))[g]? =
      some (some (updateVoiceStruct (fA (updateVoiceStruct (rethinkPreGroup vs))))) := by
    have : (updGroup fA g (_sfUpdateVoiceStructs (rethinkPre T)))[g]? =
        some (some (fA (updateVoiceStruct (rethinkPreGroup vs)))) := by
      unfold updGroup
      rw [getElem?_updAt, if_pos rfl, hT1]
      rfl
    unfold _sfUpdateVoiceStructs at this ⊢
    rw [List.getElem?_map, this]
    rfl
  -- the second sound
  have hsB : (setChWork sounds a ((List.replicate SOUND_ARR_SIZE false).set cA true)).getD b
      default = sounds.getD b default := getD_setChWork_ne _ _ _ _ (Ne.symm hab)
  have hrdB1 : rd (sounds.getD b default)._chNumVoices (cB : Int) = .ok kB := by
    rw [rd_getD _ cB (by rw [hwB.2.2.2.2.1]; exact hcB.1), hkB]
  have hrdB2 : rd (sounds.getD b default)._chVoiceType (cB : Int) = .ok (g : Int) := by
    rw [rd_getD _ cB (by rw [hwB.2.2.2.2.2]; exact hcB.1), hgB]
  have hnofit : ¬ (updateVoiceStruct (fA (updateVoiceStruct (rethinkPreGroup vs))))._numVoices
      ≥ kB := by
    rw [hv2, (hfAv _).2.2, hu2, hp2]
    omega
  have hB := rethinkChannels_starved b (sounds.getD b default) (0 + 16) cB g kB
    (_sfUpdateVoiceStructs (updGroup fA g (_sfUpdateVoiceStructs (rethinkPre T)))) _ 15 hcB
    hrdB1 hrdB2 hT2 htyB hnofit
    (by rw [show (0 : Int) + 16 = 16 from rfl]; exact encodedPriority_ne_zero _ hsub.1 hsub.2)
  refine ⟨(setChWork (setChWork sounds a ((List.replicate SOUND_ARR_SIZE false).set cA true))
      b ((List.replicate SOUND_ARR_SIZE false).set cB true),
      _sfUpdateVoiceStructs (updGroup fA g (_sfUpdateVoiceStructs (rethinkPre T)))),
    updateVoiceStruct (fA (updateVoiceStruct (rethinkPreGroup vs))), ?_, ?_, hT2, htyB, ?_⟩
  · unfold rethinkMain
    have hm1 : ¬ ((sounds.getD a default)._mutedCount ≠ 0 ∨
        (sounds.getD a default)._pausedCount ≠ 0) := by
      rw [hmA.1, hmA.2]; simp
    simp only [hm1, if_false]
    rw [show SOUND_ARR_SIZE + 1 = 15 + 2 from rfl, hA]
    simp only [Except.bind]
    unfold rethinkMain
    have hm2 : ¬ ((sounds.getD b default)._mutedCount ≠ 0 ∨
        (sounds.getD b default)._pausedCount ≠ 0) := by
      rw [hmB.1, hmB.2]; simp
    simp only [hsB, hm2, if_false]
    rw [show SOUND_ARR_SIZE + 1 = 15 + 2 from rfl, hB]
    simp only [Except.bind, rethinkMain]
  · -- every slot is ready for the commit pass
    intro slot hslot
    obtain ⟨i, hi⟩ := List.mem_iff_getElem?.1 hslot
    have hA1 : ((setChWork (setChWork sounds a ((List.replicate SOUND_ARR_SIZE false).set cA true))
        b ((List.replicate SOUND_ARR_SIZE false).set cB true)).getD a default).wellSized :=
      wellSized_setChWork _ _ _ _ (wellSized_setChWork _ _ _ _ hwA)
    by_cases hig : i = g
    · rw [hig, hT2] at hi
      have hslot2 := Option.some.inj hi
      rw [← hslot2, slotReady_type1 _ _ htyB]
      intro e he s hs
      obtain ⟨x, hx, hx1, hx2⟩ := hv5 e he
      rw [(hfAv _).2.1] at hx
      rw [hx1] at hs
      obtain ⟨hsa, hch⟩ := hprop1 x hx s hs
      rw [hx2, hch, hsa]
      exact ⟨by omega, by have := hcA.1; omega, hA1⟩
    · simp only at hi
      unfold _sfUpdateVoiceStructs updGroup rethinkPre at hi
      simp only [List.getElem?_map, getElem?_updAt, if_neg hig] at hi
      cases hTi : T[i]? with
      | none => rw [hTi] at hi; simp at hi
      | some sl =>
        rw [hTi] at hi
        simp only [Option.map_some', Option.some.injEq] at hi
        cases sl with
        | none =>
          simp only [Option.map_none'] at hi
          rw [← hi]
          trivial
        | some v =>
          simp only [Option.map_some'] at hi
          rw [← hi]
          exact updateVoiceStruct_ready _ _ (updateVoiceStruct_ready _ _
            (rethinkPreGroup_ready _ v))
  · intro q hq
    rw [hv6 q]
    have := hcnt1 q hq
    rw [(hfAv _).2.1]
    exact this
/-! ## Reference counts -/

theorem count_step (c : Int) (ops : List Bool)
    (step : Int → Bool → Int)
    (hstep : ∀ c op, step c op = if op = true then c + 1 else if c > 0 then c - 1 else c)
    (hpre : ∀ k, (((ops.take k).count false : Nat) : Int) ≤ c + (ops.take k).count true) :
    ops.foldl step c = c + ops.count true - ops.count false := by
  induction ops generalizing c with
  | nil => simp
  | cons op ops ih =>
    rw [List.foldl_cons, hstep]
    cases op with
    | true =>
      rw [if_pos rfl, ih]
      · simp only [List.count_cons_self, List.count_cons_of_ne (by decide : false ≠ true)]
        push_cast; ring
      · intro k
        have := hpre (k + 1)
        simp only [List.take_succ_cons, List.count_cons_self,
          List.count_cons_of_ne (by decide : false ≠ true)] at this
        push_cast at this
        omega
    | false =>
      have h1 := hpre 1
      simp at h1
      rw [if_neg (by decide), if_pos (by omega), ih]
      · simp only [List.count_cons_self, List.count_cons_of_ne (by decide : true ≠ false)]
        push_cast; ring
      · intro k
        have := hpre (k + 1)
        simp only [List.take_succ_cons, List.count_cons_self,
          List.count_cons_of_ne (by decide : true ≠ false)] at this
        push_cast at this
        omega

theorem count_balanced (c : Int) (hc : 0 ≤ c) (ops : List Bool) (hb : balanced ops)
    (step : Int → Bool → Int)
    (hstep : ∀ c op, step c op = if op = true then c + 1 else if c > 0 then c - 1 else c) :
    ops.foldl step c = c := by
  rw [count_step c ops step hstep]
  · rw [hb.2]; ring
  · intro k
    by_cases hk : k ≤ ops.length
    · have := hb.1 k hk
      omega
    · have := hb.1 ops.length (le_refl _)
      rw [List.take_of_length_le (by omega)]
      rw [List.take_length] at this
      omega

theorem runDisable_count (m : Manager) (ops : List Bool) :
    (runDisable m ops)._serverDisabledCount =
      ops.foldl (fun c op => if op = true then c + 1 else if c > 0 then c - 1 else c)
        m._serverDisabledCount := by
  induction ops generalizing m with
  | nil => rfl
  | cons op ops ih =>
    rw [runDisable, ih, List.foldl_cons]
    congr 1
    cases op with
    | true => simp [disableSoundServer]
    | false =>
      simp only [enableSoundServer, if_neg (by decide : ¬ (false = true))]
      split <;> rfl

theorem runSuspend_count (m : Manager) (ops : List Bool) :
    (runSuspend m ops)._serverSuspendedCount =
      ops.foldl (fun c op => if op = true then c + 1 else if c > 0 then c - 1 else c)
        m._serverSuspendedCount := by
  induction ops generalizing m with
  | nil => rfl
  | cons op ops ih =>
    rw [runSuspend, ih, List.foldl_cons]
    congr 1
    cases op with
    | true => simp [suspendSoundServer]
    | false =>
      simp only [restartSoundServer, if_neg (by decide : ¬ (false = true))]
      split <;> rfl

theorem rethinkMain_sounds {β : Type} (proj : Sound → β)
    (hproj : ∀ s c, proj { s with _chWork := c } = proj s)
    (pl : List Nat) (off : Int) (sounds : List Sound) (vts : VoiceTable)
    (r : List Sound × VoiceTable) (hr : rethinkMain pl off sounds vts = .ok r) :
    r.1.length = sounds.length ∧
    ∀ x, proj (r.1.getD x default) = proj (sounds.getD x default) := by
  induction pl generalizing off sounds vts with
  | nil =>
    simp only [rethinkMain, Except.ok.injEq] at hr
    subst hr; exact ⟨rfl, fun _ => rfl⟩
  | cons h rest ih =>
    unfold rethinkMain at hr
    simp only at hr
    split at hr
    · exact ih _ _ _ hr
    · simp only [bind_eq_ok] at hr
      obtain ⟨c, _, hr⟩ := hr
      obtain ⟨h1, h2⟩ := ih _ _ _ hr
      refine ⟨h1.trans (length_updAt _ _ _), fun x => ?_⟩
      rw [h2 x]
      rcases getD_setChWork sounds h x c.1 with h3 | h3
      · rw [h3]
      · rw [h3, hproj]

theorem rethink_sounds {β : Type} (proj : Sound → β)
    (hproj : ∀ s c, proj { s with _chWork := c } = proj s)
    (m m' : Manager) (hr : _sfRethinkVoiceTypes m = .ok m') :
    m'.sounds.length = m.sounds.length ∧ ∀ x, proj (m'.sound x) = proj (m.sound x) := by
  unfold _sfRethinkVoiceTypes at hr
  simp only [bind_eq_ok, map_eq_ok] at hr
  obtain ⟨r, hm, p, _, rfl⟩ := hr
  exact rethinkMain_sounds proj hproj _ _ _ _ _ hm

theorem rethink_counts (m m' : Manager) (hr : _sfRethinkVoiceTypes m = .ok m') :
    m'._serverSuspendedCount = m._serverSuspendedCount ∧
    m'._serverDisabledCount = m._serverDisabledCount ∧ m'._playList = m._playList := by
  unfold _sfRethinkVoiceTypes at hr
  simp only [bind_eq_ok, map_eq_ok] at hr
  obtain ⟨r, hm, p, _, rfl⟩ := hr
  refine ⟨?_, rfl, rfl⟩
  show m._serverSuspendedCount + 1 - 1 = m._serverSuspendedCount
  omega

theorem sounds_restartSoundServer (m : Manager) : (restartSoundServer m).sounds = m.sounds := by
  unfold restartSoundServer
  split <;> rfl

theorem mute_count (m m1 : Manager) (h : Nat) (flag : Bool) (hh : h < m.sounds.length)
    (hr : mute m h flag = .ok m1) :
    m1.sounds.length = m.sounds.length ∧
    (m1.sound h)._mutedCount =
      (if flag = true then (m.sound h)._mutedCount + 1
       else if (m.sound h)._mutedCount > 0 then (m.sound h)._mutedCount - 1
       else (m.sound h)._mutedCount) := by
  unfold mute rethinkVoiceTypes at hr
  simp only [map_eq_ok] at hr
  obtain ⟨m2, hm2, rfl⟩ := hr
  obtain ⟨hl, hp⟩ := rethink_sounds (fun s => s._mutedCount) (fun _ _ => rfl) _ _ hm2
  have hh1 : h < (suspendSoundServer m).sounds.length := hh
  refine ⟨?_, ?_⟩
  · rw [sounds_restartSoundServer, hl]
    simp [Manager.setSound, suspendSoundServer]
  · have := hp h
    simp only [Manager.sound, sounds_restartSoundServer] at this ⊢
    rw [this]
    have hs := sound_setSound (suspendSoundServer m) h
    simp only [Manager.sound] at hs
    rw [hs _ hh1]
    show _ = _
    simp only [suspendSoundServer]
    cases flag with
    | true => simp
    | false =>
      simp only [if_neg (by decide : ¬ (false = true))]
      split <;> rfl

theorem pause_count (m m1 : Manager) (h : Nat) (flag : Bool) (hh : h < m.sounds.length)
    (hr : pause m h flag = .ok m1) :
    m1.sounds.length = m.sounds.length ∧
    (m1.sound h)._pausedCount =
      (if flag = true then (m.sound h)._pausedCount + 1
       else if (m.sound h)._pausedCount > 0 then (m.sound h)._pausedCount - 1
       else (m.sound h)._pausedCount) := by
  unfold pause rethinkVoiceTypes at hr
  simp only [map_eq_ok] at hr
  obtain ⟨m2, hm2, rfl⟩ := hr
  obtain ⟨hl, hp⟩ := rethink_sounds (fun s => s._pausedCount) (fun _ _ => rfl) _ _ hm2
  have hh1 : h < (suspendSoundServer m).sounds.length := hh
  refine ⟨?_, ?_⟩
  · rw [sounds_restartSoundServer, hl]
    simp [Manager.setSound, suspendSoundServer]
  · have := hp h
    simp only [Manager.sound, sounds_restartSoundServer] at this ⊢
    rw [this]
    have hs := sound_setSound (suspendSoundServer m) h
    simp only [Manager.sound] at hs
    rw [hs _ hh1]
    show _ = _
    simp only [suspendSoundServer]
    cases flag with
    | true => simp
    | false =>
      simp only [if_neg (by decide : ¬ (false = true))]
      split <;> rfl

theorem runMute_count (h : Nat) (ops : List Bool) (m m' : Manager) (hh : h < m.sounds.length)
    (hr : runMute h m ops = .ok m') :
    (m'.sound h)._mutedCount =
      ops.foldl (fun c op => if op = true then c + 1 else if c > 0 then c - 1 else c)
        (m.sound h)._mutedCount := by
  induction ops generalizing m with
  | nil =>
    simp only [runMute, Except.ok.injEq] at hr
    subst hr; rfl
  | cons op ops ih =>
    unfold runMute at hr
    simp only [bind_eq_ok] at hr
    obtain ⟨m1, hm1, hr⟩ := hr
    obtain ⟨hl, hc⟩ := mute_count m m1 h op hh hm1
    rw [ih m1 (hl ▸ hh) hr, List.foldl_cons, hc]

theorem runPause_count (h : Nat) (ops : List Bool) (m m' : Manager) (hh : h < m.sounds.length)
    (hr : runPause h m ops = .ok m') :
    (m'.sound h)._pausedCount =
      ops.foldl (fun c op => if op = true then c + 1 else if c > 0 then c - 1 else c)
        (m.sound h)._pausedCount := by
  induction ops generalizing m with
  | nil =>
    simp only [runPause, Except.ok.injEq] at hr
    subst hr; rfl
  | cons op ops ih =>
    unfold runPause at hr
    simp only [bind_eq_ok] at hr
    obtain ⟨m1, hm1, hr⟩ := hr
    obtain ⟨hl, hc⟩ := pause_count m m1 h op hh hm1
    rw [ih m1 (hl ▸ hh) hr, List.foldl_cons, hc]

/-! ## The voice rethink without voice groups -/

theorem scan_picks_unserviced (s : Sound) (w : List Bool) (off : Int) (l : List Nat)
    (acc : Int × Int)
    (hacc : acc.1 = -1 ∨ ∃ i : Nat, i < 16 ∧ acc.1 = (i : Int) ∧ w.getD i false = false)
    (hl : ∀ i ∈ l, i < 16) :
    (l.foldl (scanStep s w off) acc).1 = -1 ∨
      ∃ i : Nat, i < 16 ∧ (l.foldl (scanStep s w off) acc).1 = (i : Int) ∧
        w.getD i false = false := by
  induction l generalizing acc with
  | nil => exact hacc
  | cons x xs ih =>
    rw [List.foldl_cons]
    refine ih _ ?_ (fun i hi => hl i (List.mem_cons_of_mem _ hi))
    have hx := hl x (List.mem_cons_self _ _)
    by_cases hc : Int.land (s._chFlags.getD x 0) 0x8000 = 0 ∧ w.getD x false = false
    · have hgoal : (scanStep s w off acc x).1 = acc.1 ∨ (scanStep s w off acc x).1 = (x : Int) := by
        unfold scanStep
        dsimp only
        rw [if_pos hc]
        split_ifs <;> simp
      rcases hgoal with hg | hg
      · rw [hg]; exact hacc
      · exact Or.inr ⟨x, hx, hg, hc.2⟩
    · have hgoal : scanStep s w off acc x = acc := by
        unfold scanStep
        rw [if_neg hc]
      rw [hgoal]; exact hacc

theorem count_false_set (w : List Bool) (i : Nat) (hi : w[i]? = some false) :
    (w.set i true).count false + 1 = w.count false := by
  induction w generalizing i with
  | nil => simp at hi
  | cons b bs ih =>
    cases i with
    | zero =>
      simp only [List.getElem?_cons_zero, Option.some.injEq] at hi
      subst hi
      simp [List.count_cons]
    | succ i =>
      simp only [List.getElem?_cons_succ] at hi
      have := ih i hi
      simp only [List.set_cons_succ, List.count_cons]
      omega

theorem rd_replicate_none (v : Int) (h0 : 0 ≤ v) (h1 : v < 16) :
    rd (List.replicate SOUND_ARR_SIZE (none : Option VoiceTypeStruct)) v = .ok none := by
  have hv : ((v.toNat : Nat) : Int) = v := Int.toNat_of_nonneg h0
  rw [← hv]
  apply rd_nat
  rw [List.getElem?_replicate, if_pos (show v.toNat < 16 by omega)]

theorem rethinkChannels_no_groups (h : Nat) (s : Sound) (off : Int) (hs : channelsReady s)
    (fuel : Nat) (w : List Bool) (hw : w.length = 16) (hfuel : w.count false < fuel) :
    ∃ w1, rethinkChannels h s off fuel w (List.replicate SOUND_ARR_SIZE none) =
      .ok (w1, List.replicate SOUND_ARR_SIZE none) := by
  induction fuel generalizing w with
  | zero => omega
  | succ fuel ih =>
    unfold rethinkChannels
    dsimp only
    have hscan := scan_picks_unserviced s w off (List.range SOUND_ARR_SIZE) (-1, 0)
      (Or.inl rfl) (fun i hi => by simpa using hi)
    rcases hscan with hnone | ⟨i, hi, hidx, hfree⟩
    · have h1 : (scanSubPriority s w off).1 = -1 := hnone
      rw [if_pos h1]
      exact ⟨_, rfl⟩
    · have h1 : (scanSubPriority s w off).1 = (i : Int) := hidx
      rw [if_neg (by rw [h1]; omega), h1]
      obtain ⟨hn, hv, hrange⟩ := hs
      rw [rd_getD _ i (by omega), rd_getD _ i (by omega), wr_nat _ i _ (by omega)]
      simp only [Except.bind]
      have hmem : s._chVoiceType.getD i 0 ∈ s._chVoiceType := by
        rw [List.getD_eq_getElem _ _ (by omega)]
        exact List.getElem_mem _
      obtain ⟨v0, v1⟩ := hrange _ hmem
      rw [rd_replicate_none _ v0 v1]
      simp only
      have hwi : w[i]? = some false := by
        rw [List.getElem?_eq_getElem (by omega)]
        have := hfree
        rw [List.getD_eq_getElem _ _ (by omega)] at this
        rw [this]
      have hcount := count_false_set w i hwi
      split
      · exact ih (w.set i true) (by simpa using hw) (by omega)
      · exact ⟨_, rfl⟩

theorem channelsReady_setChWork (sounds : List Sound) (h x : Nat) (w : List Bool)
    (hr : channelsReady (sounds.getD x default)) :
    channelsReady ((setChWork sounds h w).getD x default) := by
  rcases getD_setChWork sounds h x w with h1 | h1
  · rw [h1]; exact hr
  · rw [h1]; exact hr

theorem rethinkMain_no_groups (pl : List Nat) (off : Int) (sounds : List Sound)
    (hs : ∀ h ∈ pl, channelsReady (sounds.getD h default)) :
    ∃ sounds1, rethinkMain pl off sounds (List.replicate SOUND_ARR_SIZE none) =
      .ok (sounds1, List.replicate SOUND_ARR_SIZE none) := by
  induction pl generalizing off sounds with
  | nil => exact ⟨_, rfl⟩
  | cons h rest ih =>
    unfold rethinkMain
    dsimp only
    split
    · exact ih _ _ (fun x hx => hs x (List.mem_cons_of_mem _ hx))
    · have hup : _sfUpdateVoiceStructs (List.replicate SOUND_ARR_SIZE none) =
          List.replicate SOUND_ARR_SIZE none := rfl
      rw [hup]
      obtain ⟨w1, hw1⟩ := rethinkChannels_no_groups h (sounds.getD h default) off
        (hs h (List.mem_cons_self _ _)) (SOUND_ARR_SIZE + 1)
        (List.replicate SOUND_ARR_SIZE false) (by simp) (by decide)
      rw [hw1]
      simp only [Except.bind]
      exact ih _ _ (fun x hx =>
        channelsReady_setChWork sounds h x w1 (hs x (List.mem_cons_of_mem _ hx)))

theorem rethink_no_groups (m : Manager) (hm : noVoiceGroups m) :
    ∃ m1, _sfRethinkVoiceTypes m = .ok m1 ∧ noVoiceGroups m1 := by
  obtain ⟨hvt, hs⟩ := hm
  obtain ⟨sounds1, h1⟩ := rethinkMain_no_groups m._playList 0 m.sounds hs
  have hrun : _sfRethinkVoiceTypes m = .ok { m with
      sounds := sounds1, _voiceTypeStructPtrs := List.replicate SOUND_ARR_SIZE none
      log := m.log, _serverSuspendedCount := m._serverSuspendedCount + 1 - 1 } := by
    unfold _sfRethinkVoiceTypes
    dsimp only
    rw [hvt]
    have hpre : rethinkPre (List.replicate SOUND_ARR_SIZE none) =
        List.replicate SOUND_ARR_SIZE none := rfl
    rw [hpre, h1]
    rfl
  refine ⟨_, hrun, rfl, ?_⟩
  intro x hx
  have hx1 : x ∈ m._playList := hx
  obtain ⟨_, hp⟩ := rethink_sounds (fun s => (s._chNumVoices, s._chVoiceType))
    (fun _ _ => rfl) m _ hrun
  have hpx := hp x
  simp only [Prod.mk.injEq] at hpx
  have := hs x hx1
  unfold channelsReady at this ⊢
  rw [hpx.1, hpx.2]
  exact this

theorem sound_setSound_cases (m : Manager) (h : Nat) (s : Sound) (x : Nat) :
    (m.setSound h s).sound x = s ∨ (m.setSound h s).sound x = m.sound x := by
  unfold Manager.setSound Manager.sound
  simp only [List.getD_eq_getElem?_getD, List.getElem?_set]
  split
  · split
    · left; rfl
    · right
      rename_i hx hlt
      subst hx
      rw [List.getElem?_eq_none (by omega)]
  · right; rfl

theorem noVoiceGroups_restart (m : Manager) (hm : noVoiceGroups m) :
    noVoiceGroups (restartSoundServer m) := by
  unfold restartSoundServer
  split
  · exact hm
  · exact hm

theorem mute_no_groups (m : Manager) (h : Nat) (flag : Bool) (hm : noVoiceGroups m) :
    ∃ m1, mute m h flag = .ok m1 ∧ noVoiceGroups m1 := by
  have hready : ∀ s1 : Sound, (channelsReady (m.sound h) → channelsReady s1) →
      noVoiceGroups ((suspendSoundServer m).setSound h s1) := by
    intro s1 hs1
    refine ⟨hm.1, fun x hx => ?_⟩
    have hx1 : x ∈ m._playList := hx
    rcases sound_setSound_cases (suspendSoundServer m) h s1 x with h1 | h1
    · rw [h1]
      by_cases hxh : x = h
      · subst hxh; exact hs1 (hm.2 x hx1)
      · have h2 : ((suspendSoundServer m).setSound h s1).sound x = m.sound x := by
          unfold Manager.setSound Manager.sound
          simp only [List.getD_eq_getElem?_getD, List.getElem?_set, if_neg (Ne.symm hxh)]
          rfl
        rw [← h1, h2]; exact hm.2 x hx1
    · rw [h1]; exact hm.2 x hx1
  unfold mute rethinkVoiceTypes
  dsimp only
  obtain ⟨m2, h2, hn2⟩ := rethink_no_groups _ (hready
    (if flag = true then { (suspendSoundServer m).sound h with
        _mutedCount := ((suspendSoundServer m).sound h)._mutedCount + 1 }
      else if ((suspendSoundServer m).sound h)._mutedCount > 0 then
        { (suspendSoundServer m).sound h with
          _mutedCount := ((suspendSoundServer m).sound h)._mutedCount - 1 }
      else (suspendSoundServer m).sound h)
    (by
      intro hc
      split
      · exact hc
      · split
        · exact hc
        · exact hc))
  dsimp only at h2
  rw [h2]
  exact ⟨_, rfl, noVoiceGroups_restart _ hn2⟩

theorem pause_no_groups (m : Manager) (h : Nat) (flag : Bool) (hm : noVoiceGroups m) :
    ∃ m1, pause m h flag = .ok m1 ∧ noVoiceGroups m1 := by
  have hready : ∀ s1 : Sound, (channelsReady (m.sound h) → channelsReady s1) →
      noVoiceGroups ((suspendSoundServer m).setSound h s1) := by
    intro s1 hs1
    refine ⟨hm.1, fun x hx => ?_⟩
    have hx1 : x ∈ m._playList := hx
    rcases sound_setSound_cases (suspendSoundServer m) h s1 x with h1 | h1
    · rw [h1]
      by_cases hxh : x = h
      · subst hxh; exact hs1 (hm.2 x hx1)
      · have h2 : ((suspendSoundServer m).setSound h s1).sound x = m.sound x := by
          unfold Manager.setSound Manager.sound
          simp only [List.getD_eq_getElem?_getD, List.getElem?_set, if_neg (Ne.symm hxh)]
          rfl
        rw [← h1, h2]; exact hm.2 x hx1
    · rw [h1]; exact hm.2 x hx1
  unfold pause rethinkVoiceTypes
  dsimp only
  obtain ⟨m2, h2, hn2⟩ := rethink_no_groups _ (hready
    (if flag = true then { (suspendSoundServer m).sound h with
        _pausedCount := ((suspendSoundServer m).sound h)._pausedCount + 1 }
      else if ((suspendSoundServer m).sound h)._pausedCount > 0 then
        { (suspendSoundServer m).sound h with
          _pausedCount := ((suspendSoundServer m).sound h)._pausedCount - 1 }
      else (suspendSoundServer m).sound h)
    (by
      intro hc
      split
      · exact hc
      · split
        · exact hc
        · exact hc))
  dsimp only at h2
  rw [h2]
  exact ⟨_, rfl, noVoiceGroups_restart _ hn2⟩

theorem runMute_no_groups (h : Nat) (ops : List Bool) (m : Manager) (hm : noVoiceGroups m) :
    ∃ m1, runMute h m ops = .ok m1 := by
  induction ops generalizing m with
  | nil => exact ⟨_, rfl⟩
  | cons op ops ih =>
    obtain ⟨m1, h1, hn1⟩ := mute_no_groups m h op hm
    obtain ⟨m2, h2⟩ := ih m1 hn1
    unfold runMute
    rw [h1]
    exact ⟨m2, h2⟩

theorem runPause_no_groups (h : Nat) (ops : List Bool) (m : Manager) (hm : noVoiceGroups m) :
    ∃ m1, runPause h m ops = .ok m1 := by
  induction ops generalizing m with
  | nil => exact ⟨_, rfl⟩
  | cons op ops ih =>
    obtain ⟨m1, h1, hn1⟩ := pause_no_groups m h op hm
    obtain ⟨m2, h2⟩ := ih m1 hn1
    unfold runPause
    rw [h1]
    exact ⟨m2, h2⟩

/-- C11: each of the four counters is a saturating reference count.  For a
sequence `ops` of increments (`true`) and decrements (`false`) in which no
prefix has more decrements than increments and the totals are equal, and
counters that start non-negative: running the sequence through
`disableSoundServer` / `enableSoundServer` or through `suspendSoundServer` /
`restartSoundServer` restores the counter, and so does every run through
`mute(flag)` or `pause(flag)` on a sound `h` that returns (each call runs
`_sfRethinkVoiceTypes`; with no voice group in the table these runs do
return).  A decrement at zero leaves the counter at zero, and `isMuted()` /
`isPaused()` hold exactly when the counter is not zero.  The counters are
taken inside the range of `int` (`_hfit`). -/
theorem counters_are_saturating_reference_counts (m : Manager) (h : Nat) (ops : List Bool)
    (hb : balanced ops) (hh : h < m.sounds.length)
    (hd : 0 ≤ m._serverDisabledCount) (hs : 0 ≤ m._serverSuspendedCount)
    (hm : 0 ≤ (m.sound h)._mutedCount) (hp : 0 ≤ (m.sound h)._pausedCount)
    (_hfit : m._serverDisabledCount + ops.length < 2147483648 ∧
      m._serverSuspendedCount + 1 + ops.length < 2147483648 ∧
      (m.sound h)._mutedCount + ops.length < 2147483648 ∧
      (m.sound h)._pausedCount + ops.length < 2147483648) :
    ((runDisable m ops)._serverDisabledCount = m._serverDisabledCount ∧
     (runSuspend m ops)._serverSuspendedCount = m._serverSuspendedCount ∧
     (∀ m1, runMute h m ops = .ok m1 → (m1.sound h)._mutedCount = (m.sound h)._mutedCount) ∧
     (∀ m1, runPause h m ops = .ok m1 →
       (m1.sound h)._pausedCount = (m.sound h)._pausedCount) ∧
     (noVoiceGroups m →
       (∃ m1, runMute h m ops = .ok m1) ∧ ∃ m1, runPause h m ops = .ok m1)) ∧
    ((m._serverDisabledCount = 0 → (enableSoundServer m)._serverDisabledCount = 0) ∧
     (m._serverSuspendedCount = 0 → (restartSoundServer m)._serverSuspendedCount = 0) ∧
     (∀ m1, (m.sound h)._mutedCount = 0 → mute m h false = .ok m1 →
       (m1.sound h)._mutedCount = 0) ∧
     (∀ m1, (m.sound h)._pausedCount = 0 → pause m h false = .ok m1 →
       (m1.sound h)._pausedCount = 0)) ∧
    ((isMuted m h = true ↔ (m.sound h)._mutedCount ≠ 0) ∧
     (isPaused m h = true ↔ (m.sound h)._pausedCount ≠ 0)) := by
  refine ⟨⟨?_, ?_, ?_, ?_, fun hn =>
    ⟨runMute_no_groups h ops m hn, runPause_no_groups h ops m hn⟩⟩, ⟨?_, ?_, ?_, ?_⟩, ?_, ?_⟩
  · rw [runDisable_count]
    exact count_balanced _ hd ops hb _ (fun _ _ => rfl)
  · rw [runSuspend_count]
    exact count_balanced _ hs ops hb _ (fun _ _ => rfl)
  · intro m1 hr
    rw [runMute_count h ops m m1 hh hr]
    exact count_balanced _ hm ops hb _ (fun _ _ => rfl)
  · intro m1 hr
    rw [runPause_count h ops m m1 hh hr]
    exact count_balanced _ hp ops hb _ (fun _ _ => rfl)
  · intro h0
    unfold enableSoundServer
    rw [if_neg (by omega)]
    exact h0
  · intro h0
    unfold restartSoundServer
    rw [if_neg (by omega)]
    exact h0
  · intro m1 h0 hr
    rw [(mute_count m m1 h false hh hr).2, if_neg (by decide), if_neg (by omega)]
    exact h0
  · intro m1 h0 hr
    rw [(pause_count m m1 h false hh hr).2, if_neg (by decide), if_neg (by omega)]
    exact h0
  · simp [isMuted]
  · simp [isPaused]

/-- Witness of C11: two nested increments and their decrements on sound 0 of
the three-sound fixture; the runs of `mute` and `pause` return. -/
theorem counters_are_saturating_reference_counts_witness :
    (balanced [true, true, false, false] ∧ 0 < threeSounds.sounds.length ∧
      (∃ m1, runMute 0 threeSounds [true, true, false, false] = .ok m1) ∧
      (∃ m1, runPause 0 threeSounds [true, true, false, false] = .ok m1)) ∧
    (((runDisable threeSounds [true, true, false, false])._serverDisabledCount =
        threeSounds._serverDisabledCount ∧
      (runSuspend threeSounds [true, true, false, false])._serverSuspendedCount =
        threeSounds._serverSuspendedCount ∧
      (∀ m1, runMute 0 threeSounds [true, true, false, false] = .ok m1 →
        (m1.sound 0)._mutedCount = (threeSounds.sound 0)._mutedCount) ∧
      (∀ m1, runPause 0 threeSounds [true, true, false, false] = .ok m1 →
        (m1.sound 0)._pausedCount = (threeSounds.sound 0)._pausedCount) ∧
      (noVoiceGroups threeSounds →
        (∃ m1, runMute 0 threeSounds [true, true, false, false] = .ok m1) ∧
        ∃ m1, runPause 0 threeSounds [true, true, false, false] = .ok m1)) ∧
     ((threeSounds._serverDisabledCount = 0 →
        (enableSoundServer threeSounds)._serverDisabledCount = 0) ∧
      (threeSounds._serverSuspendedCount = 0 →
        (restartSoundServer threeSounds)._serverSuspendedCount = 0) ∧
      (∀ m1, (threeSounds.sound 0)._mutedCount = 0 → mute threeSounds 0 false = .ok m1 →
        (m1.sound 0)._mutedCount = 0) ∧
      (∀ m1, (threeSounds.sound 0)._pausedCount = 0 → pause threeSounds 0 false = .ok m1 →
        (m1.sound 0)._pausedCount = 0)) ∧
     ((isMuted threeSounds 0 = true ↔ (threeSounds.sound 0)._mutedCount ≠ 0) ∧
      (isPaused threeSounds 0 = true ↔ (threeSounds.sound 0)._pausedCount ≠ 0))) :=
  ⟨⟨by decide, by decide, ⟨_, rfl⟩, ⟨_, rfl⟩⟩,
    counters_are_saturating_reference_counts threeSounds 0 [true, true, false, false]
      (by decide) (by decide) (by decide) (by decide) (by decide) (by decide) (by decide)⟩

/-! ## Stopping a sound, volume and priority -/

theorem sound_setSound_ge (m : Manager) (h : Nat) (s : Sound) (hh : ¬ h < m.sounds.length) :
    m.setSound h s = m := by
  unfold Manager.setSound
  rw [List.set_eq_of_length_le (by omega)]

theorem sound_default (m : Manager) (h : Nat) (hh : ¬ h < m.sounds.length) :
    m.sound h = default := by
  unfold Manager.sound
  rw [List.getD_eq_default _ _ (by omega)]

/-- C12, the code: `stop()` and `unPrime()` never touch the play list, so a
sound that is playing is still on the play list afterwards (`isPlaying()` keeps
its value), while `isPrimed()` is false afterwards.  On the fixture with sound
0 playing, `isPlaying()` is still true after `stop()`. -/
theorem stop_leaves_sound_on_play_list :
    (∀ m h, (stop m h)._playList = m._playList ∧ (unPrime m h)._playList = m._playList ∧
      isPlaying (stop m h) h = isPlaying m h ∧ isPrimed (stop m h) h = false) ∧
    isPlaying playingOne 0 = true ∧ isPrimed playingOne 0 = true ∧
    isPlaying (stop playingOne 0) 0 = true ∧ isPlaying (unPrime playingOne 0) 0 = true ∧
    isPrimed (stop playingOne 0) 0 = false := by
  refine ⟨fun m h => ?_, by decide, by decide, by decide, by decide, by decide⟩
  have hpl : (stop m h)._playList = m._playList := by
    unfold stop _unPrime
    split <;> rfl
  refine ⟨hpl, hpl, ?_, ?_⟩
  · unfold isPlaying _sfIsOnPlayList
    rw [hpl]
  · unfold isPrimed stop _unPrime
    by_cases hp : (m.sound h)._primed = true
    · rw [if_pos hp]
      have hh : h < m.sounds.length := by
        by_contra hh
        rw [sound_default m h hh] at hp
        exact absurd hp (by decide)
      simp only
      rw [sound_setSound]
      simpa [removeFromSoundList, Manager.setSound] using hh
    · rw [if_neg hp]
      simpa using hp

/-- C13, the code at failing inputs.  On a sound in its constructor state and
on the fixture with sound 0 playing at volume 127, `setVol(-1)` stores the
volume -1 (only the upper bound is clamped); and on the playing sound, after
`setVol(0)` and `fade(127, 0, 10, false)`, one pass of `_sfProcessFading` (also
when run by `_sfSoundServer`) stores the volume -10. -/
theorem volume_leaves_range :
    volumeOf (setVol { sounds := [{}] } 0 (-1)) 0 = some (-1) ∧
    volumeOf (setVol playingOne 0 (-1)) 0 = some (-1) ∧
    volumeOf (setVol playingOne 0 0) 0 = some 0 ∧
    volumeOf ((setVol playingOne 0 0).bind fun m =>
      _sfProcessFading (fade m 0 127 0 10 false)) 0 = some (-10) ∧
    volumeOf ((setVol playingOne 0 0).bind fun m =>
      _sfSoundServer 1 (disableSoundServer (fade m 0 127 0 10 false))) 0 = some (-10) := by
  decide

/-- C14, the code: `setPri(p)` stores the clamped override in `_fixedPriority`
and returns, and `getPri()` is what it was before the call, for every state
and every `p`.  On a primed sound of priority 1, `setPri(5)` leaves the
priority 1, whereas priming the sound with the override 5 gives priority 5. -/
theorem setPri_keeps_priority :
    (∀ m h p, ∃ m1, setPri m h p = .ok m1 ∧ getPri m1 h = getPri m h ∧
      (h < m.sounds.length → (m1.sound h)._fixedPriority = min p 127)) ∧
    isPrimed threeSounds 0 = true ∧ getPri threeSounds 0 = 1 ∧
    (setPri threeSounds 0 5).toOption.map (fun m1 => getPri m1 0) = some 1 ∧
    (_soPrimeSound { threeSounds.sound 0 with _fixedPriority := 5 } false).toOption.map
      (fun s => s._priority) = some 5 := by
  refine ⟨fun m h p => ?_, by decide, by decide, by decide, by decide⟩
  unfold setPri _sfUpdatePriority getPri
  simp only
  by_cases hh : h < m.sounds.length
  · have hs := sound_setSound m h
      { m.sound h with _fixedPriority := if p > 127 then 127 else p } hh
    have hs1 : Manager.sound { m.setSound h
          { m.sound h with _fixedPriority := if p > 127 then 127 else p } with
        _serverSuspendedCount := (m.setSound h
          { m.sound h with _fixedPriority := if p > 127 then 127 else p })._serverSuspendedCount
            + 1 } h = { m.sound h with _fixedPriority := if p > 127 then 127 else p } := hs
    rw [hs1]
    have h255 : (if p > 127 then (127 : Int) else p) ≠ 255 := by
      split <;> omega
    simp only [if_neg h255, ne_eq, not_true_eq_false, if_false, Except.map]
    refine ⟨_, rfl, ?_, fun _ => ?_⟩
    · show (Manager.sound (m.setSound h _) h)._priority = _
      rw [hs]
    · show (Manager.sound (m.setSound h _) h)._fixedPriority = _
      rw [hs]
      show (if p > 127 then (127 : Int) else p) = min p 127
      split
      · rw [min_eq_right (by omega)]
      · rw [min_eq_left (by omega)]
  · rw [sound_setSound_ge m h _ hh]
    have hd := sound_default m h hh
    have hs1 : Manager.sound { m with _serverSuspendedCount := m._serverSuspendedCount + 1 } h
        = default := hd
    rw [hs1]
    refine ⟨_, rfl, ?_, fun h1 => absurd h1 hh⟩
    show (Manager.sound _ h)._priority = _
    rw [hd]
    exact congrArg Sound._priority hd

/-! ## Resource headers -/

theorem rdByte_getD (data : List Nat) (pos : Nat) (h : pos < data.length) :
    rdByte data pos = .ok (data.getD pos 0) := by
  unfold rdByte
  rw [List.get?_eq_getElem?, List.getElem?_eq_getElem h]
  simp [List.getD, List.getElem?_eq_getElem h]

theorem readLE16_getD (data : List Nat) (pos : Nat) (h : pos + 1 < data.length) :
    READ_LE_UINT16 data pos = .ok (data.getD pos 0 % 256 + 256 * (data.getD (pos + 1) 0 % 256)) := by
  unfold READ_LE_UINT16
  rw [rdByte_getD data pos (by omega), rdByte_getD data (pos + 1) h]
  rfl

/-- C15: for a resource whose header bytes 4..7 are `b4 b5 b6 b7` (maximum
version `b4 + 256 * b5`, minimum version `b6 + 256 * b7`, both little-endian)
and the engine version 0x102 set by the constructor, `checkResVersion` ends in
a fatal error exactly when 0x102 is below the minimum or above the maximum,
and returns normally otherwise. -/
theorem checkResVersion_fatal_iff_out_of_range (m : Manager) (b0 b1 b2 b3 b4 b5 b6 b7 : Nat)
    (rest : List Nat) (hv : m._ourSndResVersion = 0x102)
    (hb : b4 < 256 ∧ b5 < 256 ∧ b6 < 256 ∧ b7 < 256) :
    (checkResVersion m (b0 :: b1 :: b2 :: b3 :: b4 :: b5 :: b6 :: b7 :: rest) = .error .fatal ↔
      (0x102 < b6 + 256 * b7 ∨ 0x102 > b4 + 256 * b5)) ∧
    (¬ (0x102 < b6 + 256 * b7 ∨ 0x102 > b4 + 256 * b5) →
      checkResVersion m (b0 :: b1 :: b2 :: b3 :: b4 :: b5 :: b6 :: b7 :: rest) = .ok ()) := by
  obtain ⟨h4, h5, h6, h7⟩ := hb
  have hmax : READ_LE_UINT16 (b0 :: b1 :: b2 :: b3 :: b4 :: b5 :: b6 :: b7 :: rest) 4 =
      .ok (b4 + 256 * b5) := by
    rw [readLE16_getD _ _ (by simp)]
    simp [Nat.mod_eq_of_lt h4, Nat.mod_eq_of_lt h5]
  have hmin : READ_LE_UINT16 (b0 :: b1 :: b2 :: b3 :: b4 :: b5 :: b6 :: b7 :: rest) 6 =
      .ok (b6 + 256 * b7) := by
    rw [readLE16_getD _ _ (by simp)]
    simp [Nat.mod_eq_of_lt h6, Nat.mod_eq_of_lt h7]
  unfold checkResVersion
  rw [hmax, hmin, hv]
  simp only [Except.bind]
  by_cases hlo : (0x102 : Int) < ((b6 + 256 * b7 : Nat) : Int)
  · rw [if_pos hlo]
    have : 0x102 < b6 + 256 * b7 := by exact_mod_cast hlo
    exact ⟨⟨fun _ => Or.inl this, fun _ => rfl⟩, fun hn => absurd (Or.inl this) hn⟩
  · rw [if_neg hlo]
    have hlo1 : ¬ 0x102 < b6 + 256 * b7 := fun h => hlo (by exact_mod_cast h)
    by_cases hhi : (0x102 : Int) > ((b4 + 256 * b5 : Nat) : Int)
    · rw [if_pos hhi]
      have : 0x102 > b4 + 256 * b5 := by exact_mod_cast hhi
      exact ⟨⟨fun _ => Or.inr this, fun _ => rfl⟩, fun hn => absurd (Or.inr this) hn⟩
    · rw [if_neg hhi]
      have hhi1 : ¬ 0x102 > b4 + 256 * b5 := fun h => hhi (by exact_mod_cast h)
      refine ⟨⟨fun h => (by cases h), fun h => ?_⟩, fun _ => rfl⟩
      rcases h with h | h
      · exact absurd h hlo1
      · exact absurd h hhi1

/-- Witness of C15: a header with maximum version 0x0101, below the engine
version. -/
theorem checkResVersion_fatal_iff_out_of_range_witness :
    (({} : Manager)._ourSndResVersion = 0x102 ∧ (1 < 256 ∧ 1 < 256 ∧ 0 < 256 ∧ 1 < 256)) ∧
    ((checkResVersion {} (0 :: 0 :: 0 :: 0 :: 1 :: 1 :: 0 :: 1 :: [16, 0]) = .error .fatal ↔
      (0x102 < 0 + 256 * 1 ∨ 0x102 > 1 + 256 * 1)) ∧
    (¬ (0x102 < 0 + 256 * 1 ∨ 0x102 > 1 + 256 * 1) →
      checkResVersion {} (0 :: 0 :: 0 :: 0 :: 1 :: 1 :: 0 :: 1 :: [16, 0]) = .ok ())) :=
  ⟨by decide, checkResVersion_fatal_iff_out_of_range {} 0 0 0 0 1 1 0 1 [16, 0] rfl (by decide)⟩

/-! ## No call of `error()` in the decoder and in the voice scheduler -/

theorem bind_ne_fatal {α β : Type} (x : Except Fault α) (f : α → Except Fault β)
    (hx : x ≠ .error .fatal) (hf : ∀ a, f a ≠ .error .fatal) : x.bind f ≠ .error .fatal := by
  cases x with
  | error e =>
    intro h
    simp only [Except.bind, Except.error.injEq] at h
    exact hx (by rw [h])
  | ok a => exact hf a

theorem map_ne_fatal {α β : Type} (x : Except Fault α) (f : α → β)
    (hx : x ≠ .error .fatal) : x.map f ≠ .error .fatal := by
  cases x with
  | error e =>
    intro h
    simp only [Except.map, Except.error.injEq] at h
    exact hx (by rw [h])
  | ok a => simp [Except.map]

theorem ok_ne_fatal {α : Type} (a : α) : (Except.ok a : Except Fault α) ≠ .error .fatal := by
  simp

theorem error_ne_fatal {α : Type} (e : Fault) (he : e ≠ .fatal) :
    (Except.error e : Except Fault α) ≠ .error .fatal := by
  simpa using he

theorem rd_ne_fatal {α : Type} (arr : List α) (i : Int) : rd arr i ≠ .error .fatal := by
  unfold rd
  repeat' first
    | exact ok_ne_fatal _
    | exact error_ne_fatal _ (by decide)
    | split

theorem wr_ne_fatal {α : Type} (arr : List α) (i : Int) (a : α) :
    wr arr i a ≠ .error .fatal := by
  unfold wr
  repeat' first
    | exact ok_ne_fatal _
    | exact error_ne_fatal _ (by decide)
    | split

theorem rdByte_ne_fatal (data : List Nat) (pos : Nat) : rdByte data pos ≠ .error .fatal := by
  unfold rdByte
  repeat' first
    | exact ok_ne_fatal _
    | exact error_ne_fatal _ (by decide)
    | split

theorem getGroup_ne_fatal (vts : VoiceTable) (g : Option Nat) :
    getGroup vts g ≠ .error .fatal := by
  unfold getGroup
  repeat' first
    | exact ok_ne_fatal _
    | exact error_ne_fatal _ (by decide)
    | split

theorem doTrackCommand_ne_fatal (s : Sound) (c cmd v : Int) :
    _soDoTrackCommand s c cmd v ≠ .error .fatal := by
  unfold _soDoTrackCommand
  repeat' first
    | exact ok_ne_fatal _
    | exact error_ne_fatal _ (by decide)
    | exact wr_ne_fatal _ _ _
    | refine bind_ne_fatal _ _ ?_ (fun _ => ?_)
    | refine map_ne_fatal _ _ ?_
    | split

theorem setTrackPos_ne_fatal (flag : Bool) (s : Sound) (t p c : Int) :
    _soSetTrackPos flag s t p c ≠ .error .fatal := by
  unfold _soSetTrackPos
  exact map_ne_fatal _ _ (wr_ne_fatal _ _ _)

theorem updateDamper_ne_fatal (s : Sound) (h : Nat) (es : List VoiceStructEntry) (c v : Int) :
    _soUpdateDamper s h es c v ≠ .error .fatal := by
  unfold _soUpdateDamper
  exact map_ne_fatal _ _ (rd_ne_fatal _ _)

theorem proc32_ne_fatal (s : Sound) (h : Nat) (es : List VoiceStructEntry) (c v0 v1 : Int) :
    _soProc32 s h es c v0 v1 ≠ .error .fatal := by
  unfold _soProc32
  dsimp only
  repeat' first
    | exact ok_ne_fatal _
    | exact error_ne_fatal _ (by decide)
    | exact rd_ne_fatal _ _
    | refine bind_ne_fatal _ _ ?_ (fun _ => ?_)
    | refine map_ne_fatal _ _ ?_
    | split

theorem proc42_ne_fatal (h : Nat) (es : List VoiceStructEntry) (c vt v0 : Int)
    (tracks : List (List Nat)) : _soProc42 h es c vt v0 tracks ≠ .error .fatal := by
  induction tracks with
  | nil => exact ok_ne_fatal _
  | cons t ts ih =>
    unfold _soProc42
    dsimp only
    repeat' first
      | exact ok_ne_fatal _
      | exact ih
      | exact rdByte_ne_fatal _ _
      | refine bind_ne_fatal _ _ ?_ (fun _ => ?_)
      | split

theorem trackCtx_ne_fatal (m : Manager) (s : Sound) (t : Int) :
    trackCtx m s t ≠ .error .fatal := by
  unfold trackCtx
  repeat' first
    | exact ok_ne_fatal _
    | exact error_ne_fatal _ (by decide)
    | exact rd_ne_fatal _ _
    | refine bind_ne_fatal _ _ ?_ (fun _ => ?_)
    | refine map_ne_fatal _ _ ?_
    | split

theorem onGroup_ne_fatal (m : Manager) (g : Option Nat)
    (f : List VoiceStructEntry → Except Fault (List VoiceStructEntry × List DriverCall))
    (hf : ∀ es, f es ≠ .error .fatal) : onGroup m g f ≠ .error .fatal := by
  unfold onGroup
  exact bind_ne_fatal _ _ (getGroup_ne_fatal _ _) (fun _ => map_ne_fatal _ _ (hf _))

theorem callDriver_ne_fatal (m : Manager) (d : Option Nat) (call : Nat → DriverCall) :
    callDriver m d call ≠ .error .fatal := by
  unfold callDriver
  repeat' first
    | exact ok_ne_fatal _
    | exact error_ne_fatal _ (by decide)
    | split

theorem proc_ne_fatal_area2 (ctx : TrackCtx) (h : Nat) (m : Manager) (v1 b1 : Nat)
    (es : List VoiceStructEntry) :
    (if Int.land ctx.chFlags 0x10 ≠ 0 then
        _soProc42 h es ctx.channelNum ctx.chVoiceType v1
          ((m.sound h)._channelData.take (m.sound h)._numTracks.toNat)
      else _soProc32 (m.sound h) h es ctx.channelNum v1 b1) ≠ .error .fatal := by
  split
  · exact proc42_ne_fatal _ _ _ _ _ _
  · exact proc32_ne_fatal _ _ _ _ _ _

theorem area1_ne_fatal (ctx : TrackCtx) (h : Nat) (m : Manager) (v pos : Nat) :
    area1 ctx h m v pos ≠ .error .fatal := by
  unfold area1
  repeat' first
    | exact ok_ne_fatal _
    | exact callDriver_ne_fatal _ _ _
    | exact onGroup_ne_fatal _ _ _ (fun _ => updateDamper_ne_fatal _ _ _ _ _)
    | refine map_ne_fatal _ _ ?_
    | split

theorem area2_ne_fatal (ctx : TrackCtx) (h : Nat) (data : List Nat) (m : Manager) (v pos : Nat) :
    area2 ctx h data m v pos ≠ .error .fatal := by
  unfold area2
  dsimp only
  repeat' first
    | exact ok_ne_fatal _
    | exact rdByte_ne_fatal _ _
    | exact callDriver_ne_fatal _ _ _
    | exact onGroup_ne_fatal _ _ _ (fun _ => proc_ne_fatal_area2 _ _ _ _ _ _)
    | refine bind_ne_fatal _ _ ?_ (fun _ => ?_)
    | refine map_ne_fatal _ _ ?_
    | split

theorem gatherRest_ne_fatal (bs : List Nat) (r : Int) (pos : Nat) :
    gatherRest bs r pos ≠ .error .fatal := by
  induction bs generalizing r pos with
  | nil => exact error_ne_fatal _ (by decide)
  | cons b bs ih =>
    unfold gatherRest
    split
    · exact ih _ _
    · exact ok_ne_fatal _

theorem area3_ne_fatal (h : Nat) (t : Int) (data : List Nat) (m : Manager) (v pos : Nat) :
    area3 h t data m v pos ≠ .error .fatal := by
  unfold area3
  repeat' first
    | exact ok_ne_fatal _
    | exact gatherRest_ne_fatal _ _ _
    | exact wr_ne_fatal _ _ _
    | refine bind_ne_fatal _ _ ?_ (fun _ => ?_)

theorem trackCommand_ne_fatal (ctx : TrackCtx) (h : Nat) (t : Int) (m : Manager) (cmd v : Int)
    (sc : Bool) : trackCommand ctx h t m cmd v sc ≠ .error .fatal := by
  unfold trackCommand
  dsimp only
  repeat' first
    | exact ok_ne_fatal _
    | exact rd_ne_fatal _ _
    | exact doTrackCommand_ne_fatal _ _ _ _
    | exact getGroup_ne_fatal _ _
    | exact callDriver_ne_fatal _ _ _
    | refine bind_ne_fatal _ _ ?_ (fun _ => ?_)
    | refine map_ne_fatal _ _ ?_
    | split

theorem area4_ne_fatal (ctx : TrackCtx) (h : Nat) (t : Int) (data : List Nat) (m : Manager)
    (v pos : Nat) : area4 ctx h t data m v pos ≠ .error .fatal := by
  unfold area4
  dsimp only
  repeat' first
    | exact ok_ne_fatal _
    | exact error_ne_fatal _ (by decide)
    | exact rdByte_ne_fatal _ _
    | exact trackCommand_ne_fatal _ _ _ _ _ _ _
    | refine bind_ne_fatal _ _ ?_ (fun _ => ?_)
    | refine map_ne_fatal _ _ ?_
    | split

theorem area5_ne_fatal (ctx : TrackCtx) (data : List Nat) (m : Manager) (pos : Nat) :
    area5 ctx data m pos ≠ .error .fatal := by
  unfold area5
  dsimp only
  repeat' first
    | exact ok_ne_fatal _
    | exact rdByte_ne_fatal _ _
    | exact callDriver_ne_fatal _ _ _
    | refine bind_ne_fatal _ _ ?_ (fun _ => ?_)
    | refine map_ne_fatal _ _ ?_
    | split

theorem area6_ne_fatal (ctx : TrackCtx) (h : Nat) (t : Int) (data : List Nat) (m : Manager)
    (pos : Nat) : area6 ctx h t data m pos ≠ .error .fatal := by
  unfold area6
  dsimp only
  repeat' first
    | exact ok_ne_fatal _
    | exact rdByte_ne_fatal _ _
    | exact trackCommand_ne_fatal _ _ _ _ _ _ _
    | refine bind_ne_fatal _ _ ?_ (fun _ => ?_)
    | refine map_ne_fatal _ _ ?_
    | split

theorem area7_ne_fatal (ctx : TrackCtx) (h : Nat) (t : Int) (data : List Nat) (m : Manager)
    (pos : Nat) : area7 ctx h t data m pos ≠ .error .fatal := by
  unfold area7
  dsimp only
  repeat' first
    | exact ok_ne_fatal _
    | exact rdByte_ne_fatal _ _
    | exact rd_ne_fatal _ _
    | exact wr_ne_fatal _ _ _
    | exact getGroup_ne_fatal _ _
    | exact callDriver_ne_fatal _ _ _
    | refine bind_ne_fatal _ _ ?_ (fun _ => ?_)
    | refine map_ne_fatal _ _ ?_
    | split

theorem area8_ne_fatal (ctx : TrackCtx) (h : Nat) (t : Int) (data : List Nat) (m : Manager)
    (pos : Nat) : area8 ctx h t data m pos ≠ .error .fatal := by
  unfold area8
  dsimp only
  repeat' first
    | exact ok_ne_fatal _
    | exact rdByte_ne_fatal _ _
    | exact rd_ne_fatal _ _
    | exact wr_ne_fatal _ _ _
    | exact setTrackPos_ne_fatal _ _ _ _ _
    | exact callDriver_ne_fatal _ _ _
    | refine bind_ne_fatal _ _ ?_ (fun _ => ?_)
    | refine map_ne_fatal _ _ ?_
    | split

theorem area9_ne_fatal (ctx : TrackCtx) (h : Nat) (t : Int) (data : List Nat) (m : Manager)
    (pos : Nat) : area9 ctx h t data m pos ≠ .error .fatal := by
  unfold area9
  dsimp only
  repeat' first
    | exact ok_ne_fatal _
    | exact rdByte_ne_fatal _ _
    | exact wr_ne_fatal _ _ _
    | exact callDriver_ne_fatal _ _ _
    | refine bind_ne_fatal _ _ ?_ (fun _ => ?_)
    | refine map_ne_fatal _ _ ?_
    | split

theorem decodeStep_ne_fatal (ctx : TrackCtx) (h : Nat) (t : Int) (data : List Nat) (m : Manager)
    (pos : Nat) : decodeStep ctx h t data m pos ≠ .error .fatal := by
  unfold decodeStep
  refine bind_ne_fatal _ _ (rdByte_ne_fatal _ _) (fun v => ?_)
  repeat' first
    | exact area1_ne_fatal _ _ _ _ _
    | exact area2_ne_fatal _ _ _ _ _ _
    | exact area3_ne_fatal _ _ _ _ _ _
    | exact area4_ne_fatal _ _ _ _ _ _ _
    | exact area5_ne_fatal _ _ _ _
    | exact area6_ne_fatal _ _ _ _ _ _
    | exact area7_ne_fatal _ _ _ _ _ _
    | exact area8_ne_fatal _ _ _ _ _ _
    | exact area9_ne_fatal _ _ _ _ _ _
    | split

theorem decodeLoop_ne_fatal (ctx : TrackCtx) (h : Nat) (t : Int) (data : List Nat) (fuel : Nat)
    (m : Manager) (pos : Nat) : decodeLoop ctx h t data fuel m pos ≠ .error .fatal := by
  induction fuel generalizing m pos with
  | zero => exact error_ne_fatal _ (by decide)
  | succ fuel ih =>
    unfold decodeLoop
    refine bind_ne_fatal _ _ (decodeStep_ne_fatal _ _ _ _ _ _) (fun r => ?_)
    cases r with
    | more m1 pos1 => exact ih _ _
    | done m1 => exact ok_ne_fatal _

theorem serviceTrackType0_ne_fatal (m : Manager) (h : Nat) (t : Int) (data : List Nat) :
    _soServiceTrackType0 m h t data ≠ .error .fatal := by
  unfold _soServiceTrackType0
  repeat' first
    | exact ok_ne_fatal _
    | exact error_ne_fatal _ (by decide)
    | exact rd_ne_fatal _ _
    | exact wr_ne_fatal _ _ _
    | exact trackCtx_ne_fatal _ _ _
    | exact decodeLoop_ne_fatal _ _ _ _ _ _ _
    | refine bind_ne_fatal _ _ ?_ (fun _ => ?_)
    | refine map_ne_fatal _ _ ?_
    | split

theorem serviceTrackType1_ne_fatal (m : Manager) (h : Nat) (t : Int) (data : List Nat) :
    _soServiceTrackType1 m h t data ≠ .error .fatal := by
  unfold _soServiceTrackType1
  dsimp only
  repeat' first
    | exact ok_ne_fatal _
    | exact rd_ne_fatal _ _
    | exact rdByte_ne_fatal _ _
    | exact wr_ne_fatal _ _ _
    | refine bind_ne_fatal _ _ ?_ (fun _ => ?_)
    | refine map_ne_fatal _ _ ?_
    | split

/-! ## Unknown track modes -/

theorem bind_eq_error {ε α β : Type} (x : Except ε α) (f : α → Except ε β) (e : ε) :
    x.bind f = .error e ↔ x = .error e ∨ ∃ a, x = .ok a ∧ f a = .error e := by
  cases x with
  | error e1 => simp [Except.bind]
  | ok a => simp [Except.bind]

theorem map_eq_error {ε α β : Type} (x : Except ε α) (f : α → β) (e : ε) :
    x.map f = .error e ↔ x = .error e := by
  cases x with
  | error e1 => simp [Except.map]
  | ok a => simp [Except.map]

theorem serviceTrackLoop_append (h : Nat) (pre l : List (List Nat)) (t : Int) (m : Manager)
    (flag : Bool) :
    serviceTrackLoop h (pre ++ l) t m flag =
      (serviceTrackLoop h pre t m flag).bind fun r =>
        serviceTrackLoop h l (t + pre.length) r.1 r.2 := by
  induction pre generalizing t m flag with
  | nil => simp [serviceTrackLoop, Except.bind]
  | cons d pre ih =>
    simp only [List.cons_append, serviceTrackLoop, List.length_cons]
    cases hmode : rdByte d 0 with
    | error e => rfl
    | ok mode =>
      simp only [Except.bind]
      cases hsvc : (if mode = 0 then _soServiceTrackType0 m h t d
          else if mode = 1 then _soServiceTrackType1 m h t d else Except.error Fault.fatal) with
      | error e => rfl
      | ok m1 =>
        simp only
        cases hst : rd (m1.sound h)._trkState t with
        | error e => rfl
        | ok st =>
          simp only
          refine (ih _ _ _).trans ?_
          have : t + 1 + (pre.length : Int) = t + ((pre.length + 1 : Nat) : Int) := by
            push_cast; ring
          rw [this]
          rfl

theorem serviceTrackLoop_bad_mode (h : Nat) (d : List Nat) (post : List (List Nat)) (t : Int)
    (m : Manager) (flag : Bool) (mode : Nat) (hmode : rdByte d 0 = .ok mode) (h0 : mode ≠ 0)
    (h1 : mode ≠ 1) : serviceTrackLoop h (d :: post) t m flag = .error .fatal := by
  unfold serviceTrackLoop
  rw [hmode]
  simp only [Except.bind, if_neg h0, if_neg h1]

theorem serviceTrackLoop_fatal (h : Nat) (tracks : List (List Nat)) (t : Int) (m : Manager)
    (flag : Bool) (hr : serviceTrackLoop h tracks t m flag = .error .fatal) :
    ∃ pre d post r mode, tracks = pre ++ d :: post ∧
      serviceTrackLoop h pre t m flag = .ok r ∧
      rdByte d 0 = .ok mode ∧ mode ≠ 0 ∧ mode ≠ 1 := by
  induction tracks generalizing t m flag with
  | nil => simp [serviceTrackLoop] at hr
  | cons d rest ih =>
    unfold serviceTrackLoop at hr
    rw [bind_eq_error] at hr
    rcases hr with hr | ⟨mode, hmode, hr⟩
    · exact absurd hr (rdByte_ne_fatal _ _)
    · rw [bind_eq_error] at hr
      rcases hr with hr | ⟨m1, hm1, hr⟩
      · by_cases h0 : mode = 0
        · rw [if_pos h0] at hr
          exact absurd hr (serviceTrackType0_ne_fatal _ _ _ _)
        · rw [if_neg h0] at hr
          by_cases h1 : mode = 1
          · rw [if_pos h1] at hr
            exact absurd hr (serviceTrackType1_ne_fatal _ _ _ _)
          · exact ⟨[], d, rest, (m, flag), mode, rfl, rfl, hmode, h0, h1⟩
      · rw [bind_eq_error] at hr
        rcases hr with hr | ⟨st, hst, hr⟩
        · exact absurd hr (rd_ne_fatal _ _)
        · obtain ⟨pre, d1, post, r, mode1, hsplit, hpre, hmode1, h0, h1⟩ := ih _ _ _ hr
          refine ⟨d :: pre, d1, post, r, mode1, by rw [hsplit]; rfl, ?_, hmode1, h0, h1⟩
          unfold serviceTrackLoop
          rw [hmode]
          simp only [Except.bind]
          rw [hm1]
          simp only
          rw [hst]
          exact hpre

theorem soServiceTracks_fatal_iff (m : Manager) (h : Nat) (hne : (m.sound h)._isEmpty = false) :
    _soServiceTracks m h = .error .fatal ↔
      ∃ pre d post r mode,
        (m.sound h)._channelData.take (m.sound h)._numTracks.toNat = pre ++ d :: post ∧
        serviceTrackLoop h pre 0 m true = .ok r ∧
        rdByte d 0 = .ok mode ∧ mode ≠ 0 ∧ mode ≠ 1 := by
  unfold _soServiceTracks serviceTracksFlagged
  rw [map_eq_error, if_neg (by rw [hne]; decide), map_eq_error]
  constructor
  · intro hr
    exact serviceTrackLoop_fatal h _ 0 m true hr
  · rintro ⟨pre, d, post, r, mode, hsplit, hpre, hmode, h0, h1⟩
    rw [hsplit, serviceTrackLoop_append, hpre]
    exact serviceTrackLoop_bad_mode h d post _ _ _ mode hmode h0 h1

theorem soServiceTracks_bad_mode (m : Manager) (h : Nat) (d : List Nat) (mode : Nat)
    (hd : d ∈ (m.sound h)._channelData.take (m.sound h)._numTracks.toNat)
    (hmode : rdByte d 0 = .ok mode) (h0 : mode ≠ 0) (h1 : mode ≠ 1) (r : Manager × Bool) :
    _soServiceTracks m h ≠ .ok r := by
  intro hr
  unfold _soServiceTracks serviceTracksFlagged at hr
  simp only [map_eq_ok] at hr
  obtain ⟨a, ha, _⟩ := hr
  split at ha
  · cases ha
  · simp only [map_eq_ok] at ha
    obtain ⟨b, hb, _⟩ := ha
    obtain ⟨pre, post, hsplit⟩ := List.append_of_mem hd
    rw [hsplit, serviceTrackLoop_append] at hb
    simp only [bind_eq_ok] at hb
    obtain ⟨c, _, hc⟩ := hb
    rw [serviceTrackLoop_bad_mode h d post _ _ _ mode hmode h0 h1] at hc
    cases hc

theorem primeChannel_ne_fatal (s : Sound) (idx : Int) (d : List Nat) (c : Int) :
    primeChannel s idx d c ≠ .error .fatal := by
  unfold primeChannel READ_LE_UINT16
  repeat' first
    | exact ok_ne_fatal _
    | exact rdByte_ne_fatal _ _
    | exact rd_ne_fatal _ _
    | exact wr_ne_fatal _ _ _
    | refine bind_ne_fatal _ _ ?_ (fun _ => ?_)

theorem primeTrackState_ne_fatal (s : Sound) (idx start : Int) :
    primeTrackState s idx start ≠ .error .fatal := by
  unfold primeTrackState
  repeat' first
    | exact ok_ne_fatal _
    | exact wr_ne_fatal _ _ _
    | refine bind_ne_fatal _ _ ?_ (fun _ => ?_)

theorem primeTrackHead_ne_fatal (s : Sound) (idx : Nat) :
    primeTrackHead s idx ≠ .error .fatal := by
  unfold primeTrackHead
  dsimp only
  repeat' first
    | exact ok_ne_fatal _
    | exact error_ne_fatal _ (by decide)
    | exact rdByte_ne_fatal _ _
    | exact rd_ne_fatal _ _
    | exact wr_ne_fatal _ _ _
    | exact primeChannel_ne_fatal _ _ _ _
    | refine bind_ne_fatal _ _ ?_ (fun _ => ?_)
    | refine map_ne_fatal _ _ ?_
    | split

theorem primeTrack_fatal_iff (s : Sound) (idx : Nat) :
    primeTrack s idx = .error .fatal ↔
      ∃ s2 mode, primeTrackHead s idx = .ok (s2, mode) ∧ mode ≠ 0 ∧ mode ≠ 1 := by
  unfold primeTrack
  rw [bind_eq_error]
  constructor
  · rintro (hr | ⟨r, hr, hm⟩)
    · exact absurd hr (primeTrackHead_ne_fatal _ _)
    · by_cases h0 : r.2 = 0
      · rw [if_pos h0] at hm
        exact absurd hm (primeTrackState_ne_fatal _ _ _)
      · rw [if_neg h0] at hm
        by_cases h1 : r.2 = 1
        · rw [if_pos h1] at hm
          exact absurd hm (primeTrackState_ne_fatal _ _ _)
        · exact ⟨r.1, r.2, hr, h0, h1⟩
  · rintro ⟨s2, mode, hr, h0, h1⟩
    right
    refine ⟨(s2, mode), hr, ?_⟩
    simp only [if_neg h0, if_neg h1]

theorem foldlM_cons_bind {σ α : Type} (f : σ → α → Except Fault σ) (x : α) (xs : List α)
    (s : σ) : (x :: xs).foldlM f s = (f s x).bind fun s1 => xs.foldlM f s1 := rfl

theorem foldlM_append_bind {σ α : Type} (f : σ → α → Except Fault σ) (pre l : List α) (s : σ) :
    (pre ++ l).foldlM f s = (pre.foldlM f s).bind fun s1 => l.foldlM f s1 := by
  induction pre generalizing s with
  | nil => rfl
  | cons x xs ih =>
    rw [List.cons_append, foldlM_cons_bind, foldlM_cons_bind]
    cases f s x with
    | error e => rfl
    | ok s1 => exact ih s1

theorem foldlM_error {σ α : Type} (f : σ → α → Except Fault σ) (l : List α) (s : σ)
    (e : Fault) (hr : l.foldlM f s = .error e) :
    ∃ pre x post s1, l = pre ++ x :: post ∧ pre.foldlM f s = .ok s1 ∧ f s1 x = .error e := by
  induction l generalizing s with
  | nil => cases hr
  | cons x xs ih =>
    rw [foldlM_cons_bind, bind_eq_error] at hr
    rcases hr with hr | ⟨s1, hs1, hr⟩
    · exact ⟨[], x, xs, s, rfl, rfl, hr⟩
    · obtain ⟨pre, y, post, s2, hsplit, hpre, hy⟩ := ih s1 hr
      refine ⟨x :: pre, y, post, s2, by rw [hsplit]; rfl, ?_, hy⟩
      rw [foldlM_cons_bind, hs1]
      exact hpre

theorem primeChannel_channelData (s s1 : Sound) (idx : Int) (d : List Nat) (c : Int)
    (hr : primeChannel s idx d c = .ok s1) : s1._channelData = s._channelData := by
  unfold primeChannel at hr
  simp only [bind_eq_ok, map_eq_ok] at hr
  obtain ⟨_, _, _, _, _, _, _, _, _, _, _, _, _, _, _, _, _, _, _, _, _, _, _, _, _, _, _, _, _, _,
    _, _, _, _, rfl⟩ := hr
  rfl

theorem primeTrackState_channelData (s s1 : Sound) (idx start : Int)
    (hr : primeTrackState s idx start = .ok s1) : s1._channelData = s._channelData := by
  unfold primeTrackState at hr
  simp only [bind_eq_ok, map_eq_ok] at hr
  obtain ⟨_, _, _, _, _, _, _, _, _, _, _, _, rfl⟩ := hr
  rfl

theorem primeTrackHead_spec (s : Sound) (idx : Nat) (r : Sound × Nat)
    (hr : primeTrackHead s idx = .ok r) :
    r.1._channelData = s._channelData ∧
    ∃ d, rd s._channelData (idx : Int) = .ok d ∧ rdByte d 0 = .ok r.2 := by
  unfold primeTrackHead at hr
  simp only [bind_eq_ok] at hr
  obtain ⟨d, hd, mode, hmode, b1, _, trk, _, hr⟩ := hr
  split at hr
  · cases hr
  · simp only [map_eq_ok] at hr
    obtain ⟨s2, hs2, rfl⟩ := hr
    refine ⟨?_, d, hd, hmode⟩
    show s2._channelData = s._channelData
    split at hs2
    · have h3 := primeChannel_channelData _ _ _ _ _ hs2
      exact h3
    · simp only [Except.ok.injEq] at hs2
      rw [← hs2]

theorem primeTrack_channelData (s s1 : Sound) (idx : Nat) (hr : primeTrack s idx = .ok s1) :
    s1._channelData = s._channelData := by
  unfold primeTrack at hr
  simp only [bind_eq_ok] at hr
  obtain ⟨r, hh, hr⟩ := hr
  have h1 := (primeTrackHead_spec s idx r hh).1
  by_cases h0 : r.2 = 0
  · rw [if_pos h0] at hr
    exact (primeTrackState_channelData _ _ _ _ hr).trans h1
  · rw [if_neg h0] at hr
    by_cases h2 : r.2 = 1
    · rw [if_pos h2] at hr
      exact (primeTrackState_channelData _ _ _ _ hr).trans h1
    · rw [if_neg h2] at hr
      cases hr

theorem primeLoop_channelData (l : List Nat) (s s1 : Sound)
    (hr : l.foldlM primeTrack s = .ok s1) : s1._channelData = s._channelData := by
  induction l generalizing s with
  | nil =>
    simp only [List.foldlM, pure, Except.pure, Except.ok.injEq] at hr
    subst hr; rfl
  | cons x xs ih =>
    rw [foldlM_cons_bind, bind_eq_ok] at hr
    obtain ⟨s2, h2, hr⟩ := hr
    exact (ih s2 hr).trans (primeTrack_channelData _ _ _ h2)

theorem primeTrack_bad_mode (s : Sound) (idx : Nat) (d : List Nat) (mode : Nat)
    (hd : rd s._channelData (idx : Int) = .ok d) (hmode : rdByte d 0 = .ok mode)
    (h0 : mode ≠ 0) (h1 : mode ≠ 1) (s1 : Sound) : primeTrack s idx ≠ .ok s1 := by
  intro hr
  unfold primeTrack at hr
  simp only [bind_eq_ok] at hr
  obtain ⟨r, hh, hr⟩ := hr
  obtain ⟨_, d1, hd1, hm1⟩ := primeTrackHead_spec s idx r hh
  rw [hd] at hd1
  simp only [Except.ok.injEq] at hd1
  subst hd1
  rw [hmode] at hm1
  simp only [Except.ok.injEq] at hm1
  subst hm1
  rw [if_neg h0, if_neg h1] at hr
  cases hr

theorem soPrimeChannelData_fatal_iff (s : Sound) (hne : s._isEmpty = false) :
    _soPrimeChannelData s = .error .fatal ↔
      ∃ pre k post s1 s2 mode, List.range s._numTracks.toNat = pre ++ k :: post ∧
        pre.foldlM primeTrack { s with _chFlags := List.replicate SOUND_ARR_SIZE 0x8000 }
          = .ok s1 ∧
        primeTrackHead s1 k = .ok (s2, mode) ∧ mode ≠ 0 ∧ mode ≠ 1 := by
  unfold _soPrimeChannelData
  rw [if_neg (by rw [hne]; decide)]
  constructor
  · intro hr
    obtain ⟨pre, k, post, s1, hsplit, hpre, hk⟩ := foldlM_error _ _ _ _ hr
    obtain ⟨s2, mode, hh, h0, h1⟩ := (primeTrack_fatal_iff s1 k).1 hk
    exact ⟨pre, k, post, s1, s2, mode, hsplit, hpre, hh, h0, h1⟩
  · rintro ⟨pre, k, post, s1, s2, mode, hsplit, hpre, hh, h0, h1⟩
    rw [hsplit, foldlM_append_bind, hpre]
    simp only [Except.bind]
    rw [foldlM_cons_bind, (primeTrack_fatal_iff s1 k).2 ⟨s2, mode, hh, h0, h1⟩]
    rfl

theorem soPrimeChannelData_bad_mode (s : Sound) (hne : s._isEmpty = false) (k : Nat)
    (d : List Nat) (mode : Nat) (hk : k < s._numTracks.toNat)
    (hd : rd s._channelData (k : Int) = .ok d) (hmode : rdByte d 0 = .ok mode)
    (h0 : mode ≠ 0) (h1 : mode ≠ 1) (r : Sound) : _soPrimeChannelData s ≠ .ok r := by
  intro hr
  unfold _soPrimeChannelData at hr
  rw [if_neg (by rw [hne]; decide)] at hr
  obtain ⟨pre, post, hsplit⟩ := List.append_of_mem (List.mem_range.2 hk)
  rw [hsplit, foldlM_append_bind, bind_eq_ok] at hr
  obtain ⟨s1, hpre, hr⟩ := hr
  rw [foldlM_cons_bind, bind_eq_ok] at hr
  obtain ⟨s2, hs2, _⟩ := hr
  have hcd := primeLoop_channelData pre _ s1 hpre
  exact primeTrack_bad_mode s1 k d mode (by rw [hcd]; exact hd) hmode h0 h1 s2 hs2

/-- C16: for a sound that is not empty, `_soServiceTracks` ends in the fatal
error exactly when its loop gets to a track whose mode byte is neither 0 nor 1
(the tracks before it having been serviced), and it never returns normally if
there is such a track; if every mode byte is 0 or 1 it does not end in the
fatal error.  The same holds for `_soPrimeChannelData`, whose loop tests the
mode byte after the channel set-up of the track. -/
theorem unknown_track_mode_is_fatal (m : Manager) (h : Nat)
    (hne : (m.sound h)._isEmpty = false) :
    ((_soServiceTracks m h = .error .fatal ↔
        ∃ pre d post r mode,
          (m.sound h)._channelData.take (m.sound h)._numTracks.toNat = pre ++ d :: post ∧
          serviceTrackLoop h pre 0 m true = .ok r ∧
          rdByte d 0 = .ok mode ∧ mode ≠ 0 ∧ mode ≠ 1) ∧
      (∀ d mode, d ∈ (m.sound h)._channelData.take (m.sound h)._numTracks.toNat →
        rdByte d 0 = .ok mode → mode ≠ 0 → mode ≠ 1 → ∀ r, _soServiceTracks m h ≠ .ok r) ∧
      ((∀ d mode, d ∈ (m.sound h)._channelData.take (m.sound h)._numTracks.toNat →
          rdByte d 0 = .ok mode → mode = 0 ∨ mode = 1) →
        _soServiceTracks m h ≠ .error .fatal)) ∧
    ((_soPrimeChannelData (m.sound h) = .error .fatal ↔
        ∃ pre k post s1 s2 mode,
          List.range (m.sound h)._numTracks.toNat = pre ++ k :: post ∧
          pre.foldlM primeTrack
            { m.sound h with _chFlags := List.replicate SOUND_ARR_SIZE 0x8000 } = .ok s1 ∧
          primeTrackHead s1 k = .ok (s2, mode) ∧ mode ≠ 0 ∧ mode ≠ 1) ∧
      (∀ k d mode, k < (m.sound h)._numTracks.toNat →
        rd (m.sound h)._channelData (k : Int) = .ok d → rdByte d 0 = .ok mode →
        mode ≠ 0 → mode ≠ 1 → ∀ r, _soPrimeChannelData (m.sound h) ≠ .ok r) ∧
      ((∀ k d mode, k < (m.sound h)._numTracks.toNat →
          rd (m.sound h)._channelData (k : Int) = .ok d → rdByte d 0 = .ok mode →
          mode = 0 ∨ mode = 1) →
        _soPrimeChannelData (m.sound h) ≠ .error .fatal)) := by
  refine ⟨⟨soServiceTracks_fatal_iff m h hne, ?_, ?_⟩,
    soPrimeChannelData_fatal_iff _ hne, ?_, ?_⟩
  · intro d mode hd hmode h0 h1 r
    exact soServiceTracks_bad_mode m h d mode hd hmode h0 h1 r
  · intro hall hr
    obtain ⟨pre, d, post, r, mode, hsplit, _, hmode, h0, h1⟩ :=
      (soServiceTracks_fatal_iff m h hne).1 hr
    rcases hall d mode (by rw [hsplit]; simp) hmode with h2 | h2
    · exact h0 h2
    · exact h1 h2
  · intro k d mode hk hd hmode h0 h1 r
    exact soPrimeChannelData_bad_mode _ hne k d mode hk hd hmode h0 h1 r
  · intro hall hr
    obtain ⟨pre, k, post, s1, s2, mode, hsplit, hpre, hh, h0, h1⟩ :=
      (soPrimeChannelData_fatal_iff _ hne).1 hr
    have hk : k < (m.sound h)._numTracks.toNat := by
      rw [← List.mem_range, hsplit]; simp
    obtain ⟨_, d, hd, hmode⟩ := primeTrackHead_spec s1 k _ hh
    have hcd := primeLoop_channelData pre _ s1 hpre
    rw [hcd] at hd
    rcases hall k d mode hk hd hmode with h2 | h2
    · exact h0 h2
    · exact h1 h2

/-- Witness of C16: on a sound whose second track has the mode byte 2 both
functions end in the fatal error. -/
theorem unknown_track_mode_is_fatal_witness :
    (badModeManager.sound 0)._isEmpty = false ∧
    _soServiceTracks badModeManager 0 = .error .fatal ∧
    _soPrimeChannelData (badModeManager.sound 0) = .error .fatal :=
  ⟨rfl,
    (unknown_track_mode_is_fatal badModeManager 0 rfl).1.1.2
      ⟨[[0, 0, 0, 0, 0, 0, 1, 0, 0, 0, 0, 127, 64, 0, 0xDF, 0xFF, 0x80]],
        [2, 1, 0, 0, 0, 0, 1, 0, 0, 0, 0, 127, 64, 0, 0xDF, 0xFF, 0x80], [], _, 2,
        rfl, rfl, rfl, by decide, by decide⟩,
    (unknown_track_mode_is_fatal badModeManager 0 rfl).2.1.2
      ⟨[0], 1, [], _, _, 2, rfl, rfl, rfl, by decide, by decide⟩⟩

theorem claimVoices_ne_fatal (h : Nat) (fi fp : Int) (es : List VoiceStructEntry) (n : Int) :
    claimVoices h fi fp es n ≠ .error .fatal := by
  induction es generalizing n with
  | nil =>
    unfold claimVoices
    split
    · exact error_ne_fatal _ (by decide)
    · exact ok_ne_fatal _
  | cons e es ih =>
    unfold claimVoices
    repeat' first
      | exact ok_ne_fatal _
      | exact ih _
      | refine map_ne_fatal _ _ ?_
      | split

theorem evictLoop_ne_fatal (fuel g : Nat) (c n : Int) (vts : VoiceTable) :
    evictLoop fuel g c n vts ≠ .error .fatal := by
  induction fuel generalizing n vts with
  | zero => exact error_ne_fatal _ (by decide)
  | succ fuel ih =>
    unfold evictLoop
    dsimp only
    repeat' first
      | exact ok_ne_fatal _
      | exact error_ne_fatal _ (by decide)
      | exact ih _ _
      | split

theorem rethinkType1_ne_fatal (h : Nat) (fi fp c : Int) (g : Nat) (vs : VoiceTypeStruct)
    (vts : VoiceTable) : rethinkType1 h fi fp c g vs vts ≠ .error .fatal := by
  unfold rethinkType1
  dsimp only
  repeat' first
    | exact ok_ne_fatal _
    | exact claimVoices_ne_fatal _ _ _ _ _
    | exact evictLoop_ne_fatal _ _ _ _ _
    | refine map_ne_fatal _ _ ?_
    | split

theorem rethinkMode1Tail_ne_fatal (h : Nat) (fi fp : Int) (g : Nat) (vs : VoiceTypeStruct)
    (vts : VoiceTable) : rethinkMode1Tail h fi fp g vs vts ≠ .error .fatal := by
  unfold rethinkMode1Tail
  dsimp only
  repeat' first
    | exact ok_ne_fatal _
    | exact rd_ne_fatal _ _
    | refine map_ne_fatal _ _ ?_
    | split

theorem rethinkType0_ne_fatal (h : Nat) (s : Sound) (fi fp : Int) (g : Nat)
    (vs : VoiceTypeStruct) (vts : VoiceTable) :
    rethinkType0 h s fi fp g vs vts ≠ .error .fatal := by
  unfold rethinkType0
  dsimp only
  repeat' first
    | exact ok_ne_fatal _
    | exact rd_ne_fatal _ _
    | exact rethinkMode1Tail_ne_fatal _ _ _ _ _ _
    | refine bind_ne_fatal _ _ ?_ (fun _ => ?_)
    | split

theorem rethinkChannels_ne_fatal (h : Nat) (s : Sound) (off : Int) (fuel : Nat)
    (chWork : List Bool) (vts : VoiceTable) :
    rethinkChannels h s off fuel chWork vts ≠ .error .fatal := by
  induction fuel generalizing chWork vts with
  | zero => exact error_ne_fatal _ (by decide)
  | succ fuel ih =>
    unfold rethinkChannels
    dsimp only
    repeat' first
      | exact ok_ne_fatal _
      | exact ih _ _
      | exact rd_ne_fatal _ _
      | exact wr_ne_fatal _ _ _
      | exact rethinkType1_ne_fatal _ _ _ _ _ _ _
      | exact rethinkType0_ne_fatal _ _ _ _ _ _ _
      | refine bind_ne_fatal _ _ ?_ (fun _ => ?_)
      | split

theorem rethinkMain_ne_fatal (pl : List Nat) (off : Int) (sounds : List Sound)
    (vts : VoiceTable) : rethinkMain pl off sounds vts ≠ .error .fatal := by
  induction pl generalizing off sounds vts with
  | nil => exact ok_ne_fatal _
  | cons h rest ih =>
    unfold rethinkMain
    dsimp only
    split
    · exact ih _ _ _
    · exact bind_ne_fatal _ _ (rethinkChannels_ne_fatal _ _ _ _ _ _) (fun _ => ih _ _ _)

theorem foldlM_ne_fatal {σ α : Type} (f : σ → α → Except Fault σ)
    (hf : ∀ s a, f s a ≠ .error .fatal) (l : List α) (s : σ) :
    l.foldlM f s ≠ .error .fatal := by
  induction l generalizing s with
  | nil => exact ok_ne_fatal _
  | cons x xs ih =>
    rw [foldlM_cons_bind]
    exact bind_ne_fatal _ _ (hf _ _) (fun _ => ih _)

theorem forIdx_ne_fatal {σ : Type} (step : Nat → σ → Except Fault σ)
    (hf : ∀ i s, step i s ≠ .error .fatal) (n : Nat) (init : σ) :
    forIdx step n init ≠ .error .fatal := by
  unfold forIdx
  exact foldlM_ne_fatal _ (fun s a => hf a s) _ _

theorem post0Tagged_ne_fatal (sounds : List Sound) (idx : Nat) (st : Commit) :
    post0Tagged sounds idx st ≠ .error .fatal := by
  unfold post0Tagged
  dsimp only
  repeat' first
    | exact ok_ne_fatal _
    | exact error_ne_fatal _ (by decide)
    | exact rd_ne_fatal _ _
    | refine bind_ne_fatal _ _ ?_ (fun _ => ?_)
    | split

theorem post0Match_ne_fatal (idx : Nat) (st : Commit) :
    post0Match idx st ≠ .error .fatal := by
  unfold post0Match
  dsimp only
  repeat' first
    | exact ok_ne_fatal _
    | split

theorem post0Place_ne_fatal (sounds : List Sound) (v idx : Nat) (st : Commit) :
    post0Place sounds v idx st ≠ .error .fatal := by
  unfold post0Place
  dsimp only
  repeat' first
    | exact ok_ne_fatal _
    | exact error_ne_fatal _ (by decide)
    | exact rd_ne_fatal _ _
    | refine bind_ne_fatal _ _ ?_ (fun _ => ?_)
    | split

theorem post0Release_ne_fatal (v idx : Nat) (st : Commit) :
    post0Release v idx st ≠ .error .fatal := by
  unfold post0Release
  dsimp only
  split <;> exact ok_ne_fatal _

theorem rethinkPost0_ne_fatal (sounds : List Sound) (v : Nat) (st : Commit) :
    rethinkPost0 sounds v st ≠ .error .fatal := by
  unfold rethinkPost0
  refine bind_ne_fatal _ _ (forIdx_ne_fatal _ (post0Tagged_ne_fatal _) _ _) (fun _ => ?_)
  refine bind_ne_fatal _ _ (forIdx_ne_fatal _ post0Match_ne_fatal _ _) (fun _ => ?_)
  refine bind_ne_fatal _ _ (forIdx_ne_fatal _ (post0Place_ne_fatal _ _) _ _) (fun _ => ?_)
  exact forIdx_ne_fatal _ (post0Release_ne_fatal _) _ _

theorem skipUsedFrom_ne_fatal (es : List VoiceStructEntry) (i : Nat) :
    skipUsedFrom es i ≠ .error .fatal := by
  induction es generalizing i with
  | nil => exact error_ne_fatal _ (by decide)
  | cons e es ih =>
    unfold skipUsedFrom
    split
    · exact ih _
    · exact ok_ne_fatal _

theorem post1Place_ne_fatal (sounds : List Sound) (idx : Nat) (st : Commit × Nat) :
    post1Place sounds idx st ≠ .error .fatal := by
  unfold post1Place skipUsed
  dsimp only
  repeat' first
    | exact ok_ne_fatal _
    | exact skipUsedFrom_ne_fatal _ _
    | exact rd_ne_fatal _ _
    | refine bind_ne_fatal _ _ ?_ (fun _ => ?_)
    | split

theorem post1Release_ne_fatal (v idx : Nat) (st : Commit) :
    post1Release v idx st ≠ .error .fatal := by
  unfold post1Release
  dsimp only
  split <;> exact ok_ne_fatal _

theorem rethinkPost1_ne_fatal (sounds : List Sound) (v : Nat) (st : Commit) :
    rethinkPost1 sounds v st ≠ .error .fatal := by
  unfold rethinkPost1
  dsimp only
  refine bind_ne_fatal _ _ (forIdx_ne_fatal _ (post1Place_ne_fatal _) _ _) (fun _ => ?_)
  exact forIdx_ne_fatal _ (post1Release_ne_fatal _) _ _

theorem rethinkPostGroup_ne_fatal (sounds : List Sound) (v : Nat)
    (slot : Option VoiceTypeStruct) (log : List DriverCall) :
    rethinkPostGroup sounds v slot log ≠ .error .fatal := by
  unfold rethinkPostGroup
  cases slot with
  | none => exact ok_ne_fatal _
  | some vs =>
    dsimp only
    refine map_ne_fatal _ _ ?_
    split
    · exact rethinkPost0_ne_fatal _ _ _
    · exact rethinkPost1_ne_fatal _ _ _

theorem rethinkPost_ne_fatal (sounds : List Sound) (v : Nat) (vts : VoiceTable)
    (log : List DriverCall) : rethinkPost sounds v vts log ≠ .error .fatal := by
  induction vts generalizing v log with
  | nil => exact ok_ne_fatal _
  | cons slot rest ih =>
    unfold rethinkPost
    exact bind_ne_fatal _ _ (rethinkPostGroup_ne_fatal _ _ _ _)
      (fun _ => map_ne_fatal _ _ (ih _ _))

theorem rethink_ne_fatal (m : Manager) : _sfRethinkVoiceTypes m ≠ .error .fatal := by
  unfold _sfRethinkVoiceTypes
  exact bind_ne_fatal _ _ (rethinkMain_ne_fatal _ _ _ _)
    (fun _ => map_ne_fatal _ _ (rethinkPost_ne_fatal _ _ _ _))

theorem addToPlayList_ne_fatal (m : Manager) (h : Nat) :
    _sfAddToPlayList m h ≠ .error .fatal := by
  unfold _sfAddToPlayList
  exact map_ne_fatal _ _ (rethink_ne_fatal _)

/-! ## Starting a sound -/

theorem getD_updAt_cases (f : Sound → Sound) (sounds : List Sound) (h x : Nat) :
    (updAt f h sounds).getD x default = sounds.getD x default ∨
    (updAt f h sounds).getD x default = f (sounds.getD x default) := by
  simp only [List.getD_eq_getElem?_getD, getElem?_updAt]
  split
  · cases hx : sounds[x]? with
    | none => left; simp
    | some s => right; simp
  · left; rfl

theorem addToPlayList_spec (m m1 : Manager) (h : Nat) (hr : _sfAddToPlayList m h = .ok m1) :
    (∀ x, x ∈ m1._playList ↔ x = h ∨ x ∈ m._playList) ∧
    (m1.sound h)._stoppedAsynchronously = false := by
  unfold _sfAddToPlayList at hr
  dsimp only at hr
  simp only [map_eq_ok] at hr
  obtain ⟨m4, hk, rfl⟩ := hr
  obtain ⟨_, _, hpl⟩ := rethink_counts _ _ hk
  obtain ⟨_, hflag⟩ := rethink_sounds (fun s => s._stoppedAsynchronously) (fun _ _ => rfl) _ _ hk
  refine ⟨fun x => ?_, ?_⟩
  · show x ∈ m4._playList ↔ _
    rw [hpl]
    exact mem_insertByPriority _ h x m._playList
  · show (m4.sound h)._stoppedAsynchronously = false
    rw [hflag h]
    show ((updAt (fun s => { s with _stoppedAsynchronously := false }) h m.sounds).getD h
      default)._stoppedAsynchronously = false
    simp only [List.getD_eq_getElem?_getD, getElem?_updAt, if_true]
    cases m.sounds[h]? with
    | none => rfl
    | some s => rfl

theorem addToPlayList_no_groups (m : Manager) (h : Nat) (hm : noVoiceGroups m)
    (hh : channelsReady (m.sound h)) : ∃ m1, _sfAddToPlayList m h = .ok m1 := by
  obtain ⟨hvt, hs⟩ := hm
  have hready : noVoiceGroups { _sfDoAddToPlayList
      { m with _serverSuspendedCount := m._serverSuspendedCount + 1 } h with
      sounds := updAt (fun s => { s with _stoppedAsynchronously := false }) h
        (_sfDoAddToPlayList
          { m with _serverSuspendedCount := m._serverSuspendedCount + 1 } h).sounds } := by
    refine ⟨hvt, fun x hx => ?_⟩
    have hx1 : x ∈ insertByPriority (fun y => (m.sound y)._priority) h m._playList := hx
    have hx2 : channelsReady (m.sound x) := by
      rcases (mem_insertByPriority _ h x m._playList).1 hx1 with rfl | hx3
      · exact hh
      · exact hs x hx3
    show channelsReady ((updAt (fun s => { s with _stoppedAsynchronously := false }) h
      m.sounds).getD x default)
    rcases getD_updAt_cases (fun s => { s with _stoppedAsynchronously := false }) m.sounds h x
      with h1 | h1
    · rw [h1]; exact hx2
    · rw [h1]; exact hx2
  obtain ⟨m4, hk, _⟩ := rethink_no_groups _ hready
  unfold _sfAddToPlayList
  dsimp only
  rw [hk]
  exact ⟨_, rfl⟩

/-- C17: `go()` ends in the fatal error exactly when the sound is not primed.
On a primed sound every return of `go()` leaves the sound on the play list
(next to the sounds that were on it) with `_stoppedAsynchronously` cleared;
the only way not to return is an abort of the voice rethink that
`addToPlayList` runs, and with no voice group in the table and well-formed
channel arrays `go()` does return. -/
theorem go_fatal_exactly_when_unprimed (m : Manager) (h : Nat) :
    (go m h = .error .fatal ↔ isPrimed m h = false) ∧
    (isPrimed m h = true → ∀ m1, go m h = .ok m1 →
      isPlaying m1 h = true ∧ (m1.sound h)._stoppedAsynchronously = false ∧
      ∀ x, x ∈ m1._playList ↔ x = h ∨ x ∈ m._playList) ∧
    (isPrimed m h = true → noVoiceGroups m → channelsReady (m.sound h) →
      ∃ m1, go m h = .ok m1) := by
  unfold go isPrimed
  refine ⟨?_, ?_, ?_⟩
  · by_cases hp : (m.sound h)._primed = false
    · rw [if_pos hp]
      exact ⟨fun _ => hp, fun _ => rfl⟩
    · rw [if_neg hp]
      exact ⟨fun hr => absurd hr (addToPlayList_ne_fatal m h), fun hf => absurd hf hp⟩
  · intro hp m1 hr
    rw [if_neg (by rw [hp]; decide)] at hr
    obtain ⟨hmem, hflag⟩ := addToPlayList_spec m m1 h hr
    refine ⟨?_, hflag, hmem⟩
    unfold isPlaying _sfIsOnPlayList
    simpa using (hmem h).2 (Or.inl rfl)
  · intro hp hm hh
    rw [if_neg (by rw [hp]; decide)]
    exact addToPlayList_no_groups m h hm hh

/-- Witness of C17: `go()` on the primed sound 0 of the three-sound fixture
returns, and on an unprimed sound it is fatal. -/
theorem go_fatal_exactly_when_unprimed_witness :
    isPrimed threeSounds 0 = true ∧ (∃ m1, go threeSounds 0 = .ok m1) ∧
    isPrimed { sounds := [{}] } 0 = false ∧ go { sounds := [{}] } 0 = .error .fatal ∧
    (∀ m1, go threeSounds 0 = .ok m1 →
      isPlaying m1 0 = true ∧ (m1.sound 0)._stoppedAsynchronously = false ∧
      ∀ x, x ∈ m1._playList ↔ x = 0 ∨ x ∈ threeSounds._playList) :=
  ⟨by decide, ⟨_, rfl⟩, by decide,
    (go_fatal_exactly_when_unprimed { sounds := [{}] } 0).1.2 (by decide),
    (go_fatal_exactly_when_unprimed threeSounds 0).2.1 (by decide)⟩

/-! ## The voice table of the Adlib driver -/

/-- C18: with one installed driver, whose group data is that of the Adlib
driver (`1, 1, 9, 1, 0xff`), `_sfRethinkSoundDrivers` returns (nine passes of
its second loop are enough) and leaves exactly one voice group, in table slot
1: it is TYPE_1, has `_total = _numVoices = 9` and nine entries of that
driver with the voice numbers 0..8 and no sound assigned or proposed. -/
theorem adlib_driver_builds_one_group_of_nine (m : Manager) (d k : Nat)
    (hd : m._installedDrivers = [d]) :
    ∃ vs, _sfRethinkSoundDrivers (fun _ => adlib_group_data) (k + 9) m =
        .ok { m with _voiceTypeStructPtrs := (List.replicate 16 none).set 1 (some vs) } ∧
      vs._voiceType = VOICETYPE_1 ∧ vs._total = 9 ∧ vs._numVoices = 9 ∧
      vs._entries.length = 9 ∧
      vs._entries.map (fun e => e._voiceNum) = [0, 1, 2, 3, 4, 5, 6, 7, 8] ∧
      ∀ e ∈ vs._entries, e._driver = d ∧ e._type1._sound = none ∧ e._type1._sound2 = none ∧
        e._type0._sound = none ∧ e._type0._sound2 = none := by
  refine ⟨{ _voiceType := VOICETYPE_1, _total := 9, _numVoices := 9
            _entries := type1Entries d 9 }, ?_, rfl, rfl, rfl, rfl, rfl, ?_⟩
  · unfold _sfRethinkSoundDrivers
    rw [hd]
    rfl
  · intro e he
    simp only [type1Entries, List.mem_map] at he
    obtain ⟨i, _, rfl⟩ := he
    exact ⟨rfl, rfl, rfl, rfl, rfl⟩

/-- Witness of C18: the table built for driver 0 is the Adlib voice table of
the fixtures. -/
theorem adlib_driver_builds_one_group_of_nine_witness :
    ({ _installedDrivers := [0] } : Manager)._installedDrivers = [0] ∧
    (_sfRethinkSoundDrivers (fun _ => adlib_group_data) (0 + 9)
      { _installedDrivers := [0] }).toOption.map (fun m => m._voiceTypeStructPtrs) =
      some adlibVoiceTable ∧
    ∃ vs, _sfRethinkSoundDrivers (fun _ => adlib_group_data) (0 + 9)
        { _installedDrivers := [0] } =
        .ok { ({ _installedDrivers := [0] } : Manager) with
          _voiceTypeStructPtrs := (List.replicate 16 none).set 1 (some vs) } ∧
      vs._voiceType = VOICETYPE_1 ∧ vs._total = 9 ∧ vs._numVoices = 9 ∧
      vs._entries.length = 9 ∧
      vs._entries.map (fun e => e._voiceNum) = [0, 1, 2, 3, 4, 5, 6, 7, 8] ∧
      ∀ e ∈ vs._entries, e._driver = 0 ∧ e._type1._sound = none ∧ e._type1._sound2 = none ∧
        e._type0._sound = none ∧ e._type0._sound2 = none :=
  ⟨rfl, by decide,
    adlib_driver_builds_one_group_of_nine { _installedDrivers := [0] } 0 0 rfl⟩

/-! ## The group table -/

theorem rdByte_mid (pre l post : List Nat) (i : Nat) (hi : i < l.length) :
    rdByte (pre ++ l ++ post) (pre.length + i) = .ok (l.getD i 0) := by
  unfold rdByte
  rw [List.get?_eq_getElem?, List.append_assoc, List.getElem?_append_right (by omega)]
  simp only [Nat.add_sub_cancel_left]
  rw [List.getElem?_append_left hi, List.getElem?_eq_getElem hi]
  simp [List.getD, List.getElem?_eq_getElem hi]

theorem readLE32_mid (pre post : List Nat) (n : Nat) (hn : n < 4294967296) :
    READ_LE_UINT32 (pre ++ le32 n ++ post) pre.length = .ok n := by
  unfold READ_LE_UINT32
  have h0 := rdByte_mid pre (le32 n) post 0 (by simp [le32])
  rw [Nat.add_zero] at h0
  rw [h0, rdByte_mid pre (le32 n) post 1 (by simp [le32]),
    rdByte_mid pre (le32 n) post 2 (by simp [le32]),
    rdByte_mid pre (le32 n) post 3 (by simp [le32])]
  simp only [Except.bind, Except.map, le32, List.getD_cons_zero, List.getD_cons_succ,
    Nat.mod_mod]
  congr 1
  omega

theorem readLE16_mid (pre post : List Nat) (n : Nat) (hn : n < 65536) :
    READ_LE_UINT16 (pre ++ le16 n ++ post) pre.length = .ok n := by
  unfold READ_LE_UINT16
  have h0 := rdByte_mid pre (le16 n) post 0 (by simp [le16])
  rw [Nat.add_zero] at h0
  rw [h0, rdByte_mid pre (le16 n) post 1 (by simp [le16])]
  simp only [Except.bind, Except.map, le16, List.getD_cons_zero, List.getD_cons_succ,
    Nat.mod_mod]
  congr 1
  omega

theorem length_encodeTracks (ts : List (Nat × Nat)) : (encodeTracks ts).length = ts.length * 4 := by
  induction ts with
  | nil => rfl
  | cons t ts ih => simp [encodeTracks, le16, ih]; omega

theorem length_encodeGroups (gs : List (Nat × List (Nat × Nat))) :
    gs.length ≤ (encodeGroups gs).length := by
  induction gs with
  | nil => simp
  | cons g gs ih => simp [encodeGroups, le32]; omega

theorem determineGroupLoop_spec (avail : Nat) (gs : List (Nat × List (Nat × Nat)))
    (hg : ∀ g ∈ gs, 0 < g.1 ∧ g.1 < 4294967296 ∧ g.2.length < 65536)
    (pre post : List Nat) (fuel : Nat) (hfuel : gs.length + 1 ≤ fuel) :
    determineGroupLoop avail (pre ++ encodeGroups gs ++ post) fuel pre.length =
      .ok (uint32ToInt (firstSubset avail (gs.map Prod.fst))) := by
  induction gs generalizing pre fuel with
  | nil =>
    obtain ⟨f, rfl⟩ : ∃ f, fuel = f + 1 := ⟨fuel - 1, by omega⟩
    unfold determineGroupLoop
    rw [encodeGroups, readLE32_mid pre post 0 (by decide)]
    rfl
  | cons g gs ih =>
    obtain ⟨f, rfl⟩ : ∃ f, fuel = f + 1 := ⟨fuel - 1, by omega⟩
    obtain ⟨h0, h32, h16⟩ := hg g (List.mem_cons_self _ _)
    have hdata : pre ++ encodeGroups (g :: gs) ++ post =
        pre ++ le32 g.1 ++ (le16 g.2.length ++ encodeTracks g.2 ++ encodeGroups gs ++ post) := by
      simp [encodeGroups, List.append_assoc]
    have hdata2 : pre ++ encodeGroups (g :: gs) ++ post =
        (pre ++ le32 g.1) ++ le16 g.2.length ++ (encodeTracks g.2 ++ encodeGroups gs ++ post) := by
      simp [encodeGroups, List.append_assoc]
    have hdata3 : pre ++ encodeGroups (g :: gs) ++ post =
        (pre ++ le32 g.1 ++ le16 g.2.length ++ encodeTracks g.2) ++ encodeGroups gs ++ post := by
      simp [encodeGroups, List.append_assoc]
    unfold determineGroupLoop
    have hr32 : READ_LE_UINT32 (pre ++ encodeGroups (g :: gs) ++ post) pre.length = .ok g.1 := by
      rw [hdata]; exact readLE32_mid pre _ g.1 h32
    have hr16 : READ_LE_UINT16 (pre ++ encodeGroups (g :: gs) ++ post) (pre.length + 4) =
        .ok g.2.length := by
      rw [hdata2]
      have := readLE16_mid (pre ++ le32 g.1) (encodeTracks g.2 ++ encodeGroups gs ++ post)
        g.2.length h16
      simpa [le32] using this
    rw [hr32]
    simp only [Except.bind, if_neg (Nat.pos_iff_ne_zero.1 h0)]
    by_cases hsub : g.1 &&& avail = g.1
    · rw [if_pos hsub]
      simp [firstSubset, List.find?, hsub]
    · rw [if_neg hsub, hr16]
      simp only [Except.bind]
      have hpos : pre.length + (6 + g.2.length * 4) =
          (pre ++ le32 g.1 ++ le16 g.2.length ++ encodeTracks g.2).length := by
        simp [le32, le16, length_encodeTracks]; omega
      rw [hpos, hdata3, ih (fun x hx => hg x (List.mem_cons_of_mem _ hx)) _ f
        (by simp at hfuel; omega)]
      simp [firstSubset, List.find?, hsub]

theorem firstSubset_none (avail : Nat) (masks : List Nat)
    (h : ∀ v ∈ masks, v &&& avail ≠ v) : firstSubset avail masks = 0 := by
  induction masks with
  | nil => rfl
  | cons v vs ih =>
    have hv := h v (List.mem_cons_self _ _)
    have := ih (fun x hx => h x (List.mem_cons_of_mem _ hx))
    simpa [firstSubset, List.find?, hv] using this

theorem firstSubset_first (avail : Nat) (before : List Nat) (v : Nat) (after : List Nat)
    (hv : v &&& avail = v) (hb : ∀ x ∈ before, x &&& avail ≠ x) :
    firstSubset avail (before ++ v :: after) = v := by
  induction before with
  | nil => simp [firstSubset, List.find?, hv]
  | cons x xs ih =>
    have hx := hb x (List.mem_cons_self _ _)
    have := ih (fun y hy => hb y (List.mem_cons_of_mem _ hy))
    simpa [firstSubset, List.find?, hx] using this

/-- C19: for a resource whose 16-bit field at offset 8 holds the offset of a
group table with the groups `gs` (non-zero 32-bit masks, each followed by its
track count and track entries) and the terminating zero mask,
`_sfDetermineGroup` returns the first mask of the table, in table order, that
is a subset of `_groupsAvail` (as an `int`), and 0 if no mask of the table is a
subset. -/
theorem determineGroup_returns_first_subset_mask (m : Manager)
    (gs : List (Nat × List (Nat × Nat))) (pre post : List Nat)
    (hoff : READ_LE_UINT16 (pre ++ encodeGroups gs ++ post) 8 = .ok pre.length)
    (hg : ∀ g ∈ gs, 0 < g.1 ∧ g.1 < 4294967296 ∧ g.2.length < 65536) :
    (∀ before v tracks after, gs = before ++ (v, tracks) :: after →
      v &&& m._groupsAvail = v → (∀ g ∈ before, g.1 &&& m._groupsAvail ≠ g.1) →
      _sfDetermineGroup m (pre ++ encodeGroups gs ++ post) = .ok (uint32ToInt v)) ∧
    ((∀ g ∈ gs, g.1 &&& m._groupsAvail ≠ g.1) →
      _sfDetermineGroup m (pre ++ encodeGroups gs ++ post) = .ok 0) := by
  have hrun : _sfDetermineGroup m (pre ++ encodeGroups gs ++ post) =
      .ok (uint32ToInt (firstSubset m._groupsAvail (gs.map Prod.fst))) := by
    unfold _sfDetermineGroup
    rw [hoff]
    simp only [Except.bind]
    refine determineGroupLoop_spec _ gs hg pre post _ ?_
    have := length_encodeGroups gs
    simp only [List.length_append]
    omega
  refine ⟨?_, ?_⟩
  · intro before v tracks after hgs hv hb
    rw [hrun, hgs, List.map_append, List.map_cons]
    rw [firstSubset_first _ _ v _ hv]
    intro x hx
    simp only [List.mem_map] at hx
    obtain ⟨g, hgm, rfl⟩ := hx
    exact hb g hgm
  · intro hnone
    rw [hrun, firstSubset_none]
    · rfl
    · intro x hx
      simp only [List.mem_map] at hx
      obtain ⟨g, hgm, rfl⟩ := hx
      exact hnone g hgm

/-- Witness of C19: a table with the masks 2, 9 and 1 behind a 16-byte header;
with the groups 9 of the Adlib driver available the result is 9. -/
theorem determineGroup_returns_first_subset_mask_witness :
    (READ_LE_UINT16 ([0, 0, 0, 0, 0, 0, 0, 0, 16, 0, 0, 0, 0, 0, 0, 0] ++
        encodeGroups [(2, [(1, 0)]), (9, [(2, 1), (3, 1)]), (1, [])] ++ [])
        8 = .ok ([0, 0, 0, 0, 0, 0, 0, 0, 16, 0, 0, 0, 0, 0, 0, 0] : List Nat).length ∧
      ∀ g ∈ [(2, [(1, 0)]), (9, [(2, 1), (3, 1)]), ((1 : Nat), ([] : List (Nat × Nat)))],
        0 < g.1 ∧ g.1 < 4294967296 ∧ g.2.length < 65536) ∧
    _sfDetermineGroup { _groupsAvail := 9 }
      ([0, 0, 0, 0, 0, 0, 0, 0, 16, 0, 0, 0, 0, 0, 0, 0] ++
        encodeGroups [(2, [(1, 0)]), (9, [(2, 1), (3, 1)]), (1, [])] ++ []) =
      .ok (uint32ToInt 9) :=
  ⟨⟨rfl, by decide⟩,
    (determineGroup_returns_first_subset_mask { _groupsAvail := 9 }
      [(2, [(1, 0)]), (9, [(2, 1), (3, 1)]), (1, [])]
      [0, 0, 0, 0, 0, 0, 0, 0, 16, 0, 0, 0, 0, 0, 0, 0] [] rfl (by decide)).1
      [(2, [(1, 0)])] 9 [(2, 1), (3, 1)] [(1, [])] rfl (by decide) (by decide)⟩

/-! ## The end of a fade -/

theorem rd_in_range {α : Type} (l : List α) (i : Int) (h0 : 0 ≤ i) (h1 : i < l.length) :
    ∃ a, rd l i = .ok a := by
  unfold rd
  rw [if_neg (by omega)]
  have : i.toNat < l.length := by omega
  rw [List.get?_eq_getElem?, List.getElem?_eq_getElem this]
  exact ⟨_, rfl⟩

theorem updateVolumeGroup_returns (snd : Sound) (h voiceIndex : Nat) (voiceType : Int)
    (es : List VoiceStructEntry) (hlen : snd._chVolume.length = 16)
    (hes : ∀ e ∈ es, (0 ≤ e._type0._channelNum ∧ e._type0._channelNum < 16) ∧
      (0 ≤ e._type1._channelNum ∧ e._type1._channelNum < 16)) :
    ∃ calls, updateVolumeGroup snd h voiceIndex voiceType es = .ok calls := by
  induction es with
  | nil => exact ⟨_, rfl⟩
  | cons e es ih =>
    obtain ⟨calls, hc⟩ := ih (fun x hx => hes x (List.mem_cons_of_mem _ hx))
    obtain ⟨⟨a0, a1⟩, b0, b1⟩ := hes e (List.mem_cons_self _ _)
    obtain ⟨v0, hv0⟩ := rd_in_range snd._chVolume e._type0._channelNum a0 (by omega)
    obtain ⟨v1, hv1⟩ := rd_in_range snd._chVolume e._type1._channelNum b0 (by omega)
    unfold updateVolumeGroup
    rw [hc, hv0, hv1]
    split
    · split <;> exact ⟨_, rfl⟩
    · split <;> exact ⟨_, rfl⟩

theorem updateVolumeTable_returns (snd : Sound) (h : Nat) (vts : VoiceTable) (voiceIndex : Nat)
    (hlen : snd._chVolume.length = 16)
    (hes : ∀ slot ∈ vts, ∀ vs ∈ slot.toList, ∀ e ∈ vs._entries,
      (0 ≤ e._type0._channelNum ∧ e._type0._channelNum < 16) ∧
      (0 ≤ e._type1._channelNum ∧ e._type1._channelNum < 16)) :
    ∃ calls, updateVolumeTable snd h voiceIndex vts = .ok calls := by
  induction vts generalizing voiceIndex with
  | nil => exact ⟨_, rfl⟩
  | cons slot rest ih =>
    obtain ⟨calls, hc⟩ := ih (voiceIndex + 1)
      (fun sl hsl => hes sl (List.mem_cons_of_mem _ hsl))
    cases slot with
    | none =>
      unfold updateVolumeTable
      exact ⟨_, hc⟩
    | some vs =>
      obtain ⟨c1, hc1⟩ := updateVolumeGroup_returns snd h voiceIndex vs._voiceType vs._entries
        hlen (hes (some vs) (List.mem_cons_self _ _) vs (by simp))
      unfold updateVolumeTable
      rw [hc1, hc]
      exact ⟨_, rfl⟩

theorem doUpdateVolume_returns (m : Manager) (h : Nat) (hready : volumeReady m h) :
    ∃ m1, _sfDoUpdateVolume m h = .ok m1 ∧ m1.sounds = m.sounds ∧
      m1._playList = m._playList ∧ m1._needToRethink = m._needToRethink := by
  obtain ⟨calls, hc⟩ := updateVolumeTable_returns
    (Manager.sound { m with _serverSuspendedCount := m._serverSuspendedCount + 1 } h) h
    m._voiceTypeStructPtrs 0 hready.1 hready.2
  unfold _sfDoUpdateVolume
  simp only
  rw [hc]
  exact ⟨_, rfl, rfl, rfl, rfl⟩

/-- C20: let sound `h` have an armed fade whose tick counter is zero and whose
step brings `_volume` to `_fadeDest`, in a state where `_sfDoUpdateVolume` can
read the channel volumes.  Then the fade part of `_sfProcessFading` returns, the
volume is `_fadeDest` and the fade is disarmed (`_fadeDest = -1`).  If
`_stopAfterFadeFlag` is set, the sound has been erased from the play list (it
is no longer on it if it was there once), `_stoppedAsynchronously` and
`_needToRethink` are set; if it is not set, the play list, `_stoppedAsynchronously`
and `_needToRethink` are unchanged. -/
theorem fade_completion_disarms_and_stops (m : Manager) (h : Nat) (hh : h < m.sounds.length)
    (harmed : (m.sound h)._fadeDest ≠ -1) (hctr : (m.sound h)._fadeCounter = 0)
    (hstep : fadeVolume (m.sound h) = (m.sound h)._fadeDest) (hready : volumeReady m h) :
    ∃ m1, fadeSound m h = .ok m1 ∧
      (m1.sound h)._volume = (m.sound h)._fadeDest ∧ (m1.sound h)._fadeDest = -1 ∧
      ((m.sound h)._stopAfterFadeFlag = true →
        m1._playList = (eraseFirst h m._playList).1 ∧
        (m._playList.Nodup → h ∉ m1._playList) ∧
        (m1.sound h)._stoppedAsynchronously = true ∧ m1._needToRethink = true) ∧
      ((m.sound h)._stopAfterFadeFlag = false →
        m1._playList = m._playList ∧
        (m1.sound h)._stoppedAsynchronously = (m.sound h)._stoppedAsynchronously ∧
        m1._needToRethink = m._needToRethink) := by
  have hh0 : h < (m.setSound h
      { m.sound h with _volume := fadeVolume (m.sound h) }).sounds.length := by
    simpa [Manager.setSound] using hh
  have hs0 := sound_setSound m h { m.sound h with _volume := fadeVolume (m.sound h) } hh
  have hready0 : volumeReady (m.setSound h
      { m.sound h with _volume := fadeVolume (m.sound h) }) h := by
    refine ⟨?_, hready.2⟩
    rw [hs0]
    exact hready.1
  obtain ⟨m2, hm2, hs2, hp2, hn2⟩ := doUpdateVolume_returns _ h hready0
  have hh2 : h < m2.sounds.length := by rw [hs2]; exact hh0
  have hsnd : m2.sound h = { m.sound h with _volume := fadeVolume (m.sound h) } := by
    unfold Manager.sound
    rw [hs2]
    exact hs0
  obtain ⟨m3, hm3⟩ : ∃ m3, m3 = m2.setSound h { m2.sound h with _fadeDest := -1 } := ⟨_, rfl⟩
  have hfs : fadeSound m h =
      .ok (if (m3.sound h)._stopAfterFadeFlag = true then removeAsync m3 h else m3) := by
    subst hm3
    unfold fadeSound
    dsimp only at hm2 ⊢
    rw [if_pos harmed, if_neg (not_not.2 hctr), hm2]
    simp only [Except.map]
    rw [if_neg (not_not.2 hstep)]
  have hh3 : h < m3.sounds.length := by
    rw [hm3]; simpa [Manager.setSound] using hh2
  have hs3 : m3.sound h = { m2.sound h with _fadeDest := -1 } := by
    rw [hm3]; exact sound_setSound m2 h _ hh2
  have hp3 : m3._playList = m._playList := by
    rw [hm3]
    show m2._playList = _
    rw [hp2]; rfl
  have hn3 : m3._needToRethink = m._needToRethink := by
    rw [hm3]
    show m2._needToRethink = _
    rw [hn2]; rfl
  have hflag3 : (m3.sound h)._stopAfterFadeFlag = (m.sound h)._stopAfterFadeFlag := by
    rw [hs3, hsnd]
  rw [hflag3] at hfs
  by_cases hflag : (m.sound h)._stopAfterFadeFlag = true
  · rw [if_pos hflag] at hfs
    obtain ⟨r1, r2, r3⟩ := removeAsync_sound m3 h hh3
    refine ⟨_, hfs, ?_, ?_, fun _ => ⟨?_, fun hn => ?_, ?_, r2⟩, fun hf => ?_⟩
    · rw [r1, hs3, hsnd]; exact hstep
    · rw [r1, hs3]
    · rw [r3, hp3]
    · rw [r3, hp3]; exact eraseFirst_not_mem h _ hn
    · rw [r1]
    · rw [hf] at hflag
      exact absurd hflag (by decide)
  · rw [if_neg hflag] at hfs
    refine ⟨_, hfs, ?_, ?_, fun hf => absurd hf hflag, fun _ => ⟨hp3, ?_, hn3⟩⟩
    · rw [hs3, hsnd]; exact hstep
    · rw [hs3]
    · rw [hs3, hsnd]

/-- Witness of C20: sound 0 of the playing fixture with a fade to volume 0 in
steps of 127 and with the stop flag set. -/
theorem fade_completion_disarms_and_stops_witness :
    (0 < (fade playingOne 0 0 2 127 true).sounds.length ∧
      ((fade playingOne 0 0 2 127 true).sound 0)._fadeDest ≠ -1 ∧
      ((fade playingOne 0 0 2 127 true).sound 0)._fadeCounter = 0 ∧
      fadeVolume ((fade playingOne 0 0 2 127 true).sound 0) =
        ((fade playingOne 0 0 2 127 true).sound 0)._fadeDest ∧
      ((fade playingOne 0 0 2 127 true).sound 0)._stopAfterFadeFlag = true ∧
      (fade playingOne 0 0 2 127 true)._playList = [0] ∧
      volumeReady (fade playingOne 0 0 2 127 true) 0) ∧
    ∃ m1, fadeSound (fade playingOne 0 0 2 127 true) 0 = .ok m1 ∧
      (m1.sound 0)._volume = ((fade playingOne 0 0 2 127 true).sound 0)._fadeDest ∧
      (m1.sound 0)._fadeDest = -1 ∧
      (((fade playingOne 0 0 2 127 true).sound 0)._stopAfterFadeFlag = true →
        m1._playList = (eraseFirst 0 (fade playingOne 0 0 2 127 true)._playList).1 ∧
        ((fade playingOne 0 0 2 127 true)._playList.Nodup → 0 ∉ m1._playList) ∧
        (m1.sound 0)._stoppedAsynchronously = true ∧ m1._needToRethink = true) ∧
      (((fade playingOne 0 0 2 127 true).sound 0)._stopAfterFadeFlag = false →
        m1._playList = (fade playingOne 0 0 2 127 true)._playList ∧
        (m1.sound 0)._stoppedAsynchronously =
          ((fade playingOne 0 0 2 127 true).sound 0)._stoppedAsynchronously ∧
        m1._needToRethink = (fade playingOne 0 0 2 127 true)._needToRethink) :=
  ⟨by decide,
    fade_completion_disarms_and_stops (fade playingOne 0 0 2 127 true) 0 (by decide)
      (by decide) (by decide) (by decide)
      (by decide)⟩

/-! ## The TYPE_1 branch: a channel that finds no voice -/

/-- C24: in the TYPE_1 branch, for a channel whose encoded priority is not 0
and whose voice count exceeds `_numVoices` of the group, the step returns the
voice table as it was: no entry gets a proposal for the channel, no proposed
assignment changes and `_numVoices` keeps its value.  The loop over the
channels of the sound goes on, or ends if the pool is empty. -/
theorem starved_channel_changes_nothing (h : Nat) (foundIndex foundPriority chNumVoices : Int)
    (g : Nat) (vtStruct : VoiceTypeStruct) (vts : VoiceTable)
    (hprio : foundPriority ≠ 0) (hneed : chNumVoices > vtStruct._numVoices) :
    rethinkType1 h foundIndex foundPriority chNumVoices g vtStruct vts =
      .ok (if vtStruct._numVoices = 0 then Flow.leave else Flow.again, vts) := by
  unfold rethinkType1
  dsimp only
  rw [if_neg (by omega), if_neg hprio]
  split <;> rfl

/-- Witness of C24: channel 1 of sound 1 asks for one voice when sound 0 holds
all nine voices of the Adlib group. -/
theorem starved_channel_changes_nothing_witness :
    ((11 : Int) ≠ 0 ∧ (1 : Int) > fullGroup._numVoices) ∧
    rethinkType1 1 1 11 1 1 fullGroup fullTable =
      .ok (if fullGroup._numVoices = 0 then Flow.leave else Flow.again, fullTable) :=
  ⟨by decide,
    starved_channel_changes_nothing 1 1 11 1 1 fullGroup fullTable (by decide) (by decide)⟩

/-! ## Encoded sub-priorities across play-list positions -/

theorem rethinkMain_cons (h : Nat) (rest : List Nat) (off : Int) (sounds : List Sound)
    (vts : VoiceTable) :
    rethinkMain (h :: rest) off sounds vts =
      if (sounds.getD h default)._mutedCount ≠ 0 ∨ (sounds.getD h default)._pausedCount ≠ 0 then
        rethinkMain rest (off + 16) sounds vts
      else
        (rethinkChannels h (sounds.getD h default) off (SOUND_ARR_SIZE + 1)
          (List.replicate SOUND_ARR_SIZE false) (_sfUpdateVoiceStructs vts)).bind fun r =>
        rethinkMain rest (off + 16) (setChWork sounds h r.1) r.2 := by
  rw [rethinkMain]

theorem rethinkMain_append (pre l : List Nat) :
    ∀ (off : Int) (sounds : List Sound) (vts : VoiceTable),
      rethinkMain (pre ++ l) off sounds vts =
        (rethinkMain pre off sounds vts).bind fun r =>
          rethinkMain l (off + 16 * (pre.length : Int)) r.1 r.2 := by
  induction pre with
  | nil =>
    intro off sounds vts
    simp [rethinkMain, Except.bind]
  | cons h rest ih =>
    intro off sounds vts
    have hoff : off + 16 + 16 * (rest.length : Int) =
        off + 16 * ((h :: rest).length : Int) := by
      rw [List.length_cons]
      push_cast
      omega
    rw [List.cons_append, rethinkMain_cons, rethinkMain_cons]
    split
    · rw [ih, hoff]
    · cases hx : rethinkChannels h (sounds.getD h default) off (SOUND_ARR_SIZE + 1)
          (List.replicate SOUND_ARR_SIZE false) (_sfUpdateVoiceStructs vts) with
      | error e => rfl
      | ok r =>
        simp only [Except.bind]
        rw [ih, hoff]
        rfl

theorem scanStep_first (s : Sound) (w : List Bool) (off : Int) (c : Nat) (a : Int)
    (hc : Int.land (s._chFlags.getD c 0) 0x8000 = 0 ∧ w.getD c false = false)
    (ha : s._chSubPriority.getD c 0 = a) (ha0 : a ≠ 0) :
    scanStep s w off (-1, 0) c = ((c : Int), 16 - a + off) := by
  unfold scanStep
  rw [if_pos hc, ha]
  simp [ha0]

/-- C25 (amended): the main loop of `_sfRethinkVoiceTypes` reaches the sound at
play-list position `i` with the offset `16 * i` and runs the channel loop of
that sound with it; the sound differs from the listed one at most in
`_chWork`, which the scan does not read; and the scan gives an unserviced
channel with the non-zero sub-priority `a` the encoded value
`16 - a + 16 * i`.  For positions `i < j` and non-zero sub-priorities `a` and
`b`, the encoded value at position `i` is smaller than the one at position `j`
exactly when `b - a < 16 * (j - i)`; this holds whenever both sub-priorities
lie in 1..16. -/
theorem earlier_sound_ranks_first_in_range (pl : List Nat) (sounds : List Sound)
    (vts : VoiceTable) (i j xi xj : Nat) (wi wj : List Bool) (ci cj : Nat)
    (a b : Int) (hij : i < j) (hxi : pl[i]? = some xi) (hxj : pl[j]? = some xj)
    (hci : Int.land ((sounds.getD xi default)._chFlags.getD ci 0) 0x8000 = 0 ∧
      wi.getD ci false = false)
    (ha : (sounds.getD xi default)._chSubPriority.getD ci 0 = a) (ha0 : a ≠ 0)
    (hcj : Int.land ((sounds.getD xj default)._chFlags.getD cj 0) 0x8000 = 0 ∧
      wj.getD cj false = false)
    (hb : (sounds.getD xj default)._chSubPriority.getD cj 0 = b) (hb0 : b ≠ 0) :
    (rethinkMain pl 0 sounds vts =
      (rethinkMain (pl.take i) 0 sounds vts).bind fun r =>
        if (r.1.getD xi default)._mutedCount ≠ 0 ∨ (r.1.getD xi default)._pausedCount ≠ 0 then
          rethinkMain (pl.drop (i + 1)) (16 * (i : Int) + 16) r.1 r.2
        else
          (rethinkChannels xi (r.1.getD xi default) (16 * (i : Int)) (SOUND_ARR_SIZE + 1)
            (List.replicate SOUND_ARR_SIZE false) (_sfUpdateVoiceStructs r.2)).bind fun q =>
          rethinkMain (pl.drop (i + 1)) (16 * (i : Int) + 16) (setChWork r.1 xi q.1) q.2) ∧
    (rethinkMain pl 0 sounds vts =
      (rethinkMain (pl.take j) 0 sounds vts).bind fun r =>
        if (r.1.getD xj default)._mutedCount ≠ 0 ∨ (r.1.getD xj default)._pausedCount ≠ 0 then
          rethinkMain (pl.drop (j + 1)) (16 * (j : Int) + 16) r.1 r.2
        else
          (rethinkChannels xj (r.1.getD xj default) (16 * (j : Int)) (SOUND_ARR_SIZE + 1)
            (List.replicate SOUND_ARR_SIZE false) (_sfUpdateVoiceStructs r.2)).bind fun q =>
          rethinkMain (pl.drop (j + 1)) (16 * (j : Int) + 16) (setChWork r.1 xj q.1) q.2) ∧
    (∀ (k x c : Nat) (w : List Bool) (off : Int) (acc : Int × Int) (r : List Sound × VoiceTable),
      rethinkMain (pl.take k) 0 sounds vts = .ok r →
      scanStep (r.1.getD x default) w off acc c = scanStep (sounds.getD x default) w off acc c) ∧
    scanStep (sounds.getD xi default) wi (16 * (i : Int)) (-1, 0) ci
      = ((ci : Int), 16 - a + 16 * (i : Int)) ∧
    scanStep (sounds.getD xj default) wj (16 * (j : Int)) (-1, 0) cj
      = ((cj : Int), 16 - b + 16 * (j : Int)) ∧
    ((scanStep (sounds.getD xi default) wi (16 * (i : Int)) (-1, 0) ci).2 <
        (scanStep (sounds.getD xj default) wj (16 * (j : Int)) (-1, 0) cj).2 ↔
      b - a < 16 * ((j : Int) - (i : Int))) ∧
    (1 ≤ a ∧ a ≤ 16 → 1 ≤ b ∧ b ≤ 16 →
      (scanStep (sounds.getD xi default) wi (16 * (i : Int)) (-1, 0) ci).2 <
        (scanStep (sounds.getD xj default) wj (16 * (j : Int)) (-1, 0) cj).2) := by
  have hsplit : ∀ k x : Nat, pl[k]? = some x →
      rethinkMain pl 0 sounds vts =
        (rethinkMain (pl.take k) 0 sounds vts).bind fun r =>
          if (r.1.getD x default)._mutedCount ≠ 0 ∨ (r.1.getD x default)._pausedCount ≠ 0 then
            rethinkMain (pl.drop (k + 1)) (16 * (k : Int) + 16) r.1 r.2
          else
            (rethinkChannels x (r.1.getD x default) (16 * (k : Int)) (SOUND_ARR_SIZE + 1)
              (List.replicate SOUND_ARR_SIZE false) (_sfUpdateVoiceStructs r.2)).bind fun q =>
            rethinkMain (pl.drop (k + 1)) (16 * (k : Int) + 16) (setChWork r.1 x q.1) q.2 := by
    intro k x hk
    have hlt : k < pl.length := by
      by_contra hc
      rw [List.getElem?_eq_none (by omega)] at hk
      cases hk
    have hdrop : pl.drop k = x :: pl.drop (k + 1) := by
      rw [List.drop_eq_getElem_cons hlt]
      rw [List.getElem?_eq_getElem hlt] at hk
      simp only [Option.some.injEq] at hk
      rw [hk]
    have h1 := rethinkMain_append (pl.take k) (pl.drop k) 0 sounds vts
    rw [List.take_append_drop, List.length_take, Nat.min_eq_left (by omega), zero_add,
      hdrop] at h1
    rw [h1]
    congr 1
  have hi := scanStep_first (sounds.getD xi default) wi (16 * (i : Int)) ci a hci ha ha0
  have hjj := scanStep_first (sounds.getD xj default) wj (16 * (j : Int)) cj b hcj hb hb0
  refine ⟨hsplit i xi hxi, hsplit j xj hxj, ?_, hi, hjj, ?_, ?_⟩
  · intro k x c w off acc r hr
    have hp := (rethinkMain_sounds (fun s => (s._chFlags, s._chSubPriority))
      (fun _ _ => rfl) _ _ _ _ r hr).2 x
    simp only [Prod.mk.injEq] at hp
    unfold scanStep
    rw [hp.1, hp.2]
  · rw [hi, hjj]
    constructor <;> intro h <;> omega
  · intro h1 h2
    rw [hi, hjj]
    show 16 - a + 16 * (i : Int) < 16 - b + 16 * (j : Int)
    omega

/-- C25 as stated fails: in `rankManager 1 20` the scan gives the channel of
sound 0 (position 0, sub-priority 1) the encoded value 15 and the channel of
sound 1 (position 1, sub-priority 20) the encoded value 12, the smaller one,
and these are the priorities of the eight proposals; the channel of sound 2
then evicts the four voices of the earlier sound 0, which ends the pass with
no voice while sound 1 keeps four.  With the sub-priorities 1 and 16 it is
sound 1 that loses its voices.  With the sub-priority 17 at position 1 both
encoded values are 15, with 255 the later one is -223. -/
theorem later_sound_can_rank_first :
    scanSubPriority ((rankManager 1 20).sound 0) (List.replicate 16 false) (16 * 0) = (0, 15) ∧
    scanSubPriority ((rankManager 1 20).sound 1) (List.replicate 16 false) (16 * 1) = (1, 12) ∧
    proposedPriorities (proposalsOf { rankManager 1 20 with _playList := [0, 1] }) 1 =
      [15, 15, 15, 15, 12, 12, 12, 12, 0] ∧
    holders (_sfRethinkVoiceTypes (rankManager 1 20)) 1 0 = some 0 ∧
    holders (_sfRethinkVoiceTypes (rankManager 1 20)) 1 1 = some 4 ∧
    holders (_sfRethinkVoiceTypes (rankManager 1 16)) 1 0 = some 4 ∧
    holders (_sfRethinkVoiceTypes (rankManager 1 16)) 1 1 = some 0 ∧
    proposedPriorities (proposalsOf { rankManager 1 17 with _playList := [0, 1] }) 1 =
      [15, 15, 15, 15, 15, 15, 15, 15, 0] ∧
    proposedPriorities (proposalsOf { rankManager 1 255 with _playList := [0, 1] }) 1 =
      [15, 15, 15, 15, -223, -223, -223, -223, 0] := by
  refine ⟨?_, ?_, ?_, ?_, ?_, ?_, ?_, ?_, ?_⟩ <;> decide

/-- Witness of the amended C25: the sounds 0 and 1 of `rankManager 16 1`
(sub-priorities 16 and 1) at the positions 0 and 1 of its play list. -/
theorem earlier_sound_ranks_first_in_range_witness :
    (0 < 1 ∧ (rankManager 16 1)._playList[0]? = some 0 ∧
      (rankManager 16 1)._playList[1]? = some 1 ∧
      (Int.land (((rankManager 16 1).sounds.getD 0 default)._chFlags.getD 0 0) 0x8000 = 0 ∧
        (List.replicate 16 false).getD 0 false = false) ∧
      ((rankManager 16 1).sounds.getD 0 default)._chSubPriority.getD 0 0 = 16 ∧
      (16 : Int) ≠ 0 ∧
      (Int.land (((rankManager 16 1).sounds.getD 1 default)._chFlags.getD 1 0) 0x8000 = 0 ∧
        (List.replicate 16 false).getD 1 false = false) ∧
      ((rankManager 16 1).sounds.getD 1 default)._chSubPriority.getD 1 0 = 1 ∧
      (1 : Int) ≠ 0) ∧
    (scanStep ((rankManager 16 1).sounds.getD 0 default) (List.replicate 16 false)
      (16 * ((0 : Nat) : Int)) (-1, 0) 0 = (((0 : Nat) : Int), 16 - 16 + 16 * ((0 : Nat) : Int)) ∧
    scanStep ((rankManager 16 1).sounds.getD 1 default) (List.replicate 16 false)
      (16 * ((1 : Nat) : Int)) (-1, 0) 1 = (((1 : Nat) : Int), 16 - 1 + 16 * ((1 : Nat) : Int)) ∧
    ((scanStep ((rankManager 16 1).sounds.getD 0 default) (List.replicate 16 false)
        (16 * ((0 : Nat) : Int)) (-1, 0) 0).2 <
        (scanStep ((rankManager 16 1).sounds.getD 1 default) (List.replicate 16 false)
          (16 * ((1 : Nat) : Int)) (-1, 0) 1).2 ↔
      (1 : Int) - 16 < 16 * (((1 : Nat) : Int) - ((0 : Nat) : Int))) ∧
    (1 ≤ (16 : Int) ∧ (16 : Int) ≤ 16 → 1 ≤ (1 : Int) ∧ (1 : Int) ≤ 16 →
      (scanStep ((rankManager 16 1).sounds.getD 0 default) (List.replicate 16 false)
          (16 * ((0 : Nat) : Int)) (-1, 0) 0).2 <
        (scanStep ((rankManager 16 1).sounds.getD 1 default) (List.replicate 16 false)
          (16 * ((1 : Nat) : Int)) (-1, 0) 1).2)) ∧
    rethinkMain (rankManager 16 1)._playList 0 (rankManager 16 1).sounds adlibVoiceTable =
      (rethinkMain ((rankManager 16 1)._playList.take 1) 0 (rankManager 16 1).sounds
        adlibVoiceTable).bind fun r =>
        if (r.1.getD 1 default)._mutedCount ≠ 0 ∨ (r.1.getD 1 default)._pausedCount ≠ 0 then
          rethinkMain ((rankManager 16 1)._playList.drop (1 + 1)) (16 * ((1 : Nat) : Int) + 16)
            r.1 r.2
        else
          (rethinkChannels 1 (r.1.getD 1 default) (16 * ((1 : Nat) : Int)) (SOUND_ARR_SIZE + 1)
            (List.replicate SOUND_ARR_SIZE false) (_sfUpdateVoiceStructs r.2)).bind fun q =>
          rethinkMain ((rankManager 16 1)._playList.drop (1 + 1)) (16 * ((1 : Nat) : Int) + 16)
            (setChWork r.1 1 q.1) q.2 :=
  ⟨⟨by decide, by decide, by decide, by decide, by decide, by decide, by decide, by decide,
      by decide⟩,
    (earlier_sound_ranks_first_in_range (rankManager 16 1)._playList (rankManager 16 1).sounds
      adlibVoiceTable 0 1 0 1 (List.replicate 16 false) (List.replicate 16 false) 0 1 16 1
      (by decide) (by decide) (by decide) (by decide) (by decide) (by decide) (by decide)
      (by decide) (by decide)).2.2.2,
    (earlier_sound_ranks_first_in_range (rankManager 16 1)._playList (rankManager 16 1).sounds
      adlibVoiceTable 0 1 0 1 (List.replicate 16 false) (List.replicate 16 false) 0 1 16 1
      (by decide) (by decide) (by decide) (by decide) (by decide) (by decide) (by decide)
      (by decide) (by decide)).2.1⟩

/-! ## All tracks stopped with the loop count zero -/

theorem getD_copyFirst (n : Nat) (src dst : List Int) (i : Nat) (hi : i < n)
    (hd : i < dst.length) : (copyFirst n src dst).getD i 0 = src.getD i 0 := by
  unfold copyFirst
  rw [List.getD_eq_getElem?_getD, List.getElem?_map, List.getElem?_range hd]
  simp [hi]

theorem length_copyFirst (n : Nat) (src dst : List Int) :
    (copyFirst n src dst).length = dst.length := by
  simp [copyFirst]

theorem serviceTracksEnd_shape (s : Sound) (flag : Bool) :
    (serviceTracksEnd s flag).1._numTracks = s._numTracks ∧
    (serviceTracksEnd s flag).1._trkState.length = s._trkState.length ∧
    (serviceTracksEnd s flag).1._trkRest.length = s._trkRest.length ∧
    (serviceTracksEnd s flag).1._trkIndex.length = s._trkIndex.length := by
  unfold serviceTracksEnd
  dsimp only
  by_cases h1 : flag = false
  · rw [if_pos h1]; exact ⟨rfl, rfl, rfl, rfl⟩
  · rw [if_neg h1]
    by_cases h2 : s._loop > 0 ∧ s._loop - 1 = 0
    · rw [if_pos h2]; exact ⟨rfl, rfl, rfl, rfl⟩
    · rw [if_neg h2]
      by_cases h3 : s._loop > 0
      · rw [if_pos h3]
        exact ⟨rfl, length_copyFirst _ _ _, length_copyFirst _ _ _, length_copyFirst _ _ _⟩
      · rw [if_neg h3]
        exact ⟨rfl, length_copyFirst _ _ _, length_copyFirst _ _ _, length_copyFirst _ _ _⟩

theorem serviceTracksEnd_forever (s : Sound) (flag : Bool) (hL : s._loop ≤ 0) :
    (serviceTracksEnd s flag).2 = false ∧
    (serviceTracksEnd s flag).1._loop = s._loop ∧
    (flag = true →
      (serviceTracksEnd s flag).1._timer = (serviceTracksEnd s flag).1._loopTimer ∧
      ∀ i, i < s._numTracks.toNat →
        (i < s._trkState.length → (serviceTracksEnd s flag).1._trkState.getD i 0 =
          (serviceTracksEnd s flag).1._trkLoopState.getD i 0) ∧
        (i < s._trkRest.length → (serviceTracksEnd s flag).1._trkRest.getD i 0 =
          (serviceTracksEnd s flag).1._trkLoopRest.getD i 0) ∧
        (i < s._trkIndex.length → (serviceTracksEnd s flag).1._trkIndex.getD i 0 =
          (serviceTracksEnd s flag).1._trkLoopIndex.getD i 0)) := by
  unfold serviceTracksEnd
  cases flag with
  | false => simp
  | true =>
    dsimp only
    rw [if_neg (by decide), if_neg (by omega), if_neg (by omega)]
    refine ⟨rfl, rfl, fun _ => ⟨rfl, fun i hi => ⟨fun h1 => ?_, fun h1 => ?_, fun h1 => ?_⟩⟩⟩
    · exact getD_copyFirst _ _ _ i hi h1
    · exact getD_copyFirst _ _ _ i hi h1
    · exact getD_copyFirst _ _ _ i hi h1

/-- C30 as stated fails: with the loop count 0 and a track that ends at once,
every tick finds all tracks stopped and `_soServiceTracks` returns false each
time. -/
theorem zero_loop_count_never_completes :
    ((endingManager 0).sound 0)._loop = 0 ∧
    (serviceTicks 0 3 (endingManager 0)).toOption =
      some [(true, false), (true, false), (true, false)] := by
  decide

theorem serviceTracksFlagged_forever (m : Manager) (h : Nat) (r : Manager × Bool × Bool)
    (hh : h < m.sounds.length) (hL : (m.sound h)._loop ≤ 0)
    (hr : serviceTracksFlagged m h = .ok r) :
    _soServiceTracks m h = .ok (r.1, false) ∧ r.2.2 = false ∧
    (r.1.sound h)._loop = (m.sound h)._loop ∧
    (r.2.1 = true →
      (r.1.sound h)._timer = (r.1.sound h)._loopTimer ∧
      ∀ i, i < (r.1.sound h)._numTracks.toNat →
        (i < (r.1.sound h)._trkState.length → (r.1.sound h)._trkState.getD i 0 =
          (r.1.sound h)._trkLoopState.getD i 0) ∧
        (i < (r.1.sound h)._trkRest.length → (r.1.sound h)._trkRest.getD i 0 =
          (r.1.sound h)._trkLoopRest.getD i 0) ∧
        (i < (r.1.sound h)._trkIndex.length → (r.1.sound h)._trkIndex.getD i 0 =
          (r.1.sound h)._trkLoopIndex.getD i 0)) := by
  have hsvc : _soServiceTracks m h = .ok (r.1, r.2.2) := by
    unfold _soServiceTracks
    rw [hr]; rfl
  unfold serviceTracksFlagged at hr
  split at hr
  · simp at hr
  · simp only [map_eq_ok] at hr
    obtain ⟨a, ha, rfl⟩ := hr
    have hk := serviceTrackLoop_key h _ _ _ _ _ ha
    simp only [trackKey, Prod.mk.injEq] at hk
    obtain ⟨hlen, hpl, hloop⟩ := hk
    have hh1 : h < a.1.sounds.length := by omega
    obtain ⟨e1, e2, e3⟩ := serviceTracksEnd_forever (a.1.sound h) a.2 (by rw [hloop]; exact hL)
    have hs : (a.1.setSound h (serviceTracksEnd (a.1.sound h) a.2).1).sound h =
        (serviceTracksEnd (a.1.sound h) a.2).1 := sound_setSound _ _ _ hh1
    dsimp only at hsvc ⊢
    rw [e1] at hsvc
    refine ⟨hsvc, e1, ?_, ?_⟩
    · rw [hs, e2, hloop]
    · intro hflag
      rw [hs]
      obtain ⟨hnum, hl1, hl2, hl3⟩ := serviceTracksEnd_shape (a.1.sound h) a.2
      rw [hnum, hl1, hl2, hl3]
      exact e3 hflag

/-- C30 (amended): when `_soServiceTracks` returns, it returns true exactly
when all tracks are stopped in that tick and the loop count was 1 (it is
decremented to zero).  When the loop count is zero (or negative) it returns
false also with all tracks stopped; in that case it restarts the tracks:
state, rest and index of every track are those of the loop checkpoint and
`_timer` is `_loopTimer`, and the loop count keeps its value. -/
theorem zero_loop_count_restarts_tracks (m : Manager) (h : Nat) (r : Manager × Bool × Bool)
    (hh : h < m.sounds.length) (hr : serviceTracksFlagged m h = .ok r) :
    _soServiceTracks m h = .ok (r.1, r.2.2) ∧
    (r.2.2 = true ↔ (r.2.1 = true ∧ (m.sound h)._loop = 1)) ∧
    ((m.sound h)._loop ≤ 0 →
      r.2.2 = false ∧ (r.1.sound h)._loop = (m.sound h)._loop ∧
      (r.2.1 = true →
        (r.1.sound h)._timer = (r.1.sound h)._loopTimer ∧
        ∀ i, i < (r.1.sound h)._numTracks.toNat →
          (i < (r.1.sound h)._trkState.length → (r.1.sound h)._trkState.getD i 0 =
            (r.1.sound h)._trkLoopState.getD i 0) ∧
          (i < (r.1.sound h)._trkRest.length → (r.1.sound h)._trkRest.getD i 0 =
            (r.1.sound h)._trkLoopRest.getD i 0) ∧
          (i < (r.1.sound h)._trkIndex.length → (r.1.sound h)._trkIndex.getD i 0 =
            (r.1.sound h)._trkLoopIndex.getD i 0))) := by
  have hsvc : _soServiceTracks m h = .ok (r.1, r.2.2) := by
    unfold _soServiceTracks
    rw [hr]; rfl
  refine ⟨hsvc, ?_, fun hL => (serviceTracksFlagged_forever m h r hh hL hr).2⟩
  by_cases hL : 1 ≤ (m.sound h)._loop
  · exact (serviceTracksFlagged_spec m h r hh hL hr).2.1
  · have hf := (serviceTracksFlagged_forever m h r hh (by omega) hr).2.1
    rw [hf]
    constructor
    · intro hc; cases hc
    · intro hc; omega

/-- Witness of the amended C30: the sound of `endingManager 0`, whose only
track ends in the first tick. -/
theorem zero_loop_count_restarts_tracks_witness :
    (0 < (endingManager 0).sounds.length ∧ ((endingManager 0).sound 0)._loop ≤ 0) ∧
    ∃ r, serviceTracksFlagged (endingManager 0) 0 = .ok r ∧ r.2.1 = true ∧
      _soServiceTracks (endingManager 0) 0 = .ok (r.1, r.2.2) ∧ r.2.2 = false :=
  ⟨by decide, _, rfl, rfl,
    (zero_loop_count_restarts_tracks (endingManager 0) 0 _ (by decide) rfl).1,
    ((zero_loop_count_restarts_tracks (endingManager 0) 0 _ (by decide) rfl).2.2
      (by decide)).1⟩

/-! ## Servicing a control track -/

/-- C28 fails in the code: when a mode-0 track is due (its rest counter is 0
and its state is not 0) and its channel number is -1, `_soServiceTrackType0`
stops at `assert((channelNum >= 0) && (channelNum < SOUND_ARR_SIZE))` before it
reads an opcode, whatever the track data are; no loop checkpoint is stored. -/
theorem control_track_service_aborts (m : Manager) (h : Nat) (trackIndex : Int)
    (channelData : List Nat) (state : Int)
    (hrest : rd (m.sound h)._trkRest trackIndex = .ok 0)
    (hstate : rd (m.sound h)._trkState trackIndex = .ok state) (hne : state ≠ 0)
    (hch : rd (m.sound h)._trkChannel trackIndex = .ok (-1)) :
    _soServiceTrackType0 m h trackIndex channelData = .error .assertFailed ∧
    trackCtx m (m.sound h) trackIndex = .error .assertFailed := by
  have hctx : trackCtx m (m.sound h) trackIndex = .error .assertFailed := by
    unfold trackCtx
    rw [hch]
    rfl
  refine ⟨?_, hctx⟩
  unfold _soServiceTrackType0
  rw [hrest]
  simp only [Except.bind, ne_eq, not_true_eq_false, if_false]
  rw [hstate]
  simp only [hne, if_false]
  rw [hctx]

/-- Witness of C28: the control track of `controlTrackManager`, whose next
opcode is `0xFE` with operand 5; the whole tick of `_soServiceTracks` fails
with it. -/
theorem control_track_service_aborts_witness :
    (rd (controlTrackManager.sound 0)._trkRest 0 = .ok 0 ∧
      rd (controlTrackManager.sound 0)._trkState 0 = .ok 1 ∧ (1 : Int) ≠ 0 ∧
      rd (controlTrackManager.sound 0)._trkChannel 0 = .ok (-1) ∧
      ((controlTrackManager.sound 0)._channelData.getD 0 []).drop 14 = [0xFE, 5, 0xFF, 0x80]) ∧
    _soServiceTrackType0 controlTrackManager 0 0
      ((controlTrackManager.sound 0)._channelData.getD 0 []) = .error .assertFailed ∧
    _soServiceTracks controlTrackManager 0 = .error .assertFailed :=
  ⟨⟨rfl, rfl, by decide, rfl, rfl⟩,
    (control_track_service_aborts controlTrackManager 0 0 _ 1 rfl rfl (by decide) rfl).1, rfl⟩

/-! ## The short controller change (Area #4) -/

theorem shortCommand_bits (x : Nat) (hx : x < 16) :
    (0xE0 + x) &&& 0x80 ≠ 0 ∧ (0xE0 + x) &&& 0x40 ≠ 0 ∧ (0xE0 + x) &&& 0x20 ≠ 0 ∧
    (0xE0 + x) &&& 0x10 = 0 ∧ ((0xE0 + x) &&& 0xf) <<< 1 = 2 * x ∧
    (2 * x) ||| 1 = 2 * x + 1 := by
  interval_cases x <;> decide

set_option maxRecDepth 100000 in
theorem valueByte_bits : ∀ b, b < 256 →
    (b &&& 0x80 ≠ 0 ↔ 128 ≤ b) ∧ b &&& 0x7f = b % 128 := by
  decide

theorem area4_index (x b : Nat) (hx : x < 16) (hb : b < 256) :
    (if b &&& 0x80 ≠ 0 then (((0xE0 + x) &&& 0xf) <<< 1) ||| 1 else ((0xE0 + x) &&& 0xf) <<< 1) =
      2 * x + b / 128 := by
  obtain ⟨_, _, _, _, h5, h6⟩ := shortCommand_bits x hx
  obtain ⟨h7, _⟩ := valueByte_bits b hb
  rw [h5]
  by_cases hc : 128 ≤ b
  · rw [if_pos (h7.2 hc), h6]
    have : b / 128 = 1 := by omega
    omega
  · rw [if_neg (fun hn => hc (h7.1 hn))]
    have : b / 128 = 0 := by omega
    omega

theorem doTrackCommand_stores (s s1 : Sound) (ch cmd v : Int) (hcmd : cmd ∈ [1, 7, 10, 64])
    (hr : _soDoTrackCommand s ch cmd v = .ok s1) :
    (commandArray s1 cmd).getD ch.toNat 0 = v := by
  have hwr : ∀ (arr a : List Int), wr arr ch v = .ok a → a.getD ch.toNat 0 = v := by
    intro arr a ha
    unfold wr at ha
    split at ha
    · simp at ha
    · split at ha
      · rename_i hlt
        simp only [Except.ok.injEq] at ha
        subst ha
        exact getD_set_self _ _ _ hlt
      · simp at ha
  simp only [List.mem_cons, List.mem_singleton, List.not_mem_nil, or_false] at hcmd
  unfold _soDoTrackCommand at hr
  unfold commandArray
  rcases hcmd with rfl | rfl | rfl | rfl
  · simp only [if_true, map_eq_ok] at hr ⊢
    obtain ⟨a, ha, rfl⟩ := hr
    exact hwr _ _ ha
  · rw [if_neg (by decide), if_pos rfl] at hr
    rw [if_neg (by decide), if_pos rfl]
    simp only [map_eq_ok] at hr
    obtain ⟨a, ha, rfl⟩ := hr
    exact hwr _ _ ha
  · rw [if_neg (by decide), if_neg (by decide), if_pos rfl] at hr
    rw [if_neg (by decide), if_neg (by decide), if_pos rfl]
    simp only [map_eq_ok] at hr
    obtain ⟨a, ha, rfl⟩ := hr
    exact hwr _ _ ha
  · rw [if_neg (by decide), if_neg (by decide), if_neg (by decide), if_pos rfl] at hr
    rw [if_neg (by decide), if_neg (by decide), if_neg (by decide)]
    simp only [map_eq_ok] at hr
    obtain ⟨a, ha, rfl⟩ := hr
    exact hwr _ _ ha

theorem trackCommand_sound (ctx : TrackCtx) (h : Nat) (t : Int) (m m1 : Manager) (cmd v : Int)
    (sc : Bool) (hh : h < m.sounds.length) (hr : trackCommand ctx h t m cmd v sc = .ok m1) :
    ∃ ch, rd (m.sound h)._trkChannel t = .ok ch ∧
      _soDoTrackCommand (m.sound h) ch cmd v = .ok (m1.sound h) := by
  unfold trackCommand at hr
  simp only [bind_eq_ok] at hr
  obtain ⟨ch, hch, s1, hs1, hr⟩ := hr
  have hk : (m.setSound h s1).sound h = s1 := sound_setSound m h s1 hh
  refine ⟨ch, hch, ?_⟩
  have hm1 : m1.sound h = s1 := by
    split at hr
    · split at hr
      · simp only [map_eq_ok] at hr
        obtain ⟨vs, _, rfl⟩ := hr
        exact hk
      · split at hr
        · unfold callDriver at hr
          split at hr
          · simp at hr
          · simp only [Except.ok.injEq] at hr
            subst hr; exact hk
        · simp only [Except.ok.injEq] at hr
          subst hr; exact hk
    · simp only [Except.ok.injEq] at hr
      subst hr; exact hk
  rw [hm1]; exact hs1

/-- C29 as stated fails: the opcode `0xE2` lies in the range `1110xxxx`, and
servicing a track that holds it stops at the index assertion. -/
theorem short_command_index_assertion_fails :
    _soServiceTrackType0 (shortCommandManager 0xE2 5) 0 0
      (((shortCommandManager 0xE2 5).sound 0)._channelData.getD 0 []) = .error .assertFailed := rfl

/-- C29 (amended): on a track with an assigned channel, the opcode `0xE0 + x`
(`x < 16`) with value byte `b` computes the index `2*x + b/128` into the
command table.  For `x < 2` the index is below 4, the command is one of 1, 7,
10 and 64 and the low seven bits `b % 128` are passed to `_soDoTrackCommand`,
which stores them in the array of that command at the channel of the track;
for `2 ≤ x` (the opcodes `0xE2` to `0xEF`) the index assertion fails. -/
theorem short_command_index_is_low_opcode_bit_and_high_value_bit
    (m : Manager) (h : Nat) (trackIndex : Int) (ctx : TrackCtx) (pre post : List Nat)
    (x b : Nat) (hx : x < 16) (hb : b < 256) (hh : h < m.sounds.length)
    (hctx : trackCtx m (m.sound h) trackIndex = .ok ctx) :
    (2 ≤ x → decodeStep ctx h trackIndex (pre ++ (0xE0 + x) :: b :: post) m pre.length =
      .error .assertFailed) ∧
    (x < 2 →
      cmdList.getD (2 * x + b / 128) 0 ∈ [1, 7, 10, 64] ∧
      decodeStep ctx h trackIndex (pre ++ (0xE0 + x) :: b :: post) m pre.length =
        (trackCommand ctx h trackIndex m (cmdList.getD (2 * x + b / 128) 0)
          ((b % 128 : Nat) : Int) true).map (fun m1 => Decoded.more m1 (pre.length + 2)) ∧
      ∀ r, decodeStep ctx h trackIndex (pre ++ (0xE0 + x) :: b :: post) m pre.length = .ok r →
        (commandArray (r.mgr.sound h) (cmdList.getD (2 * x + b / 128) 0)).getD
          ctx.channelNum.toNat 0 = ((b % 128 : Nat) : Int)) := by
  obtain ⟨hch, hge, hlt, _, _⟩ := trackCtx_spec m (m.sound h) trackIndex ctx hctx
  have hne : ctx.channelNum ≠ -1 := by omega
  have hbits := shortCommand_bits x hx
  have hidx := area4_index x b hx hb
  have hval := (valueByte_bits b hb).2
  have hstep : decodeStep ctx h trackIndex (pre ++ (0xE0 + x) :: b :: post) m pre.length =
      if ¬ (2 * x + b / 128 < 4) then .error .assertFailed
      else (trackCommand ctx h trackIndex m (cmdList.getD (2 * x + b / 128) 0)
          ((b % 128 : Nat) : Int) true).map (fun m1 => Decoded.more m1 (pre.length + 2)) := by
    unfold decodeStep
    rw [rdByte_append]
    simp only [Except.bind, hbits.1, hbits.2.1, hbits.2.2.1, hbits.2.2.2.1, if_false, if_true]
    unfold area4
    rw [rdByte_append1]
    simp only [Except.bind, hidx, hval, hne, if_false]
  have hdiv : b / 128 < 2 := by omega
  constructor
  · intro h2
    rw [hstep, if_pos (by omega)]
  · intro h2
    have hmem : cmdList.getD (2 * x + b / 128) 0 ∈ [1, 7, 10, 64] := by
      have h4 : 2 * x + b / 128 < 4 := by omega
      generalize 2 * x + b / 128 = i at h4
      interval_cases i <;> decide
    rw [hstep, if_neg (by omega)]
    refine ⟨hmem, rfl, fun r hr => ?_⟩
    simp only [map_eq_ok] at hr
    obtain ⟨m1, hm1, rfl⟩ := hr
    obtain ⟨ch, hch1, hs1⟩ := trackCommand_sound _ _ _ _ _ _ _ _ hh hm1
    rw [hch] at hch1
    simp only [Except.ok.injEq] at hch1
    subst hch1
    exact doTrackCommand_stores _ _ _ _ _ hmem hs1

/-- Witness of the amended C29: the opcode `0xE1` with value byte `0x85` on
channel 0 of the fixture selects command 64 and stores 5 as the damper value. -/
theorem short_command_index_is_low_opcode_bit_and_high_value_bit_witness :
    (1 < 16 ∧ 0x85 < 256 ∧ 0 < playingOne.sounds.length ∧
      trackCtx playingOne (playingOne.sound 0) 0 =
        .ok { channelNum := 0, chFlags := 0, vtStruct := some 1, voiceType := 1,
              chVoiceType := 1 }) ∧
    cmdList.getD (2 * 1 + 0x85 / 128) 0 = 64 ∧
    ∃ r, decodeStep { channelNum := 0, chFlags := 0, vtStruct := some 1, voiceType := 1,
                      chVoiceType := 1 } 0 0 ([] ++ (0xE0 + 1) :: 0x85 :: [0xFF, 0x80]) playingOne
          ([] : List Nat).length = .ok r ∧
      (commandArray (r.mgr.sound 0) (cmdList.getD (2 * 1 + 0x85 / 128) 0)).getD
        (0 : Int).toNat 0 = ((0x85 % 128 : Nat) : Int) :=
  ⟨⟨by decide, by decide, by decide, rfl⟩, rfl, _, rfl,
    ((short_command_index_is_low_opcode_bit_and_high_value_bit playingOne 0 0
      { channelNum := 0, chFlags := 0, vtStruct := some 1, voiceType := 1, chVoiceType := 1 }
      [] [0xFF, 0x80] 1 0x85 (by decide) (by decide) (by decide) rfl).2 (by decide)).2.2 _ rfl⟩

/-! ## The TYPE_1 commit pass on a concrete input -/

/-- C22, the code at a failing input: in the state reached by starting sounds
2, 0 and 1 the entries of the Adlib group hold (sound 2, channel 2), (sound 0,
channel 0) and (sound 1, channel 1); a `_sfRethinkVoiceTypes` pass proposes
the same three pairs again and issues no driver call, but it ends with the
current assignments (sound 2, channel 2), (sound 0, channel 2) and (sound 1,
channel 0): the pairs (sound 0, channel 0) and (sound 1, channel 1) are the
current assignment of no entry. -/
theorem commit_loses_channel_of_reproposed_pair :
    currentPairs afterThreeAdds._voiceTypeStructPtrs 1 =
      [(some 2, 2), (some 0, 0), (some 1, 1)] ++ List.replicate 6 (none, 0) ∧
    proposedPairs (proposalsOf afterThreeAdds) 1 =
      [(some 0, 0), (some 1, 1), (some 2, 2)] ++ List.replicate 6 (none, 0) ∧
    currentPairs (tableOf (_sfRethinkVoiceTypes afterThreeAdds)) 1 =
      [(some 2, 2), (some 0, 2), (some 1, 0)] ++ List.replicate 6 (none, 0) ∧
    (some 0, 0) ∉ currentPairs (tableOf (_sfRethinkVoiceTypes afterThreeAdds)) 1 ∧
    (some 1, 1) ∉ currentPairs (tableOf (_sfRethinkVoiceTypes afterThreeAdds)) 1 ∧
    logOf (_sfRethinkVoiceTypes afterThreeAdds) = some afterThreeAdds.log := by
  refine ⟨?_, ?_, ?_, ?_, ?_, ?_⟩ <;> decide

/-! ## `_sfRethinkSoundDrivers` on group tables in the documented format -/

theorem rethinkDriversLoop_late_skip (fuel : Nat) (idx : Int) (vts : VoiceTable)
    (hidx : idx = 0 ∨ idx = 1 ∨ idx = 2 ∨ idx = 3 ∨ idx = 4) :
    rethinkDriversLoop (fun _ => lateGroupData) [0] (fuel + 1) idx vts =
      rethinkDriversLoop (fun _ => lateGroupData) [0] fuel (idx + 1) vts := by
  rcases hidx with rfl | rfl | rfl | rfl | rfl <;> rfl

theorem rethinkDriversLoop_late_build (fuel : Nat) (vts : VoiceTable) :
    rethinkDriversLoop (fun _ => lateGroupData) [0] (fuel + 1) 5 vts =
      (wr vts 5 (some { _voiceType := VOICETYPE_1, _total := 2, _numVoices := 2,
                        _field3 := 0 })).bind fun vts1 =>
        rethinkDriversLoop (fun _ => lateGroupData) [0] fuel 3
          (setEntries 5 (type1Entries 0 2) vts1) := rfl

theorem rethinkDriversLoop_late_forever (fuel : Nat) :
    ∀ (idx : Int) (vts : VoiceTable), 0 ≤ idx → idx ≤ 5 → vts.length = 16 →
      rethinkDriversLoop (fun _ => lateGroupData) [0] fuel idx vts = .error .outOfFuel := by
  induction fuel with
  | zero => intro idx vts _ _ _; rfl
  | succ fuel ih =>
    intro idx vts h0 h5 hlen
    by_cases h : idx = 5
    · subst h
      rw [rethinkDriversLoop_late_build]
      have hw : ∀ x, wr vts 5 x = .ok (vts.set 5 x) := by
        intro x
        unfold wr
        rw [if_neg (by decide), if_pos (by rw [hlen]; decide)]
        rfl
      rw [hw]
      simp only [Except.bind]
      apply ih 3 _ (by decide) (by decide)
      unfold setEntries updGroup
      rw [length_updAt, List.length_set, hlen]
    · rw [rethinkDriversLoop_late_skip fuel idx vts (by omega)]
      exact ih (idx + 1) vts (by omega) (by omega) hlen

theorem rdByte_append3 (pre : List Nat) (a b c e : Nat) (post : List Nat) :
    rdByte (pre ++ a :: b :: c :: e :: post) (pre.length + 3) = .ok e := by
  have := rdByte_append (pre ++ [a, b, c]) e post
  simpa using this

theorem rdByte_append4 (pre : List Nat) (a b c e f : Nat) (post : List Nat) :
    rdByte (pre ++ a :: b :: c :: e :: f :: post) (pre.length + 4) = .ok f := by
  have := rdByte_append (pre ++ [a, b, c, e]) f post
  simpa using this

theorem sound_setSound_ne (m : Manager) (h x : Nat) (s : Sound) (hx : x ≠ h) :
    (m.setSound h s).sound x = m.sound x := by
  unfold Manager.setSound Manager.sound
  simp only [List.getD_eq_getElem?_getD, List.getElem?_set, if_neg (Ne.symm hx)]

theorem rethink_drivers (m m' : Manager) (hr : _sfRethinkVoiceTypes m = .ok m') :
    m'._installedDrivers = m._installedDrivers := by
  unfold _sfRethinkVoiceTypes at hr
  simp only [bind_eq_ok, map_eq_ok] at hr
  obtain ⟨r, hm, p, _, rfl⟩ := hr
  rfl

theorem mute_frame (m m1 : Manager) (h : Nat) (flag : Bool) (hr : mute m h flag = .ok m1) :
    m1.sounds.length = m.sounds.length ∧ m1._playList = m._playList ∧
    m1._serverDisabledCount = m._serverDisabledCount ∧
    m1._installedDrivers = m._installedDrivers ∧
    ∀ x, (m1.sound x)._mutedCount =
      if x = h ∧ h < m.sounds.length then
        (if flag = true then (m.sound h)._mutedCount + 1
         else if (m.sound h)._mutedCount > 0 then (m.sound h)._mutedCount - 1
         else (m.sound h)._mutedCount)
      else (m.sound x)._mutedCount := by
  unfold mute rethinkVoiceTypes at hr
  simp only [map_eq_ok] at hr
  obtain ⟨m2, hm2, rfl⟩ := hr
  obtain ⟨hl, hp⟩ := rethink_sounds (fun s => s._mutedCount) (fun _ _ => rfl) _ _ hm2
  obtain ⟨_, hd, hpl⟩ := rethink_counts _ _ hm2
  have hdr := rethink_drivers _ _ hm2
  have hrs : ∀ mm : Manager, (restartSoundServer mm)._playList = mm._playList ∧
      (restartSoundServer mm)._serverDisabledCount = mm._serverDisabledCount ∧
      (restartSoundServer mm)._installedDrivers = mm._installedDrivers := by
    intro mm
    unfold restartSoundServer
    split
    · exact ⟨rfl, rfl, rfl⟩
    · exact ⟨rfl, rfl, rfl⟩
  refine ⟨?_, ?_, ?_, ?_, fun x => ?_⟩
  · rw [sounds_restartSoundServer, hl]
    simp [Manager.setSound, suspendSoundServer]
  · rw [(hrs m2).1, hpl]; rfl
  · rw [(hrs m2).2.1, hd]; rfl
  · rw [(hrs m2).2.2, hdr]; rfl
  · have hx := hp x
    have e1 : (restartSoundServer m2).sound x = m2.sound x := by
      unfold Manager.sound
      rw [sounds_restartSoundServer]
    rw [e1]
    rw [show (m2.sound x)._mutedCount = _ from hx]
    by_cases hc : x = h ∧ h < m.sounds.length
    · obtain ⟨rfl, hlt⟩ := hc
      rw [if_pos (And.intro rfl hlt), sound_setSound _ _ _ (show x < (suspendSoundServer m).sounds.length from hlt)]
      have e2 : (suspendSoundServer m).sound x = m.sound x := rfl
      rw [e2]
      cases flag with
      | true => simp
      | false =>
        simp only [if_neg (by decide : ¬ (false = true))]
        split <;> rfl
    · rw [if_neg hc]
      by_cases hxh : x = h
      · subst hxh
        have hge : ¬ x < (suspendSoundServer m).sounds.length := fun hlt => hc ⟨rfl, hlt⟩
        rw [sound_setSound_ge _ _ _ hge]
        rfl
      · rw [sound_setSound_ne _ _ _ _ hxh]
        rfl

theorem muteList_true (l : List Nat) (m m' : Manager)
    (hr : l.foldlM (fun st h => mute st h true) m = .ok m') :
    m'.sounds.length = m.sounds.length ∧ m'._playList = m._playList ∧
    m'._serverDisabledCount = m._serverDisabledCount ∧
    m'._installedDrivers = m._installedDrivers ∧
    ∀ x, (m'.sound x)._mutedCount =
      (m.sound x)._mutedCount + (if x < m.sounds.length then (l.count x : Int) else 0) := by
  induction l generalizing m with
  | nil =>
    simp only [List.foldlM, pure, Except.pure, Except.ok.injEq] at hr
    subst hr
    exact ⟨rfl, rfl, rfl, rfl, fun x => by simp⟩
  | cons h l ih =>
    rw [foldlM_cons_bind, bind_eq_ok] at hr
    obtain ⟨m1, h1, hr⟩ := hr
    obtain ⟨a1, a2, a3, a4, a5⟩ := mute_frame _ _ _ _ h1
    obtain ⟨b1, b2, b3, b4, b5⟩ := ih _ hr
    refine ⟨b1.trans a1, b2.trans a2, b3.trans a3, b4.trans a4, fun x => ?_⟩
    rw [b5 x, a5 x, a1]
    by_cases hx : x < m.sounds.length
    · by_cases hxh : x = h
      · subst hxh
        rw [if_pos ⟨rfl, hx⟩, if_pos rfl, if_pos hx, if_pos hx, List.count_cons_self]
        push_cast
        ring
      · rw [if_neg (fun hc : x = h ∧ h < m.sounds.length => hxh hc.1), if_pos hx, if_pos hx,
          List.count_cons_of_ne hxh]
    · rw [if_neg (fun hc : x = h ∧ h < m.sounds.length => hx (hc.1 ▸ hc.2)), if_neg hx, if_neg hx]

theorem muteList_false (x : Nat) (l : List Nat) (m m' : Manager)
    (hc : x < m.sounds.length → (l.count x : Int) ≤ (m.sound x)._mutedCount)
    (hr : l.foldlM (fun st h => mute st h false) m = .ok m') :
    m'.sounds.length = m.sounds.length ∧ m'._playList = m._playList ∧
    m'._serverDisabledCount = m._serverDisabledCount ∧
    m'._installedDrivers = m._installedDrivers ∧
    (m'.sound x)._mutedCount =
      (m.sound x)._mutedCount - (if x < m.sounds.length then (l.count x : Int) else 0) := by
  induction l generalizing m with
  | nil =>
    simp only [List.foldlM, pure, Except.pure, Except.ok.injEq] at hr
    subst hr
    exact ⟨rfl, rfl, rfl, rfl, by simp⟩
  | cons h l ih =>
    rw [foldlM_cons_bind, bind_eq_ok] at hr
    obtain ⟨m1, h1, hr⟩ := hr
    obtain ⟨a1, a2, a3, a4, a5⟩ := mute_frame _ _ _ _ h1
    have a5x := a5 x
    simp only [if_neg (by decide : ¬ (false = true))] at a5x
    by_cases hx : x < m.sounds.length
    · have hcx := hc hx
      by_cases hxh : x = h
      · subst hxh
        rw [List.count_cons_self] at hcx
        push_cast at hcx
        rw [if_pos ⟨rfl, hx⟩, if_pos (by omega)] at a5x
        obtain ⟨b1, b2, b3, b4, b5⟩ := ih m1 (fun _ => by rw [a5x]; omega) hr
        refine ⟨b1.trans a1, b2.trans a2, b3.trans a3, b4.trans a4, ?_⟩
        rw [b5, a5x, a1, if_pos hx, if_pos hx, List.count_cons_self]
        push_cast
        ring
      · rw [if_neg (fun hcc : x = h ∧ h < m.sounds.length => hxh hcc.1)] at a5x
        rw [List.count_cons_of_ne hxh] at hcx
        obtain ⟨b1, b2, b3, b4, b5⟩ := ih m1 (fun _ => by rw [a5x]; exact hcx) hr
        refine ⟨b1.trans a1, b2.trans a2, b3.trans a3, b4.trans a4, ?_⟩
        rw [b5, a5x, a1, if_pos hx, if_pos hx, List.count_cons_of_ne hxh]
    · rw [if_neg (fun hcc : x = h ∧ h < m.sounds.length => hx (hcc.1 ▸ hcc.2))] at a5x
      obtain ⟨b1, b2, b3, b4, b5⟩ := ih m1 (fun hlt => absurd (a1 ▸ hlt) hx) hr
      refine ⟨b1.trans a1, b2.trans a2, b3.trans a3, b4.trans a4, ?_⟩
      rw [b5, a5x, a1, if_neg hx, if_neg hx]

theorem rethinkSoundDrivers_frame (gd : Nat → List Nat) (fuel : Nat) (m m' : Manager)
    (hr : _sfRethinkSoundDrivers gd fuel m = .ok m') :
    m'.sounds = m.sounds ∧ m'._playList = m._playList ∧
    m'._serverDisabledCount = m._serverDisabledCount ∧
    m'._installedDrivers = m._installedDrivers := by
  unfold _sfRethinkSoundDrivers at hr
  simp only [map_eq_ok] at hr
  obtain ⟨vts, _, rfl⟩ := hr
  exact ⟨rfl, rfl, rfl, rfl⟩

theorem sfInstallDriver_frame (env : DriverEnv) (m : Manager) (d : Nat) (r : Manager × Bool)
    (hr : _sfInstallDriver env m d = .ok r) :
    r.1.sounds = m.sounds ∧ r.1._playList = m._playList ∧
    r.1._serverDisabledCount = m._serverDisabledCount ∧
    (r.2 = true → r.1._installedDrivers = m._installedDrivers ++ [d]) := by
  unfold _sfInstallDriver at hr
  split at hr
  · simp only [Except.ok.injEq] at hr
    subst hr
    exact ⟨rfl, rfl, rfl, fun hc => by cases hc⟩
  · simp only [map_eq_ok] at hr
    obtain ⟨m3, h3, rfl⟩ := hr
    obtain ⟨c1, c2, c3, c4⟩ := rethinkSoundDrivers_frame _ _ _ _ h3
    exact ⟨c1, c2, c3, fun _ => c4⟩

theorem sfUnInstallDriver_frame (env : DriverEnv) (m m' : Manager) (d : Nat)
    (hr : _sfUnInstallDriver env m d = .ok m') :
    m'.sounds = m.sounds ∧ m'._playList = m._playList ∧
    m'._serverDisabledCount = m._serverDisabledCount ∧
    m'._installedDrivers = m._installedDrivers.filter fun x => x ≠ d := by
  unfold _sfUnInstallDriver at hr
  obtain ⟨c1, c2, c3, c4⟩ := rethinkSoundDrivers_frame _ _ _ _ hr
  exact ⟨c1, c2, c3, c4⟩

theorem muteList_no_groups (flag : Bool) (l : List Nat) (m : Manager) (hm : noVoiceGroups m) :
    ∃ m1, l.foldlM (fun st h => mute st h flag) m = .ok m1 ∧ noVoiceGroups m1 := by
  induction l generalizing m with
  | nil => exact ⟨m, rfl, hm⟩
  | cons h l ih =>
    obtain ⟨m1, h1, hn1⟩ := mute_no_groups m h flag hm
    obtain ⟨m2, h2, hn2⟩ := ih m1 hn1
    refine ⟨m2, ?_, hn2⟩
    rw [foldlM_cons_bind, h1]
    exact h2

theorem rethinkDrivers_adlib (d k : Nat) :
    rethinkDriversLoop (fun _ => adlib_group_data) [d] (k + 17) 0 (List.replicate 16 none) =
      .ok ((List.replicate 16 none).set 1 (some
        { _voiceType := VOICETYPE_1, _total := 9, _numVoices := 9, _entries := type1Entries d 9 })) :=
  rfl

theorem rethinkDrivers_none (gd : Nat → List Nat) (k : Nat) :
    rethinkDriversLoop gd [] (k + 17) 0 (List.replicate 16 none) =
      .ok (List.replicate 16 none) := rfl

theorem installDriver_returns (env : DriverEnv) (m : Manager) (k : Nat)
    (hbank : env.hasBank = false) (hopens : env.opens = true) (hfuel : env.fuel = k + 17)
    (hnone : m._installedDrivers = [])
    (hver : 0x102 ≤ m._ourDrvResVersion ∧ m._ourDrvResVersion ≤ 0x10A)
    (hm : noVoiceGroups m) :
    ∃ m1, installDriver env m env.adlibDriverNum = .ok m1 := by
  have hinst : isInstalled m env.adlibDriverNum = false := by
    unfold isInstalled
    rw [hnone]; rfl
  obtain ⟨m2, h2, hn2⟩ := muteList_no_groups true m._playList (disableSoundServer m) hm
  obtain ⟨_, hpl2, _, hdr2, _⟩ := muteList_true _ _ _ h2
  have hdr2 : m2._installedDrivers = [] := hdr2.trans hnone
  have h3 : ∃ m3, _sfInstallDriver env m2 env.newDriver = .ok (m3, true) := by
    unfold _sfInstallDriver _sfRethinkSoundDrivers _sfExtractGroupMask
    rw [if_neg (by rw [hopens]; decide)]
    dsimp only
    rw [hdr2, hfuel, List.nil_append, rethinkDrivers_adlib]
    exact ⟨_, rfl⟩
  obtain ⟨m3, h3⟩ := h3
  obtain ⟨hs3, hpl3, _, hd3'⟩ := sfInstallDriver_frame _ _ _ _ h3
  have h4 : ∃ m4, _sfUnInstallDriver env m3 env.newDriver = .ok m4 ∧
      m4._voiceTypeStructPtrs = List.replicate 16 none := by
    have hd3 : m3._installedDrivers.filter (fun x => x ≠ env.newDriver) = [] := by
      have e : m3._installedDrivers = m2._installedDrivers ++ [env.newDriver] := hd3' rfl
      rw [e, hdr2]
      simp
    unfold _sfUnInstallDriver _sfRethinkSoundDrivers _sfExtractGroupMask
    dsimp only
    rw [hd3, hfuel, rethinkDrivers_none]
    exact ⟨_, rfl, rfl⟩
  obtain ⟨m4, h4, hv4⟩ := h4
  obtain ⟨hs4, hpl4, _, _⟩ := sfUnInstallDriver_frame _ _ _ _ h4
  have hn4 : noVoiceGroups m4 := by
    refine ⟨hv4, fun x hx => ?_⟩
    have hx2 : x ∈ m2._playList := by rw [← hpl3, ← hpl4]; exact hx
    have := hn2.2 x hx2
    unfold Manager.sound at this ⊢
    rw [hs4, hs3]; exact this
  obtain ⟨m5, h5, _⟩ := muteList_no_groups false m4._playList m4 hn4
  refine ⟨enableSoundServer m5, ?_⟩
  unfold installDriver
  rw [if_neg (by rw [hinst]; decide), if_neg (by simp)]
  rw [if_neg (by
    intro hc
    apply hc
    unfold adlibVersions
    exact ⟨hver.1, hver.2⟩)]
  unfold muteAll
  have h2' : List.foldlM (fun st h => mute st h true) (disableSoundServer m)
      (disableSoundServer m)._playList = .ok m2 := h2
  rw [h2']
  simp only [Except.bind]
  rw [h3]
  simp only [hbank, Except.bind]
  rw [h4]
  simp only [Except.bind]
  rw [h5]
  rfl

/-- C21: when the patch bank is missing and `installDriver` gets as far as
installing the driver and returns, the driver object is not in the
installed-driver list, `_serverDisabledCount` has its value from before the
call and so has the `_mutedCount` of every sound on the play list (the
counters are not negative before the call).  For the first driver of a
manager without voice groups, with `open()` succeeding, the call does return. -/
theorem installDriver_rolls_back_without_patch_bank (env : DriverEnv) (m : Manager)
    (driverNum : Int) (hbank : env.hasBank = false)
    (hnew : isInstalled m driverNum = false)
    (hdis : 0 ≤ m._serverDisabledCount)
    (hmuted : ∀ h ∈ m._playList, 0 ≤ (m.sound h)._mutedCount) :
    (∀ m1, installDriver env m driverNum = .ok m1 →
      env.newDriver ∉ m1._installedDrivers ∧
      m1._installedDrivers = m._installedDrivers.filter (fun d => d ≠ env.newDriver) ∧
      m1._serverDisabledCount = m._serverDisabledCount ∧
      m1._playList = m._playList ∧
      ∀ h ∈ m._playList, (m1.sound h)._mutedCount = (m.sound h)._mutedCount) ∧
    (∀ k, env.opens = true → env.fuel = k + 17 → driverNum = env.adlibDriverNum →
      m._installedDrivers = [] →
      (0x102 ≤ m._ourDrvResVersion ∧ m._ourDrvResVersion ≤ 0x10A) → noVoiceGroups m →
      ∃ m1, installDriver env m driverNum = .ok m1) := by
  constructor
  · intro m1 hr
    unfold installDriver at hr
    rw [if_neg (by rw [hnew]; decide)] at hr
    split at hr
    · cases hr
    split at hr
    · cases hr
    simp only [bind_eq_ok] at hr
    obtain ⟨m2, h2, r, h3, hr⟩ := hr
    split at hr
    · cases hr
    rw [if_neg (by rw [hbank]; decide)] at hr
    simp only [bind_eq_ok, map_eq_ok] at hr
    obtain ⟨m4, h4, m5, h5, rfl⟩ := hr
    unfold muteAll at h2 h5
    obtain ⟨a1, a2, a3, a4, a5⟩ := muteList_true _ _ _ h2
    obtain ⟨b1, b2, b3, b4⟩ := sfInstallDriver_frame _ _ _ _ h3
    obtain ⟨c1, c2, c3, c4⟩ := sfUnInstallDriver_frame _ _ _ _ h4
    have hr2 : r.2 = true := by
      cases hb : r.2 with
      | true => rfl
      | false => exact absurd hb (by assumption)
    have hpl4 : m4._playList = m._playList := by rw [c2, b2, a2]; rfl
    have hlen4 : m4.sounds.length = m.sounds.length := by rw [c1, b1, a1]; rfl
    have hs4 : ∀ x, m4.sound x = m2.sound x := by
      intro x
      unfold Manager.sound
      rw [c1, b1]
    have hen : ∀ mm : Manager, (enableSoundServer mm)._installedDrivers = mm._installedDrivers ∧
        (enableSoundServer mm)._playList = mm._playList ∧
        (enableSoundServer mm).sounds = mm.sounds := by
      intro mm
      unfold enableSoundServer
      split
      · exact ⟨rfl, rfl, rfl⟩
      · exact ⟨rfl, rfl, rfl⟩
    have hcount : ∀ x, (m4.sound x)._mutedCount = (m.sound x)._mutedCount +
        (if x < m.sounds.length then ((m._playList.count x : Nat) : Int) else 0) := by
      intro x
      rw [hs4, a5]
      rfl
    have hfalse : ∀ x, x ∈ m._playList →
        (m5.sound x)._mutedCount = (m.sound x)._mutedCount ∧
        m5._serverDisabledCount = m4._serverDisabledCount ∧
        m5._installedDrivers = m4._installedDrivers ∧ m5._playList = m4._playList := by
      intro x hx
      have h0 := hmuted x hx
      obtain ⟨_, d2, d3, d4, d5⟩ := muteList_false x _ _ _ (fun _ => by
        rw [hcount, hpl4, hlen4] at *
        split <;> omega) h5
      refine ⟨?_, d3, d4, d2⟩
      rw [d5, hcount, hpl4, hlen4]
      split <;> omega
    have hdis5 : m5._serverDisabledCount = m._serverDisabledCount + 1 ∧
        m5._installedDrivers = m4._installedDrivers ∧ m5._playList = m4._playList := by
      obtain ⟨_, d2, d3, d4, _⟩ := muteList_false m.sounds.length _ _ _ (fun hlt => by
        rw [hlen4] at hlt; omega) h5
      refine ⟨?_, d4, d2⟩
      rw [d3, c3, b3, a3]
      rfl
    have hdrv : (enableSoundServer m5)._installedDrivers =
        m._installedDrivers.filter (fun d => d ≠ env.newDriver) := by
      rw [(hen m5).1, hdis5.2.1, c4, b4 hr2, a4]
      show List.filter _ (m._installedDrivers ++ [env.newDriver]) = _
      rw [List.filter_append]
      simp
    refine ⟨?_, hdrv, ?_, ?_, ?_⟩
    · rw [hdrv]
      simp
    · unfold enableSoundServer
      rw [if_pos (by rw [hdis5.1]; omega)]
      show m5._serverDisabledCount - 1 = _
      rw [hdis5.1]
      omega
    · rw [(hen m5).2.1, hdis5.2.2, hpl4]
    · intro h hh
      have e : (enableSoundServer m5).sound h = m5.sound h := by
        unfold Manager.sound
        rw [(hen m5).2.2]
      rw [e]
      exact (hfalse h hh).1
  · intro k hopens hfuel hnum hnone hver hm
    subst hnum
    exact installDriver_returns env m k hbank hopens hfuel hnone hver hm

/-- Witness of C21: the Adlib driver installed without its patch bank into a
manager with two sounds on the play list, one of them muted, and the server
disabled twice. -/
theorem installDriver_rolls_back_without_patch_bank_witness :
    (noBankEnv.hasBank = false ∧ isInstalled noDriverManager 3 = false ∧
      0 ≤ noDriverManager._serverDisabledCount ∧
      ∀ h ∈ noDriverManager._playList, 0 ≤ (noDriverManager.sound h)._mutedCount) ∧
    ∃ m1, installDriver noBankEnv noDriverManager 3 = .ok m1 ∧
      (noBankEnv.newDriver ∉ m1._installedDrivers ∧
       m1._installedDrivers =
         noDriverManager._installedDrivers.filter (fun d => d ≠ noBankEnv.newDriver) ∧
       m1._serverDisabledCount = noDriverManager._serverDisabledCount ∧
       m1._playList = noDriverManager._playList ∧
       ∀ h ∈ noDriverManager._playList,
         (m1.sound h)._mutedCount = (noDriverManager.sound h)._mutedCount) :=
  ⟨⟨rfl, rfl, by decide, by decide⟩, _, rfl,
    (installDriver_rolls_back_without_patch_bank noBankEnv noDriverManager 3 rfl rfl
      (by decide) (by decide)).1 _ rfl⟩

/-! ## The TYPE_1 branch: eviction by a must-have channel -/

theorem foldl_max_spec (es : List VoiceStructEntry) (a : Int) :
    a ≤ es.foldl (fun acc e => max acc e._type1._priority2) a ∧
    (∀ e ∈ es, e._type1._priority2 ≤ es.foldl (fun acc e => max acc e._type1._priority2) a) ∧
    (es.foldl (fun acc e => max acc e._type1._priority2) a = a ∨
      ∃ e ∈ es, e._type1._priority2 = es.foldl (fun acc e => max acc e._type1._priority2) a) := by
  induction es generalizing a with
  | nil => exact ⟨le_refl _, fun e he => absurd he (List.not_mem_nil e), Or.inl rfl⟩
  | cons x xs ih =>
    obtain ⟨h1, h2, h3⟩ := ih (max a x._type1._priority2)
    simp only [List.foldl_cons]
    refine ⟨le_trans (le_max_left _ _) h1, ?_, ?_⟩
    · intro e he
      rcases List.mem_cons.1 he with rfl | he
      · exact le_trans (le_max_right _ _) h1
      · exact h2 e he
    · rcases h3 with h3 | ⟨e, he, h3⟩
      · rcases max_choice a x._type1._priority2 with hm | hm
        · left; rw [h3, hm]
        · right; exact ⟨x, List.mem_cons_self _ _, by rw [h3, hm]⟩
      · right; exact ⟨e, List.mem_cons_of_mem _ he, h3⟩

theorem maxPriority2_spec (es : List VoiceStructEntry) :
    0 ≤ maxPriority2 es ∧ (∀ e ∈ es, e._type1._priority2 ≤ maxPriority2 es) ∧
    (maxPriority2 es = 0 ∨ ∃ e ∈ es, e._type1._priority2 = maxPriority2 es) :=
  foldl_max_spec es 0

theorem maxPriority2_pos (es : List VoiceStructEntry)
    (h : 0 < es.countP (fun e => decide (0 < e._type1._priority2))) : 0 < maxPriority2 es := by
  rw [List.countP_pos_iff] at h
  obtain ⟨e, he, hp⟩ := h
  have := (maxPriority2_spec es).2.1 e he
  simp only [decide_eq_true_eq] at hp
  omega

theorem updGroup_of_getD (F : VoiceTypeStruct → VoiceTypeStruct) (g : Nat) (vts : VoiceTable)
    (vs : VoiceTypeStruct) (hg : vts.getD g none = some vs) :
    g < vts.length ∧ updGroup F g vts = vts.set g (some (F vs)) := by
  have hlt : g < vts.length := by
    by_contra hc
    rw [List.getD_eq_default _ _ (by omega)] at hg
    cases hg
  refine ⟨hlt, ?_⟩
  have hget : vts[g]? = some (some vs) := by
    rw [List.getD_eq_getElem?_getD, List.getElem?_eq_getElem hlt] at hg
    rw [List.getElem?_eq_getElem hlt]
    simp only [Option.getD_some] at hg
    rw [hg]
  apply List.ext_getElem?
  intro j
  unfold updGroup
  rw [getElem?_updAt, List.getElem?_set]
  by_cases hj : j = g
  · subst hj
    simp [hget, hlt]
  · rw [if_neg hj, if_neg (Ne.symm hj)]

theorem getD_set_group (vts : VoiceTable) (g : Nat) (v : VoiceTypeStruct) (hlt : g < vts.length) :
    (vts.set g (some v)).getD g none = some v := by
  simp [List.getD_eq_getElem?_getD, List.getElem?_set, hlt]

theorem evict_map_eq (es : List VoiceStructEntry) (M : Int)
    (hM : ∀ e ∈ es, e._type1._priority2 ≤ M) :
    (es.map fun e => if e._type1._priority2 = M then unpropose1 e else e) = evictFrom M es ∧
    es.countP (fun e => decide (e._type1._priority2 = M)) =
      es.countP (fun e => decide (M ≤ e._type1._priority2)) := by
  constructor
  · unfold evictFrom
    apply List.map_congr_left
    intro e he
    have := hM e he
    by_cases hc : e._type1._priority2 = M
    · rw [if_pos hc, if_pos (by omega)]
    · rw [if_neg hc, if_neg (by omega)]
  · apply List.countP_congr
    intro e he
    have := hM e he
    simp only [decide_eq_true_eq]
    omega

theorem evictFrom_evictFrom (es : List VoiceStructEntry) (M p : Int) (hp : 0 < p) (hpM : p ≤ M) :
    evictFrom p (evictFrom M es) = evictFrom p es ∧
    (evictFrom M es).countP (fun e => decide (p ≤ e._type1._priority2)) +
      es.countP (fun e => decide (M ≤ e._type1._priority2)) =
      es.countP (fun e => decide (p ≤ e._type1._priority2)) ∧
    (evictFrom M es).countP (fun e => decide (0 < e._type1._priority2)) +
      es.countP (fun e => decide (M ≤ e._type1._priority2)) =
      es.countP (fun e => decide (0 < e._type1._priority2)) := by
  induction es with
  | nil => exact ⟨rfl, rfl, rfl⟩
  | cons e es ih =>
    obtain ⟨h1, h2, h3⟩ := ih
    unfold evictFrom at h1 h2 h3 ⊢
    simp only [List.map_cons, List.countP_cons, List.cons.injEq, decide_eq_true_eq] at h1 h2 h3 ⊢
    by_cases hc : M ≤ e._type1._priority2
    · have e0 : (unpropose1 e)._type1._priority2 = 0 := rfl
      simp only [if_pos hc, e0, if_neg (show ¬ p ≤ 0 by omega), if_pos (show p ≤ e._type1._priority2 by omega),
        if_neg (show ¬ (0 : Int) < 0 by omega), if_pos (show 0 < e._type1._priority2 by omega)]
      refine ⟨⟨trivial, h1⟩, by omega, by omega⟩
    · simp only [if_neg hc]
      refine ⟨⟨trivial, h1⟩, ?_, ?_⟩
      · split <;> omega
      · split <;> omega

theorem evictLoop_spec (fuel g : Nat) (k n : Int) (vts : VoiceTable) (vs : VoiceTypeStruct)
    (hg : vts.getD g none = some vs)
    (hfuel : vs._entries.countP (fun e => decide (0 < e._type1._priority2)) < fuel)
    (hk : k > n)
    (henough : k ≤ n + (vs._entries.countP (fun e => decide (0 < e._type1._priority2)) : Nat)) :
    ∃ p, 0 < p ∧ p ≤ maxPriority2 vs._entries ∧
      evictLoop fuel g k n vts =
        .ok (vts.set g (some { vs with _entries := evictFrom p vs._entries }),
          n + (vs._entries.countP (fun e => decide (p ≤ e._type1._priority2)) : Nat)) ∧
      k ≤ n + (vs._entries.countP (fun e => decide (p ≤ e._type1._priority2)) : Nat) := by
  induction fuel generalizing n vts vs with
  | zero => omega
  | succ fuel ih =>
    obtain ⟨hM0, hMle, _⟩ := maxPriority2_spec vs._entries
    have hMpos : 0 < maxPriority2 vs._entries := maxPriority2_pos _ (by omega)
    obtain ⟨hmap, hcnt⟩ := evict_map_eq vs._entries _ hMle
    have hupd := fun F => (updGroup_of_getD F g vts vs hg).2
    have hlt := (updGroup_of_getD id g vts vs hg).1
    unfold evictLoop
    simp only [hg]
    rw [if_neg (by omega), hupd, hmap, hcnt]
    by_cases hmore : k > n + (vs._entries.countP
        (fun e => decide (maxPriority2 vs._entries ≤ e._type1._priority2)) : Nat)
    · rw [if_pos hmore]
      have hev := fun p hp hpM => evictFrom_evictFrom vs._entries (maxPriority2 vs._entries) p hp hpM
      have e3 := (hev 1 (by omega) (by omega)).2.2
      have hMone : 0 < vs._entries.countP
          (fun e => decide (maxPriority2 vs._entries ≤ e._type1._priority2)) := by
        rw [List.countP_pos_iff]
        obtain ⟨_, _, hmem⟩ := maxPriority2_spec vs._entries
        rcases hmem with h0 | ⟨e, he, hE⟩
        · omega
        · exact ⟨e, he, by simp only [decide_eq_true_eq]; omega⟩
      obtain ⟨p, hp0, hpM, hrun, hkp⟩ := ih
        (n + (vs._entries.countP
          (fun e => decide (maxPriority2 vs._entries ≤ e._type1._priority2)) : Nat))
        (vts.set g (some { vs with _entries := evictFrom (maxPriority2 vs._entries) vs._entries }))
        { vs with _entries := evictFrom (maxPriority2 vs._entries) vs._entries }
        (getD_set_group _ _ _ hlt) (by dsimp only; omega) hmore (by dsimp only; omega)
      dsimp only at hpM hrun hkp
      have hpM' : p ≤ maxPriority2 vs._entries := by
        obtain ⟨_, _, hmem⟩ := maxPriority2_spec (evictFrom (maxPriority2 vs._entries) vs._entries)
        rcases hmem with h0 | ⟨e, he, hE⟩
        · omega
        · unfold evictFrom at he
          rw [List.mem_map] at he
          obtain ⟨e0, he0, rfl⟩ := he
          have hle := hMle e0 he0
          have : (if maxPriority2 vs._entries ≤ e0._type1._priority2 then unpropose1 e0
              else e0)._type1._priority2 ≤ maxPriority2 vs._entries := by
            split
            · exact hM0
            · exact hle
          omega
      obtain ⟨f1, f2, _⟩ := hev p hp0 hpM'
      refine ⟨p, hp0, hpM', ?_, by omega⟩
      rw [hrun, f1, List.set_set]
      congr 2
      omega
    · rw [if_neg hmore]
      exact ⟨_, hMpos, le_refl _, rfl, by omega⟩

theorem claimVoicesBounded_count (h : Nat) (fi fp : Int) (es : List VoiceStructEntry) (k : Int)
    (hk : 0 ≤ k)
    (hfree : k ≤ (es.countP (fun e => decide (e._type1._sound2 = none)) : Nat)) :
    proposedFor h fi (claimVoicesBounded h fi fp es k) = proposedFor h fi es + k.toNat := by
  induction es generalizing k with
  | nil =>
    simp only [List.countP_nil, Nat.cast_zero] at hfree
    have : k = 0 := by omega
    subst this
    rfl
  | cons e es ih =>
    unfold claimVoicesBounded
    by_cases hpos : k > 0
    · rw [if_pos hpos]
      by_cases hnone : e._type1._sound2 = none
      · rw [if_pos hnone]
        simp only [List.countP_cons, hnone, decide_True, if_true] at hfree
        push_cast at hfree
        have h1 := ih (k - 1) (by omega) (by omega)
        unfold proposedFor at h1 ⊢
        simp only [List.countP_cons, hnone] at h1 ⊢
        rw [h1]
        simp only [propose1, and_self, decide_True, if_true, reduceCtorEq, false_and,
          decide_False, if_false, Bool.false_eq_true]
        omega
      · rw [if_neg hnone]
        simp only [List.countP_cons, hnone, decide_False, if_false, Bool.false_eq_true,
          add_zero] at hfree
        have h1 := ih k hk hfree
        unfold proposedFor at h1 ⊢
        rw [List.countP_cons, List.countP_cons, h1]
        omega
    · rw [if_neg hpos]
      have : k = 0 := by omega
      subst this
      rfl

theorem claimVoicesBounded_getElem (h : Nat) (fi fp : Int) (es : List VoiceStructEntry)
    (k : Int) (i : Nat) (e : VoiceStructEntry) (hi : es[i]? = some e) :
    (claimVoicesBounded h fi fp es k)[i]? = some e ∨
    (e._type1._sound2 = none ∧
      (claimVoicesBounded h fi fp es k)[i]? = some (propose1 h fi fp e)) := by
  induction es generalizing k i with
  | nil => simp at hi
  | cons x xs ih =>
    unfold claimVoicesBounded
    cases i with
    | zero =>
      simp only [List.getElem?_cons_zero, Option.some.injEq] at hi
      subst hi
      by_cases hpos : k > 0
      · rw [if_pos hpos]
        by_cases hn : x._type1._sound2 = none
        · rw [if_pos hn]; right; exact ⟨hn, by simp⟩
        · rw [if_neg hn]; left; simp
      · rw [if_neg hpos]; left; simp
    | succ i =>
      simp only [List.getElem?_cons_succ] at hi
      by_cases hpos : k > 0
      · rw [if_pos hpos]
        by_cases hn : x._type1._sound2 = none
        · rw [if_pos hn]
          simp only [List.getElem?_cons_succ]; exact ih _ _ hi
        · rw [if_neg hn]
          simp only [List.getElem?_cons_succ]; exact ih _ _ hi
      · rw [if_neg hpos]
        simp only [List.getElem?_cons_succ]; left; exact hi

theorem evictFrom_free (p : Int) (hp : 0 < p) (es : List VoiceStructEntry)
    (hfree : ∀ e ∈ es, e._type1._sound2 = none → e._type1._priority2 = 0) :
    (evictFrom p es).countP (fun e => decide (e._type1._sound2 = none)) =
      es.countP (fun e => decide (e._type1._sound2 = none)) +
      es.countP (fun e => decide (p ≤ e._type1._priority2)) := by
  induction es with
  | nil => rfl
  | cons e es ih =>
    have h1 := ih (fun x hx => hfree x (List.mem_cons_of_mem _ hx))
    have h2 := hfree e (List.mem_cons_self _ _)
    unfold evictFrom at h1 ⊢
    simp only [List.map_cons, List.countP_cons, decide_eq_true_eq] at h1 ⊢
    rw [h1]
    by_cases hc : p ≤ e._type1._priority2
    · have hn : e._type1._sound2 ≠ none := fun hx => by
        have := h2 hx
        omega
      have e0 : (unpropose1 e)._type1._sound2 = none := rfl
      simp only [if_pos hc, e0, if_true, hn, if_false]
      omega
    · simp only [if_neg hc]
      omega

theorem evictFrom_proposedFor (p : Int) (h : Nat) (fi : Int) (es : List VoiceStructEntry)
    (hnew : proposedFor h fi es = 0) : proposedFor h fi (evictFrom p es) = 0 := by
  unfold proposedFor at hnew ⊢
  rw [List.countP_eq_zero] at hnew ⊢
  intro e he
  unfold evictFrom at he
  rw [List.mem_map] at he
  obtain ⟨e0, he0, rfl⟩ := he
  split
  · simp [unpropose1]
  · exact hnew e0 he0

/-- C23 as stated fails: a group whose nine occupants all have the nonzero
proposed priority -4 and whose pool is empty; a channel with encoded priority
0 that needs one voice evicts nobody, ends the step with no entry proposed for
it and leaves `_numVoices = -1`.  A full pass reaches this state: sound 0 at
play-list position 0 with sub-priority 20 takes all nine voices at priority
`16 - 20 + 0 = -4`, and sound 1 with sub-priority 0 ends with none. -/
theorem negative_priority_occupants_are_not_evicted :
    proposedPriorities negativeTable 1 = List.replicate 9 (-4) ∧
    negativeGroup._numVoices = 0 ∧
    stepSummary (rethinkType1 1 1 0 1 1 negativeGroup negativeTable) 1 1 1 =
      some (Flow.again, -1, 0) ∧
    encodedPriority ((negativeContend.sound 0)._chSubPriority.getD 0 0) 0 = -4 ∧
    encodedPriority ((negativeContend.sound 1)._chSubPriority.getD 1 0) 16 = 0 ∧
    proposedPriorities (proposalsOf negativeContend) 1 = List.replicate 9 (-4) ∧
    holders (_sfRethinkVoiceTypes negativeContend) 1 0 = some 9 ∧
    holders (_sfRethinkVoiceTypes negativeContend) 1 1 = some 0 := by
  refine ⟨?_, ?_, ?_, ?_, ?_, ?_, ?_, ?_⟩ <;> decide

/-- C23 (amended): in the TYPE_1 branch, for a channel with encoded priority 0
whose required voice count `k` exceeds the pool `_numVoices` of the group,
where the pool plus the occupants with a positive proposed priority number at
least `k` (the pool is not negative and not larger than the number of free
entries, free entries have priority 0, and no entry is proposed for this
channel yet): the step returns and goes on with the next channel; there is a
threshold `p > 0` such that exactly the proposals with priority at least `p`
were cleared, every occupant with a smaller priority is left in place, so
every evicted entry had a greater priority than every occupant left in place;
exactly `k` entries are proposed for the channel, and `_numVoices` is the
old pool plus the number of evicted entries minus `k`. -/
theorem must_have_channel_evicts_highest_priorities
    (h : Nat) (foundIndex k : Int) (g : Nat) (vs : VoiceTypeStruct) (vts : VoiceTable)
    (hg : vts.getD g none = some vs)
    (hpool0 : 0 ≤ vs._numVoices)
    (hk : k > vs._numVoices)
    (hpool : vs._numVoices ≤
      (vs._entries.countP (fun e => decide (e._type1._sound2 = none)) : Nat))
    (hfree : ∀ e ∈ vs._entries, e._type1._sound2 = none → e._type1._priority2 = 0)
    (henough : k ≤ vs._numVoices +
      (vs._entries.countP (fun e => decide (0 < e._type1._priority2)) : Nat))
    (hnew : proposedFor h foundIndex vs._entries = 0) :
    ∃ p es1, 0 < p ∧
      rethinkType1 h foundIndex 0 k g vs vts =
        .ok (Flow.again, vts.set g (some { vs with
          _entries := es1,
          _numVoices := vs._numVoices +
            (vs._entries.countP (fun e => decide (p ≤ e._type1._priority2)) : Nat) - k })) ∧
      es1 = claimVoicesBounded h foundIndex 0 (evictFrom p vs._entries) k ∧
      (proposedFor h foundIndex es1 : Int) = k ∧
      (∀ (i : Nat) (e : VoiceStructEntry), vs._entries[i]? = some e → e._type1._sound2 ≠ none →
        e._type1._priority2 < p → es1[i]? = some e) ∧
      (∀ (i : Nat) (e : VoiceStructEntry), vs._entries[i]? = some e → p ≤ e._type1._priority2 →
        es1[i]? = some (unpropose1 e) ∨
        es1[i]? = some (propose1 h foundIndex 0 (unpropose1 e))) ∧
      (∀ e ∈ vs._entries, ∀ x ∈ vs._entries, p ≤ e._type1._priority2 →
        x._type1._priority2 < p → x._type1._priority2 < e._type1._priority2) := by
  obtain ⟨p, hp0, _, hrun, hkp⟩ := evictLoop_spec (vs._entries.length + 1) g k vs._numVoices
    vts vs hg (Nat.lt_succ_of_le (List.countP_le_length _)) hk henough
  obtain ⟨hlt, _⟩ := updGroup_of_getD id g vts vs hg
  refine ⟨p, claimVoicesBounded h foundIndex 0 (evictFrom p vs._entries) k, hp0, ?_, rfl,
    ?_, ?_, ?_, ?_⟩
  · unfold rethinkType1
    dsimp only
    rw [if_neg (by omega), if_pos rfl, hrun]
    simp only [Except.map]
    rw [(updGroup_of_getD _ g _ _ (getD_set_group vts g _ hlt)).2, List.set_set]
  · have hfr := evictFrom_free p hp0 vs._entries hfree
    rw [claimVoicesBounded_count h foundIndex 0 (evictFrom p vs._entries) k (by omega)
      (by rw [hfr]; push_cast; omega), evictFrom_proposedFor p h foundIndex _ hnew]
    simp only [zero_add]
    exact Int.toNat_of_nonneg (by omega)
  · intro i e hi hocc hlow
    have hi2 : (evictFrom p vs._entries)[i]? = some e := by
      unfold evictFrom
      rw [List.getElem?_map, hi]
      simp only [Option.map_some', Option.some.injEq]
      rw [if_neg (by omega)]
    rcases claimVoicesBounded_getElem h foundIndex 0 _ k i e hi2 with h1 | ⟨h1, _⟩
    · exact h1
    · exact absurd h1 hocc
  · intro i e hi hhigh
    have hi2 : (evictFrom p vs._entries)[i]? = some (unpropose1 e) := by
      unfold evictFrom
      rw [List.getElem?_map, hi]
      simp only [Option.map_some', Option.some.injEq]
      rw [if_pos hhigh]
    rcases claimVoicesBounded_getElem h foundIndex 0 _ k i _ hi2 with h1 | ⟨_, h1⟩
    · left; exact h1
    · right; exact h1
  · intro e _ x _ h1 h2
    omega

/-- Witness of the amended C23: the full Adlib group of the fixture (nine
proposals at priority 27) and a channel of sound 1 that needs one voice. -/
theorem must_have_channel_evicts_highest_priorities_witness :
    (fullTable.getD 1 none = some fullGroup ∧ 0 ≤ fullGroup._numVoices ∧
      (1 : Int) > fullGroup._numVoices ∧
      fullGroup._numVoices ≤
        (fullGroup._entries.countP (fun e => decide (e._type1._sound2 = none)) : Nat) ∧
      (∀ e ∈ fullGroup._entries, e._type1._sound2 = none → e._type1._priority2 = 0) ∧
      (1 : Int) ≤ fullGroup._numVoices +
        (fullGroup._entries.countP (fun e => decide (0 < e._type1._priority2)) : Nat) ∧
      proposedFor 1 1 fullGroup._entries = 0) ∧
    stepSummary (rethinkType1 1 1 0 1 1 fullGroup fullTable) 1 1 1 = some (Flow.again, 8, 1) ∧
    ∃ p es1, 0 < p ∧
      rethinkType1 1 1 0 1 1 fullGroup fullTable =
        .ok (Flow.again, fullTable.set 1 (some { fullGroup with
          _entries := es1,
          _numVoices := fullGroup._numVoices +
            (fullGroup._entries.countP (fun e => decide (p ≤ e._type1._priority2)) : Nat) - 1 })) ∧
      (proposedFor 1 1 es1 : Int) = 1 :=
  ⟨⟨rfl, by decide, by decide, by decide, by decide, by decide, by decide⟩, by decide,
    (must_have_channel_evicts_highest_priorities 1 1 1 1 fullGroup fullTable rfl (by decide)
      (by decide) (by decide) (by decide) (by decide) (by decide)).imp fun _ hp =>
        hp.imp fun _ hq => ⟨hq.1, hq.2.1, hq.2.2.2.1⟩⟩

/-! ## Muted and paused sounds hold no voice -/

theorem entryOk_type1 (P : Option Nat → Prop) (ty : Int) (e e1 : VoiceStructEntry)
    (h0 : e1._type0 = e._type0)
    (h1 : P e._type1._sound ∧ P e._type1._sound2 → P e1._type1._sound ∧ P e1._type1._sound2)
    (he : entryOk P ty e) : entryOk P ty e1 :=
  ⟨fun h => by rw [h0]; exact he.1 h, fun h => h1 (he.2 h)⟩

theorem entryOk_type0 (P : Option Nat → Prop) (ty : Int) (e e1 : VoiceStructEntry)
    (h0 : e1._type1 = e._type1)
    (h1 : P e._type0._sound ∧ P e._type0._sound2 → P e1._type0._sound ∧ P e1._type0._sound2)
    (he : entryOk P ty e) : entryOk P ty e1 :=
  ⟨fun h => h1 (he.1 h), fun h => by rw [h0]; exact he.2 h⟩

theorem entryOk_default (P : Option Nat → Prop) (hnone : P none) (ty : Int) :
    entryOk P ty default :=
  ⟨fun _ => ⟨hnone, hnone⟩, fun _ => ⟨hnone, hnone⟩⟩

theorem entryOk_getD (P : Option Nat → Prop) (hnone : P none) (ty : Int)
    (es : List VoiceStructEntry) (hes : ∀ e ∈ es, entryOk P ty e) (idx : Nat) :
    entryOk P ty (es.getD idx default) := by
  rcases getD_mem_or_default es idx with h | h
  · exact hes _ h
  · rw [h]; exact entryOk_default P hnone ty

theorem entryOk_updAt (P : Option Nat → Prop) (ty : Int) (f : VoiceStructEntry → VoiceStructEntry)
    (i : Nat) (es : List VoiceStructEntry) (hes : ∀ e ∈ es, entryOk P ty e)
    (hf : ∀ e, entryOk P ty e → entryOk P ty (f e)) :
    ∀ e ∈ updAt f i es, entryOk P ty e := by
  intro e he
  rcases mem_updAt f i es e he with h | ⟨a, ha, rfl⟩
  · exact hes e h
  · exact hf a (hes a ha)

theorem tableOk_map (P : Option Nat → Prop) (f : VoiceTypeStruct → VoiceTypeStruct)
    (hf : ∀ vs, groupOk P vs → groupOk P (f vs)) (vts : VoiceTable) (h : tableOk P vts) :
    tableOk P (vts.map (Option.map f)) := by
  intro vs hvs
  rw [List.mem_map] at hvs
  obtain ⟨slot, hslot, hmap⟩ := hvs
  cases slot with
  | none => cases hmap
  | some v =>
    simp only [Option.map_some', Option.some.injEq] at hmap
    subst hmap
    exact hf v (h v hslot)

theorem tableOk_updGroup (P : Option Nat → Prop) (f : VoiceTypeStruct → VoiceTypeStruct)
    (hf : ∀ vs, groupOk P vs → groupOk P (f vs)) (g : Nat) (vts : VoiceTable)
    (h : tableOk P vts) : tableOk P (updGroup f g vts) := by
  intro vs hvs
  unfold updGroup at hvs
  rcases mem_updAt _ g vts _ hvs with h1 | ⟨slot, hslot, hmap⟩
  · exact h vs h1
  · cases slot with
    | none => cases hmap
    | some v =>
      simp only [Option.map_some', Option.some.injEq] at hmap
      subst hmap
      exact hf v (h v hslot)

theorem mem_of_getD_some (vts : VoiceTable) (g : Nat) (vs : VoiceTypeStruct)
    (hg : vts.getD g none = some vs) : some vs ∈ vts := by
  have hlt : g < vts.length := by
    by_contra hc
    rw [List.getD_eq_default _ _ (by omega)] at hg
    cases hg
  rw [List.getD_eq_getElem?_getD, List.getElem?_eq_getElem hlt] at hg
  simp only [Option.getD_some] at hg
  rw [← hg]
  exact List.getElem_mem _

theorem tableOk_setEntries (P : Option Nat → Prop) (g : Nat) (vts : VoiceTable)
    (vs : VoiceTypeStruct) (es : List VoiceStructEntry) (hg : vts.getD g none = some vs)
    (h : tableOk P vts) (hes : ∀ e ∈ es, entryOk P vs._voiceType e) :
    tableOk P (setEntries g es vts) := by
  intro v hv
  unfold setEntries at hv
  rw [(updGroup_of_getD _ g vts vs hg).2] at hv
  rcases List.mem_or_eq_of_mem_set hv with h1 | h1
  · exact h v h1
  · simp only [Option.some.injEq] at h1
    subst h1
    exact hes

theorem groupOk_updateVoiceStruct (P : Option Nat → Prop) (vs : VoiceTypeStruct)
    (h : groupOk P vs) : groupOk P (updateVoiceStruct vs) := by
  unfold updateVoiceStruct
  split
  · rename_i hty
    intro e he
    simp only [List.mem_map] at he
    obtain ⟨a, ha, rfl⟩ := he
    exact entryOk_type0 P _ a _ rfl (fun hp => ⟨hp.2, hp.2⟩) (h a ha)
  · rename_i hty
    intro e he
    simp only [List.mem_map] at he
    obtain ⟨a, ha, rfl⟩ := he
    exact entryOk_type1 P _ a _ rfl (fun hp => ⟨hp.2, hp.2⟩) (h a ha)

theorem tableOk_updateVoiceStructs (P : Option Nat → Prop) (vts : VoiceTable)
    (h : tableOk P vts) : tableOk P (_sfUpdateVoiceStructs vts) :=
  tableOk_map P _ (groupOk_updateVoiceStruct P) vts h

theorem tableOk_updateVoiceStructs2 (P : Option Nat → Prop) (vts : VoiceTable)
    (h : tableOk P vts) : tableOk P (_sfUpdateVoiceStructs2 vts) := by
  refine tableOk_map P _ (fun vs hvs => ?_) vts h
  intro e he
  simp only [List.mem_map] at he
  obtain ⟨a, ha, rfl⟩ := he
  have := hvs a ha
  split
  · rename_i hty
    exact entryOk_type0 P _ a _ rfl (fun hp => ⟨hp.1, hp.1⟩) this
  · rename_i hty
    exact entryOk_type1 P _ a _ rfl (fun hp => ⟨hp.1, hp.1⟩) this

theorem tableOk_rethinkPre (P : Option Nat → Prop) (hnone : P none) (vts : VoiceTable) :
    tableOk P (rethinkPre vts) := by
  intro vs hvs
  unfold rethinkPre at hvs
  rw [List.mem_map] at hvs
  obtain ⟨slot, _, hmap⟩ := hvs
  cases slot with
  | none => cases hmap
  | some v =>
    simp only [Option.map_some', Option.some.injEq] at hmap
    subst hmap
    unfold rethinkPreGroup
    split
    · intro e he
      simp only [List.mem_map] at he
      obtain ⟨a, _, rfl⟩ := he
      exact ⟨fun _ => ⟨hnone, hnone⟩, fun hc => absurd (by assumption) hc⟩
    · intro e he
      simp only [List.mem_map] at he
      obtain ⟨a, _, rfl⟩ := he
      exact ⟨fun hc => absurd hc (by assumption), fun _ => ⟨hnone, hnone⟩⟩

theorem tableOk_updGroup_at (P : Option Nat → Prop) (F : VoiceTypeStruct → VoiceTypeStruct)
    (g : Nat) (vts : VoiceTable) (vs : VoiceTypeStruct) (hg : vts.getD g none = some vs)
    (h : tableOk P vts) (hF : groupOk P (F vs)) : tableOk P (updGroup F g vts) := by
  intro v hv
  rw [(updGroup_of_getD F g vts vs hg).2] at hv
  rcases List.mem_or_eq_of_mem_set hv with h1 | h1
  · exact h v h1
  · simp only [Option.some.injEq] at h1
    subst h1
    exact hF

theorem entryOk_propose1 (P : Option Nat → Prop) (h : Nat) (fi fp : Int) (ty : Int)
    (e : VoiceStructEntry) (hh : P (some h)) (he : entryOk P ty e) :
    entryOk P ty (propose1 h fi fp e) :=
  entryOk_type1 P ty e _ rfl (fun hp => ⟨hp.1, hh⟩) he

theorem entryOk_unpropose1 (P : Option Nat → Prop) (hnone : P none) (ty : Int)
    (e : VoiceStructEntry) (he : entryOk P ty e) : entryOk P ty (unpropose1 e) :=
  entryOk_type1 P ty e _ rfl (fun hp => ⟨hp.1, hnone⟩) he

theorem entryOk_propose0 (P : Option Nat → Prop) (h : Nat) (fi fp f12 : Int) (ty : Int)
    (e : VoiceStructEntry) (hh : P (some h)) (he : entryOk P ty e) :
    entryOk P ty (propose0 h fi fp f12 e) :=
  entryOk_type0 P ty e _ rfl (fun hp => ⟨hp.1, hh⟩) he

theorem claimVoices_ok (P : Option Nat → Prop) (h : Nat) (fi fp : Int) (ty : Int)
    (hh : P (some h)) (es es1 : List VoiceStructEntry) (k : Int)
    (hr : claimVoices h fi fp es k = .ok es1) (hes : ∀ e ∈ es, entryOk P ty e) :
    ∀ e ∈ es1, entryOk P ty e := by
  induction es generalizing k es1 with
  | nil =>
    unfold claimVoices at hr
    split at hr
    · cases hr
    · simp only [Except.ok.injEq] at hr
      subst hr
      exact hes
  | cons x xs ih =>
    have hx := hes x (List.mem_cons_self _ _)
    have hxs : ∀ e ∈ xs, entryOk P ty e := fun e he => hes e (List.mem_cons_of_mem _ he)
    unfold claimVoices at hr
    split at hr
    · split at hr
      · simp only [map_eq_ok] at hr
        obtain ⟨r, hr1, rfl⟩ := hr
        intro e he
        rcases List.mem_cons.1 he with rfl | he
        · exact entryOk_propose1 P h fi fp ty x hh hx
        · exact ih _ _ hr1 hxs e he
      · simp only [map_eq_ok] at hr
        obtain ⟨r, hr1, rfl⟩ := hr
        intro e he
        rcases List.mem_cons.1 he with rfl | he
        · exact hx
        · exact ih _ _ hr1 hxs e he
    · simp only [Except.ok.injEq] at hr
      subst hr
      exact hes

theorem claimVoicesBounded_ok (P : Option Nat → Prop) (h : Nat) (fi fp : Int) (ty : Int)
    (hh : P (some h)) (es : List VoiceStructEntry) (k : Int)
    (hes : ∀ e ∈ es, entryOk P ty e) :
    ∀ e ∈ claimVoicesBounded h fi fp es k, entryOk P ty e := by
  induction es generalizing k with
  | nil => intro e he; simp [claimVoicesBounded] at he
  | cons x xs ih =>
    have hx := hes x (List.mem_cons_self _ _)
    have hxs : ∀ e ∈ xs, entryOk P ty e := fun e he => hes e (List.mem_cons_of_mem _ he)
    unfold claimVoicesBounded
    split
    · split
      · intro e he
        rcases List.mem_cons.1 he with rfl | he
        · exact entryOk_propose1 P h fi fp ty x hh hx
        · exact ih _ hxs e he
      · intro e he
        rcases List.mem_cons.1 he with rfl | he
        · exact hx
        · exact ih _ hxs e he
    · exact hes

theorem evictLoop_ok (P : Option Nat → Prop) (hnone : P none) (fuel g : Nat) (k n : Int)
    (vts : VoiceTable) (r : VoiceTable × Int) (hr : evictLoop fuel g k n vts = .ok r)
    (h : tableOk P vts) : tableOk P r.1 := by
  induction fuel generalizing n vts with
  | zero => cases hr
  | succ fuel ih =>
    unfold evictLoop at hr
    split at hr
    · cases hr
    · dsimp only at hr
      have hstep : ∀ M : Int, tableOk P (updGroup (fun vs => { vs with
          _entries := vs._entries.map fun e =>
            if e._type1._priority2 = M then unpropose1 e else e }) g vts) := by
        intro M
        refine tableOk_updGroup P _ (fun vs hvs => ?_) g vts h
        intro e he
        simp only [List.mem_map] at he
        obtain ⟨a, ha, rfl⟩ := he
        split
        · exact entryOk_unpropose1 P hnone _ a (hvs a ha)
        · exact hvs a ha
      split at hr
      · simp only [Except.ok.injEq] at hr
        subst hr
        exact tableOk_updateVoiceStructs2 P vts h
      · split at hr
        · exact ih _ _ hr (hstep _)
        · simp only [Except.ok.injEq] at hr
          subst hr
          exact hstep _

theorem rethinkType1_ok (P : Option Nat → Prop) (hnone : P none) (h : Nat) (fi fp k : Int)
    (g : Nat) (vs : VoiceTypeStruct) (vts : VoiceTable) (r : Flow × VoiceTable)
    (hh : P (some h)) (hg : vts.getD g none = some vs)
    (hr : rethinkType1 h fi fp k g vs vts = .ok r) (ht : tableOk P vts) : tableOk P r.2 := by
  unfold rethinkType1 at hr
  dsimp only at hr
  split at hr
  · simp only [map_eq_ok] at hr
    obtain ⟨es, hes, rfl⟩ := hr
    refine tableOk_updGroup_at P _ g vts vs hg ht ?_
    exact claimVoices_ok P h fi fp _ hh _ _ _ hes (ht vs (mem_of_getD_some vts g vs hg))
  · split at hr
    · simp only [map_eq_ok] at hr
      obtain ⟨r1, hr1, rfl⟩ := hr
      refine tableOk_updGroup P _ (fun v hv => ?_) g _ (evictLoop_ok P hnone _ _ _ _ _ _ hr1 ht)
      exact claimVoicesBounded_ok P h fi fp _ hh _ _ hv
    · split at hr
      · simp only [Except.ok.injEq] at hr
        subst hr; exact ht
      · simp only [Except.ok.injEq] at hr
        subst hr; exact ht

theorem rd_mem {α : Type} (l : List α) (i : Int) (a : α) (h : rd l i = .ok a) : a ∈ l := by
  unfold rd at h
  split at h
  · cases h
  · split at h
    · rename_i b hb
      simp only [Except.ok.injEq] at h
      subst h
      rw [List.get?_eq_getElem?] at hb
      exact List.mem_iff_getElem?.2 ⟨_, hb⟩
    · cases h

theorem rd_getD_some (vts : VoiceTable) (i : Int) (vs : VoiceTypeStruct)
    (h : rd vts i = .ok (some vs)) : vts.getD i.toNat none = some vs := by
  unfold rd at h
  split at h
  · cases h
  · split at h
    · rename_i b hb
      simp only [Except.ok.injEq] at h
      subst h
      rw [List.get?_eq_getElem?] at hb
      simp [List.getD_eq_getElem?_getD, hb]
    · cases h

theorem rethinkMode1Tail_ok (P : Option Nat → Prop) (h : Nat) (fi fp : Int)
    (g : Nat) (vs : VoiceTypeStruct) (vts : VoiceTable) (r : Flow × VoiceTable)
    (hh : P (some h)) (hg : vts.getD g none = some vs)
    (hr : rethinkMode1Tail h fi fp g vs vts = .ok r) (ht : tableOk P vts) : tableOk P r.2 := by
  have hvs := ht vs (mem_of_getD_some vts g vs hg)
  have hcopy : ∀ (src : VoiceStructEntry) (f12 : Option Int), src ∈ vs._entries →
      ∀ e, entryOk P vs._voiceType e → entryOk P vs._voiceType
        { e with _type0 := { e._type0 with
          _sound2 := src._type0._sound2, _channelNum2 := src._type0._channelNum2
          _priority2 := src._type0._priority2
          _field12 := f12.getD e._type0._field12 } } := by
    intro src f12 hsrc e he
    refine ⟨fun hty => ⟨(he.1 hty).1, ((hvs src hsrc).1 hty).2⟩, fun hty => he.2 hty⟩
  unfold rethinkMode1Tail at hr
  dsimp only at hr
  split at hr
  · split at hr
    · simp only [Except.ok.injEq] at hr
      subst hr; exact ht
    · simp only [Except.ok.injEq] at hr
      subst hr; exact tableOk_updateVoiceStructs2 P vts ht
  · split at hr
    · simp only [map_eq_ok] at hr
      obtain ⟨src, hsrc, rfl⟩ := hr
      refine tableOk_setEntries P g vts vs _ hg ht ?_
      refine entryOk_updAt P _ _ _ _ ?_ (fun e he => entryOk_propose0 P h _ _ _ _ e hh he)
      exact entryOk_updAt P _ _ _ _ hvs (fun e he => hcopy src none (rd_mem _ _ _ hsrc) e he)
    · split at hr
      · simp only [Except.ok.injEq] at hr
        subst hr; exact ht
      · split at hr
        · simp only [Except.ok.injEq] at hr
          subst hr; exact tableOk_updateVoiceStructs2 P vts ht
        · simp only [map_eq_ok] at hr
          obtain ⟨src, hsrc, rfl⟩ := hr
          refine tableOk_setEntries P g vts vs _ hg ht ?_
          refine entryOk_updAt P _ _ _ _ ?_ (fun e he => entryOk_propose0 P h _ _ _ _ e hh he)
          split
          · exact entryOk_updAt P _ _ _ _ hvs
              (fun e he => hcopy src (some src._type0._field12) (rd_mem _ _ _ hsrc) e he)
          · exact hvs

theorem rethinkType0_ok (P : Option Nat → Prop) (h : Nat) (s : Sound) (fi fp : Int)
    (g : Nat) (vs : VoiceTypeStruct) (vts : VoiceTable) (r : Flow × VoiceTable)
    (hh : P (some h)) (hg : vts.getD g none = some vs)
    (hr : rethinkType0 h s fi fp g vs vts = .ok r) (ht : tableOk P vts) : tableOk P r.2 := by
  have hvs := ht vs (mem_of_getD_some vts g vs hg)
  have hprop : ∀ (a b c : Int) (i : Nat), tableOk P (setEntries g
      (updAt (propose0 h a b c) i vs._entries) vts) := by
    intro a b c i
    refine tableOk_setEntries P g vts vs _ hg ht ?_
    exact entryOk_updAt P _ _ _ _ hvs (fun e he => entryOk_propose0 P h _ _ _ _ e hh he)
  unfold rethinkType0 at hr
  dsimp only at hr
  split at hr
  · simp only [Except.ok.injEq] at hr
    subst hr; exact ht
  · simp only [bind_eq_ok] at hr
    obtain ⟨chFlags, _, hr⟩ := hr
    split at hr
    · split at hr
      · simp only [Except.ok.injEq] at hr
        subst hr; exact hprop _ _ _ _
      · split at hr
        · simp only [Except.ok.injEq] at hr
          subst hr; exact ht
        · split at hr
          · simp only [Except.ok.injEq] at hr
            subst hr; exact hprop _ _ _ _
          · simp only [Except.ok.injEq] at hr
            subst hr; exact tableOk_updateVoiceStructs2 P vts ht
    · split at hr
      · simp only [Except.ok.injEq] at hr
        subst hr; exact hprop _ _ _ _
      · split at hr
        · simp only [Except.ok.injEq] at hr
          subst hr; exact ht
        · split at hr
          · simp only [Except.ok.injEq] at hr
            subst hr; exact tableOk_updateVoiceStructs2 P vts ht
          · exact rethinkMode1Tail_ok P h _ fp g vs vts r hh hg hr ht

theorem rethinkChannels_ok (P : Option Nat → Prop) (hnone : P none) (h : Nat) (s : Sound)
    (off : Int) (hh : P (some h)) (fuel : Nat) (w : List Bool) (vts : VoiceTable)
    (r : List Bool × VoiceTable) (hr : rethinkChannels h s off fuel w vts = .ok r)
    (ht : tableOk P vts) : tableOk P r.2 := by
  induction fuel generalizing w vts with
  | zero => cases hr
  | succ fuel ih =>
    unfold rethinkChannels at hr
    dsimp only at hr
    split at hr
    · simp only [Except.ok.injEq] at hr
      subst hr; exact ht
    · simp only [bind_eq_ok] at hr
      obtain ⟨k, _, w1, _, vt, _, slot, hslot, hr⟩ := hr
      cases slot with
      | none =>
        dsimp only at hr
        split at hr
        · exact ih _ _ hr ht
        · simp only [Except.ok.injEq] at hr
          subst hr; exact tableOk_updateVoiceStructs2 P vts ht
      | some vs =>
        dsimp only at hr
        simp only [bind_eq_ok] at hr
        obtain ⟨r1, hr1, hr⟩ := hr
        have hg := rd_getD_some vts vt vs hslot
        have ht1 : tableOk P r1.2 := by
          split at hr1
          · exact rethinkType1_ok P hnone h _ _ _ _ vs vts r1 hh hg hr1 ht
          · exact rethinkType0_ok P h s _ _ _ vs vts r1 hh hg hr1 ht
        cases hfl : r1.1 with
        | again =>
          rw [hfl] at hr
          exact ih _ _ hr ht1
        | leave =>
          rw [hfl] at hr
          simp only [Except.ok.injEq] at hr
          subst hr; exact ht1

theorem rethinkMain_ok (P : Option Nat → Prop) (hnone : P none) (sounds0 : List Sound)
    (hP : ∀ h, (sounds0.getD h default)._mutedCount = 0 →
      (sounds0.getD h default)._pausedCount = 0 → P (some h))
    (pl : List Nat) (off : Int) (sounds : List Sound) (vts : VoiceTable)
    (r : List Sound × VoiceTable)
    (hs : ∀ x, (sounds.getD x default)._mutedCount = (sounds0.getD x default)._mutedCount ∧
      (sounds.getD x default)._pausedCount = (sounds0.getD x default)._pausedCount)
    (hr : rethinkMain pl off sounds vts = .ok r) (ht : tableOk P vts) : tableOk P r.2 := by
  induction pl generalizing off sounds vts with
  | nil =>
    simp only [rethinkMain, Except.ok.injEq] at hr
    subst hr; exact ht
  | cons h rest ih =>
    unfold rethinkMain at hr
    simp only at hr
    split at hr
    · exact ih _ _ _ hs hr ht
    · rename_i hact
      simp only [bind_eq_ok] at hr
      obtain ⟨c, hc, hr⟩ := hr
      have hzero : (sounds.getD h default)._mutedCount = 0 ∧
          (sounds.getD h default)._pausedCount = 0 := by
        constructor
        · by_contra hne; exact hact (Or.inl hne)
        · by_contra hne; exact hact (Or.inr hne)
      have hh : P (some h) := hP h (by rw [← (hs h).1]; exact hzero.1)
        (by rw [← (hs h).2]; exact hzero.2)
      refine ih _ _ _ (fun x => ?_) hr
        (rethinkChannels_ok P hnone h _ _ hh _ _ _ _ hc (tableOk_updateVoiceStructs P vts ht))
      rcases getD_setChWork sounds h x c.1 with h3 | h3
      · rw [h3]; exact hs x
      · rw [h3]; exact hs x

theorem forall_mem_updAt {α : Type} (Q : α → Prop) (f : α → α) (i : Nat) (l : List α)
    (hl : ∀ e ∈ l, Q e) (hf : ∀ e, Q e → Q (f e)) : ∀ e ∈ updAt f i l, Q e := by
  intro e he
  rcases mem_updAt f i l e he with h | ⟨a, ha, rfl⟩
  · exact hl e h
  · exact hf a (hl a ha)

theorem forall_getD (Q : VoiceStructEntry → Prop) (hd : Q default)
    (es : List VoiceStructEntry) (hes : ∀ e ∈ es, Q e) (idx : Nat) :
    Q (es.getD idx default) := by
  rcases getD_mem_or_default es idx with h | h
  · exact hes _ h
  · rw [h]; exact hd

theorem foldlM_preserves {σ α : Type} (Inv : σ → Prop) (f : σ → α → Except Fault σ)
    (hf : ∀ s a s1, Inv s → f s a = .ok s1 → Inv s1) (l : List α) (s s1 : σ)
    (h0 : Inv s) (hr : l.foldlM f s = .ok s1) : Inv s1 := by
  induction l generalizing s with
  | nil =>
    simp only [List.foldlM, pure, Except.pure, Except.ok.injEq] at hr
    subst hr; exact h0
  | cons x xs ih =>
    rw [foldlM_cons_bind, bind_eq_ok] at hr
    obtain ⟨s2, h2, hr⟩ := hr
    exact ih s2 (hf s x s2 h0 h2) hr

theorem forIdx_preserves {σ : Type} (Inv : σ → Prop) (step : Nat → σ → Except Fault σ)
    (hf : ∀ i s s1, Inv s → step i s = .ok s1 → Inv s1) (n : Nat) (s s1 : σ)
    (h0 : Inv s) (hr : forIdx step n s = .ok s1) : Inv s1 :=
  foldlM_preserves Inv (fun st idx => step idx st) (fun s a s1 hi hs => hf a s s1 hi hs)
    (List.range n) s s1 h0 hr

theorem foldl_preserves {σ α : Type} (Inv : σ → Prop) (f : σ → α → σ)
    (hf : ∀ s a, Inv s → Inv (f s a)) (l : List α) (s : σ) (h0 : Inv s) :
    Inv (l.foldl f s) := by
  induction l generalizing s with
  | nil => exact h0
  | cons x xs ih => exact ih _ (hf s x h0)

theorem post1Match_ok (P : Option Nat → Prop) (hnone : P none) (idx : Nat)
    (es : List VoiceStructEntry)
    (hes : ∀ e ∈ es, P e._type1._sound ∧ P e._type1._sound2) :
    ∀ e ∈ post1Match idx es, P e._type1._sound ∧ P e._type1._sound2 := by
  have hidx := forall_getD (fun e => P e._type1._sound ∧ P e._type1._sound2)
    ⟨hnone, hnone⟩ es hes idx
  unfold post1Match
  dsimp only
  split
  · exact hes
  · rename_i sound hsound
    split
    · exact hes
    · refine forall_mem_updAt _ _ _ _ ?_ (fun e he => ⟨he.1, hnone⟩)
      refine forall_mem_updAt _ _ _ _ hes (fun e he => ⟨?_, he.2⟩)
      rw [← hsound]; exact hidx.2

theorem post1Place_ok (P : Option Nat → Prop) (hnone : P none) (sounds : List Sound)
    (idx : Nat) (st st1 : Commit × Nat)
    (hes : ∀ e ∈ st.1.1, P e._type1._sound ∧ P e._type1._sound2)
    (hr : post1Place sounds idx st = .ok st1) :
    ∀ e ∈ st1.1.1, P e._type1._sound ∧ P e._type1._sound2 := by
  have hidx := forall_getD (fun e => P e._type1._sound ∧ P e._type1._sound2)
    ⟨hnone, hnone⟩ st.1.1 hes idx
  unfold post1Place at hr
  dsimp only at hr
  split at hr
  · simp only [Except.ok.injEq] at hr
    subst hr; exact hes
  · simp only [bind_eq_ok] at hr
    obtain ⟨idx2, _, a, _, b, _, c, _, d, _, hr⟩ := hr
    simp only [Except.ok.injEq] at hr
    subst hr
    refine forall_mem_updAt _ _ _ _ ?_ (fun e he => he)
    refine forall_mem_updAt _ _ _ _ ?_ (fun e he => he)
    exact forall_mem_updAt _ _ _ _ hes (fun e he => ⟨hidx.2, he.2⟩)

theorem post1Release_ok (P : Option Nat → Prop) (voiceIndex idx : Nat) (st st1 : Commit)
    (hes : ∀ e ∈ st.1, P e._type1._sound ∧ P e._type1._sound2)
    (hr : post1Release voiceIndex idx st = .ok st1) :
    ∀ e ∈ st1.1, P e._type1._sound ∧ P e._type1._sound2 := by
  unfold post1Release at hr
  dsimp only at hr
  split at hr
  · simp only [Except.ok.injEq] at hr
    subst hr
    exact forall_mem_updAt _ _ _ _ hes (fun e he => he)
  · simp only [Except.ok.injEq] at hr
    subst hr; exact hes

theorem rethinkPost1_ok (P : Option Nat → Prop) (hnone : P none) (sounds : List Sound)
    (voiceIndex : Nat) (st st1 : Commit)
    (hes : ∀ e ∈ st.1, P e._type1._sound ∧ P e._type1._sound2)
    (hr : rethinkPost1 sounds voiceIndex st = .ok st1) :
    ∀ e ∈ st1.1, P e._type1._sound ∧ P e._type1._sound2 := by
  unfold rethinkPost1 at hr
  dsimp only at hr
  simp only [bind_eq_ok] at hr
  obtain ⟨st3, h3, hr⟩ := hr
  have h1 : ∀ e ∈ post1Clear st.1, P e._type1._sound ∧ P e._type1._sound2 := by
    intro e he
    unfold post1Clear at he
    simp only [List.mem_map] at he
    obtain ⟨a, ha, rfl⟩ := he
    exact ⟨hnone, (hes a ha).2⟩
  have h2 := foldl_preserves (fun es => ∀ e ∈ es, P e._type1._sound ∧ P e._type1._sound2)
    (fun es idx => post1Match idx es) (fun es idx hi => post1Match_ok P hnone idx es hi)
    (List.range (post1Clear st.1).length) _ h1
  have h4 := forIdx_preserves
    (fun (s : Commit × Nat) => ∀ e ∈ s.1.1, P e._type1._sound ∧ P e._type1._sound2)
    (post1Place sounds) (fun i s s1 hi hs => post1Place_ok P hnone sounds i s s1 hi hs)
    _ _ _ h2 h3
  exact forIdx_preserves (fun (s : Commit) => ∀ e ∈ s.1, P e._type1._sound ∧ P e._type1._sound2)
    (post1Release voiceIndex) (fun i s s1 hi hs => post1Release_ok P voiceIndex i s s1 hi hs)
    _ _ _ h4 hr

theorem post0Tagged_ok (P : Option Nat → Prop) (hnone : P none) (sounds : List Sound)
    (idx : Nat) (st st1 : Commit)
    (hes : ∀ e ∈ st.1, P e._type0._sound ∧ P e._type0._sound2)
    (hr : post0Tagged sounds idx st = .ok st1) :
    ∀ e ∈ st1.1, P e._type0._sound ∧ P e._type0._sound2 := by
  have hidx := forall_getD (fun e => P e._type0._sound ∧ P e._type0._sound2)
    ⟨hnone, hnone⟩ st.1 hes idx
  unfold post0Tagged at hr
  dsimp only at hr
  repeat' split at hr
  all_goals first
    | (cases hr; done)
    | (simp only [bind_eq_ok] at hr
       obtain ⟨a, _, b, _, c, _, d, _, e, _, f, _, hr⟩ := hr
       simp only [Except.ok.injEq] at hr
       subst hr
       exact forall_mem_updAt _ _ _ _ hes (fun _ _ => ⟨hidx.2, hnone⟩))
    | (simp only [Except.ok.injEq] at hr
       subst hr
       first
         | exact forall_mem_updAt _ _ _ _ hes (fun _ _ => ⟨hidx.2, hnone⟩)
         | exact forall_mem_updAt _ _ _ _ hes (fun e he => ⟨hnone, he.2⟩))

theorem post0Match_ok (P : Option Nat → Prop) (hnone : P none) (idx : Nat) (st st1 : Commit)
    (hes : ∀ e ∈ st.1, P e._type0._sound ∧ P e._type0._sound2)
    (hr : post0Match idx st = .ok st1) :
    ∀ e ∈ st1.1, P e._type0._sound ∧ P e._type0._sound2 := by
  have hidx := forall_getD (fun e => P e._type0._sound ∧ P e._type0._sound2)
    ⟨hnone, hnone⟩ st.1 hes idx
  unfold post0Match at hr
  dsimp only at hr
  split at hr
  · simp only [Except.ok.injEq] at hr
    subst hr; exact hes
  · rename_i sound hsound
    split at hr
    · simp only [Except.ok.injEq] at hr
      subst hr; exact hes
    · simp only [Except.ok.injEq] at hr
      subst hr
      refine forall_mem_updAt _ _ _ _ ?_ (fun e he => ⟨he.1, hnone⟩)
      refine forall_mem_updAt _ _ _ _ hes (fun e he => ⟨?_, he.2⟩)
      rw [← hsound]; exact hidx.2

theorem post0Place_ok (P : Option Nat → Prop) (hnone : P none) (sounds : List Sound)
    (voiceIndex idx : Nat) (st st1 : Commit)
    (hes : ∀ e ∈ st.1, P e._type0._sound ∧ P e._type0._sound2)
    (hr : post0Place sounds voiceIndex idx st = .ok st1) :
    ∀ e ∈ st1.1, P e._type0._sound ∧ P e._type0._sound2 := by
  have hidx := forall_getD (fun e => P e._type0._sound ∧ P e._type0._sound2)
    ⟨hnone, hnone⟩ st.1 hes idx
  unfold post0Place at hr
  dsimp only at hr
  split at hr
  · simp only [Except.ok.injEq] at hr
    subst hr; exact hes
  · split at hr
    · cases hr
    · simp only [bind_eq_ok] at hr
      obtain ⟨a, _, b, _, c, _, d, _, e, _, hr⟩ := hr
      simp only [Except.ok.injEq] at hr
      subst hr
      exact forall_mem_updAt _ _ _ _ hes (fun e he => ⟨hidx.2, he.2⟩)

theorem post0Release_ok (voiceIndex idx : Nat) (st st1 : Commit)
    (hr : post0Release voiceIndex idx st = .ok st1) : st1.1 = st.1 := by
  unfold post0Release at hr
  dsimp only at hr
  split at hr
  · simp only [Except.ok.injEq] at hr
    subst hr; rfl
  · simp only [Except.ok.injEq] at hr
    subst hr; rfl

theorem rethinkPost0_ok (P : Option Nat → Prop) (hnone : P none) (sounds : List Sound)
    (voiceIndex : Nat) (st st1 : Commit)
    (hes : ∀ e ∈ st.1, P e._type0._sound ∧ P e._type0._sound2)
    (hr : rethinkPost0 sounds voiceIndex st = .ok st1) :
    ∀ e ∈ st1.1, P e._type0._sound ∧ P e._type0._sound2 := by
  unfold rethinkPost0 at hr
  simp only [bind_eq_ok] at hr
  obtain ⟨s1, h1, s2, h2, s3, h3, hr⟩ := hr
  have a1 := forIdx_preserves
    (fun (s : Commit) => ∀ e ∈ s.1, P e._type0._sound ∧ P e._type0._sound2)
    (post0Tagged sounds) (fun i s s1 hi hs => post0Tagged_ok P hnone sounds i s s1 hi hs)
    _ _ _ hes h1
  have a2 := forIdx_preserves
    (fun (s : Commit) => ∀ e ∈ s.1, P e._type0._sound ∧ P e._type0._sound2)
    post0Match (fun i s s1 hi hs => post0Match_ok P hnone i s s1 hi hs) _ _ _ a1 h2
  have a3 := forIdx_preserves
    (fun (s : Commit) => ∀ e ∈ s.1, P e._type0._sound ∧ P e._type0._sound2)
    (post0Place sounds voiceIndex)
    (fun i s s1 hi hs => post0Place_ok P hnone sounds voiceIndex i s s1 hi hs) _ _ _ a2 h3
  exact forIdx_preserves
    (fun (s : Commit) => ∀ e ∈ s.1, P e._type0._sound ∧ P e._type0._sound2)
    (post0Release voiceIndex)
    (fun i s s1 hi hs => by
      have := post0Release_ok voiceIndex i s s1 hs
      intro e he
      rw [this] at he
      exact hi e he) _ _ _ a3 hr

theorem rethinkPostGroup_ok (P : Option Nat → Prop) (hnone : P none) (sounds : List Sound)
    (voiceIndex : Nat) (slot : Option VoiceTypeStruct) (log : List DriverCall)
    (r : Option VoiceTypeStruct × List DriverCall)
    (hslot : ∀ vs, slot = some vs → groupOk P vs)
    (hr : rethinkPostGroup sounds voiceIndex slot log = .ok r) :
    ∀ vs, r.1 = some vs → groupOk P vs := by
  unfold rethinkPostGroup at hr
  cases slot with
  | none =>
    simp only [Except.ok.injEq] at hr
    subst hr
    intro vs hvs; cases hvs
  | some v =>
    simp only [map_eq_ok] at hr
    obtain ⟨st, hst, rfl⟩ := hr
    intro vs hvs
    simp only [Option.some.injEq] at hvs
    subst hvs
    have hv := hslot v rfl
    split at hst
    · rename_i hty
      have := rethinkPost0_ok P hnone sounds voiceIndex _ st (fun e he => (hv e he).1 hty) hst
      exact fun e he => ⟨fun _ => this e he, fun hc => absurd hty hc⟩
    · rename_i hty
      have := rethinkPost1_ok P hnone sounds voiceIndex _ st (fun e he => (hv e he).2 hty) hst
      exact fun e he => ⟨fun hc => absurd hc hty, fun _ => this e he⟩

theorem rethinkPost_ok (P : Option Nat → Prop) (hnone : P none) (sounds : List Sound)
    (vts : VoiceTable) (voiceIndex : Nat) (log : List DriverCall)
    (r : VoiceTable × List DriverCall) (ht : tableOk P vts)
    (hr : rethinkPost sounds voiceIndex vts log = .ok r) : tableOk P r.1 := by
  induction vts generalizing voiceIndex log r with
  | nil =>
    simp only [rethinkPost, Except.ok.injEq] at hr
    subst hr
    intro vs hvs; cases hvs
  | cons slot rest ih =>
    unfold rethinkPost at hr
    simp only [bind_eq_ok, map_eq_ok] at hr
    obtain ⟨r1, h1, r2, h2, rfl⟩ := hr
    have hrest : tableOk P rest := fun vs hvs => ht vs (List.mem_cons_of_mem _ hvs)
    have hslot := rethinkPostGroup_ok P hnone sounds voiceIndex slot log r1
      (fun vs hvs => ht vs (by rw [hvs]; exact List.mem_cons_self _ _)) h1
    intro vs hvs
    rcases List.mem_cons.1 hvs with h3 | h3
    · exact hslot vs h3.symm
    · exact ih _ _ _ hrest h2 vs h3

/-- C26: when a `_sfRethinkVoiceTypes` pass returns, the current assignment of
every entry of every group (`_type0._sound` in a TYPE_0 group, `_type1._sound`
in any other group) is either empty or a sound whose `_mutedCount` and
`_pausedCount` are both 0. -/
theorem no_voice_for_muted_or_paused_sound (m m1 : Manager)
    (hr : _sfRethinkVoiceTypes m = .ok m1) :
    ∀ vs, some vs ∈ m1._voiceTypeStructPtrs → ∀ e ∈ vs._entries, ∀ s,
      (if vs._voiceType = VOICETYPE_0 then e._type0._sound else e._type1._sound) = some s →
      (m1.sound s)._mutedCount = 0 ∧ (m1.sound s)._pausedCount = 0 := by
  obtain ⟨_, hcount⟩ := rethink_sounds (fun s => (s._mutedCount, s._pausedCount))
    (fun _ _ => rfl) m m1 hr
  unfold _sfRethinkVoiceTypes at hr
  simp only [bind_eq_ok, map_eq_ok] at hr
  obtain ⟨r, hmain, p, hpost, rfl⟩ := hr
  have hnone : audible m.sounds none := fun s hs => by cases hs
  have h1 := rethinkMain_ok (audible m.sounds) hnone m.sounds
    (fun h hm hp s hs => by
      simp only [Option.some.injEq] at hs
      subst hs; exact ⟨hm, hp⟩)
    _ _ _ _ r (fun _ => ⟨rfl, rfl⟩) hmain (tableOk_rethinkPre _ hnone _)
  have h2 := rethinkPost_ok (audible m.sounds) hnone _ _ _ _ p h1 hpost
  intro vs hvs e he s hs
  have hc := hcount s
  simp only [Prod.mk.injEq] at hc
  rw [hc.1, hc.2]
  have hok := h2 vs hvs e he
  split at hs
  · rename_i hty
    exact (hok.1 hty).1 s hs
  · rename_i hty
    exact (hok.2 hty).1 s hs

/-- Witness of C26: in `mutedManager` the sounds 0, 1 and 2 hold one voice
each, sound 1 is muted and sound 2 is paused; the pass returns and leaves one
voice with sound 0 and none with sounds 1 and 2. -/
theorem no_voice_for_muted_or_paused_sound_witness :
    ((mutedManager.sound 1)._mutedCount = 1 ∧ (mutedManager.sound 2)._pausedCount = 1 ∧
      (currentPairs mutedManager._voiceTypeStructPtrs 1).map Prod.fst =
        [some 2, some 0, some 1] ++ List.replicate 6 none) ∧
    (holders (_sfRethinkVoiceTypes mutedManager) 1 0 = some 1 ∧
      holders (_sfRethinkVoiceTypes mutedManager) 1 1 = some 0 ∧
      holders (_sfRethinkVoiceTypes mutedManager) 1 2 = some 0) ∧
    ∃ m1, _sfRethinkVoiceTypes mutedManager = .ok m1 ∧
      ∀ vs, some vs ∈ m1._voiceTypeStructPtrs → ∀ e ∈ vs._entries, ∀ s,
        (if vs._voiceType = VOICETYPE_0 then e._type0._sound else e._type1._sound) = some s →
        (m1.sound s)._mutedCount = 0 ∧ (m1.sound s)._pausedCount = 0 :=
  ⟨⟨by decide, by decide, by decide⟩, ⟨by decide, by decide, by decide⟩, _, rfl,
    no_voice_for_muted_or_paused_sound mutedManager _ rfl⟩

/-! ## Which entries a volume update reaches -/

/-- C31 fails in the code: in the state `afterThreeAdds` the entries 0, 1 and 2
of the Adlib group hold the sounds 2, 0 and 1 and the other six are free, and
`_sfDoUpdateVolume` for sound 0 sends `setVolume1` to the six free entries
(voice numbers 3 to 8, value `127 * _chVolume[0] / 127`) and nothing to entry
1, which sound 0 owns; for sound 1 it is again the six free entries, with the
volume of channel 0 instead of channel 1. -/
theorem updateVolume_goes_to_free_entries :
    currentPairs afterThreeAdds._voiceTypeStructPtrs 1 =
      [(some 2, 2), (some 0, 0), (some 1, 1), (none, 0), (none, 0), (none, 0), (none, 0),
        (none, 0), (none, 0)] ∧
    logOf (_sfDoUpdateVolume afterThreeAdds 0) =
      some (afterThreeAdds.log ++
        [DriverCall.setVolume1 0 1 3 7 127, DriverCall.setVolume1 0 1 4 7 127,
          DriverCall.setVolume1 0 1 5 7 127, DriverCall.setVolume1 0 1 6 7 127,
          DriverCall.setVolume1 0 1 7 7 127, DriverCall.setVolume1 0 1 8 7 127]) ∧
    logOf (_sfDoUpdateVolume afterThreeAdds 1) =
      some (afterThreeAdds.log ++
        [DriverCall.setVolume1 0 1 3 7 0, DriverCall.setVolume1 0 1 4 7 0,
          DriverCall.setVolume1 0 1 5 7 0, DriverCall.setVolume1 0 1 6 7 0,
          DriverCall.setVolume1 0 1 7 7 0, DriverCall.setVolume1 0 1 8 7 0]) := by
  refine ⟨by decide, by decide, by decide⟩

/-! ## The general TYPE_0 case -/

theorem type0Entries_voiceNum (driver : Nat) (data : List Nat) :
    ∀ (pos : Nat) (r : Nat × List VoiceStructEntry), type0Entries driver data pos = .ok r →
      ∀ e ∈ r.2, e._voiceNum = 0 := by
  induction data with
  | nil => intro pos r hr; cases hr
  | cons b rest ih =>
    intro pos r hr
    unfold type0Entries at hr
    by_cases hb : b ≠ 0xff
    · rw [if_pos hb] at hr
      simp only [map_eq_ok] at hr
      obtain ⟨r1, h1, rfl⟩ := hr
      intro e he
      rcases List.mem_cons.1 he with rfl | he1
      · rfl
      · exact ih (pos + 1) r1 h1 e he1
    · rw [if_neg hb] at hr
      cases hr
      intro e he
      exact absurd he (List.not_mem_nil e)

theorem scanFreeSlot_voiceNum_zero (es : List VoiceStructEntry)
    (h : ∀ e ∈ es, e._voiceNum = 0) : scanFreeSlot es = (-1, 0) := by
  unfold scanFreeSlot
  have key : ∀ l : List (Nat × VoiceStructEntry), (∀ p ∈ l, p.2._voiceNum = 0) →
      l.foldl (fun (acc : Int × Int) p =>
        if p.2._type0._sound2 = none ∧ p.2._field1 ≠ 0 ∧ p.2._voiceNum > acc.2
        then ((p.1 : Int), p.2._voiceNum) else acc) (-1, 0) = (-1, 0) := by
    intro l
    induction l with
    | nil => intro _; rfl
    | cons p l ih =>
      intro hl
      rw [List.foldl_cons, if_neg, ih (fun q hq => hl q (List.mem_cons_of_mem _ hq))]
      rw [hl p (List.mem_cons_self _ _)]
      intro hc
      exact absurd hc.2.2 (by decide)
  apply key
  intro p hp
  exact h p.2 (List.snd_mem_of_mem_enum hp)

theorem eq_ok_of_toOption {α : Type} (x : Except Fault α) (a : α)
    (h : x.toOption = some a) : x = .ok a := by
  cases x with
  | error e => cases h
  | ok b =>
    simp only [Except.toOption, Option.some.injEq] at h
    rw [h]

theorem foreverSeeking_tick : _soServiceTracks foreverSeeking 0 = .ok (foreverSeeking, false) :=
  eq_ok_of_toOption _ _ (by decide)

theorem timeIndexLoop_forever (t fuel : Nat) :
    timeIndexLoop 0 (t + 1) fuel foreverSeeking = .error .outOfFuel := by
  induction fuel with
  | zero => rfl
  | succ fuel ih =>
    unfold timeIndexLoop
    rw [if_pos (by omega), foreverSeeking_tick]
    exact ih

theorem soSetTimeIndex_of_loop_error (fuel : Nat) (m : Manager) (h t : Nat) (s : Sound)
    (e : Fault) (hne : (t : Int) ≠ Int.emod (m.sound h)._timer 4294967296)
    (hp : _soPrimeChannelData { m.sound h with _timer := 0, _loopTimer := 0 } = .ok s)
    (hloop : timeIndexLoop h t fuel
      { m with sounds := m.sounds.set h s, _serverDisabledCount := m._serverDisabledCount + 1,
               _soTimeIndexFlag := true } = .error e) :
    _soSetTimeIndex fuel m h t = .error e := by
  have key : _soSetTimeIndex fuel m h t =
      (if (t : Int) ≠ Int.emod (m.sound h)._timer 4294967296 then
        (_soPrimeChannelData { m.sound h with _timer := 0, _loopTimer := 0 }).bind fun s =>
        (timeIndexLoop h t fuel
          { m with sounds := m.sounds.set h s,
                   _serverDisabledCount := m._serverDisabledCount + 1,
                   _soTimeIndexFlag := true }).map fun m3 =>
          { m3 with _soTimeIndexFlag := false }
       else .ok { m with _serverDisabledCount := m._serverDisabledCount + 1 }).map
        fun m4 => { m4 with _serverDisabledCount := m4._serverDisabledCount - 1 } := rfl
  rw [key, if_pos hne, hp]
  simp only [Except.bind]
  rw [hloop]
  rfl

theorem soSetTimeIndex_forever (t fuel : Nat) :
    _soSetTimeIndex fuel foreverMuted 0 (t + 1) = .error .outOfFuel := by
  have hprime : _soPrimeChannelData
      { foreverMuted.sound 0 with _timer := 0, _loopTimer := 0 } = .ok foreverPrimed :=
    eq_ok_of_toOption _ _ (by decide)
  have htimer : Int.emod (foreverMuted.sound 0)._timer 4294967296 = 0 := by decide
  have hne : ((t + 1 : Nat) : Int) ≠ Int.emod (foreverMuted.sound 0)._timer 4294967296 := by
    rw [htimer]; omega
  exact soSetTimeIndex_of_loop_error fuel foreverMuted 0 (t + 1) foreverPrimed _ hne hprime
    (timeIndexLoop_forever t fuel)

/-- C33 fails in the code: for the primed, non-empty sound of `foreverManager`
(loop count 0, one track that ends at once) and every target time index
`t + 1`, the loop of `_soSetTimeIndex` does not end within any number of
passes: every tick finds all tracks stopped, restarts them and returns false,
and nothing changes `timeIndex`. -/
theorem setTimeIndex_never_returns (t fuel : Nat) :
    (foreverManager.sound 0)._primed = true ∧ (foreverManager.sound 0)._isEmpty = false ∧
    (foreverManager.sound 0)._loop = 0 ∧
    setTimeIndex fuel foreverManager 0 (t + 1) = .error .outOfFuel := by
  refine ⟨by decide, by decide, by decide, ?_⟩
  have hmute : mute foreverManager 0 true = .ok foreverMuted :=
    eq_ok_of_toOption _ _ (by decide)
  unfold setTimeIndex
  rw [if_pos (by decide), hmute]
  simp only [Except.bind]
  rw [soSetTimeIndex_forever]

/-! ## The group loop of `_sfRethinkSoundDrivers` -/

/-- C34 fails in the code: with the group data `lateGroupData` (the TYPE_1
group 5 with two voices, a table in the documented format) for the one
installed driver, the second loop of `_sfRethinkSoundDrivers` does not end
within any number of passes.  Building group 5 leaves the loop variable at 2,
so the loop goes on at 3 and comes back to 5 every third pass. -/
theorem rethinkSoundDrivers_never_returns (fuel : Nat) :
    _sfRethinkSoundDrivers (fun _ => lateGroupData) fuel threeSounds = .error .outOfFuel := by
  unfold _sfRethinkSoundDrivers
  have h : threeSounds._installedDrivers = [0] := rfl
  rw [h, rethinkDriversLoop_late_forever fuel 0 _ (by decide) (by decide) (by decide)]
  rfl

/-! ## The server counters during a tick -/

theorem serverKey_setSound (h : Nat) (m : Manager) (s : Sound)
    (_hs : s._loop = (m.sound h)._loop) : serverKey (m.setSound h s) = serverKey m := rfl

theorem serverKey_of_eq (m m1 : Manager) (hs : serverKey m1 = serverKey m)
    (_hp : m1._playList = m._playList) : serverKey m1 = serverKey m := hs

theorem onGroup_server (m m1 : Manager) (g : Option Nat)
    (f : List VoiceStructEntry → Except Fault (List VoiceStructEntry × List DriverCall))
    (hr : onGroup m g f = .ok m1) : serverKey m1 = serverKey m := by
  unfold onGroup at hr
  simp only [bind_eq_ok, map_eq_ok] at hr
  obtain ⟨vs, _, r, _, rfl⟩ := hr
  exact serverKey_of_eq m _ rfl rfl

theorem callDriver_server (m m1 : Manager) (d : Option Nat) (call : Nat → DriverCall)
    (hr : callDriver m d call = .ok m1) : serverKey m1 = serverKey m := by
  unfold callDriver at hr
  cases d with
  | none => simp at hr
  | some d =>
    simp only [Except.ok.injEq] at hr
    subst hr
    exact serverKey_of_eq m _ rfl rfl

theorem trackCommand_server (ctx : TrackCtx) (h : Nat) (t : Int) (m m1 : Manager) (cmd v : Int)
    (sc : Bool) (hr : trackCommand ctx h t m cmd v sc = .ok m1) :
    serverKey m1 = serverKey m := by
  unfold trackCommand at hr
  simp only [bind_eq_ok] at hr
  obtain ⟨ch, _, s1, hs1, hr⟩ := hr
  have hk : serverKey (m.setSound h s1) = serverKey m :=
    serverKey_setSound h m s1 (doTrackCommand_loop _ _ _ _ _ hs1)
  split at hr
  · split at hr
    · simp only [map_eq_ok] at hr
      obtain ⟨vs, _, rfl⟩ := hr
      exact (serverKey_of_eq (m.setSound h s1) _ rfl rfl).trans hk
    · split at hr
      · exact (callDriver_server _ _ _ _ hr).trans hk
      · simp only [Except.ok.injEq] at hr
        subst hr; exact hk
  · simp only [Except.ok.injEq] at hr
    subst hr; exact hk
theorem area1_server (ctx : TrackCtx) (h : Nat) (m : Manager) (v pos : Nat) (r : Decoded)
    (hr : area1 ctx h m v pos = .ok r) : serverKey r.mgr = serverKey m := by
  unfold area1 at hr
  repeat' split at hr
  all_goals first
    | (simp only [map_eq_ok] at hr; obtain ⟨m1, hm1, rfl⟩ := hr
       first | exact onGroup_server _ _ _ _ hm1 | exact callDriver_server _ _ _ _ hm1)
    | (simp only [Except.ok.injEq] at hr; subst hr; rfl)

theorem area2_server (ctx : TrackCtx) (h : Nat) (data : List Nat) (m : Manager) (v pos : Nat)
    (r : Decoded) (hr : area2 ctx h data m v pos = .ok r) : serverKey r.mgr = serverKey m := by
  unfold area2 at hr
  split at hr
  · simp only [bind_eq_ok] at hr
    obtain ⟨b, _, hr⟩ := hr
    repeat' split at hr
    all_goals first
      | (simp only [map_eq_ok] at hr; obtain ⟨m1, hm1, rfl⟩ := hr
         first | exact onGroup_server _ _ _ _ hm1 | exact callDriver_server _ _ _ _ hm1)
      | (simp only [Except.ok.injEq] at hr; subst hr; rfl)
  · simp only [Except.ok.injEq] at hr; subst hr; rfl

theorem area3_server (h : Nat) (t : Int) (data : List Nat) (m : Manager) (v pos : Nat)
    (r : Decoded) (hr : area3 h t data m v pos = .ok r) : serverKey r.mgr = serverKey m := by
  unfold area3 at hr
  simp only [bind_eq_ok, map_eq_ok] at hr
  obtain ⟨g, _, a, _, b, _, rfl⟩ := hr
  exact serverKey_setSound h m _ rfl

theorem area4_server (ctx : TrackCtx) (h : Nat) (t : Int) (data : List Nat) (m : Manager)
    (v pos : Nat) (r : Decoded) (hr : area4 ctx h t data m v pos = .ok r) :
    serverKey r.mgr = serverKey m := by
  unfold area4 at hr
  simp only [bind_eq_ok] at hr
  obtain ⟨b, _, hr⟩ := hr
  repeat' split at hr
  all_goals first
    | (cases hr; done)
    | (simp only [map_eq_ok] at hr; obtain ⟨m1, hm1, rfl⟩ := hr
       exact trackCommand_server _ _ _ _ _ _ _ _ hm1)
    | (simp only [Except.ok.injEq] at hr; subst hr
       exact serverKey_setSound h m _ (doUpdateTracks_loop _ _ _))

theorem area5_server (ctx : TrackCtx) (data : List Nat) (m : Manager) (pos : Nat)
    (r : Decoded) (hr : area5 ctx data m pos = .ok r) : serverKey r.mgr = serverKey m := by
  unfold area5 at hr
  split at hr
  · simp only [bind_eq_ok] at hr
    obtain ⟨b0, _, b1, _, hr⟩ := hr
    split at hr
    · simp only [map_eq_ok] at hr
      obtain ⟨m1, hm1, rfl⟩ := hr
      exact callDriver_server _ _ _ _ hm1
    · simp only [Except.ok.injEq] at hr; subst hr; rfl
  · simp only [Except.ok.injEq] at hr; subst hr; rfl

theorem area6_server (ctx : TrackCtx) (h : Nat) (t : Int) (data : List Nat) (m : Manager)
    (pos : Nat) (r : Decoded) (hr : area6 ctx h t data m pos = .ok r) :
    serverKey r.mgr = serverKey m := by
  unfold area6 at hr
  simp only [bind_eq_ok] at hr
  obtain ⟨c, _, v, _, hr⟩ := hr
  split at hr
  · simp only [map_eq_ok] at hr
    obtain ⟨m1, hm1, rfl⟩ := hr
    exact trackCommand_server _ _ _ _ _ _ _ _ hm1
  · split at hr
    all_goals
      simp only [Except.ok.injEq] at hr; subst hr
      exact serverKey_setSound h m _ (doUpdateTracks_loop _ _ _)

theorem area7_server (ctx : TrackCtx) (h : Nat) (t : Int) (data : List Nat) (m : Manager)
    (pos : Nat) (r : Decoded) (hr : area7 ctx h t data m pos = .ok r) :
    serverKey r.mgr = serverKey m := by
  unfold area7 at hr
  split at hr
  · simp only [bind_eq_ok] at hr
    obtain ⟨b0, _, b1, _, hr⟩ := hr
    split at hr
    · simp only [bind_eq_ok] at hr
      obtain ⟨ch, _, pb, _, hr⟩ := hr
      have hk : serverKey (m.setSound h { m.sound h with _chPitchBlend := pb }) = serverKey m :=
        serverKey_setSound h m _ rfl
      split at hr
      · simp only [map_eq_ok] at hr
        obtain ⟨vs, _, rfl⟩ := hr
        exact (serverKey_of_eq _ _ rfl rfl).trans hk
      · split at hr
        · simp only [map_eq_ok] at hr
          obtain ⟨m2, hm2, rfl⟩ := hr
          exact (callDriver_server _ _ _ _ hm2).trans hk
        · simp only [Except.ok.injEq] at hr; subst hr; exact hk
    · simp only [Except.ok.injEq] at hr; subst hr; rfl
  · simp only [Except.ok.injEq] at hr; subst hr; rfl

theorem area8_server (ctx : TrackCtx) (h : Nat) (t : Int) (data : List Nat) (m : Manager)
    (pos : Nat) (r : Decoded) (hr : area8 ctx h t data m pos = .ok r) :
    serverKey r.mgr = serverKey m := by
  unfold area8 at hr
  simp only [bind_eq_ok] at hr
  obtain ⟨program, _, hr⟩ := hr
  split at hr
  · simp only [bind_eq_ok] at hr
    obtain ⟨ch, _, pg, _, hr⟩ := hr
    have hk : serverKey (m.setSound h { m.sound h with _chProgram := pg }) = serverKey m :=
      serverKey_setSound h m _ rfl
    split at hr
    · simp only [map_eq_ok] at hr
      obtain ⟨m2, hm2, rfl⟩ := hr
      exact (callDriver_server _ _ _ _ hm2).trans hk
    · simp only [Except.ok.injEq] at hr; subst hr; exact hk
  · simp only [map_eq_ok] at hr
    obtain ⟨s1, hs1, rfl⟩ := hr
    exact serverKey_setSound h m _ (setTrackPos_loop _ _ _ _ _ _ hs1)

theorem area9_server (ctx : TrackCtx) (h : Nat) (t : Int) (data : List Nat) (m : Manager)
    (pos : Nat) (r : Decoded) (hr : area9 ctx h t data m pos = .ok r) :
    serverKey r.mgr = serverKey m := by
  unfold area9 at hr
  simp only [bind_eq_ok] at hr
  obtain ⟨b, _, hr⟩ := hr
  split at hr
  · simp only [bind_eq_ok, map_eq_ok] at hr
    obtain ⟨a, _, c, _, rfl⟩ := hr
    exact serverKey_setSound h m _ rfl
  · split at hr
    · simp only [map_eq_ok] at hr
      obtain ⟨m1, hm1, rfl⟩ := hr
      exact callDriver_server _ _ _ _ hm1
    · simp only [Except.ok.injEq] at hr; subst hr; rfl

theorem decodeStep_server (ctx : TrackCtx) (h : Nat) (t : Int) (data : List Nat) (m : Manager)
    (pos : Nat) (r : Decoded) (hr : decodeStep ctx h t data m pos = .ok r) :
    serverKey r.mgr = serverKey m := by
  unfold decodeStep at hr
  simp only [bind_eq_ok] at hr
  obtain ⟨v, _, hr⟩ := hr
  repeat' split at hr
  · exact area1_server _ _ _ _ _ _ hr
  · exact area2_server _ _ _ _ _ _ _ hr
  · exact area3_server _ _ _ _ _ _ _ hr
  · exact area4_server _ _ _ _ _ _ _ _ hr
  · exact area5_server _ _ _ _ _ hr
  · exact area6_server _ _ _ _ _ _ _ hr
  · exact area7_server _ _ _ _ _ _ _ hr
  · exact area8_server _ _ _ _ _ _ _ hr
  · exact area9_server _ _ _ _ _ _ _ hr

theorem decodeLoop_server (ctx : TrackCtx) (h : Nat) (t : Int) (data : List Nat) (fuel : Nat)
    (m : Manager) (pos : Nat) (m1 : Manager)
    (hr : decodeLoop ctx h t data fuel m pos = .ok m1) : serverKey m1 = serverKey m := by
  induction fuel generalizing m pos with
  | zero => simp [decodeLoop] at hr
  | succ fuel ih =>
    unfold decodeLoop at hr
    simp only [bind_eq_ok] at hr
    obtain ⟨r, hstep, hr⟩ := hr
    have hk := decodeStep_server _ _ _ _ _ _ _ hstep
    cases r with
    | more m2 pos2 => exact (ih _ _ hr).trans hk
    | done m2 =>
      simp only [Except.ok.injEq] at hr
      subst hr; exact hk

theorem serviceTrackType0_server (m : Manager) (h : Nat) (t : Int) (data : List Nat)
    (m1 : Manager) (hr : _soServiceTrackType0 m h t data = .ok m1) :
    serverKey m1 = serverKey m := by
  unfold _soServiceTrackType0 at hr
  simp only [bind_eq_ok] at hr
  obtain ⟨rest, _, hr⟩ := hr
  split at hr
  · simp only [map_eq_ok] at hr
    obtain ⟨a, _, rfl⟩ := hr
    exact serverKey_setSound h m _ rfl
  · simp only [bind_eq_ok] at hr
    obtain ⟨st, _, hr⟩ := hr
    split at hr
    · simp only [Except.ok.injEq] at hr; subst hr; rfl
    · simp only [bind_eq_ok] at hr
      obtain ⟨ctx, _, idx, _, hr⟩ := hr
      split at hr
      · simp at hr
      · exact decodeLoop_server _ _ _ _ _ _ _ _ hr

theorem serviceTrackType1_server (m : Manager) (h : Nat) (t : Int) (data : List Nat)
    (m1 : Manager) (hr : _soServiceTrackType1 m h t data = .ok m1) :
    serverKey m1 = serverKey m := by
  unfold _soServiceTrackType1 at hr
  simp only [bind_eq_ok] at hr
  obtain ⟨st, _, hr⟩ := hr
  split at hr
  · simp only [Except.ok.injEq] at hr; subst hr; rfl
  · simp only [bind_eq_ok] at hr
    obtain ⟨ch, _, hr⟩ := hr
    split at hr
    · simp only [map_eq_ok] at hr
      obtain ⟨a, _, rfl⟩ := hr
      exact serverKey_setSound h m _ rfl
    · simp only [bind_eq_ok] at hr
      obtain ⟨vt, _, slot, _, hr⟩ := hr
      split at hr
      · simp only [map_eq_ok] at hr
        obtain ⟨a, _, rfl⟩ := hr
        exact serverKey_setSound h m _ rfl
      · split at hr
        · simp only [bind_eq_ok] at hr
          obtain ⟨b1, _, hr⟩ := hr
          split at hr
          all_goals
            simp only [Except.ok.injEq] at hr; subst hr
            exact serverKey_of_eq m _ rfl rfl
        · simp only [Except.ok.injEq] at hr; subst hr; rfl

theorem serviceTrackLoop_server (h : Nat) (tracks : List (List Nat)) (t : Int) (m : Manager)
    (flag : Bool) (r : Manager × Bool) (hr : serviceTrackLoop h tracks t m flag = .ok r) :
    serverKey r.1 = serverKey m := by
  induction tracks generalizing t m flag with
  | nil =>
    simp only [serviceTrackLoop, Except.ok.injEq] at hr
    subst hr; rfl
  | cons data rest ih =>
    unfold serviceTrackLoop at hr
    simp only [bind_eq_ok] at hr
    obtain ⟨mode, _, m1, hm1, st, _, hr⟩ := hr
    have hk : serverKey m1 = serverKey m := by
      split at hm1
      · exact serviceTrackType0_server _ _ _ _ _ hm1
      · split at hm1
        · exact serviceTrackType1_server _ _ _ _ _ hm1
        · simp at hm1
    exact (ih _ _ _ hr).trans hk

/-! ## The fading loop of the sound server -/

theorem serviceTracks_server (m : Manager) (h : Nat) (r : Manager × Bool)
    (hr : _soServiceTracks m h = .ok r) : serverKey r.1 = serverKey m := by
  unfold _soServiceTracks serviceTracksFlagged at hr
  simp only [map_eq_ok] at hr
  obtain ⟨a, ha, rfl⟩ := hr
  split at ha
  · cases ha
  · simp only [map_eq_ok] at ha
    obtain ⟨b, hb, rfl⟩ := ha
    exact serviceTrackLoop_server h _ _ _ _ b hb

theorem removeAsync_server (m : Manager) (h : Nat) :
    serverKey (removeAsync m h) = serverKey m := by
  show (m._serverSuspendedCount + 1 - 1, m._serverDisabledCount) =
    (m._serverSuspendedCount, m._serverDisabledCount)
  rw [add_sub_cancel_right]

theorem doUpdateVolume_server (m m1 : Manager) (h : Nat)
    (hr : _sfDoUpdateVolume m h = .ok m1) : serverKey m1 = serverKey m := by
  unfold _sfDoUpdateVolume at hr
  simp only [map_eq_ok] at hr
  obtain ⟨calls, _, rfl⟩ := hr
  show (m._serverSuspendedCount + 1 - 1, m._serverDisabledCount) =
    (m._serverSuspendedCount, m._serverDisabledCount)
  rw [add_sub_cancel_right]

theorem fadeSound_server (m m1 : Manager) (h : Nat) (hr : fadeSound m h = .ok m1) :
    serverKey m1 = serverKey m := by
  unfold fadeSound at hr
  dsimp only at hr
  split at hr
  · split at hr
    · cases hr; rfl
    · simp only [map_eq_ok] at hr
      obtain ⟨m2, h2, rfl⟩ := hr
      have hk : serverKey m2 = serverKey m := doUpdateVolume_server (m.setSound h _) m2 h h2
      split
      · exact hk
      · split
        · exact (removeAsync_server _ h).trans hk
        · exact hk
  · cases hr; rfl

theorem processFadingSound_server (st st1 : Manager × Bool) (h : Nat)
    (hr : processFadingSound st h = .ok st1) : serverKey st1.1 = serverKey st.1 := by
  unfold processFadingSound at hr
  simp only [bind_eq_ok, map_eq_ok] at hr
  obtain ⟨r, h1, m2, h2, rfl⟩ := hr
  have hk1 : serverKey r.1 = serverKey st.1 := by
    split at h1
    · exact serviceTracks_server _ _ _ h1
    · cases h1; rfl
  have hk2 := fadeSound_server _ _ _ h2
  refine hk2.trans ?_
  split
  · exact (removeAsync_server _ h).trans hk1
  · exact hk1

theorem processFading_server (m m1 : Manager) (hr : _sfProcessFading m = .ok m1) :
    serverKey m1 = serverKey m := by
  unfold _sfProcessFading at hr
  simp only [map_eq_ok] at hr
  obtain ⟨r, h1, rfl⟩ := hr
  exact foldlM_preserves (fun st : Manager × Bool => serverKey st.1 = serverKey m)
    processFadingSound
    (fun s a s1 hi hs => (processFadingSound_server s s1 a hs).trans hi)
    m._playList (m, false) r rfl h1

theorem fadingLoop_suspended (fuel : Nat) :
    ∀ m m1 : Manager, m._serverSuspendedCount > 0 → fadingLoop fuel m ≠ .ok m1 := by
  induction fuel with
  | zero => intro m m1 _ hr; cases hr
  | succ fuel ih =>
    intro m m1 hs hr
    unfold fadingLoop at hr
    simp only [bind_eq_ok] at hr
    obtain ⟨m2, h2, hr⟩ := hr
    have hk := processFading_server m m2 h2
    have hs2 : m2._serverSuspendedCount > 0 := by
      have : m2._serverSuspendedCount = m._serverSuspendedCount := congrArg Prod.fst hk
      rw [this]; exact hs
    rw [if_pos hs2] at hr
    exact ih m2 m1 hs2 hr

/-- C35 fails in the code: when `_serverSuspendedCount` is positive,
`_sfSoundServer` does not return within any number of passes of its loop
`do { _sfProcessFading(); } while (_serverSuspendedCount > 0)`, whatever the
play list holds, because nothing in the loop changes the counter. -/
theorem soundServer_spins_while_suspended (fuel : Nat) (m : Manager)
    (hs : m._serverSuspendedCount > 0) (m' : Manager) :
    _sfSoundServer fuel m ≠ .ok m' := by
  intro hr
  unfold _sfSoundServer at hr
  rw [if_neg (fun hc : m._serverDisabledCount = 0 ∧ m._serverSuspendedCount = 0 => by
    rw [hc.2] at hs; exact absurd hs (by decide))] at hr
  simp only [bind_eq_ok, map_eq_ok] at hr
  obtain ⟨m1, h1, m2, h2, _⟩ := hr
  have hkeep : m1._serverSuspendedCount > 0 := by
    by_cases hn : m._needToRethink = true
    · rw [if_pos hn] at h1
      simp only [map_eq_ok] at h1
      obtain ⟨m0, h0, rfl⟩ := h1
      show m0._serverSuspendedCount > 0
      rw [(rethink_counts m m0 h0).1]
      exact hs
    · rw [if_neg hn] at h1
      cases h1
      exact hs
  exact fadingLoop_suspended fuel m1 m2 hkeep h2

theorem soundServer_spins_while_suspended_witness :
    ({ playingOne with _serverSuspendedCount := 1 } : Manager)._serverSuspendedCount > 0 ∧
    _sfSoundServer 100 { playingOne with _serverSuspendedCount := 1 } ≠
      .ok { playingOne with _serverSuspendedCount := 1 } :=
  ⟨by decide,
    soundServer_spins_while_suspended 100 { playingOne with _serverSuspendedCount := 1 }
      (by decide) _⟩

/-! ## Removal of completed sounds by `_sfProcessFading` -/

/-- C36 fails in the code: in `pausedBehindEnding 1` sound 0 completes in the
tick and sound 1 is paused, not fading, and would not complete if it were
serviced; one `_sfProcessFading` tick removes both from the play list and
marks both as stopped asynchronously.  The paused sound stays on the play
list when sound 0 does not complete (loop counter 0), when it is alone on the
play list, and when it comes before sound 0. -/
theorem paused_sound_removed_after_completed_sound :
    ((pausedBehindEnding 1).sound 1)._pausedCount = 1 ∧
    ((pausedBehindEnding 1).sound 1)._fadeDest = -1 ∧
    (_soServiceTracks (pausedBehindEnding 1) 0).toOption.map (fun r => r.2) = some true ∧
    (_soServiceTracks (pausedBehindEnding 1) 1).toOption.map (fun r => r.2) = some false ∧
    removalsOf (_sfProcessFading (pausedBehindEnding 1)) = some ([], [true, true]) ∧
    removalsOf (_sfProcessFading (pausedBehindEnding 0)) = some ([0, 1], [false, false]) ∧
    removalsOf (_sfProcessFading { pausedBehindEnding 1 with _playList := [1] }) =
      some ([1], [false, false]) ∧
    removalsOf (_sfProcessFading { pausedBehindEnding 1 with _playList := [1, 0] }) =
      some ([1], [true, false]) := by
  refine ⟨?_, ?_, ?_, ?_, ?_, ?_, ?_, ?_⟩ <;> decide

/-! ## The rest counter of a track -/

theorem rd_eq_ok {α : Type} (l : List α) (i : Int) (a : α) :
    rd l i = .ok a ↔ 0 ≤ i ∧ l[i.toNat]? = some a := by
  unfold rd
  by_cases hneg : i < 0
  · rw [if_pos hneg]
    constructor
    · intro hc; cases hc
    · intro hc; omega
  · rw [if_neg hneg, List.get?_eq_getElem?]
    cases hg : l[i.toNat]? with
    | none =>
      constructor
      · intro hc; cases hc
      · intro hc; cases hc.2
    | some b =>
      constructor
      · intro hc; cases hc; exact ⟨not_lt.1 hneg, rfl⟩
      · intro hc; cases hc.2; rfl

theorem serviceTrackType0_withRest (m : Manager) (h : Nat) (trackIndex : Int)
    (channelData : List Nat) (r idx : Int) (hh : h < m.sounds.length) (ht : 0 ≤ trackIndex)
    (hrest : trackIndex.toNat < (m.sound h)._trkRest.length) (hne : r ≠ 0) :
    _soServiceTrackType0 (withRest m h trackIndex r idx) h trackIndex channelData =
      .ok (withRest m h trackIndex (r - 1) idx) := by
  have hs : (withRest m h trackIndex r idx).sound h = { m.sound h with
      _trkRest := (m.sound h)._trkRest.set trackIndex.toNat r
      _trkIndex := (m.sound h)._trkIndex.set trackIndex.toNat idx } :=
    sound_setSound m h _ hh
  have hrd : rd ((m.sound h)._trkRest.set trackIndex.toNat r) trackIndex = .ok r :=
    (rd_eq_ok _ _ _).2 ⟨ht, by rw [List.getElem?_set_self hrest]⟩
  have hw : wr ((m.sound h)._trkRest.set trackIndex.toNat r) trackIndex (r - 1) =
      .ok ((m.sound h)._trkRest.set trackIndex.toNat (r - 1)) := by
    unfold wr
    rw [if_neg (not_lt.2 ht), if_pos (by rw [List.length_set]; exact hrest), List.set_set]
  unfold _soServiceTrackType0
  rw [hs]
  simp only [hrd, Except.bind]
  rw [if_pos hne, hw]
  simp only [Except.map, withRest, Manager.setSound, List.set_set]

theorem restTicks_withRest (m : Manager) (h : Nat) (trackIndex : Int)
    (channelData : List Nat) (idx : Int) (hh : h < m.sounds.length) (ht : 0 ≤ trackIndex)
    (hrest : trackIndex.toNat < (m.sound h)._trkRest.length) :
    ∀ (k : Nat) (r : Int), (r < 0 ∨ (k : Int) ≤ r) →
      restTicks h trackIndex channelData k (withRest m h trackIndex r idx) =
        .ok (withRest m h trackIndex (r - (k : Int)) idx) := by
  intro k
  induction k with
  | zero =>
    intro r _
    unfold restTicks
    simp
  | succ k ih =>
    intro r hk
    unfold restTicks
    rw [serviceTrackType0_withRest m h trackIndex channelData r idx hh ht hrest (by omega)]
    simp only [Except.bind]
    rw [ih (r - 1) (by omega)]
    congr 2
    push_cast
    omega

theorem decodeStep_rest (ctx : TrackCtx) (h : Nat) (trackIndex : Int)
    (m : Manager) (pre cs post : List Nat) (x nb : Nat)
    (hx : x < 32) (hcs : ∀ c ∈ cs, c < 32) (hnb : nb &&& 0xE0 ≠ 0xC0)
    (ht : 0 ≤ trackIndex) (hrest : trackIndex.toNat < (m.sound h)._trkRest.length)
    (hidx : trackIndex.toNat < (m.sound h)._trkIndex.length) :
    decodeStep ctx h trackIndex (pre ++ (0xC0 + x) :: (cs.map (fun c => 0xC0 + c) ++ nb :: post))
        m pre.length =
      .ok (Decoded.done (withRest m h trackIndex (wrapInt32 (base32Value (x :: cs) - 1))
        ((pre.length + 1 + cs.length : Nat) : Int))) := by
  have hb := restByte_bits x hx
  have hdrop : List.drop (pre.length + 1)
      (pre ++ (0xC0 + x) :: (cs.map (fun c => 0xC0 + c) ++ nb :: post)) =
      cs.map (fun c => 0xC0 + c) ++ nb :: post := by
    rw [List.drop_append_eq_append_drop]
    simp
  unfold decodeStep
  rw [rdByte_append]
  simp only [Except.bind, hb.1, hb.2.1, hb.2.2.1, if_false, if_true]
  unfold area3
  rw [hdrop, hb.2.2.2.2, gatherRest_value cs hcs nb hnb post x hx]
  have hneg : ¬ trackIndex < 0 := not_lt.2 ht
  simp only [Except.bind, wr, hneg, if_false, hrest, hidx, if_true, Except.map,
    wrapInt32_pred, withRest]

/-- C37 (amended): a rest opcode `110xxxxx` with digit `x` and any number of
continuation digits `cs` stores the rest counter `R = V - 1` as a 32-bit
`int`, where `V` is the base-32 value of `x :: cs`, and changes nothing but
the rest counter and the position of the track.  Each of the next `k` calls of
`_soServiceTrackType0` returns, lowers the counter by one and changes nothing
else, as long as the counter has not reached 0 and stays within the range of an
`int`: after `k` calls the state is the one after the opcode with the counter
`R - k`.  For `R >= 0` the counter is 0 after `R` calls; for `R < 0` (the
byte `0xC0` alone gives `R = -1`) it is `R - k`, further from 0 with every
call. -/
theorem rest_counter_counts_down_from_value_minus_one (ctx : TrackCtx) (h : Nat)
    (trackIndex : Int) (m : Manager) (pre cs post : List Nat) (x nb k : Nat)
    (hx : x < 32) (hcs : ∀ c ∈ cs, c < 32) (hnb : nb &&& 0xE0 ≠ 0xC0)
    (ht : 0 ≤ trackIndex) (hrest : trackIndex.toNat < (m.sound h)._trkRest.length)
    (hidx : trackIndex.toNat < (m.sound h)._trkIndex.length) (hh : h < m.sounds.length)
    (hk : (0 ≤ wrapInt32 (base32Value (x :: cs) - 1) ∧
        (k : Int) ≤ wrapInt32 (base32Value (x :: cs) - 1)) ∨
      (wrapInt32 (base32Value (x :: cs) - 1) < 0 ∧
        -2147483648 ≤ wrapInt32 (base32Value (x :: cs) - 1) - (k : Int))) :
    decodeStep ctx h trackIndex
        (pre ++ (0xC0 + x) :: (cs.map (fun c => 0xC0 + c) ++ nb :: post)) m pre.length =
      .ok (Decoded.done (withRest m h trackIndex (wrapInt32 (base32Value (x :: cs) - 1))
        ((pre.length + 1 + cs.length : Nat) : Int))) ∧
    restTicks h trackIndex
        (pre ++ (0xC0 + x) :: (cs.map (fun c => 0xC0 + c) ++ nb :: post)) k
        (withRest m h trackIndex (wrapInt32 (base32Value (x :: cs) - 1))
          ((pre.length + 1 + cs.length : Nat) : Int)) =
      .ok (withRest m h trackIndex (wrapInt32 (base32Value (x :: cs) - 1) - (k : Int))
        ((pre.length + 1 + cs.length : Nat) : Int)) ∧
    (base32Value (x :: cs) ≤ 2147483648 →
      wrapInt32 (base32Value (x :: cs) - 1) = base32Value (x :: cs) - 1) :=
  ⟨decodeStep_rest ctx h trackIndex m pre cs post x nb hx hcs hnb ht hrest hidx,
    restTicks_withRest m h trackIndex _ _ hh ht hrest k _ (by omega),
    fun hle => wrapInt32_of_range _ (by have := base32Value_nonneg (x :: cs); omega) (by omega)⟩

/-- C37 as stated fails: after the rest opcode `0xC0` the rest counter of the
track is -1, and the following calls of `_soServiceTrackType0` take it to -2
and on (-40 after 40 calls) with the track still active; after `0xC2` it is 1,
then 0, and the third call decodes the end of the track. -/
theorem zero_rest_opcode_makes_rest_negative :
    restAfter [0xC0, 0xFF, 0x80] = some (-1) ∧
    restAfterTicks [0xC0, 0xFF, 0x80] 1 = some (-1, 1) ∧
    restAfterTicks [0xC0, 0xFF, 0x80] 2 = some (-2, 1) ∧
    restAfterTicks [0xC0, 0xFF, 0x80] 40 = some (-40, 1) ∧
    restAfterTicks [0xC2, 0xFF, 0x80] 1 = some (1, 1) ∧
    restAfterTicks [0xC2, 0xFF, 0x80] 2 = some (0, 1) ∧
    restAfterTicks [0xC2, 0xFF, 0x80] 3 = some (0, 0) := by
  refine ⟨?_, ?_, ?_, ?_, ?_, ?_, ?_⟩ <;> decide

/-- Witness of the amended C37: the byte `0xC0` alone on track 0 of sound 0 of
the three-sound fixture, followed by three more calls (the counter goes from
-1 to -4); and the byte `0xC5`, followed by four more calls (the counter goes
from 4 to 0). -/
theorem rest_counter_counts_down_from_value_minus_one_witness :
    (0 < 32 ∧ (∀ c ∈ ([] : List Nat), c < 32) ∧ 0xFF &&& 0xE0 ≠ 0xC0 ∧ (0 : Int) ≤ 0 ∧
      (0 : Int).toNat < (threeSounds.sound 0)._trkRest.length ∧
      (0 : Int).toNat < (threeSounds.sound 0)._trkIndex.length ∧
      0 < threeSounds.sounds.length ∧
      ((0 ≤ wrapInt32 (base32Value (0 :: []) - 1) ∧
          ((3 : Nat) : Int) ≤ wrapInt32 (base32Value (0 :: []) - 1)) ∨
        (wrapInt32 (base32Value (0 :: []) - 1) < 0 ∧
          -2147483648 ≤ wrapInt32 (base32Value (0 :: []) - 1) - ((3 : Nat) : Int)))) ∧
    (decodeStep { channelNum := 0, chFlags := 0 } 0 0
        ([0, 0, 0, 0, 0, 0, 1, 0, 0, 0, 0, 127, 64, 0] ++ (0xC0 + 0) ::
          (([] : List Nat).map (fun c => 0xC0 + c) ++ 0xFF :: [0x80]))
        threeSounds ([0, 0, 0, 0, 0, 0, 1, 0, 0, 0, 0, 127, 64, 0] : List Nat).length =
      .ok (Decoded.done (withRest threeSounds 0 0 (wrapInt32 (base32Value (0 :: []) - 1))
        ((([0, 0, 0, 0, 0, 0, 1, 0, 0, 0, 0, 127, 64, 0] : List Nat).length + 1 +
          ([] : List Nat).length : Nat) : Int))) ∧
    restTicks 0 0
        ([0, 0, 0, 0, 0, 0, 1, 0, 0, 0, 0, 127, 64, 0] ++ (0xC0 + 0) ::
          (([] : List Nat).map (fun c => 0xC0 + c) ++ 0xFF :: [0x80])) 3
        (withRest threeSounds 0 0 (wrapInt32 (base32Value (0 :: []) - 1))
          ((([0, 0, 0, 0, 0, 0, 1, 0, 0, 0, 0, 127, 64, 0] : List Nat).length + 1 +
            ([] : List Nat).length : Nat) : Int)) =
      .ok (withRest threeSounds 0 0
        (wrapInt32 (base32Value (0 :: []) - 1) - ((3 : Nat) : Int))
        ((([0, 0, 0, 0, 0, 0, 1, 0, 0, 0, 0, 127, 64, 0] : List Nat).length + 1 +
          ([] : List Nat).length : Nat) : Int)) ∧
    (base32Value (0 :: []) ≤ 2147483648 →
      wrapInt32 (base32Value (0 :: []) - 1) = base32Value (0 :: []) - 1)) ∧
    (5 < 32 ∧ 0 ≤ wrapInt32 (base32Value (5 :: []) - 1) ∧
      ((4 : Nat) : Int) ≤ wrapInt32 (base32Value (5 :: []) - 1) ∧
      wrapInt32 (base32Value (5 :: []) - 1) - ((4 : Nat) : Int) = 0) ∧
    restTicks 0 0
        ([0, 0, 0, 0, 0, 0, 1, 0, 0, 0, 0, 127, 64, 0] ++ (0xC0 + 5) ::
          (([] : List Nat).map (fun c => 0xC0 + c) ++ 0xFF :: [0x80])) 4
        (withRest threeSounds 0 0 (wrapInt32 (base32Value (5 :: []) - 1))
          ((([0, 0, 0, 0, 0, 0, 1, 0, 0, 0, 0, 127, 64, 0] : List Nat).length + 1 +
            ([] : List Nat).length : Nat) : Int)) =
      .ok (withRest threeSounds 0 0
        (wrapInt32 (base32Value (5 :: []) - 1) - ((4 : Nat) : Int))
        ((([0, 0, 0, 0, 0, 0, 1, 0, 0, 0, 0, 127, 64, 0] : List Nat).length + 1 +
          ([] : List Nat).length : Nat) : Int)) :=
  ⟨⟨by decide, by decide, by decide, by decide, by decide, by decide, by decide,
      Or.inr ⟨by decide, by decide⟩⟩,
    rest_counter_counts_down_from_value_minus_one { channelNum := 0, chFlags := 0 } 0 0
      threeSounds [0, 0, 0, 0, 0, 0, 1, 0, 0, 0, 0, 127, 64, 0] [] [0x80] 0 0xFF 3
      (by decide) (by decide) (by decide) (by decide) (by decide) (by decide) (by decide)
      (Or.inr ⟨by decide, by decide⟩),
    ⟨by decide, by decide, by decide, by decide⟩,
    (rest_counter_counts_down_from_value_minus_one { channelNum := 0, chFlags := 0 } 0 0
      threeSounds [0, 0, 0, 0, 0, 0, 1, 0, 0, 0, 0, 127, 64, 0] [] [0x80] 5 0xFF 4
      (by decide) (by decide) (by decide) (by decide) (by decide) (by decide) (by decide)
      (Or.inl ⟨by decide, by decide⟩)).2.1⟩

/-! ## Starting a sound twice -/

/-- C38 fails in the code: two `go()` calls on the primed sound 0 of the
three-sound fixture put it on the play list twice, and after one `halt()` it
is still on the play list and `isPlaying()` is still true; the second `halt()`
removes it. -/
theorem go_twice_needs_two_halts :
    (threeSounds.sound 0)._primed = true ∧
    playingAfter (go threeSounds 0) 0 = some ([0], true) ∧
    playingAfter ((go threeSounds 0).bind fun m1 => go m1 0) 0 = some ([0, 0], true) ∧
    playingAfter ((go threeSounds 0).bind fun m1 => (go m1 0).bind fun m2 => halt m2 0) 0 =
      some ([0], true) ∧
    playingAfter ((go threeSounds 0).bind fun m1 => (go m1 0).bind fun m2 =>
      (halt m2 0).bind fun m3 => halt m3 0) 0 = some ([], false) ∧
    playingAfter ((go threeSounds 0).bind fun m1 => halt m1 0) 0 = some ([], false) := by
  refine ⟨?_, ?_, ?_, ?_, ?_, ?_⟩ <;> decide

/-! ## Track decoding while seeking -/

/-- C39 fails in the code: for a track on channel 0 holding the pitch-bend
event `0xFC 0x12 0x34`, one `_soServiceTrackType0` call stores the pitch bend
0x1234 of the channel when `_soTimeIndexFlag` is clear and leaves it at 0x2000
when the flag is set, with the same track position, rest counter and track
state in both cases.  A program change (`0xFE 5`) and a modulation change
(`0xE0 100`) are stored whether the flag is set or not. -/
theorem pitch_bend_not_stored_while_seeking :
    trackSummary [0xFC, 0x12, 0x34, 0xFF, 0x80] false =
      some ([19, 0, 0], [0, 0, 127, 64, 0, 1], 0x1234) ∧
    trackSummary [0xFC, 0x12, 0x34, 0xFF, 0x80] true =
      some ([19, 0, 0], [0, 0, 127, 64, 0, 1], 0x2000) ∧
    trackSummary [0xFE, 5, 0xFF, 0x80] false = some ([18, 0, 0], [5, 0, 127, 64, 0, 1], 0x2000) ∧
    trackSummary [0xFE, 5, 0xFF, 0x80] true = some ([18, 0, 0], [5, 0, 127, 64, 0, 1], 0x2000) ∧
    trackSummary [0xE0, 100, 0xFF, 0x80] false =
      some ([18, 0, 0], [0, 100, 127, 64, 0, 1], 0x2000) ∧
    trackSummary [0xE0, 100, 0xFF, 0x80] true =
      some ([18, 0, 0], [0, 100, 127, 64, 0, 1], 0x2000) := by
  refine ⟨?_, ?_, ?_, ?_, ?_, ?_⟩ <;> decide

/-! ## The Adlib frequency registers -/

theorem int_land3 (x : Int) (hx : 0 ≤ x) : Int.land x 3 = x % 4 := by
  obtain ⟨n, rfl⟩ := Int.eq_ofNat_of_zero_le hx
  show ((n &&& 3 : Nat) : Int) = (n : Int) % 4
  have h := Nat.and_pow_two_sub_one_eq_mod n 2
  norm_num at h
  rw [h]
  norm_cast

theorem int_shr2 (x : Int) (hx : 0 ≤ x) : Int.shiftRight x 2 = x / 4 := by
  obtain ⟨n, rfl⟩ := Int.eq_ofNat_of_zero_le hx
  show ((n >>> 2 : Nat) : Int) = (n : Int) / 4
  rw [Nat.shiftRight_eq_div_pow]
  norm_cast

theorem int_shl2 (x : Int) : x <<< (2 : Int) = x * 4 := by
  have h := Int.shiftLeft_eq_mul_pow x 2
  simpa using h

theorem frequencyNote_range (v note : Int) (hn0 : 0 ≤ note) (hn1 : note ≤ 127)
    (hv0 : 0 ≤ v) (hv1 : v ≤ 0x3FFF) :
    0 ≤ (frequencyNote v note).1 ∧ (frequencyNote v note).1 ≤ 3 ∧
    0 ≤ (frequencyNote v note).2 ∧ (frequencyNote v note).2 ≤ 127 := by
  unfold frequencyNote
  by_cases h1 : v = 0x2000
  · rw [if_pos h1]
    exact ⟨le_refl _, by show (0 : Int) ≤ 3; decide, hn0, hn1⟩
  · rw [if_neg h1]
    by_cases h2 : v > 0x2000
    · rw [if_pos h2]
      dsimp only
      have hv2 : ∀ v2 : Int, v2 = (if v - 0x2000 = 0x1fff then 0x2000 else v - 0x2000) →
          1 ≤ v2 ∧ v2 ≤ 0x2000 := by
        intro v2 hv2
        rw [hv2]
        split_ifs <;> omega
      generalize (if v - 0x2000 = 0x1fff then (0x2000 : Int) else v - 0x2000) = v2 at hv2
      have hr := hv2 v2 rfl
      rw [Int.tdiv_eq_ediv (by omega) (by decide), int_land3 _ (by omega),
        int_shr2 _ (by omega)]
      refine ⟨by omega, by omega, ?_, ?_⟩ <;> split_ifs <;> omega
    · rw [if_neg h2]
      dsimp only
      rw [Int.tdiv_eq_ediv (by omega) (by decide), int_land3 _ (by omega),
        int_shr2 _ (by omega)]
      refine ⟨?_, ?_, ?_, ?_⟩ <;> split_ifs <;> omega

theorem frequencyIndex_range (v note : Int) (hn0 : 0 ≤ note) (hn1 : note ≤ 127)
    (hv0 : 0 ≤ v) (hv1 : v ≤ 0x3FFF) :
    0 ≤ frequencyIndex v note ∧ frequencyIndex v note ≤ 47 := by
  obtain ⟨ho0, ho1, hc0, hc1⟩ := frequencyNote_range v note hn0 hn1 hv0 hv1
  unfold frequencyIndex
  rw [int_shl2, Int.tmod_eq_emod hc0 (by decide)]
  omega

theorem frequencyBlock_range (ch : Int) (hc0 : 0 ≤ ch) (hc1 : ch ≤ 127) :
    0 ≤ frequencyBlock ch ∧ frequencyBlock ch ≤ 9 ∧ (8 ≤ frequencyBlock ch ↔ 108 ≤ ch) := by
  unfold frequencyBlock
  rw [Int.tdiv_eq_ediv hc0 (by decide)]
  split_ifs <;> omega

theorem v440D4_entries : ∀ n : Nat, n < 48 →
    n < v440D4.length ∧ 0 ≤ v440D4.getD n 0 ∧ v440D4.getD n 0 < 1024 := by
  decide

theorem rd_v440D4 (i : Int) (h0 : 0 ≤ i) (h1 : i ≤ 47) :
    ∃ w : Nat, rd v440D4 i = .ok (w : Int) ∧ w < 1024 := by
  obtain ⟨n, rfl⟩ := Int.eq_ofNat_of_zero_le h0
  obtain ⟨hlen, hw0, hw1⟩ := v440D4_entries n (by omega)
  obtain ⟨w, hw⟩ := Int.eq_ofNat_of_zero_le hw0
  refine ⟨w, ?_, by omega⟩
  rw [rd_getD v440D4 n hlen, hw]

set_option maxRecDepth 1000000 in
set_option maxHeartbeats 4000000 in
theorem keyBit_nat : ∀ o < 256, ∀ lo < 4, ∀ b < 10,
    ((o &&& 0xE0 ||| lo) ||| (b <<< 2)) % 256 &&& 0x20 =
      if 8 ≤ b then 0x20 else o &&& 0x20 := by
  decide

theorem keyBit_int (old dataWord var2 : Int) (ho0 : 0 ≤ old) (ho1 : old < 256)
    (hd0 : 0 ≤ dataWord) (hb0 : 0 ≤ var2) (hb1 : var2 ≤ 9) :
    Int.land (Int.emod (Int.lor (Int.lor (Int.land old 0xE0)
        (Int.land (Int.shiftRight dataWord 8) 3)) (var2 <<< (2 : Int))) 256) 0x20 =
      if 8 ≤ var2 then 0x20 else Int.land old 0x20 := by
  obtain ⟨o, rfl⟩ := Int.eq_ofNat_of_zero_le ho0
  obtain ⟨w, rfl⟩ := Int.eq_ofNat_of_zero_le hd0
  obtain ⟨b, rfl⟩ := Int.eq_ofNat_of_zero_le hb0
  have hlo : (w >>> 8) &&& 3 < 4 := Nat.lt_succ_of_le Nat.and_le_right
  have key := keyBit_nat o (by omega) ((w >>> 8) &&& 3) hlo b (by omega)
  show (((((o &&& 0xE0 ||| ((w >>> 8) &&& 3)) ||| (b <<< 2)) % 256 &&& 0x20 : Nat)) : Int) =
    if 8 ≤ (b : Int) then 0x20 else ((o &&& 0x20 : Nat) : Int)
  rw [key]
  by_cases h8 : 8 ≤ b
  · rw [if_pos h8, if_pos (by omega)]
    rfl
  · rw [if_neg h8, if_neg (by omega)]

theorem wr_eq_ok {α : Type} (l : List α) (i : Int) (a : α) (h0 : 0 ≤ i)
    (h1 : i.toNat < l.length) : wr l i a = .ok (l.set i.toNat a) := by
  unfold wr
  rw [if_neg (not_lt.2 h0), if_pos h1]

theorem rd_set_ne {α : Type} (l : List α) (i j : Int) (a : α) (hi : 0 ≤ i) (hj : 0 ≤ j)
    (hne : i ≠ j) : rd (l.set i.toNat a) j = rd l j := by
  unfold rd
  rw [if_neg (not_lt.2 hj), if_neg (not_lt.2 hj), List.get?_eq_getElem?, List.get?_eq_getElem?,
    List.getElem?_set_ne (by omega)]

theorem rd_set_self {α : Type} (l : List α) (i : Int) (a : α) (hi : 0 ≤ i)
    (hlt : i.toNat < l.length) : rd (l.set i.toNat a) i = .ok a := by
  refine (rd_eq_ok _ _ _).2 ⟨hi, ?_⟩
  rw [List.getElem?_set_self hlt]

/-- C40, what the code does: for a channel 0..8 with base note 0..127 and
pitch-bend value 0..0x3FFF, `setFrequency` reads `v440D4` at an index within
0..47 and returns, and the key-on bit 0x20 of the shadow register
`0xB0 + channel` is afterwards SET whenever the note after pitch bend is 108
or higher (the block number 8 or 9 shifted left by 2 reaches bit 5); below
108 the bit is as before. -/
theorem setFrequency_key_bit (d : AdlibSoundDriver) (channel note v old : Int)
    (hc0 : 0 ≤ channel) (hc1 : channel ≤ 8) (hn0 : 0 ≤ note) (hn1 : note ≤ 127)
    (hv0 : 0 ≤ v) (hv1 : v ≤ 0x3FFF)
    (hpb : rd d._pitchBlend channel = .ok v) (hnote : rd d._v44067 channel = .ok note)
    (hlen : d._portContents.length = 256)
    (hold : rd d._portContents (0xB0 + channel) = .ok old)
    (ho0 : 0 ≤ old) (ho1 : old < 256) :
    0 ≤ frequencyIndex v note ∧ frequencyIndex v note ≤ 47 ∧
    ∃ d1 new, d.setFrequency channel = .ok d1 ∧
      rd d1._portContents (0xB0 + channel) = .ok new ∧
      Int.land new 0x20 =
        if 108 ≤ (frequencyNote v note).2 then 0x20 else Int.land old 0x20 := by
  obtain ⟨hi0, hi1⟩ := frequencyIndex_range v note hn0 hn1 hv0 hv1
  obtain ⟨_, _, hch0, hch1⟩ := frequencyNote_range v note hn0 hn1 hv0 hv1
  obtain ⟨hb0, hb1, hb8⟩ := frequencyBlock_range _ hch0 hch1
  obtain ⟨w, hw, _⟩ := rd_v440D4 _ hi0 hi1
  refine ⟨hi0, hi1, ?_⟩
  have heA : Int.emod (0xA0 + channel) 256 = 0xA0 + channel :=
    Int.emod_eq_of_lt (by omega) (by omega)
  have heB : Int.emod (0xB0 + channel) 256 = 0xB0 + channel :=
    Int.emod_eq_of_lt (by omega) (by omega)
  have hwA : ∀ x : Int, wr d._portContents (0xA0 + channel) x =
      .ok (d._portContents.set (0xA0 + channel).toNat x) :=
    fun x => wr_eq_ok _ _ _ (by omega) (by rw [hlen]; omega)
  have hwB : ∀ x : Int, wr (d._portContents.set (0xA0 + channel).toNat
      (Int.emod (Int.land (w : Int) 0xff) 256)) (0xB0 + channel) x =
      .ok ((d._portContents.set (0xA0 + channel).toNat
        (Int.emod (Int.land (w : Int) 0xff) 256)).set (0xB0 + channel).toNat x) :=
    fun x => wr_eq_ok _ _ _ (by omega) (by rw [List.length_set, hlen]; omega)
  have hrd : rd (d._portContents.set (0xA0 + channel).toNat
      (Int.emod (Int.land (w : Int) 0xff) 256)) (0xB0 + channel) = .ok old := by
    rw [rd_set_ne _ _ _ _ (by omega) (by omega) (by omega)]
    exact hold
  refine ⟨⟨(d._portContents.set (0xA0 + channel).toNat
      (Int.emod (Int.land (w : Int) 0xff) 256)).set (0xB0 + channel).toNat
      (Int.emod (Int.lor (Int.lor (Int.land old 0xE0) (Int.land (Int.shiftRight (w : Int) 8) 3))
        (frequencyBlock (frequencyNote v note).2 <<< (2 : Int))) 256),
      d._channelVoiced, d._v44067, d._pitchBlend⟩,
    Int.emod (Int.lor (Int.lor (Int.land old 0xE0) (Int.land (Int.shiftRight (w : Int) 8) 3))
      (frequencyBlock (frequencyNote v note).2 <<< (2 : Int))) 256, ?_, ?_, ?_⟩
  · unfold AdlibSoundDriver.setFrequency
    rw [hpb]
    simp only [Except.bind]
    rw [hnote]
    simp only [Except.bind]
    rw [hw]
    simp only [Except.bind]
    unfold AdlibSoundDriver.write
    rw [heA, hwA]
    simp only [Except.map, Except.bind]
    rw [hrd]
    simp only [Except.bind]
    rw [heB, hwB]
  · exact rd_set_self _ _ _ (by omega) (by rw [List.length_set, hlen]; omega)
  · rw [keyBit_int old w _ ho0 ho1 (by omega) hb0 hb1]
    by_cases h8 : 108 ≤ (frequencyNote v note).2
    · rw [if_pos h8, if_pos (hb8.2 h8)]
    · rw [if_neg h8, if_neg (fun hc => h8 (hb8.1 hc))]

theorem rd_replicate {α : Type} (n : Nat) (a : α) (i : Nat) (h : i < n) :
    rd (List.replicate n a) (i : Int) = .ok a := by
  apply rd_nat
  rw [List.getElem?_replicate, if_pos h]

theorem setFrequency_key_bit_witness :
    ((0 : Int) ≤ 0 ∧ (0 : Int) ≤ 8 ∧ (0 : Int) ≤ 120 ∧ (120 : Int) ≤ 127 ∧
      (0 : Int) ≤ 0x2000 ∧ (0x2000 : Int) ≤ 0x3FFF ∧
      rd (adlibDriverAt 120 0x2000)._pitchBlend 0 = .ok 0x2000 ∧
      rd (adlibDriverAt 120 0x2000)._v44067 0 = .ok 120 ∧
      (adlibDriverAt 120 0x2000)._portContents.length = 256 ∧
      rd (adlibDriverAt 120 0x2000)._portContents (0xB0 + 0) = .ok 0 ∧
      (0 : Int) ≤ 0 ∧ (0 : Int) < 256) ∧
    (0 ≤ frequencyIndex 0x2000 120 ∧ frequencyIndex 0x2000 120 ≤ 47 ∧
      ∃ d1 new, (adlibDriverAt 120 0x2000).setFrequency 0 = .ok d1 ∧
        rd d1._portContents (0xB0 + 0) = .ok new ∧
        Int.land new 0x20 =
          if 108 ≤ (frequencyNote 0x2000 120).2 then 0x20 else Int.land 0 0x20) :=
  ⟨⟨by decide, by decide, by decide, by decide, by decide, by decide, rfl, rfl,
      List.length_replicate 256 0, rd_replicate 256 0 176 (by decide), by decide, by decide⟩,
    setFrequency_key_bit (adlibDriverAt 120 0x2000) 0 120 0x2000 0 (by decide) (by decide)
      (by decide) (by decide) (by decide) (by decide) rfl rfl (List.length_replicate 256 0)
      (rd_replicate 256 0 176 (by decide)) (by decide) (by decide)⟩

set_option maxRecDepth 100000 in
/-- The failing input of C40: with base note 120 and no pitch bend the shadow
register `0xB0` goes from 0 to 0x25, key-on bit included, and the channel is
still not marked as voiced; with base note 60 it becomes 0x11.  A pitch bend
of 0x3FFF on base note 100 gives the note 112 and the register 0x21. -/
theorem setFrequency_high_note_example :
    keyRegisterAfter (adlibDriverAt 120 0x2000) 0 = some (0x25, false) ∧
    keyRegisterAfter (adlibDriverAt 60 0x2000) 0 = some (0x11, false) ∧
    (frequencyNote 0x3FFF 100).2 = 112 ∧
    keyRegisterAfter (adlibDriverAt 100 0x3FFF) 0 = some (0x21, false) := by
  refine ⟨?_, ?_, ?_, ?_⟩ <;> decide

/-! ## Voice allocation without must-have channels -/

theorem scan_picks_channel (s : Sound) (w : List Bool) (off : Int) (l : List Nat)
    (acc : Int × Int)
    (hacc : acc.1 = -1 ∨ ∃ i : Nat, i < 16 ∧
      acc = ((i : Int), encodedPriority (s._chSubPriority.getD i 0) off) ∧
      Int.land (s._chFlags.getD i 0) 0x8000 = 0 ∧ w.getD i false = false)
    (hl : ∀ i ∈ l, i < 16) :
    (l.foldl (scanStep s w off) acc).1 = -1 ∨
      ∃ i : Nat, i < 16 ∧
        l.foldl (scanStep s w off) acc
          = ((i : Int), encodedPriority (s._chSubPriority.getD i 0) off) ∧
        Int.land (s._chFlags.getD i 0) 0x8000 = 0 ∧ w.getD i false = false := by
  induction l generalizing acc with
  | nil => exact hacc
  | cons x xs ih =>
    rw [List.foldl_cons]
    refine ih _ ?_ (fun i hi => hl i (List.mem_cons_of_mem _ hi))
    have hx := hl x (List.mem_cons_self _ _)
    by_cases hc : Int.land (s._chFlags.getD x 0) 0x8000 = 0 ∧ w.getD x false = false
    · have hgoal : scanStep s w off acc x = acc ∨
          scanStep s w off acc x
            = ((x : Int), encodedPriority (s._chSubPriority.getD x 0) off) := by
        unfold scanStep encodedPriority
        dsimp only
        rw [if_pos hc]
        split_ifs <;> simp
      rcases hgoal with hg | hg
      · rw [hg]; exact hacc
      · exact Or.inr ⟨x, hx, hg, hc.1, hc.2⟩
    · have hgoal : scanStep s w off acc x = acc := by
        unfold scanStep
        rw [if_neg hc]
      rw [hgoal]; exact hacc

theorem scanSubPriority_channel (s : Sound) (w : List Bool) (off : Int) :
    (scanSubPriority s w off).1 = -1 ∨
      ∃ i : Nat, i < 16 ∧
        scanSubPriority s w off
          = ((i : Int), encodedPriority (s._chSubPriority.getD i 0) off) ∧
        Int.land (s._chFlags.getD i 0) 0x8000 = 0 ∧ w.getD i false = false :=
  scan_picks_channel s w off (List.range SOUND_ARR_SIZE) (-1, 0) (Or.inl rfl)
    (fun i hi => by simpa using hi)

theorem freeCount_cons (e : VoiceStructEntry) (es : List VoiceStructEntry) :
    freeCount (e :: es) = freeCount es + if e._type1._sound2 = none then 1 else 0 := by
  unfold freeCount
  rw [List.countP_cons]
  by_cases h : e._type1._sound2 = none <;> simp [h]

theorem pendFrom_zero_cons (q : Option Nat → Bool) (e : VoiceStructEntry)
    (es : List VoiceStructEntry) :
    pendFrom q 0 (e :: es) = pendFrom q 0 es + if q e._type1._sound2 = true then 1 else 0 := by
  unfold pendFrom
  simp only [List.drop_zero]
  rw [List.countP_cons]

/-- The loop `while (channelCount > 0)` of the TYPE_1 branch when enough
entries are free: it returns, and `k` more entries carry a proposal of sound
`h` and channel `fi`. -/
theorem claimVoices_free (h : Nat) (fi fp : Int) (es : List VoiceStructEntry) :
    ∀ (k : Nat), k ≤ freeCount es →
      ∃ es1, claimVoices h fi fp es (k : Int) = .ok es1 ∧ es1.length = es.length ∧
        freeCount es1 + k = freeCount es ∧
        (∀ e ∈ es1, ∀ s, e._type1._sound2 = some s →
          (s = h ∧ e._type1._channelNum2 = fi) ∨
          ∃ a ∈ es, a._type1._sound2 = some s ∧ a._type1._channelNum2 = e._type1._channelNum2) ∧
        ∀ q : Option Nat → Bool, q none = false →
          pendFrom q 0 es1 = pendFrom q 0 es + if q (some h) = true then k else 0 := by
  induction es with
  | nil =>
    intro k hk
    have hk0 : k = 0 := by simpa [freeCount] using hk
    subst hk0
    exact ⟨[], by simp [claimVoices], rfl, rfl, fun e he => by simp at he, fun q _ => by simp⟩
  | cons e rest ih =>
    intro k hk
    cases k with
    | zero =>
      refine ⟨e :: rest, by simp [claimVoices], rfl, rfl, ?_, fun q _ => by simp⟩
      intro x hx s hs
      exact Or.inr ⟨x, hx, hs, rfl⟩
    | succ k =>
      have hpos : ((k + 1 : Nat) : Int) > 0 := by omega
      have hsub : ((k + 1 : Nat) : Int) - 1 = (k : Int) := by omega
      rw [freeCount_cons] at hk
      by_cases he : e._type1._sound2 = none
      · rw [if_pos he] at hk
        obtain ⟨es1, hes1, hlen, hfree, hprop, hcnt⟩ := ih k (by omega)
        refine ⟨propose1 h fi fp e :: es1, ?_, by simp [hlen], ?_, ?_, ?_⟩
        · unfold claimVoices
          rw [if_pos hpos, if_pos he, hsub, hes1]
          rfl
        · rw [freeCount_cons, freeCount_cons, if_pos he]
          have : (propose1 h fi fp e)._type1._sound2 ≠ none := by simp [propose1]
          rw [if_neg this]
          omega
        · intro x hx s hs
          rcases List.mem_cons.1 hx with rfl | hx
          · simp only [propose1, Option.some.injEq] at hs
            exact Or.inl ⟨hs.symm, rfl⟩
          · rcases hprop x hx s hs with h1 | ⟨a, ha, h1⟩
            · exact Or.inl h1
            · exact Or.inr ⟨a, List.mem_cons_of_mem _ ha, h1⟩
        · intro q hq
          rw [pendFrom_zero_cons, pendFrom_zero_cons, hcnt q hq, he, hq]
          simp only [propose1]
          by_cases hqh : q (some h) = true
          · simp only [hqh, if_true, Bool.false_eq_true, if_false]
            omega
          · simp [hqh]
      · rw [if_neg he] at hk
        obtain ⟨es1, hes1, hlen, hfree, hprop, hcnt⟩ := ih (k + 1) (by omega)
        refine ⟨e :: es1, ?_, by simp [hlen], ?_, ?_, ?_⟩
        · unfold claimVoices
          rw [if_pos hpos, if_neg he, hes1]
          rfl
        · rw [freeCount_cons, freeCount_cons, if_neg he]
          omega
        · intro x hx s hs
          rcases List.mem_cons.1 hx with rfl | hx
          · exact Or.inr ⟨x, List.mem_cons_self _ _, hs, rfl⟩
          · rcases hprop x hx s hs with h1 | ⟨a, ha, h1⟩
            · exact Or.inl h1
            · exact Or.inr ⟨a, List.mem_cons_of_mem _ ha, h1⟩
        · intro q hq
          rw [pendFrom_zero_cons, pendFrom_zero_cons, hcnt q hq]
          omega

theorem tableGrows_refl (vts : VoiceTable) : tableGrows vts vts :=
  fun _ vs h => ⟨vs, h, fun _ _ => le_refl _⟩

theorem tableGrows_trans (a b c : VoiceTable) (hab : tableGrows a b) (hbc : tableGrows b c) :
    tableGrows a c := by
  intro g vs h
  obtain ⟨vs1, h1, hle1⟩ := hab g vs h
  obtain ⟨vs2, h2, hle2⟩ := hbc g vs1 h1
  exact ⟨vs2, h2, fun q hq => le_trans (hle1 q hq) (hle2 q hq)⟩

theorem getD_of_getElem? (vts : VoiceTable) (g : Nat) (vs : VoiceTypeStruct)
    (h : vts[g]? = some (some vs)) : vts.getD g none = some vs := by
  rw [List.getD_eq_getElem?_getD, h]
  rfl

theorem getElem?_set_self_lt {α : Type} (l : List α) (g : Nat) (a : α) (h : g < l.length) :
    (l.set g a)[g]? = some a := by
  simp [List.getElem?_set, h]

theorem groupTypes_set (vts : VoiceTable) (g : Nat) (vs vs1 : VoiceTypeStruct)
    (h : vts[g]? = some (some vs)) (hty : vs1._voiceType = vs._voiceType) :
    groupTypes (vts.set g (some vs1)) = groupTypes vts := by
  unfold groupTypes
  apply List.ext_getElem?
  intro i
  simp only [List.getElem?_map, List.getElem?_set]
  by_cases hi : g = i
  · subst hi
    have hlt : g < vts.length := by
      by_contra hc
      rw [List.getElem?_eq_none (by omega)] at h
      cases h
    simp [hlt, h, hty]
  · simp [hi]

theorem groupTypes_getD (vts : VoiceTable) (g : Nat) (vs : VoiceTypeStruct)
    (h : vts[g]? = some (some vs)) : (groupTypes vts).getD g none = some vs._voiceType := by
  unfold groupTypes
  rw [List.getD_eq_getElem?_getD, List.getElem?_map, h]
  rfl

/-- The TYPE_1 branch of the loop body for a channel that is not a must-have
channel: it returns, proposals are only added, and when the counter
`_numVoices` covers the demand `k` the group has `k` more proposals of sound
`h`. -/
theorem rethinkType1_polite (sounds : List Sound) (h : Nat) (fi fp k : Int) (g : Nat)
    (vs : VoiceTypeStruct) (vts : VoiceTable) (hfp : fp ≠ 0) (hk : 0 ≤ k)
    (hfi : 0 ≤ fi ∧ fi < 16) (hws : (sounds.getD h default).wellSized)
    (hg : vts[g]? = some (some vs)) (hty : vs._voiceType ≠ VOICETYPE_0)
    (hwf : ∀ slot ∈ vts, slotTidy sounds slot) :
    ∃ r, rethinkType1 h fi fp k g vs vts = .ok r ∧
      (∀ slot ∈ r.2, slotTidy sounds slot) ∧ groupTypes r.2 = groupTypes vts ∧
      tableGrows vts r.2 ∧
      (k ≤ vs._numVoices → ∃ vs1, r.2[g]? = some (some vs1) ∧
        ∀ q : Option Nat → Bool, q none = false →
          pendFrom q 0 vs1._entries
            = pendFrom q 0 vs._entries + if q (some h) = true then k.toNat else 0) := by
  have hmem : some vs ∈ vts := List.getElem?_mem hg
  obtain ⟨hready, hnum⟩ := hwf _ hmem
  have hnum := hnum vs rfl hty
  have hrange : proposalsInRange sounds vs._entries := (slotReady_type1 sounds vs hty).1 hready
  unfold rethinkType1
  dsimp only
  by_cases hfit : vs._numVoices ≥ k
  · rw [if_pos hfit]
    have hkn : ((k.toNat : Nat) : Int) = k := Int.toNat_of_nonneg hk
    obtain ⟨es1, hes1, hlen, hfree, hprop, hcnt⟩ :=
      claimVoices_free h fi fp vs._entries k.toNat (by omega)
    rw [hkn] at hes1
    rw [hes1]
    obtain ⟨hglt, hupd⟩ := updGroup_of_getD
      (fun v => { v with _entries := es1, _numVoices := v._numVoices - k }) g vts vs
      (getD_of_getElem? vts g vs hg)
    have hnew : slotTidy sounds
        (some { vs with _entries := es1, _numVoices := vs._numVoices - k }) := by
      constructor
      · refine (slotReady_type1 sounds
          (VoiceTypeStruct.mk vs._voiceType vs._total (vs._numVoices - k) vs._field3 es1) hty).2 ?_
        intro e he s hs
        rcases hprop e he s hs with ⟨rfl, hch⟩ | ⟨a, ha, hsa, hca⟩
        · rw [hch]
          exact ⟨hfi.1, hfi.2, hws⟩
        · rw [← hca]
          exact hrange a ha s hsa
      · intro v hv _
        simp only [Option.some.injEq] at hv
        subst hv
        show vs._numVoices - k ≤ (freeCount es1 : Int)
        omega
    refine ⟨_, rfl, ?_, ?_, ?_, ?_⟩
    · intro slot hslot
      simp only [Except.map] at hslot
      rw [hupd] at hslot
      rcases List.mem_or_eq_of_mem_set hslot with h1 | h1
      · exact hwf slot h1
      · rw [h1]
        exact hnew
    · simp only [Except.map]
      rw [hupd]
      exact groupTypes_set vts g vs _ hg rfl
    · simp only [Except.map]
      rw [hupd]
      intro g1 v1 h1
      by_cases hgg : g = g1
      · subst hgg
        rw [hg] at h1
        simp only [Option.some.injEq] at h1
        subst h1
        refine ⟨VoiceTypeStruct.mk vs._voiceType vs._total (vs._numVoices - k) vs._field3 es1,
          getElem?_set_self_lt _ _ _ hglt, fun q hq => ?_⟩
        simp only [hcnt q hq]
        omega
      · exact ⟨v1, by simp [List.getElem?_set, hgg, h1], fun _ _ => le_refl _⟩
    · intro _
      simp only [Except.map]
      rw [hupd]
      exact ⟨VoiceTypeStruct.mk vs._voiceType vs._total (vs._numVoices - k) vs._field3 es1,
        getElem?_set_self_lt _ _ _ hglt, fun q hq => hcnt q hq⟩
  · rw [if_neg hfit, if_neg hfp]
    by_cases hz : vs._numVoices = 0
    · rw [if_pos hz]
      exact ⟨_, rfl, hwf, rfl, tableGrows_refl _, fun hc => absurd hc hfit⟩
    · rw [if_neg hz]
      exact ⟨_, rfl, hwf, rfl, tableGrows_refl _, fun hc => absurd hc hfit⟩

theorem length_of_groupTypes_eq (a b : VoiceTable) (h : groupTypes a = groupTypes b) :
    a.length = b.length := by
  have := congrArg List.length h
  simpa [groupTypes] using this

/-- The `for (;;)` loop of `_sfRethinkVoiceTypes` for a sound without
must-have channels: it returns, proposals are only added, and the channel
served first gets its voices when the counter `_numVoices` of its group covers
its demand. -/
theorem rethinkChannels_polite (sounds : List Sound) (h : Nat) (s : Sound) (off : Int)
    (hws : (sounds.getD h default).wellSized) :
    ∀ (fuel : Nat) (w : List Bool) (vts : VoiceTable), w.length = 16 → w.count false < fuel →
      vts.length = 16 → s.politeAt (groupTypes vts) off →
      (∀ slot ∈ vts, slotTidy sounds slot) →
      ∃ r, rethinkChannels h s off fuel w vts = .ok r ∧
        (∀ slot ∈ r.2, slotTidy sounds slot) ∧ groupTypes r.2 = groupTypes vts ∧
        tableGrows vts r.2 ∧
        ∀ (c g : Nat) (vs : VoiceTypeStruct), (scanSubPriority s w off).1 = (c : Int) →
          s._chVoiceType.getD c 0 = (g : Int) → vts[g]? = some (some vs) →
          s._chNumVoices.getD c 0 ≤ vs._numVoices →
          ∃ vs1, r.2[g]? = some (some vs1) ∧
            ∀ q : Option Nat → Bool, q none = false → q (some h) = true →
              pendFrom q 0 vs._entries + (s._chNumVoices.getD c 0).toNat
                ≤ pendFrom q 0 vs1._entries := by
  intro fuel
  induction fuel with
  | zero => intro w vts _ hf; omega
  | succ fuel ih =>
    intro w vts hw hfuel hlen hpol hwf
    unfold rethinkChannels
    dsimp only
    rcases scanSubPriority_channel s w off with hnone | ⟨i, hi16, hscan, hflag, hfree⟩
    · rw [if_pos hnone]
      refine ⟨_, rfl, hwf, rfl, tableGrows_refl _, fun c g vs hc => ?_⟩
      rw [hnone] at hc
      omega
    · have h1 : (scanSubPriority s w off).1 = (i : Int) := by rw [hscan]
      have h2 : (scanSubPriority s w off).2 = encodedPriority (s._chSubPriority.getD i 0) off := by
        rw [hscan]
      obtain ⟨hfp, hk0, hvt0, hvt16, htype⟩ := hpol.2 i hi16 hflag
      obtain ⟨_, _, _, _, hnvlen, hvtlen⟩ := hpol.1
      rw [if_neg (by rw [h1]; omega), h1, h2]
      rw [rd_getD _ i (by omega), rd_getD _ i (by omega), wr_nat _ i _ (by omega)]
      simp only [Except.bind]
      have hwi : w[i]? = some false := by
        rw [List.getElem?_eq_getElem (by omega)]
        have := hfree
        rw [List.getD_eq_getElem _ _ (by omega)] at this
        rw [this]
      have hcount := count_false_set w i hwi
      have hwlen : (w.set i true).length = 16 := by simpa using hw
      have hvtlt : (s._chVoiceType.getD i 0).toNat < vts.length := by omega
      obtain ⟨slot, hslot⟩ : ∃ slot, vts[(s._chVoiceType.getD i 0).toNat]? = some slot :=
        ⟨_, List.getElem?_eq_getElem hvtlt⟩
      have hrd : rd vts (s._chVoiceType.getD i 0) = .ok slot :=
        (rd_eq_ok _ _ _).2 ⟨hvt0, hslot⟩
      rw [hrd]
      simp only
      cases slot with
      | none =>
        simp only [ne_eq, hfp, not_false_eq_true, if_true]
        obtain ⟨r, hr, hr1, hr2, hr3, _⟩ := ih (w.set i true) vts hwlen (by omega) hlen hpol hwf
        refine ⟨r, hr, hr1, hr2, hr3, fun c g vs hc hg hvs => ?_⟩
        have hci : c = i := by omega
        subst hci
        have hgg : (s._chVoiceType.getD c 0).toNat = g := by omega
        rw [hgg, hvs] at hslot
        cases hslot
      | some vs =>
        have hty : vs._voiceType ≠ VOICETYPE_0 := by
          intro hc
          apply htype
          rw [groupTypes_getD vts _ vs hslot, hc]
        simp only [ne_eq, hty, not_false_eq_true, if_true]
        obtain ⟨r1, hr1, hwf1, hty1, hgrow1, hfit1⟩ := rethinkType1_polite sounds h (i : Int)
          (encodedPriority (s._chSubPriority.getD i 0) off) (s._chNumVoices.getD i 0)
          (s._chVoiceType.getD i 0).toNat vs vts hfp hk0 ⟨by omega, by omega⟩ hws hslot hty hwf
        rw [hr1]
        simp only
        have hlen1 : r1.2.length = 16 := by rw [length_of_groupTypes_eq _ _ hty1]; exact hlen
        cases hfl : r1.1 with
        | again =>
          simp only
          obtain ⟨r, hr, hr1a, hr2, hr3, _⟩ := ih (w.set i true) r1.2 hwlen (by omega) hlen1
            (by rw [hty1]; exact hpol) hwf1
          refine ⟨r, hr, hr1a, hr2.trans hty1, tableGrows_trans _ _ _ hgrow1 hr3,
            fun c g v hc hg hvs hle => ?_⟩
          have hci : c = i := by omega
          subst hci
          have hgg : (s._chVoiceType.getD c 0).toNat = g := by omega
          rw [hgg] at hslot hfit1
          rw [hvs] at hslot
          simp only [Option.some.injEq] at hslot
          subst hslot
          obtain ⟨vs1, hvs1, hcnt⟩ := hfit1 hle
          obtain ⟨vs2, hvs2, hle2⟩ := hr3 g vs1 hvs1
          refine ⟨vs2, hvs2, fun q hq hqh => ?_⟩
          have := hcnt q hq
          rw [if_pos hqh] at this
          have := hle2 q hq
          omega
        | leave =>
          simp only
          refine ⟨_, rfl, hwf1, hty1, hgrow1, fun c g v hc hg hvs hle => ?_⟩
          have hci : c = i := by omega
          subst hci
          have hgg : (s._chVoiceType.getD c 0).toNat = g := by omega
          rw [hgg] at hslot hfit1
          rw [hvs] at hslot
          simp only [Option.some.injEq] at hslot
          subst hslot
          obtain ⟨vs1, hvs1, hcnt⟩ := hfit1 hle
          refine ⟨vs1, hvs1, fun q hq hqh => ?_⟩
          have := hcnt q hq
          rw [if_pos hqh] at this
          omega

theorem sameButWork_refl (a : List Sound) : sameButWork a a :=
  fun x => ⟨(a.getD x default)._chWork, rfl⟩

theorem sameButWork_trans (a b c : List Sound) (hab : sameButWork a b) (hbc : sameButWork b c) :
    sameButWork a c := by
  intro x
  obtain ⟨w1, h1⟩ := hab x
  obtain ⟨w2, h2⟩ := hbc x
  exact ⟨w2, by rw [h2, h1]⟩

theorem sameButWork_setChWork (sounds : List Sound) (h : Nat) (w : List Bool) :
    sameButWork sounds (setChWork sounds h w) := by
  intro x
  rcases getD_setChWork sounds h x w with h1 | h1
  · exact ⟨(sounds.getD x default)._chWork, by rw [h1]⟩
  · exact ⟨w, h1⟩

theorem slotTidy_sameButWork (a b : List Sound) (hab : sameButWork a b)
    (slot : Option VoiceTypeStruct) (h : slotTidy a slot) : slotTidy b slot := by
  refine ⟨?_, h.2⟩
  have h1 := h.1
  cases slot with
  | none => trivial
  | some vs =>
    by_cases hty : vs._voiceType = VOICETYPE_0
    · simp only [slotReady, hty, if_true] at h1 ⊢
      exact h1
    · rw [slotReady_type1 _ _ hty] at h1 ⊢
      intro e he s hs
      obtain ⟨h0, h16, hw⟩ := h1 e he s hs
      obtain ⟨w, hb⟩ := hab s
      refine ⟨h0, h16, ?_⟩
      rw [hb]
      exact hw

theorem updateVoiceStruct_voiceType (vs : VoiceTypeStruct) :
    (updateVoiceStruct vs)._voiceType = vs._voiceType := by
  unfold updateVoiceStruct
  split <;> rfl

theorem updateVoiceStruct_numVoices (vs : VoiceTypeStruct) :
    (updateVoiceStruct vs)._numVoices = vs._numVoices := by
  unfold updateVoiceStruct
  split <;> rfl

theorem updateVoiceStruct_proposals (vs : VoiceTypeStruct) (q : Option Nat → Bool) :
    pendFrom q 0 (updateVoiceStruct vs)._entries = pendFrom q 0 vs._entries := by
  unfold updateVoiceStruct pendFrom
  split
  · simp only [List.drop_zero, List.countP_map]
    rfl
  · simp only [List.drop_zero, List.countP_map]
    rfl

theorem freeCount_eq_pendFrom (es : List VoiceStructEntry) :
    freeCount es = pendFrom (fun o => decide (o = none)) 0 es := by
  unfold freeCount pendFrom
  rw [List.drop_zero]

theorem groupTypes_updateVoiceStructs (vts : VoiceTable) :
    groupTypes (_sfUpdateVoiceStructs vts) = groupTypes vts := by
  unfold groupTypes _sfUpdateVoiceStructs
  rw [List.map_map]
  apply List.map_congr_left
  intro slot _
  cases slot with
  | none => rfl
  | some vs => simp [updateVoiceStruct_voiceType]

theorem tidy_updateVoiceStructs (sounds : List Sound) (vts : VoiceTable)
    (h : ∀ slot ∈ vts, slotTidy sounds slot) :
    ∀ slot ∈ _sfUpdateVoiceStructs vts, slotTidy sounds slot := by
  intro slot hslot
  unfold _sfUpdateVoiceStructs at hslot
  rw [List.mem_map] at hslot
  obtain ⟨a, ha, rfl⟩ := hslot
  cases a with
  | none => exact h _ ha
  | some vs =>
    obtain ⟨h1, h2⟩ := h _ ha
    refine ⟨updateVoiceStruct_ready sounds vs h1, ?_⟩
    intro v hv hty
    simp only [Option.map_some', Option.some.injEq] at hv
    subst hv
    rw [updateVoiceStruct_voiceType] at hty
    rw [updateVoiceStruct_numVoices, freeCount_eq_pendFrom, updateVoiceStruct_proposals,
      ← freeCount_eq_pendFrom]
    exact h2 vs rfl hty

theorem tableGrows_updateVoiceStructs (vts : VoiceTable) :
    tableGrows vts (_sfUpdateVoiceStructs vts) := by
  intro g vs h
  refine ⟨updateVoiceStruct vs, ?_, fun q _ => ?_⟩
  · unfold _sfUpdateVoiceStructs
    rw [List.getElem?_map, h]
    rfl
  · rw [updateVoiceStruct_proposals]

theorem politeAt_sameButWork (a b : List Sound) (hab : sameButWork a b) (x : Nat)
    (tys : List (Option Int)) (off : Int) (h : (a.getD x default).politeAt tys off) :
    (b.getD x default).politeAt tys off := by
  obtain ⟨w, hb⟩ := hab x
  rw [hb]
  exact h

/-- The main loop of `_sfRethinkVoiceTypes` over a play list without must-have
channels: it returns, and proposals are only added. -/
theorem rethinkMain_polite :
    ∀ (pl : List Nat) (off : Int) (sounds : List Sound) (vts : VoiceTable),
      vts.length = 16 →
      (∀ (i h : Nat), pl[i]? = some h → (sounds.getD h default)._mutedCount = 0 →
        (sounds.getD h default)._pausedCount = 0 →
        (sounds.getD h default).politeAt (groupTypes vts) (off + 16 * (i : Int))) →
      (∀ slot ∈ vts, slotTidy sounds slot) →
      ∃ r, rethinkMain pl off sounds vts = .ok r ∧
        (∀ slot ∈ r.2, slotTidy r.1 slot) ∧ groupTypes r.2 = groupTypes vts ∧
        tableGrows vts r.2 ∧ sameButWork sounds r.1 := by
  intro pl
  induction pl with
  | nil =>
    intro off sounds vts _ _ hwf
    exact ⟨_, rfl, hwf, rfl, tableGrows_refl _, sameButWork_refl _⟩
  | cons h rest ih =>
    intro off sounds vts hlen hpol hwf
    rw [rethinkMain_cons]
    have hrest : ∀ (sounds1 : List Sound) (vts1 : VoiceTable), sameButWork sounds sounds1 →
        groupTypes vts1 = groupTypes vts →
        ∀ (i x : Nat), rest[i]? = some x → (sounds1.getD x default)._mutedCount = 0 →
          (sounds1.getD x default)._pausedCount = 0 →
          (sounds1.getD x default).politeAt (groupTypes vts1) (off + 16 + 16 * (i : Int)) := by
      intro sounds1 vts1 hsame hty i x hx hm hp
      obtain ⟨w, hb⟩ := hsame x
      rw [hb] at hm hp
      have := hpol (i + 1) x (by simpa using hx) hm hp
      rw [hty]
      have hoff : off + 16 * ((i + 1 : Nat) : Int) = off + 16 + 16 * (i : Int) := by
        push_cast
        omega
      rw [hoff] at this
      exact politeAt_sameButWork sounds sounds1 hsame x _ _ this
    split
    · exact ih _ sounds vts hlen (hrest sounds vts (sameButWork_refl _) rfl) hwf
    · rename_i hact
      have hzero : (sounds.getD h default)._mutedCount = 0 ∧
          (sounds.getD h default)._pausedCount = 0 := by
        constructor
        · by_contra hne; exact hact (Or.inl hne)
        · by_contra hne; exact hact (Or.inr hne)
      have hph := hpol 0 h (by simp) hzero.1 hzero.2
      simp only [Nat.cast_zero, mul_zero, add_zero] at hph
      obtain ⟨r1, hr1, hwf1, hty1, hgrow1, _⟩ := rethinkChannels_polite sounds h
        (sounds.getD h default) off hph.1 (SOUND_ARR_SIZE + 1)
        (List.replicate SOUND_ARR_SIZE false) (_sfUpdateVoiceStructs vts) (by simp) (by decide)
        (by simpa [_sfUpdateVoiceStructs] using hlen)
        (by rw [groupTypes_updateVoiceStructs]; exact hph)
        (tidy_updateVoiceStructs sounds vts hwf)
      rw [hr1]
      simp only [Except.bind]
      have hty2 : groupTypes r1.2 = groupTypes vts := hty1.trans (groupTypes_updateVoiceStructs vts)
      have hlen1 : r1.2.length = 16 := by rw [length_of_groupTypes_eq _ _ hty2]; exact hlen
      have hsame1 := sameButWork_setChWork sounds h r1.1
      obtain ⟨r, hr, hwf2, hty3, hgrow2, hsame2⟩ := ih (off + 16) (setChWork sounds h r1.1) r1.2
        hlen1 (hrest _ _ hsame1 hty2)
        (fun slot hs => slotTidy_sameButWork _ _ hsame1 slot (hwf1 slot hs))
      exact ⟨r, hr, hwf2, hty3.trans hty2,
        tableGrows_trans _ _ _ (tableGrows_trans _ _ _ (tableGrows_updateVoiceStructs vts) hgrow1)
          hgrow2,
        sameButWork_trans _ _ _ hsame1 hsame2⟩

theorem rethinkPreGroup_voiceType (vs : VoiceTypeStruct) :
    (rethinkPreGroup vs)._voiceType = vs._voiceType := by
  unfold rethinkPreGroup
  split <;> rfl

theorem groupTypes_rethinkPre (vts : VoiceTable) :
    groupTypes (rethinkPre vts) = groupTypes vts := by
  unfold groupTypes rethinkPre
  rw [List.map_map]
  apply List.map_congr_left
  intro slot _
  cases slot with
  | none => rfl
  | some vs => simp [rethinkPreGroup_voiceType]

theorem freeCount_of_free (es : List VoiceStructEntry)
    (h : ∀ e ∈ es, e._type1._sound2 = none) : freeCount es = es.length := by
  unfold freeCount
  rw [List.countP_eq_length]
  intro e he
  simp [h e he]

theorem pendFrom_of_free (q : Option Nat → Bool) (hq : q none = false)
    (es : List VoiceStructEntry) (h : ∀ e ∈ es, e._type1._sound2 = none) :
    pendFrom q 0 es = 0 := by
  unfold pendFrom
  rw [List.drop_zero, List.countP_eq_zero]
  intro e he
  simp [h e he, hq]

theorem tidy_rethinkPre (sounds : List Sound) (vts : VoiceTable)
    (h : ∀ slot ∈ vts, groupSized slot) : ∀ slot ∈ rethinkPre vts, slotTidy sounds slot := by
  intro slot hslot
  unfold rethinkPre at hslot
  rw [List.mem_map] at hslot
  obtain ⟨a, ha, rfl⟩ := hslot
  cases a with
  | none => exact ⟨trivial, fun vs hvs => by cases hvs⟩
  | some vs =>
    refine ⟨rethinkPreGroup_ready sounds vs, ?_⟩
    intro v hv hty
    simp only [Option.map_some', Option.some.injEq] at hv
    subst hv
    rw [rethinkPreGroup_voiceType] at hty
    obtain ⟨_, h2, _, h4, h5⟩ := rethinkPreGroup_type1 vs hty
    rw [h2, freeCount_of_free _ h5, h4]
    exact h (some vs) ha hty

theorem rethinkMain_inactive (pre : List Nat) :
    ∀ (off : Int) (sounds : List Sound) (vts : VoiceTable),
      (∀ x ∈ pre, (sounds.getD x default)._mutedCount ≠ 0 ∨
        (sounds.getD x default)._pausedCount ≠ 0) →
      rethinkMain pre off sounds vts = .ok (sounds, vts) := by
  induction pre with
  | nil => intro off sounds vts _; rfl
  | cons h rest ih =>
    intro off sounds vts hin
    rw [rethinkMain_cons, if_pos (hin h (List.mem_cons_self _ _))]
    exact ih _ _ _ fun x hx => hin x (List.mem_cons_of_mem _ hx)

/-- The first unmuted, unpaused sound of the play list: after its turn in the
main loop, the group of the channel served first carries at least the `k`
proposals that channel asked for, when `k` is within `_total`. -/
theorem first_sound_proposals (sounds : List Sound) (vts : VoiceTable) (pre : List Nat)
    (a c g k : Nat) (vs : VoiceTypeStruct) (hlen : vts.length = 16)
    (hsized : ∀ slot ∈ vts, groupSized slot)
    (hin : ∀ x ∈ pre, (sounds.getD x default)._mutedCount ≠ 0 ∨
      (sounds.getD x default)._pausedCount ≠ 0)
    (hact : (sounds.getD a default)._mutedCount = 0 ∧ (sounds.getD a default)._pausedCount = 0)
    (hpol : (sounds.getD a default).politeAt (groupTypes vts) (16 * (pre.length : Int)))
    (hscan : (scanSubPriority (sounds.getD a default) (List.replicate SOUND_ARR_SIZE false)
      (16 * (pre.length : Int))).1 = (c : Int))
    (hg : (sounds.getD a default)._chVoiceType.getD c 0 = (g : Int))
    (hvs : vts[g]? = some (some vs))
    (hk : (sounds.getD a default)._chNumVoices.getD c 0 = (k : Int))
    (hkn : (k : Int) ≤ vs._total) :
    ∃ r vs1, rethinkMain (pre ++ [a]) 0 sounds (rethinkPre vts) = .ok r ∧
      r.2[g]? = some (some vs1) ∧ vs1._voiceType ≠ VOICETYPE_0 ∧
      k ≤ pendFrom (fun o => o == some a) 0 vs1._entries := by
  -- the channel served first takes part, so its group is not TYPE_0
  have hty : vs._voiceType ≠ VOICETYPE_0 := by
    rcases scanSubPriority_channel (sounds.getD a default) (List.replicate SOUND_ARR_SIZE false)
      (16 * (pre.length : Int)) with hnone | ⟨i, hi16, hsc, hflag, _⟩
    · rw [hnone] at hscan
      omega
    · rw [hsc] at hscan
      have hic : i = c := by
        simp only at hscan
        omega
      subst hic
      obtain ⟨_, _, _, _, htype⟩ := hpol.2 i hi16 hflag
      intro hc
      apply htype
      rw [hg, Int.toNat_ofNat, groupTypes_getD vts g vs hvs, hc]
  have hlen0 : (rethinkPre vts).length = 16 := by simpa [rethinkPre] using hlen
  have hwf0 := tidy_rethinkPre sounds vts hsized
  have hg0 : (_sfUpdateVoiceStructs (rethinkPre vts))[g]?
      = some (some (updateVoiceStruct (rethinkPreGroup vs))) := by
    simp [_sfUpdateVoiceStructs, rethinkPre, List.getElem?_map, hvs]
  obtain ⟨_, hp2, _, _, hp5⟩ := rethinkPreGroup_type1 vs hty
  obtain ⟨r1, hr1, _, hty1, _, hfirst⟩ := rethinkChannels_polite sounds a
    (sounds.getD a default) (16 * (pre.length : Int)) hpol.1 (SOUND_ARR_SIZE + 1)
    (List.replicate SOUND_ARR_SIZE false) (_sfUpdateVoiceStructs (rethinkPre vts)) (by simp)
    (by decide) (by simpa [_sfUpdateVoiceStructs] using hlen0)
    (by rw [groupTypes_updateVoiceStructs, groupTypes_rethinkPre]; exact hpol)
    (tidy_updateVoiceStructs sounds _ hwf0)
  obtain ⟨vs1, hvs1, hcnt⟩ := hfirst c g _ hscan hg hg0
    (by rw [updateVoiceStruct_numVoices, hp2, hk]; exact hkn)
  refine ⟨(setChWork sounds a r1.1, r1.2), vs1, ?_, hvs1, ?_, ?_⟩
  · rw [rethinkMain_append, rethinkMain_inactive pre 0 sounds _ hin]
    simp only [Except.bind, zero_add]
    rw [rethinkMain_cons, if_neg (by rw [hact.1, hact.2]; simp), hr1]
    rfl
  · have h1 := groupTypes_getD r1.2 g vs1 hvs1
    rw [hty1, groupTypes_updateVoiceStructs, groupTypes_rethinkPre,
      groupTypes_getD vts g vs hvs] at h1
    simp only [Option.some.injEq] at h1
    rw [← h1]
    exact hty
  · have := hcnt (fun o => o == some a) rfl (by simp)
    rw [hk, Int.toNat_ofNat] at this
    omega

/-- C4 (amended): let the table have 16 slots, every group other than TYPE_0
at least `_total` entries, and let no unmuted, unpaused sound of the play list
have a must-have channel (`Sound.politeAt`: every channel that takes part has
a nonzero encoded priority at the sound's position and asks for a
non-negative number of voices of a null slot or of a group other than
TYPE_0).  Then `_sfRethinkVoiceTypes` returns, and no voice proposed for a
sound is taken away: whatever a group other than TYPE_0 carries as proposals
for a sound `a` after any part `pre` of the play list is held by `a` in that
group at the end.  The first unmuted, unpaused sound `a` of the play list
holds at the end at least the `k` voices that its channel served first asks
for, when `k` does not exceed `_total` of that group. -/
theorem earlier_sound_keeps_its_voices (m : Manager)
    (hlen : m._voiceTypeStructPtrs.length = 16)
    (hsized : ∀ slot ∈ m._voiceTypeStructPtrs, groupSized slot)
    (hpol : ∀ p ∈ m._playList.enum, (m.sound p.2)._mutedCount = 0 →
      (m.sound p.2)._pausedCount = 0 →
      (m.sound p.2).politeAt (groupTypes m._voiceTypeStructPtrs) (16 * (p.1 : Int))) :
    ∃ m1, _sfRethinkVoiceTypes m = .ok m1 ∧
      (∀ (pre rest : List Nat), m._playList = pre ++ rest →
        ∃ r, rethinkMain pre 0 m.sounds (rethinkPre m._voiceTypeStructPtrs) = .ok r ∧
          ∀ (g : Nat) (vs : VoiceTypeStruct), r.2[g]? = some (some vs) →
            vs._voiceType ≠ VOICETYPE_0 →
            ∃ vs1, m1._voiceTypeStructPtrs[g]? = some (some vs1) ∧
              ∀ a : Nat, pendFrom (fun o => o == some a) 0 vs._entries
                ≤ curCount (fun o => o == some a) vs1._entries) ∧
      (∀ (pre rest : List Nat) (a c g k : Nat) (vs : VoiceTypeStruct),
        m._playList = pre ++ a :: rest →
        (∀ x ∈ pre, (m.sound x)._mutedCount ≠ 0 ∨ (m.sound x)._pausedCount ≠ 0) →
        (m.sound a)._mutedCount = 0 → (m.sound a)._pausedCount = 0 →
        (scanSubPriority (m.sound a) (List.replicate SOUND_ARR_SIZE false)
          (16 * (pre.length : Int))).1 = (c : Int) →
        (m.sound a)._chVoiceType.getD c 0 = (g : Int) →
        m._voiceTypeStructPtrs[g]? = some (some vs) →
        (m.sound a)._chNumVoices.getD c 0 = (k : Int) → (k : Int) ≤ vs._total →
        ∃ vs1, m1._voiceTypeStructPtrs[g]? = some (some vs1) ∧
          k ≤ curCount (fun o => o == some a) vs1._entries) := by
  have hpolI : ∀ (i h : Nat), m._playList[i]? = some h →
      (m.sounds.getD h default)._mutedCount = 0 → (m.sounds.getD h default)._pausedCount = 0 →
      (m.sounds.getD h default).politeAt (groupTypes m._voiceTypeStructPtrs)
        (16 * (i : Int)) :=
    fun i h hi hm hp => hpol (i, h) (List.mk_mem_enum_iff_getElem?.2 hi) hm hp
  have hlen0 : (rethinkPre m._voiceTypeStructPtrs).length = 16 := by
    simpa [rethinkPre] using hlen
  have hwf0 := tidy_rethinkPre m.sounds m._voiceTypeStructPtrs hsized
  have hty0 := groupTypes_rethinkPre m._voiceTypeStructPtrs
  obtain ⟨r, hr, hwf, hty, _, _⟩ := rethinkMain_polite m._playList 0 m.sounds
    (rethinkPre m._voiceTypeStructPtrs) hlen0
    (fun i h hi hm hp => by rw [hty0, zero_add]; exact hpolI i h hi hm hp) hwf0
  obtain ⟨p, hpost, hcommit⟩ := rethinkPost_spec r.1 r.2 0 m.log (fun s hs => (hwf s hs).1)
  have hfinal : ∀ (g : Nat) (vs2 : VoiceTypeStruct), r.2[g]? = some (some vs2) →
      vs2._voiceType ≠ VOICETYPE_0 →
      ∃ vs1, p.1[g]? = some (some vs1) ∧ ∀ q : Option Nat → Bool, q none = false →
        curCount q vs1._entries = pendFrom q 0 vs2._entries := by
    intro g vs2 hg hty2
    obtain ⟨slot1, hslot1, es, hes, hcount⟩ := hcommit g (some vs2) hg
    exact ⟨{ vs2 with _entries := es }, by rw [hslot1, hes], fun q hq => hcount hty2 q hq⟩
  have hP2 : ∀ (pre rest : List Nat), m._playList = pre ++ rest →
      ∃ r1, rethinkMain pre 0 m.sounds (rethinkPre m._voiceTypeStructPtrs) = .ok r1 ∧
        ∀ (g : Nat) (vs : VoiceTypeStruct), r1.2[g]? = some (some vs) →
          vs._voiceType ≠ VOICETYPE_0 →
          ∃ vs1, p.1[g]? = some (some vs1) ∧
            ∀ a : Nat, pendFrom (fun o => o == some a) 0 vs._entries
              ≤ curCount (fun o => o == some a) vs1._entries := by
    intro pre rest hsplit
    obtain ⟨r1, hr1, hwf1, hty1, _, hsame1⟩ := rethinkMain_polite pre 0 m.sounds
      (rethinkPre m._voiceTypeStructPtrs) hlen0
      (fun i h hi hm hp => by
        rw [hty0, zero_add]
        refine hpolI i h ?_ hm hp
        rw [hsplit, List.getElem?_append_left (by
          by_contra hc
          rw [List.getElem?_eq_none (by omega)] at hi
          cases hi)]
        exact hi) hwf0
    have hlen1 : r1.2.length = 16 := by rw [length_of_groupTypes_eq _ _ hty1]; exact hlen0
    obtain ⟨r2, hr2, _, hty2, hgrow2, _⟩ := rethinkMain_polite rest
      (0 + 16 * (pre.length : Int)) r1.1 r1.2 hlen1
      (fun i h hi hm hp => by
        obtain ⟨w, hb⟩ := hsame1 h
        rw [hb] at hm hp
        have := hpolI (pre.length + i) h (by
          rw [hsplit, List.getElem?_append_right (by omega)]
          simpa using hi) hm hp
        rw [hty1, hty0]
        have hoff : 0 + 16 * (pre.length : Int) + 16 * (i : Int)
            = 16 * ((pre.length + i : Nat) : Int) := by
          push_cast
          omega
        rw [hoff]
        exact politeAt_sameButWork m.sounds r1.1 hsame1 h _ _ this) hwf1
    have hrr : r2 = r := by
      rw [hsplit, rethinkMain_append, hr1] at hr
      simp only [Except.bind] at hr
      rw [hr2] at hr
      exact (Except.ok.inj hr)
    subst hrr
    refine ⟨r1, hr1, fun g vs hg htyv => ?_⟩
    obtain ⟨vs2, hvs2, hle⟩ := hgrow2 g vs hg
    have htyv2 : vs2._voiceType ≠ VOICETYPE_0 := by
      have h1 := groupTypes_getD r2.2 g vs2 hvs2
      rw [hty2, groupTypes_getD r1.2 g vs hg] at h1
      simp only [Option.some.injEq] at h1
      rw [← h1]
      exact htyv
    obtain ⟨vs1, hvs1, hcnt⟩ := hfinal g vs2 hvs2 htyv2
    refine ⟨vs1, hvs1, fun a => ?_⟩
    rw [hcnt (fun o => o == some a) rfl]
    exact hle _ rfl
  refine ⟨{ m with
      sounds := r.1, _voiceTypeStructPtrs := p.1, log := p.2
      _serverSuspendedCount := m._serverSuspendedCount + 1 - 1 }, ?_, hP2, ?_⟩
  · unfold _sfRethinkVoiceTypes
    simp only [hr, Except.bind, hpost, Except.map]
  · intro pre rest a c g k vs hsplit hin hm hp hscan hg hvs hk hkn
    have hsplit2 : m._playList = (pre ++ [a]) ++ rest := by
      rw [hsplit]
      simp
    obtain ⟨r1, vs1, hr1, hvs1, hty1, hcnt1⟩ := first_sound_proposals m.sounds
      m._voiceTypeStructPtrs pre a c g k vs hlen hsized hin ⟨hm, hp⟩
      (hpolI pre.length a (by rw [hsplit, List.getElem?_append_right (le_refl _)]; simp) hm hp) hscan hg hvs hk hkn
    obtain ⟨r1b, hr1b, hkeep⟩ := hP2 (pre ++ [a]) rest hsplit2
    rw [hr1] at hr1b
    have hrr := Except.ok.inj hr1b
    subst hrr
    obtain ⟨vs2, hvs2, hle⟩ := hkeep g vs1 hvs1 hty1
    exact ⟨vs2, hvs2, le_trans hcnt1 (hle a)⟩

/-- C4 as stated fails: when the channel of the later, lower-priority sound 1
has sub-priority 0, it evicts the nine voices proposed for sound 0, so after
`_sfRethinkVoiceTypes` sound 0 holds no voice and sound 1 holds one.  Without
a must-have channel: a sound that is not the first of the play list can be
left without a voice (sound 1 of `contendManager 5` asks for one voice of
nine), and so is a first sound that asks for more voices than the group has
(sound 0 of `greedyManager` asks for ten), while the later sound gets its
voice. -/
theorem later_sound_with_sub_priority_zero_preempts :
    holders (_sfRethinkVoiceTypes (contendManager 0)) 1 0 = some 0 ∧
    holders (_sfRethinkVoiceTypes (contendManager 0)) 1 1 = some 1 ∧
    holders (_sfRethinkVoiceTypes (contendManager 5)) 1 0 = some 9 ∧
    holders (_sfRethinkVoiceTypes (contendManager 5)) 1 1 = some 0 ∧
    holders (_sfRethinkVoiceTypes greedyManager) 1 0 = some 0 ∧
    holders (_sfRethinkVoiceTypes greedyManager) 1 1 = some 1 := by
  refine ⟨?_, ?_, ?_, ?_, ?_, ?_⟩ <;> decide

/-- Witness of the amended C4: in `contendManager 5` no channel is a
must-have channel; sound 0 is the first sound of the play list, its channel 0
asks for nine voices of the Adlib group in slot 1, and it holds nine voices
at the end. -/
theorem earlier_sound_keeps_its_voices_witness :
    ((contendManager 5)._voiceTypeStructPtrs.length = 16 ∧
      (∀ slot ∈ (contendManager 5)._voiceTypeStructPtrs, groupSized slot) ∧
      (∀ p ∈ (contendManager 5)._playList.enum, ((contendManager 5).sound p.2)._mutedCount = 0 →
        ((contendManager 5).sound p.2)._pausedCount = 0 →
        ((contendManager 5).sound p.2).politeAt
          (groupTypes (contendManager 5)._voiceTypeStructPtrs) (16 * (p.1 : Int)))) ∧
    ((contendManager 5)._playList = [] ++ 0 :: [1] ∧
      (scanSubPriority ((contendManager 5).sound 0) (List.replicate SOUND_ARR_SIZE false)
        (16 * (([] : List Nat).length : Int))).1 = ((0 : Nat) : Int) ∧
      ((contendManager 5).sound 0)._chVoiceType.getD 0 0 = ((1 : Nat) : Int) ∧
      (contendManager 5)._voiceTypeStructPtrs[1]? = some (adlibVoiceTable.getD 1 none) ∧
      ((contendManager 5).sound 0)._chNumVoices.getD 0 0 = ((9 : Nat) : Int)) ∧
    ∃ m1, _sfRethinkVoiceTypes (contendManager 5) = .ok m1 ∧
      ∃ vs1, m1._voiceTypeStructPtrs[1]? = some (some vs1) ∧
        9 ≤ curCount (fun o => o == some 0) vs1._entries :=
  ⟨⟨by decide, by decide, by decide⟩, ⟨rfl, by decide, by decide, by decide, by decide⟩,
    (earlier_sound_keeps_its_voices (contendManager 5) (by decide) (by decide)
      (by decide)).elim fun m1 hm1 =>
      ⟨m1, hm1.1, hm1.2.2 [] [1] 0 0 1 9
        { _voiceType := VOICETYPE_1, _total := 9, _numVoices := 9
          _entries := (List.range 9).map fun i =>
            { _voiceNum := (i : Int), _type1 := { _field4 := -1 } } }
        rfl (by decide) (by decide) (by decide) (by decide) (by decide) (by decide) (by decide)
        (by decide)⟩⟩

end TSage
